import Mathlib

/-!
# Node discovery and classification

A shallow embedding of `src/src/discover.c` (with the declarations of
`src/src/userdata.h` and `src/murphy/discover.h`) and a verification of the
registry, device and stream classifier and card-ingestion properties stated
for it.

Conventions of the embedding

* A `mir_node *` is an address (`Nat`) into `userdata.heap`; reading or writing
  through an address that is not allocated is undefined behaviour in C and is
  the result `none` here, as is a failed `pa_assert`. A released address can be
  handed out again, as with `malloc`.
* A `pa_hashmap` is kept as its iteration list: PulseAudio appends every new
  entry to the tail of the iteration list, never stores a key twice
  (`pa_hashmap_put` fails on an existing key) and iterates from the head.
* `char *` values that may be `NULL` in the source are `Option String`;
  `key` and `paname` are filled from buffers or `pa_xstrdup` at every call site
  and are plain `String`.
* `snprintf` into a buffer of `n` bytes keeps the first `n - 1` characters.
* Functions of the repository that discover.c calls but that live in other files
  (node.c, utils.c, audiomgr.c, router.c) are modelled from the specification and
  say so in their comments; generation stamps are natural numbers that grow.
* Functions that can run into undefined behaviour or a failed assertion return
  an `Option`; theorems about them state that a result exists.
-/

namespace Murphy

/-! ## Enumerations and the node record (node.h) -/

/-- Direction of a node; the zero value is what `memset` leaves. -/
inductive mir_direction where
  | mir_direction_unknown
  | mir_input
  | mir_output
  deriving DecidableEq, Repr

/-- Whether a node is a hardware endpoint or an application stream. -/
inductive mir_implement where
  | mir_implementation_unknown
  | mir_device
  | mir_stream
  deriving DecidableEq, Repr

/-- Location of a node. -/
inductive mir_location where
  | mir_location_unknown
  | mir_internal
  | mir_external
  deriving DecidableEq, Repr

/-- Privacy of a node. -/
inductive mir_privacy where
  | mir_privacy_unknown
  | mir_public
  | mir_private
  deriving DecidableEq, Repr

/-- The node types named in discover.c; `mir_node_type_unknown` is the zero value. -/
inductive mir_node_type where
  | mir_node_type_unknown
  | mir_player
  | mir_game
  | mir_browser
  | mir_phone
  | mir_event
  | mir_null
  | mir_speakers
  | mir_front_speakers
  | mir_rear_speakers
  | mir_microphone
  | mir_jack
  | mir_spdif
  | mir_hdmi
  | mir_wired_headset
  | mir_wired_headphone
  | mir_usb_headset
  | mir_usb_headphone
  | mir_bluetooth_sco
  | mir_bluetooth_a2dp
  deriving DecidableEq, Repr

open mir_direction mir_implement mir_location mir_privacy mir_node_type

/-- The card back-reference of a device node (`node->pacard`). -/
structure pa_node_card where
  index : Nat
  profile : Option String
  deriving DecidableEq, Repr

/-- The node record `mir_node`, with the fields discover.c reads and writes.
`amid = none` stands for `AM_ID_INVALID`. -/
structure mir_node where
  key : String
  direction : mir_direction
  implement : mir_implement
  channels : Nat
  location : mir_location
  privacy : mir_privacy
  type : mir_node_type
  visible : Bool
  available : Bool
  amname : Option String
  amdescr : Option String
  amid : Option Nat
  paname : String
  paidx : Nat
  pacard : pa_node_card
  paport : Option String
  stamp : Nat
  deriving DecidableEq, Repr

/-- The value `(uint32_t) -1` that marks an unset handle. -/
def PA_IDXSET_INVALID : Nat := 4294967295

/-- The record left by `memset(&data, 0, sizeof(data))`. -/
def mir_node_zero : mir_node :=
  { key := "", direction := mir_direction_unknown,
    implement := mir_implementation_unknown, channels := 0,
    location := mir_location_unknown, privacy := mir_privacy_unknown,
    type := mir_node_type_unknown, visible := false, available := false,
    amname := none, amdescr := none, amid := some 0, paname := "", paidx := 0,
    pacard := { index := 0, profile := none }, paport := none, stamp := 0 }

/-! ## PulseAudio hash maps -/

/-- The value stored under `key`, as `pa_hashmap_get` returns it (`none` for NULL). -/
def pa_hashmap_get {κ ν : Type} [DecidableEq κ] : List (κ × ν) → κ → Option ν
  | [], _ => none
  | (k, v) :: rest, key => if k = key then some v else pa_hashmap_get rest key

/-- The map after `pa_hashmap_put`: an existing key is left alone (the call
returns -1), a new entry goes to the tail of the iteration list. -/
def pa_hashmap_put {κ ν : Type} [DecidableEq κ] (h : List (κ × ν)) (key : κ) (value : ν) :
    List (κ × ν) :=
  match pa_hashmap_get h key with
  | some _ => h
  | none => h ++ [(key, value)]

/-- The map after `pa_hashmap_remove`; the removed value is `pa_hashmap_get` before. -/
def pa_hashmap_remove {κ ν : Type} [DecidableEq κ] (h : List (κ × ν)) (key : κ) :
    List (κ × ν) :=
  h.filter (fun e => decide (e.1 ≠ key))

/-! ## Module state (userdata.h, discover.h) -/

/-- The server objects used as keys of `nodes.byptr` (their addresses). -/
inductive pa_object where
  | sink (index : Nat)
  | source (index : Nat)
  | sink_input (index : Nat)
  deriving DecidableEq, Repr

/-- A call made to the audio manager. -/
inductive am_call where
  | register (node : Nat)
  | unregister (node : Nat)
  deriving DecidableEq, Repr

/-- A one-shot callback posted with `pa_mainloop_api_once`. -/
inductive deferred_call where
  | deferred_routing_cb
  | card_check_cb (index : Nat)
  deriving DecidableEq, Repr

/-- The structure `pa_discover` of discover.h. -/
structure pa_discover where
  chmin : Nat
  chmax : Nat
  selected : Bool
  byname : List (String × Nat)
  byptr : List (pa_object × Nat)
  deriving DecidableEq, Repr

/-- The module state: `discover` and `state.profile` of `struct userdata`,
the allocated node records, and what the collaborators have been asked to do. -/
structure userdata where
  discover : pa_discover
  state_profile : Option String
  nullsink : Option Nat
  heap : List (Nat × mir_node)
  stamp : Nat
  audiomgr : List am_call
  routing : Nat
  mainloop : List deferred_call
  deriving DecidableEq, Repr

/-- The state built by `pa_discover_init` in a freshly loaded module. -/
def pa_discover_init : userdata :=
  { discover := { chmin := 1, chmax := 2, selected := true, byname := [], byptr := [] },
    state_profile := none, nullsink := none, heap := [], stamp := 0,
    audiomgr := [], routing := 0, mainloop := [] }

/-- Replace `nodes.byname`. -/
def userdata.set_byname (u : userdata) (m : List (String × Nat)) : userdata :=
  { u with discover := { u.discover with byname := m } }

/-- Replace `nodes.byptr`. -/
def userdata.set_byptr (u : userdata) (m : List (pa_object × Nat)) : userdata :=
  { u with discover := { u.discover with byptr := m } }

/-- Read the record at address `node`. -/
def userdata.deref (u : userdata) (node : Nat) : Option mir_node :=
  pa_hashmap_get u.heap node

/-- Overwrite the record at an allocated address. -/
def userdata.store (u : userdata) (node : Nat) (n : mir_node) : userdata :=
  { u with heap := u.heap.map (fun e => (e.1, if e.1 = node then n else e.2)) }

/-! ## Collaborators that are not part of discover.c -/

/-- Modelled from the spec: `mir_node_create` (node.c) builds the new entity
from the builder data; the card back-reference and the port are kept for device
nodes only. This is the record it fills. -/
def mir_node_new (data : mir_node) : mir_node :=
  if data.implement = mir_device then data
  else { data with pacard := { index := 0, profile := none }, paport := none }

/-- An address that is not NULL and at which no record is allocated. -/
def fresh_address (heap : List (Nat × mir_node)) : Nat :=
  (heap.map (fun e => e.1)).foldr max 0 + 1

/-- Modelled from the spec: `mir_node_create` (node.c) allocates the new
entity at an unused address and returns that address. -/
def mir_node_create (u : userdata) (data : mir_node) : userdata × Nat :=
  ({ u with heap := u.heap ++ [(fresh_address u.heap, mir_node_new data)] },
    fresh_address u.heap)

/-- Modelled from the spec: `mir_node_destroy` (node.c) releases the entity. -/
def mir_node_destroy (u : userdata) (node : Nat) : userdata :=
  { u with heap := pa_hashmap_remove u.heap node }

/-- Modelled from the spec: `pa_audiomgr_register_node` (audiomgr.c) notifies
the audio manager of a new node; the registry is not touched. -/
def pa_audiomgr_register_node (u : userdata) (node : Nat) : userdata :=
  { u with audiomgr := u.audiomgr ++ [am_call.register node] }

/-- Modelled from the spec: `pa_audiomgr_unregister_node` (audiomgr.c) notifies
the audio manager of a retired node; the registry is not touched. -/
def pa_audiomgr_unregister_node (u : userdata) (node : Nat) : userdata :=
  { u with audiomgr := u.audiomgr ++ [am_call.unregister node] }

/-- Modelled from the spec: `pa_utils_get_stamp` (utils.c) hands out a fresh
generation stamp, larger than every stamp handed out before. -/
def pa_utils_get_stamp (u : userdata) : userdata × Nat :=
  ({ u with stamp := u.stamp + 1 }, u.stamp + 1)

/-- Modelled from the spec: `mir_router_make_routing` (router.c), the routing
recompute; only the number of synchronous calls is recorded. -/
def mir_router_make_routing (u : userdata) : userdata :=
  { u with routing := u.routing + 1 }

/-! ## The registry: find, create, destroy -/

/-- The function `pa_discover_find_node`: a NULL key finds nothing. -/
def pa_discover_find_node (u : userdata) (key : Option String) : Option Nat :=
  match key with
  | some k => pa_hashmap_get u.discover.byname k
  | none => none

/-- The function `create_node`: the node stored under `data->key` if there is
one, otherwise a new node put under its own key and registered with the audio
manager. Returns the state, the node and `created`. -/
def create_node (u : userdata) (data : mir_node) : userdata × Nat × Bool :=
  match pa_hashmap_get u.discover.byname data.key with
  | some node => (u, node, false)
  | none =>
    let r := mir_node_create u data
    let u1 := r.1.set_byname (pa_hashmap_put r.1.discover.byname (mir_node_new data).key r.2)
    (pa_audiomgr_register_node u1 r.2, r.2, true)

/-- The function `destroy_node`. The entry under `node->key` is removed from
`nodes.byname` first; if the value removed is not `node` the function logs and
returns, otherwise the node is unregistered and released. -/
def destroy_node (u : userdata) (node : Option Nat) : Option userdata :=
  match node with
  | none => some u
  | some p =>
    match u.deref p with
    | none => none
    | some n =>
      let removed := pa_hashmap_get u.discover.byname n.key
      let u1 := u.set_byname (pa_hashmap_remove u.discover.byname n.key)
      if removed = some p then
        some (mir_node_destroy (pa_audiomgr_unregister_node u1 p) p)
      else
        match removed with
        | none => some u1
        | some q => (u1.deref q).map (fun _ => u1)

/-! ## Server objects read by the ingestion functions -/

/-- A card profile (`pa_card_profile`). -/
structure pa_card_profile where
  name : String
  n_sinks : Nat
  n_sources : Nat
  max_sink_channels : Nat
  max_source_channels : Nat
  deriving DecidableEq, Repr

/-- Port availability (`pa_port_available_t`). -/
inductive pa_port_available_t where
  | PA_PORT_AVAILABLE_UNKNOWN
  | PA_PORT_AVAILABLE_NO
  | PA_PORT_AVAILABLE_YES
  deriving DecidableEq, Repr

open pa_port_available_t

/-- A device port (`pa_device_port`); `profiles` holds the keys of the port's
profile map, `none` when the map pointer is NULL. -/
structure pa_device_port where
  name : String
  description : Option String
  profiles : Option (List String)
  is_input : Bool
  is_output : Bool
  available : pa_port_available_t
  deriving DecidableEq, Repr

/-- A card (`pa_card`); `profiles` and `ports` are in iteration order, and the
active profile is one of the profiles, which are keyed by name. -/
structure pa_card where
  index : Nat
  name : String
  proplist : List (String × String)
  profiles : List pa_card_profile
  active_profile : Option pa_card_profile
  ports : Option (List pa_device_port)
  deriving DecidableEq, Repr

/-- The property name `PA_PROP_DEVICE_BUS`. -/
def PA_PROP_DEVICE_BUS : String := "device.bus"

/-- The property name `PA_PROP_DEVICE_FORM_FACTOR`. -/
def PA_PROP_DEVICE_FORM_FACTOR : String := "device.form_factor"

/-- The property name `PA_PROP_DEVICE_DESCRIPTION`. -/
def PA_PROP_DEVICE_DESCRIPTION : String := "device.description"

/-- The string stored under a property name (`pa_proplist_gets`), `none` for NULL. -/
def pa_proplist_gets (pl : List (String × String)) (key : String) : Option String :=
  pa_hashmap_get pl key

/-! ## C string functions -/

/-- Whether `strcasecmp(a, b)` is zero. -/
def strcasecmp_eq (a b : String) : Bool :=
  a.toList.map Char.toLower == b.toList.map Char.toLower

/-- Whether `needle` starts the character list `hay`, ignoring case. -/
def starts_with_ci : List Char → List Char → Bool
  | [], _ => true
  | _ :: _, [] => false
  | a :: as, b :: bs => a.toLower == b.toLower && starts_with_ci as bs

/-- Whether `needle` occurs in the character list `hay`, ignoring case. -/
def occurs_ci (needle : List Char) : List Char → Bool
  | [] => starts_with_ci needle []
  | c :: rest => starts_with_ci needle (c :: rest) || occurs_ci needle rest

/-- Whether `strcasestr(hay, needle)` finds an occurrence (is not NULL). -/
def strcasestr (hay needle : String) : Bool :=
  occurs_ci needle.toList hay.toList

/-! ## Classification of device nodes -/

/-- Modelled from the spec: `mir_node_type_str` (node.c) gives the canonical
label of a type; the wording of the labels is not fixed by the spec. -/
def mir_node_type_str : mir_node_type → String
  | mir_node_type_unknown => "Unknown"
  | mir_player => "Player"
  | mir_game => "Game"
  | mir_browser => "Browser"
  | mir_phone => "Phone"
  | mir_event => "Event"
  | mir_null => "Null"
  | mir_speakers => "Speakers"
  | mir_front_speakers => "Front Speakers"
  | mir_rear_speakers => "Rear Speakers"
  | mir_microphone => "Microphone"
  | mir_jack => "Line"
  | mir_spdif => "SPDIF"
  | mir_hdmi => "HDMI"
  | mir_wired_headset => "Wired Headset"
  | mir_wired_headphone => "Wired Headphone"
  | mir_usb_headset => "USB Headset"
  | mir_usb_headphone => "USB Headphone"
  | mir_bluetooth_sco => "Bluetooth Handsfree"
  | mir_bluetooth_a2dp => "Bluetooth Stereo"

/-- The function `guess_device_node_type_and_name`: the first rule whose
substring occurs in the port name decides the type; the first six rules also
point `amname` at the port description. -/
def guess_device_node_type_and_name (data : mir_node) (pnam : String)
    (pdesc : Option String) : mir_node :=
  if data.direction = mir_output && strcasestr pnam "headphone" then
    { data with type := mir_wired_headphone, amname := pdesc }
  else if strcasestr pnam "headset" then
    { data with type := mir_wired_headset, amname := pdesc }
  else if strcasestr pnam "line" then
    { data with type := mir_jack, amname := pdesc }
  else if strcasestr pnam "spdif" then
    { data with type := mir_spdif, amname := pdesc }
  else if strcasestr pnam "hdmi" then
    { data with type := mir_hdmi, amname := pdesc }
  else if data.direction = mir_input && strcasestr pnam "microphone" then
    { data with type := mir_microphone, amname := pdesc }
  else if data.direction = mir_output && strcasestr pnam "analog-output" then
    { data with type := mir_speakers }
  else if data.direction = mir_input && strcasestr pnam "analog-input" then
    { data with type := mir_jack }
  else
    { data with type := mir_node_type_unknown }

/-- The call `guess_device_node_type_and_name(data, port->name, port->description)`
guarded by `port && !strcasecmp(bus, "pci")`: with a port, `strcasecmp` reads
`bus`, which must not be NULL. -/
def classify_guess (data : mir_node) (bus : Option String)
    (port : Option pa_device_port) : Option mir_node :=
  match port with
  | none => some data
  | some p =>
    match bus with
    | none => none
    | some b =>
      if strcasecmp_eq b "pci" then
        some (guess_device_node_type_and_name data p.name p.description)
      else some data

/-- First part of `classify_node_by_card` (the `if (form) ... else ...`
statement): type and location from form factor, bus, profile and port. -/
def classify_form (data : mir_node) (bus form : Option String)
    (prof : Option pa_card_profile) (port : Option pa_device_port) : Option mir_node :=
  match form with
  | some f =>
    if strcasecmp_eq f "internal" then
      classify_guess { data with location := mir_external } bus port
    else if strcasecmp_eq f "speaker" || strcasecmp_eq f "car" then
      if data.direction = mir_output then
        some { data with location := mir_internal, type := mir_speakers }
      else some data
    else if strcasecmp_eq f "handset" then
      some { data with location := mir_external, type := mir_phone, privacy := mir_private }
    else if strcasecmp_eq f "headset" then
      let d := { data with location := mir_external }
      match bus with
      | none => some d
      | some b =>
        if strcasecmp_eq b "usb" then some { d with type := mir_usb_headset }
        else if strcasecmp_eq b "bluetooth" then
          match prof with
          | some p =>
            if p.name = "a2dp" then some { d with type := mir_bluetooth_a2dp }
            else some { d with type := mir_bluetooth_sco }
          | none => some { d with type := mir_bluetooth_sco }
        else some { d with type := mir_wired_headset }
    else if strcasecmp_eq f "headphone" then
      if data.direction = mir_output then
        let d := { data with location := mir_external }
        match bus with
        | none => some d
        | some b =>
          if strcasecmp_eq b "usb" then some { d with type := mir_usb_headphone }
          else if !strcasecmp_eq b "bluetooth" then some { d with type := mir_wired_headphone }
          else some d
      else some data
    else if strcasecmp_eq f "microphone" then
      if data.direction = mir_input then
        some { data with location := mir_external, type := mir_microphone }
      else some data
    else some data
  | none => classify_guess data bus port

/-- Second part of `classify_node_by_card` (`if (!data->amname[0]) ...`): an
empty display name is replaced; reading `amname[0]` needs `amname` not NULL. -/
def classify_amname (data : mir_node) (port : Option pa_device_port) : Option mir_node :=
  match data.amname with
  | none => none
  | some a =>
    if a.toList = [] then
      if data.type ≠ mir_node_type_unknown then
        some { data with amname := some (mir_node_type_str data.type) }
      else
        match port with
        | some p =>
          match p.description with
          | some d => some { data with amname := some d }
          | none => some { data with amname := some p.name }
        | none => some { data with amname := some data.paname }
    else some data

/-- Third part of `classify_node_by_card`: the privacy from direction and type. -/
def classify_privacy (data : mir_node) : mir_node :=
  if data.direction = mir_input then { data with privacy := mir_privacy_unknown }
  else
    match data.type with
    | mir_phone | mir_wired_headset | mir_wired_headphone | mir_usb_headset
    | mir_usb_headphone | mir_bluetooth_sco | mir_bluetooth_a2dp =>
      { data with privacy := mir_private }
    | mir_null | mir_jack | mir_spdif | mir_hdmi =>
      { data with privacy := mir_privacy_unknown }
    | _ => { data with privacy := mir_public }

/-- The function `classify_node_by_card`. -/
def classify_node_by_card (data : mir_node) (card : pa_card)
    (prof : Option pa_card_profile) (port : Option pa_device_port) : Option mir_node :=
  let bus := pa_proplist_gets card.proplist PA_PROP_DEVICE_BUS
  let form := pa_proplist_gets card.proplist PA_PROP_DEVICE_FORM_FACTOR
  match classify_form data bus form prof port with
  | none => none
  | some d1 =>
    match classify_amname d1 port with
    | none => none
    | some d2 => some (classify_privacy d2)

/-- The rule table of the specification for name-based guessing, in priority
order: substring, the direction it is restricted to (if any), resulting type. -/
def guess_rules : List (String × Option mir_direction × mir_node_type) :=
  [("headphone", some mir_output, mir_wired_headphone),
   ("headset", none, mir_wired_headset),
   ("line", none, mir_jack),
   ("spdif", none, mir_spdif),
   ("hdmi", none, mir_hdmi),
   ("microphone", some mir_input, mir_microphone),
   ("analog-output", some mir_output, mir_speakers),
   ("analog-input", some mir_input, mir_jack)]

/-- Whether a rule of the table matches a port name in a direction. -/
def guess_rule_matches (dir : mir_direction) (pnam : String)
    (rule : String × Option mir_direction × mir_node_type) : Bool :=
  (rule.2.1 = none || rule.2.1 = some dir) && strcasestr pnam rule.1

/-- The type the specification assigns: that of the first matching rule of
`guess_rules`, unknown when no rule matches. -/
def guess_rules_type (dir : mir_direction) (pnam : String) : mir_node_type :=
  match guess_rules.find? (guess_rule_matches dir pnam) with
  | some rule => rule.2.2
  | none => mir_node_type_unknown

/-! ## Card ingestion -/

/-- The constant `MAX_CARD_TARGET`. -/
def MAX_CARD_TARGET : Nat := 4

/-- The constant `MAX_NAME_LENGTH`. -/
def MAX_NAME_LENGTH : Nat := 256

/-- The text `snprintf` leaves in a buffer of `size` bytes. -/
def snprintf (size : Nat) (s : String) : String :=
  String.mk (s.toList.take (size - 1))

/-- Modelled from the spec: `pa_utils_get_card_name` (utils.c) gives the name
of the card. -/
def pa_utils_get_card_name (card : pa_card) : String := card.name

/-- The statement pair `node = create_node(u, data, &created); if (!created)
node->stamp = data->stamp;` of `handle_card_ports`. -/
def create_or_refresh_node (u : userdata) (data : mir_node) : Option userdata :=
  let r := create_node u data
  if r.2.2 then some r.1
  else
    match r.1.deref r.2.1 with
    | none => none
    | some n => some (r.1.store r.2.1 { n with stamp := data.stamp })

/-- The function `get_name`: the name starts `offs` characters into the string
and ends before the next `+`; the string pointer moves behind that `+`, or to
the end. Returns the name and the rest of the string. -/
def get_name (s : List Char) (offs : Nat) : List Char × List Char :=
  let name := s.drop offs
  (name.takeWhile (fun c => c != '+'), (name.dropWhile (fun c => c != '+')).drop 1)

/-- The `do ... while (*p)` loop of `parse_profile_name`, with the targets
found so far; `fuel` bounds the number of rounds. -/
def parse_profile_loop : Nat → List Char → List String → List String →
    List String × List String
  | 0, _, sinks, sources => (sinks, sources)
  | fuel + 1, p, sinks, sources =>
    if "output:".toList.isPrefixOf p then
      if sinks.length ≥ MAX_CARD_TARGET then (sinks, sources)
      else
        let r := get_name p 7
        if r.2 = [] then (sinks ++ [String.mk r.1], sources)
        else parse_profile_loop fuel r.2 (sinks ++ [String.mk r.1]) sources
    else if "input:".toList.isPrefixOf p then
      if sources.length ≥ MAX_CARD_TARGET then (sinks, sources)
      else
        let r := get_name p 6
        if r.2 = [] then (sinks, sources ++ [String.mk r.1])
        else parse_profile_loop fuel r.2 sinks (sources ++ [String.mk r.1])
    else (sinks, sources)

/-- The function `parse_profile_name` on a buffer of `buflen` bytes: the sink
targets and the source targets, each in order of appearance. -/
def parse_profile_name (prof : pa_card_profile) (buflen : Nat) : List String × List String :=
  let buf := prof.name.toList.take (buflen - 1)
  parse_profile_loop (buf.length + 1) buf [] []

/-- The condition under which `handle_card_ports` makes a node of a port. -/
def port_participates (port : pa_device_port) (prof : pa_card_profile)
    (direction : mir_direction) : Bool :=
  (match port.profiles with
   | some names => names.contains prof.name
   | none => false) &&
  ((port.is_input && direction = mir_input) || (port.is_output && direction = mir_output))

/-- The `PA_HASHMAP_FOREACH(port, card->ports, state)` loop of
`handle_card_ports`; the result carries `have_ports`. -/
def handle_card_ports_loop (card : pa_card) (prof : pa_card_profile) :
    List pa_device_port → userdata → mir_node → Bool → Option (userdata × mir_node × Bool)
  | [], u, data, have_ports => some (u, data, have_ports)
  | port :: rest, u, data, have_ports =>
    if port_participates port prof data.direction then
      let d0 : mir_node :=
        { data with
          key := snprintf (MAX_NAME_LENGTH + 1) (data.paname ++ "@" ++ port.name),
          available := decide (port.available ≠ PA_PORT_AVAILABLE_NO),
          type := mir_node_type_unknown,
          amname := some "",
          paport := some port.name }
      match classify_node_by_card d0 card (some prof) (some port) with
      | none => none
      | some d1 =>
        match create_or_refresh_node u d1 with
        | none => none
        | some u1 => handle_card_ports_loop card prof rest u1 d1 true
    else handle_card_ports_loop card prof rest u data have_ports

/-- The function `handle_card_ports`. The local `amname` is the buffer
`data->amname` points at on entry; it is emptied at the end. -/
def handle_card_ports (u : userdata) (data : mir_node) (card : pa_card)
    (prof : pa_card_profile) : Option (userdata × mir_node) :=
  match data.amname with
  | none => none
  | some _ =>
    match handle_card_ports_loop card prof (card.ports.getD []) u data false with
    | none => none
    | some (u1, d1, have_ports) =>
      if have_ports then some (u1, { d1 with amname := some "" })
      else
        let d2 : mir_node := { d1 with key := d1.paname, available := true }
        match classify_node_by_card d2 card (some prof) none with
        | none => none
        | some d3 =>
          match create_or_refresh_node u1 d3 with
          | none => none
          | some u2 => some (u2, { d3 with amname := some "" })

/-- One of the two `for (i = 0; (sid = targets[i]); i++)` loops of
`handle_udev_loaded_card`; `pfx` is `"alsa_output."` or `"alsa_input."`. -/
def handle_card_targets (card : pa_card) (prof : pa_card_profile) (pfx cardid : String) :
    List String → userdata → mir_node → Option (userdata × mir_node)
  | [], u, data => some (u, data)
  | sid :: rest, u, data =>
    let d : mir_node :=
      { data with paname := snprintf (MAX_NAME_LENGTH + 1) (pfx ++ cardid ++ "." ++ sid) }
    match handle_card_ports u d card prof with
    | none => none
    | some (u1, d1) => handle_card_targets card prof pfx cardid rest u1 d1

/-- The filters at the head of the profile loop of `handle_udev_loaded_card`:
whether the profile is skipped. The active profile is compared by name, the
key of the card's profile map. -/
def profile_skipped (discover : pa_discover) (active : Option pa_card_profile)
    (prof : pa_card_profile) : Bool :=
  (discover.selected &&
    (match active with
     | none => true
     | some a => decide (prof.name ≠ a.name))) ||
  (prof.n_sinks = 0 && prof.n_sources = 0) ||
  (prof.n_sinks ≠ 0 &&
    (prof.max_sink_channels < discover.chmin || prof.max_sink_channels > discover.chmax)) ||
  (prof.n_sources ≠ 0 &&
    (prof.max_source_channels < discover.chmin || prof.max_source_channels > discover.chmax))

/-- The `PA_HASHMAP_FOREACH(prof, card->profiles, state)` loop of
`handle_udev_loaded_card`. -/
def handle_udev_profiles (card : pa_card) (cardid : String) :
    List pa_card_profile → userdata → mir_node → Option (userdata × mir_node)
  | [], u, data => some (u, data)
  | prof :: rest, u, data =>
    if profile_skipped u.discover card.active_profile prof then
      handle_udev_profiles card cardid rest u data
    else
      let d0 : mir_node := { data with pacard := { data.pacard with profile := some prof.name } }
      let targets := parse_profile_name prof (MAX_NAME_LENGTH + 1)
      let d1 : mir_node :=
        { d0 with direction := mir_output, channels := prof.max_sink_channels }
      match handle_card_targets card prof "alsa_output." cardid targets.1 u d1 with
      | none => none
      | some (u1, d2) =>
        let d3 : mir_node :=
          { d2 with direction := mir_input, channels := prof.max_source_channels }
        match handle_card_targets card prof "alsa_input." cardid targets.2 u1 d3 with
        | none => none
        | some (u2, d4) => handle_udev_profiles card cardid rest u2 d4

/-- The function `handle_udev_loaded_card`. -/
def handle_udev_loaded_card (u : userdata) (card : pa_card) (data : mir_node)
    (cardid : String) : Option userdata :=
  let alsanam := pa_proplist_gets card.proplist "alsa.card_name"
  let d : mir_node :=
    { data with
      paname := "", amname := some "", amdescr := alsanam,
      pacard := { data.pacard with index := card.index } }
  (handle_udev_profiles card cardid card.profiles u d).map (fun r => r.1)

/-- The function `handle_alsa_card`. -/
def handle_alsa_card (u : userdata) (card : pa_card) : Option userdata :=
  let r := pa_utils_get_stamp u
  let data : mir_node :=
    { mir_node_zero with
      visible := true, amid := none, implement := mir_device,
      paidx := PA_IDXSET_INVALID, stamp := r.2 }
  let cnam := pa_utils_get_card_name card
  match pa_proplist_gets card.proplist "module-udev-detect.discovered" with
  | some udd =>
    if udd = "1" then
      if "alsa_card.".toList.isPrefixOf cnam.toList then
        handle_udev_loaded_card r.1 card data (String.mk (cnam.toList.drop 10))
      else some r.1
    else some r.1
  | none => some r.1

/-- The function `schedule_card_check`. -/
def schedule_card_check (u : userdata) (card : pa_card) : userdata :=
  { u with mainloop := u.mainloop ++ [deferred_call.card_check_cb card.index] }

/-- The function `schedule_deferred_routing`. -/
def schedule_deferred_routing (u : userdata) : userdata :=
  { u with mainloop := u.mainloop ++ [deferred_call.deferred_routing_cb] }

/-- The `PA_HASHMAP_FOREACH(prof, card->profiles, state)` loop of
`handle_bluetooth_card`. -/
def handle_bluetooth_profiles (card : pa_card) (cid : String) :
    List pa_card_profile → userdata → mir_node → Option (userdata × mir_node)
  | [], u, data => some (u, data)
  | prof :: rest, u, data =>
    let d0 : mir_node :=
      { data with available := true, pacard := { data.pacard with profile := some prof.name } }
    let sinks : Option (userdata × mir_node) :=
      if prof.n_sinks > 0 then
        let paname := snprintf (MAX_NAME_LENGTH + 1) ("bluez_sink." ++ cid)
        let d1 : mir_node :=
          { d0 with
            direction := mir_output, channels := prof.max_sink_channels,
            amname := some "", paname := paname,
            key := snprintf (MAX_NAME_LENGTH + 1) (paname ++ "@" ++ prof.name) }
        match classify_node_by_card d1 card (some prof) none with
        | none => none
        | some d2 => some ((create_node u d2).1, d2)
      else some (u, d0)
    match sinks with
    | none => none
    | some (u1, d3) =>
      let sources : Option (userdata × mir_node) :=
        if prof.n_sources > 0 then
          let paname := snprintf (MAX_NAME_LENGTH + 1) ("bluez_source." ++ cid)
          let d4 : mir_node :=
            { d3 with
              direction := mir_input, channels := prof.max_source_channels,
              amname := some "", paname := paname,
              key := snprintf (MAX_NAME_LENGTH + 1) (paname ++ "@" ++ prof.name) }
          match classify_node_by_card d4 card (some prof) none with
          | none => none
          | some d5 => some ((create_node u1 d5).1, d5)
        else some (u1, d3)
      match sources with
      | none => none
      | some (u2, d6) => handle_bluetooth_profiles card cid rest u2 d6

/-- The function `handle_bluetooth_card`. -/
def handle_bluetooth_card (u : userdata) (card : pa_card) : Option userdata :=
  let cdescr := pa_proplist_gets card.proplist PA_PROP_DEVICE_DESCRIPTION
  let r := pa_utils_get_stamp u
  let data : mir_node :=
    { mir_node_zero with
      key := "", visible := true, amid := none, implement := mir_device,
      paidx := PA_IDXSET_INVALID, paname := "", amname := some "", amdescr := cdescr,
      pacard := { index := card.index, profile := none }, stamp := r.2 }
  let cnam := pa_utils_get_card_name card
  if "bluez_card.".toList.isPrefixOf cnam.toList then
    match handle_bluetooth_profiles card (String.mk (cnam.toList.drop 11)) card.profiles
        r.1 data with
    | none => none
    | some (u1, _) => some (schedule_card_check u1 card)
  else some r.1

/-- The function `pa_discover_add_card`. -/
def pa_discover_add_card (u : userdata) (card : pa_card) : Option userdata :=
  match pa_proplist_gets card.proplist PA_PROP_DEVICE_BUS with
  | none => some u
  | some bus =>
    if bus = "pci" || bus = "usb" then handle_alsa_card u card
    else if bus = "bluetooth" then handle_bluetooth_card u card
    else some u

/-- The iteration `PA_HASHMAP_FOREACH(node, discover->nodes.byname, state)`
over the entries the map held when the loop began. The iterator keeps a pointer
to the entry that follows the current one: an entry unlinked before its turn is
not visited, and unlinking the entry the iterator points at while the body runs
leaves the iterator dangling. -/
def hashmap_foreach (body : userdata → Nat → Option userdata) :
    List (String × Nat) → userdata → Option userdata
  | [], u => some u
  | (k, p) :: rest, u =>
    if pa_hashmap_get u.discover.byname k = some p then
      match body u p with
      | none => none
      | some u1 =>
        match rest.find? (fun e => decide (pa_hashmap_get u.discover.byname e.1 = some e.2)) with
        | none => hashmap_foreach body rest u1
        | some e =>
          if pa_hashmap_get u1.discover.byname e.1 = some e.2 then
            hashmap_foreach body rest u1
          else none
    else hashmap_foreach body rest u

/-- A loop body of the form `if (<condition on node>) destroy_node(u, node);`. -/
def destroy_node_if (sel : mir_node → Bool) (u : userdata) (node : Nat) : Option userdata :=
  match u.deref node with
  | none => none
  | some n => if sel n then destroy_node u (some node) else some u

/-- The function `pa_discover_remove_card`. -/
def pa_discover_remove_card (u : userdata) (card : pa_card) : Option userdata :=
  hashmap_foreach
    (destroy_node_if (fun n => n.implement = mir_device && n.pacard.index = card.index))
    u.discover.byname u

/-- The function `pa_discover_profile_changed`. An unsupported bus is logged
and the function goes on to the ALSA branch. -/
def pa_discover_profile_changed (u : userdata) (card : pa_card) : Option userdata :=
  match pa_proplist_gets card.proplist PA_PROP_DEVICE_BUS with
  | none => some u
  | some bus =>
    if bus = "bluetooth" then
      match card.active_profile with
      | none => none
      | some prof =>
        if prof.n_sinks = 0 && prof.n_sources = 0 then
          hashmap_foreach
            (fun v node =>
              match v.deref node with
              | none => none
              | some n =>
                if n.implement = mir_device && n.pacard.index = card.index then
                  some (v.store node { n with available := false })
                else some v)
            u.discover.byname u
        else some u
    else
      match card.active_profile with
      | none => none
      | some _ =>
        let r := pa_utils_get_stamp u
        match handle_alsa_card r.1 card with
        | none => none
        | some u1 =>
          hashmap_foreach
            (destroy_node_if (fun n =>
              n.implement = mir_device && n.pacard.index = card.index && n.stamp < r.2))
            u1.discover.byname u1

/-! ## Sinks and sources -/

/-- A sink (`pa_sink`), with the fields discover.c reads. -/
structure pa_sink where
  index : Nat
  name : String
  card : Option pa_card
  active_port : Option pa_device_port
  channels : Nat
  deriving DecidableEq, Repr

/-- A source (`pa_source`), with the fields discover.c reads. -/
structure pa_source where
  index : Nat
  name : String
  card : Option pa_card
  active_port : Option pa_device_port
  deriving DecidableEq, Repr

/-- The argument `void *data` of `node_key_from_card`: a sink or a source. -/
inductive pa_sink_or_source where
  | sink (s : pa_sink)
  | source (s : pa_source)
  deriving DecidableEq, Repr

/-- The cast `pa_sink *sink = data`. The fields read afterwards (name, card,
active port) are declared alike in `pa_sink` and `pa_source`; a source read as a
sink shows its own values in them. -/
def pa_sink_or_source.as_sink : pa_sink_or_source → pa_sink
  | pa_sink_or_source.sink s => s
  | pa_sink_or_source.source s =>
    { index := s.index, name := s.name, card := s.card, active_port := s.active_port,
      channels := 0 }

/-- The cast `pa_source *source = data`; see `as_sink`. -/
def pa_sink_or_source.as_source : pa_sink_or_source → pa_source
  | pa_sink_or_source.source s => s
  | pa_sink_or_source.sink s =>
    { index := s.index, name := s.name, card := s.card, active_port := s.active_port }

/-- Modelled from the spec: `pa_utils_get_sink_name` (utils.c) gives the name
of the sink. -/
def pa_utils_get_sink_name (sink : pa_sink) : String := sink.name

/-- Modelled from the spec: `pa_utils_get_source_name` (utils.c) gives the name
of the source. -/
def pa_utils_get_source_name (source : pa_source) : String := source.name

/-- The function `node_key_from_card`. The outer `none` is a failed assertion,
`some none` the result NULL. -/
def node_key_from_card (u : userdata) (direction : mir_direction)
    (data : pa_sink_or_source) : Option (Option String) :=
  if direction ≠ mir_input ∧ direction ≠ mir_output then none
  else
    let name := if direction = mir_input then pa_utils_get_sink_name data.as_sink
                else pa_utils_get_source_name data.as_source
    let card := if direction = mir_input then data.as_sink.card else data.as_source.card
    let port := if direction = mir_input then data.as_sink.active_port
                else data.as_source.active_port
    match card with
    | none => some none
    | some card =>
      match card.active_profile with
      | none => none
      | some profile =>
        let profile_name :=
          match u.state_profile with
          | none => profile.name
          | some p => p
        match pa_proplist_gets card.proplist PA_PROP_DEVICE_BUS with
        | none => some none
        | some bus =>
          if bus ≠ "pci" ∧ bus ≠ "usb" ∧ bus ≠ "bluetooth" then some none
          else if bus = "bluetooth" then
            some (some (snprintf 256 (name ++ "@" ++ profile_name)))
          else
            match port with
            | none => some (some name)
            | some port => some (some (snprintf 256 (name ++ "@" ++ port.name)))

/-- The function `pa_discover_add_sink`. -/
def pa_discover_add_sink (u : userdata) (sink : pa_sink) (route : Bool) : Option userdata :=
  match sink.card with
  | some _ =>
    match node_key_from_card u mir_output (pa_sink_or_source.sink sink) with
    | none => none
    | some none => some u
    | some (some key) =>
      match pa_discover_find_node u (some key) with
      | none => some u
      | some node =>
        match u.deref node with
        | none => none
        | some n =>
          let u1 := u.store node { n with paidx := sink.index }
          let u2 := u1.set_byptr
            (pa_hashmap_put u1.discover.byptr (pa_object.sink sink.index) node)
          if route then
            if n.type ≠ mir_bluetooth_a2dp ∧ n.type ≠ mir_bluetooth_sco then
              some (mir_router_make_routing u2)
            else if u.state_profile = none then some (schedule_deferred_routing u2)
            else some u2
          else some u2
  | none =>
    if u.nullsink = some sink.index then
      let data : mir_node :=
        { mir_node_zero with
          key := sink.name, direction := mir_output, implement := mir_device,
          channels := sink.channels, visible := false, available := true,
          type := mir_null, amname := some "Silent", amid := none,
          paname := sink.name, paidx := sink.index }
      some (create_node u data).1
    else some u

/-- The function `pa_discover_remove_sink`. -/
def pa_discover_remove_sink (u : userdata) (sink : pa_sink) : Option userdata :=
  match pa_hashmap_get u.discover.byptr (pa_object.sink sink.index) with
  | none => some u
  | some node =>
    match u.deref node with
    | none => none
    | some n =>
      let u1 := u.store node { n with paidx := PA_IDXSET_INVALID }
      let u2 := u1.set_byptr (pa_hashmap_remove u1.discover.byptr (pa_object.sink sink.index))
      match sink.card with
      | some _ =>
        if n.type ≠ mir_bluetooth_a2dp ∧ n.type ≠ mir_bluetooth_sco then
          some (u2.store node { n with paidx := PA_IDXSET_INVALID, available := false })
        else if u.state_profile = none then some (schedule_deferred_routing u2)
        else some u2
      | none => some u2

/-- The function `pa_discover_add_source`. -/
def pa_discover_add_source (u : userdata) (source : pa_source) : Option userdata :=
  match source.card with
  | some _ =>
    match node_key_from_card u mir_output (pa_sink_or_source.source source) with
    | none => none
    | some none => some u
    | some (some key) =>
      match pa_discover_find_node u (some key) with
      | none => some u
      | some node =>
        match u.deref node with
        | none => none
        | some n =>
          let u1 := u.store node { n with paidx := source.index }
          some (u1.set_byptr
            (pa_hashmap_put u1.discover.byptr (pa_object.source source.index) node))
  | none => some u

/-- The function `pa_discover_remove_source`. -/
def pa_discover_remove_source (u : userdata) (source : pa_source) : Option userdata :=
  match pa_hashmap_get u.discover.byptr (pa_object.source source.index) with
  | none => some u
  | some node =>
    match u.deref node with
    | none => none
    | some n =>
      let u1 := u.store node { n with paidx := PA_IDXSET_INVALID }
      some (u1.set_byptr (pa_hashmap_remove u1.discover.byptr (pa_object.source source.index)))

/-! ## Sequences of card events and registry invariants -/

/-- A card event delivered to the discover module. -/
inductive card_event where
  | add_card (card : pa_card)
  | profile_changed (card : pa_card)
  deriving DecidableEq, Repr

/-- The handler of a card event. -/
def card_event.handle (u : userdata) : card_event → Option userdata
  | card_event.add_card card => pa_discover_add_card u card
  | card_event.profile_changed card => pa_discover_profile_changed u card

/-- The state after a sequence of card events, `none` if a handler does not return. -/
def handle_card_events : userdata → List card_event → Option userdata
  | u, [] => some u
  | u, ev :: rest =>
    match ev.handle u with
    | none => none
    | some u1 => handle_card_events u1 rest

/-- Whether the node at an address is a device node of the card with an index. -/
def is_device_of_card (u : userdata) (index : Nat) (node : Nat) : Bool :=
  match u.deref node with
  | some n => n.implement = mir_device && n.pacard.index = index
  | none => false

/-- Consistency of the by-key index: no key is stored twice, and every entry
points at an allocated record that carries the key of the entry. -/
def registry_ok (u : userdata) : Prop :=
  (u.discover.byname.map (fun e => e.1)).Nodup ∧
  ∀ e ∈ u.discover.byname, (u.deref e.2).map (fun n => n.key) = some e.1

instance (u : userdata) : Decidable (registry_ok u) := by
  unfold registry_ok; infer_instance

/-- No record carries a stamp beyond the last one handed out. -/
def stamps_ok (u : userdata) : Prop :=
  ∀ e ∈ u.heap, e.2.stamp ≤ u.stamp

instance (u : userdata) : Decidable (stamps_ok u) := by
  unfold stamps_ok; infer_instance

/-- The registry with both indexes and the heap emptied; configuration and
stamp counter are kept. -/
def userdata.cleared (u : userdata) : userdata :=
  { u with discover := { u.discover with byname := [], byptr := [] }, heap := [] }

/-- The keys that the card scan of `pa_discover_profile_changed` (the call of
`handle_alsa_card`, with the stamp it runs under) registers when it starts on
an empty registry: the keys the scan produces. -/
def profile_scan_keys (u : userdata) (card : pa_card) : Option (List String) :=
  (handle_alsa_card (pa_utils_get_stamp u).1.cleared card).map
    (fun v => v.discover.byname.map (fun e => e.1))

/-- The keys of the device nodes of a card index in the by-key index. -/
def device_keys_of_card (u : userdata) (index : Nat) : List String :=
  (u.discover.byname.filter (fun e => is_device_of_card u index e.2)).map (fun e => e.1)

/-! ## Predicates used in the proofs -/

/-- The fields of an entity that the classifier does not write. -/
def same_identity (d e : mir_node) : Prop :=
  e.key = d.key ∧ e.direction = d.direction ∧ e.implement = d.implement ∧
  e.channels = d.channels ∧ e.visible = d.visible ∧ e.available = d.available ∧
  e.amdescr = d.amdescr ∧ e.amid = d.amid ∧ e.paname = d.paname ∧ e.paidx = d.paidx ∧
  e.pacard = d.pacard ∧ e.paport = d.paport ∧ e.stamp = d.stamp

/-- The builder data of a scan of the card `index` under the stamp `stamp`. -/
def scan_data (stamp index : Nat) (d : mir_node) : Prop :=
  d.stamp = stamp ∧ d.implement = mir_device ∧ d.pacard.index = index

/-- Whether the record at an address satisfies a condition on nodes. -/
def sel_at (u : userdata) (sel : mir_node → Bool) (node : Nat) : Bool :=
  match u.deref node with
  | some n => sel n
  | none => false

/-- The state `destroy_node` leaves when it finds the node under its key `k`. -/
def retired (u : userdata) (k : String) (p : Nat) : userdata :=
  mir_node_destroy
    (pa_audiomgr_unregister_node (u.set_byname (pa_hashmap_remove u.discover.byname k)) p) p

/-- The relation between the registry `u` in the middle of a card scan that
started from `u0` and a registry `e` in the middle of the same scan started
empty: entries and records of `u0` are still there, changed in their stamp at
most; entries that are new are device nodes of the card carrying the stamp of
the scan; and the keys of `e` are the keys whose node carries that stamp. -/
structure scan_inv (u0 : userdata) (S idx : Nat) (u e : userdata) : Prop where
  ok_u : registry_ok u
  ok_e : registry_ok e
  cfg : ∀ a p, profile_skipped u.discover a p = profile_skipped e.discover a p
  old_entries : ∀ k p, pa_hashmap_get u0.discover.byname k = some p →
    pa_hashmap_get u.discover.byname k = some p
  old_records : ∀ p n, u0.deref p = some n →
    u.deref p = some n ∨ u.deref p = some { n with stamp := S }
  new_entries : ∀ k p, pa_hashmap_get u.discover.byname k = some p →
    pa_hashmap_get u0.discover.byname k = none →
    ∃ n, u.deref p = some n ∧ n.implement = mir_device ∧ n.pacard.index = idx ∧ n.stamp = S
  visited : ∀ k, pa_hashmap_get e.discover.byname k ≠ none ↔
    ∃ p n, pa_hashmap_get u.discover.byname k = some p ∧ u.deref p = some n ∧ n.stamp = S
  frame : u.discover.byptr = u0.discover.byptr ∧ u.stamp = u0.stamp

/-! ## Definitions written from the specification, for comparison with the code -/

/-- The privacy table of the specification for output entities. -/
def output_privacy : mir_node_type → mir_privacy
  | mir_speakers => mir_public
  | mir_front_speakers => mir_public
  | mir_rear_speakers => mir_public
  | mir_phone => mir_private
  | mir_wired_headset => mir_private
  | mir_wired_headphone => mir_private
  | mir_usb_headset => mir_private
  | mir_usb_headphone => mir_private
  | mir_bluetooth_sco => mir_private
  | mir_bluetooth_a2dp => mir_private
  | mir_null => mir_privacy_unknown
  | mir_jack => mir_privacy_unknown
  | mir_spdif => mir_privacy_unknown
  | mir_hdmi => mir_privacy_unknown
  | _ => mir_public

/-- The function `derive_privacy` of the specification: unknown for an input,
the table for an output. -/
def derive_privacy (type : mir_node_type) (direction : mir_direction) : mir_privacy :=
  if direction = mir_input then mir_privacy_unknown else output_privacy type

/-- The order of preference of the specification for a display name: the
canonical label of a known type, then the port description, then the port
name, then the raw hardware name. -/
def default_display_name (type : mir_node_type) (port : Option pa_device_port)
    (paname : String) : String :=
  if type ≠ mir_node_type_unknown then mir_node_type_str type
  else
    match port with
    | some p =>
      match p.description with
      | some d => d
      | none => p.name
    | none => paname

/-- Whether `classify_node_by_card` calls the name-based guess: there is a port,
the bus is "pci", and the form factor is absent or "internal". -/
def guess_consulted (bus form : Option String) (port : Option pa_device_port) : Bool :=
  port.isSome &&
  (match bus with
   | some b => strcasecmp_eq b "pci"
   | none => false) &&
  (match form with
   | some f => strcasecmp_eq f "internal"
   | none => true)

/-- Whether one of the six rules that also set the display name (headphone,
headset, line, spdif, hdmi, microphone) matches a port name in a direction. -/
def guess_sets_name (dir : mir_direction) (pnam : String) : Bool :=
  (guess_rules.take 6).any (guess_rule_matches dir pnam)

/-- Whether a form factor is one of the values `classify_node_by_card` recognises. -/
def form_recognised (f : String) : Bool :=
  strcasecmp_eq f "internal" || strcasecmp_eq f "speaker" || strcasecmp_eq f "car" ||
  strcasecmp_eq f "handset" || strcasecmp_eq f "headset" || strcasecmp_eq f "headphone" ||
  strcasecmp_eq f "microphone"

/-- The port description that the name-based guess puts into the display name:
that of the port when the guess is consulted and one of its six naming rules
matches the port name, nothing otherwise. -/
def guessed_description (bus form : Option String) (port : Option pa_device_port)
    (dir : mir_direction) : Option String :=
  match port with
  | some p =>
    if guess_consulted bus form port = true ∧ guess_sets_name dir p.name = true
    then p.description else none
  | none => none

/-- The type an identifier resolves to in a table: that of the entry with this
identifier, nothing when the identifier is absent or not in the table. -/
def resolves (map : List (String × mir_node_type)) (id : Option String) :
    Option mir_node_type :=
  id.bind (fun s => map.lookup s)

/-- The stream type in the words of the specification: the type of the role
when the role resolves to a type other than player; otherwise the type of the
binary when the binary is in its table; otherwise the type of the role, which
is player, or unknown when the role is absent or not recognised. -/
def stream_type_by_tables (role_type bin_type : Option mir_node_type) : mir_node_type :=
  match role_type with
  | some t =>
    if t ≠ mir_player then t
    else
      match bin_type with
      | some b => b
      | none => mir_player
  | none =>
    match bin_type with
    | some b => b
    | none => mir_node_type_unknown

/-! ## Notions used in the statements about card scans -/

/-- The ports of a card that take part in the node set of a profile in a
direction, in iteration order. -/
def participating_ports (card : pa_card) (prof : pa_card_profile)
    (direction : mir_direction) : List pa_device_port :=
  (card.ports.getD []).filter (fun port => port_participates port prof direction)

/-- A sequence of upserts: `create_or_refresh_node` applied to each builder
data in turn. -/
def upsert_all : List mir_node → userdata → Option userdata
  | [], u => some u
  | d :: ds, u =>
    match create_or_refresh_node u d with
    | none => none
    | some u1 => upsert_all ds u1

/-- The keys stored in the by-key index. -/
def registered_keys (u : userdata) : List String :=
  u.discover.byname.map (fun e => e.1)

/-- The text of a segment of a profile name, given as the flag "is an output
segment" and the target: `output:` or `input:` followed by the target. -/
def segment_text (s : Bool × String) : List Char :=
  (if s.1 then "output:".toList else "input:".toList) ++ s.2.toList

/-- Texts joined with `+` between them. -/
def join_segments : List (List Char) → List Char
  | [] => []
  | [a] => a
  | a :: b :: rest => a ++ '+' :: join_segments (b :: rest)

/-- The profile name made of the given segments. -/
def profile_name_of (segs : List (Bool × String)) : String :=
  String.mk (join_segments (segs.map segment_text))

/-- The targets of the output segments, in order of appearance. -/
def output_targets (segs : List (Bool × String)) : List String :=
  (segs.filter (fun s => s.1)).map (fun s => s.2)

/-- The targets of the input segments, in order of appearance. -/
def input_targets (segs : List (Bool × String)) : List String :=
  (segs.filter (fun s => !s.1)).map (fun s => s.2)

/-- The array of `MAX_CARD_TARGET + 1` pointers that `parse_profile_name` has
zeroed with `memset` and then filled from index 0 on with the targets; `none`
is the NULL pointer. -/
def target_array (targets : List String) : List (Option String) :=
  targets.map some ++ List.replicate (MAX_CARD_TARGET + 1 - targets.length) none

/-! ## Classification of streams -/

/-- The property name `PA_PROP_MEDIA_ROLE`. -/
def PA_PROP_MEDIA_ROLE : String := "media.role"

/-- The property name `PA_PROP_APPLICATION_PROCESS_BINARY`. -/
def PA_PROP_APPLICATION_PROCESS_BINARY : String := "application.process.binary"

/-- The table `role_map` of `guess_stream_node_type`, without the NULL entry
that ends it. -/
def role_map : List (String × mir_node_type) :=
  [("video", mir_player),
   ("music", mir_player),
   ("game", mir_game),
   ("event", mir_event),
   ("phone", mir_player),
   ("animation", mir_browser),
   ("test", mir_player)]

/-- The table `bin_map` of `guess_stream_node_type`, without the NULL entry
that ends it. -/
def bin_map : List (String × mir_node_type) :=
  [("rhytmbox", mir_player),
   ("firefox", mir_browser),
   ("chrome", mir_browser),
   ("sound-juicer", mir_player)]

/-- The loop `for (m = map; m->id; m++) if (pa_streq(id, m->id)) break;`
followed by the read of `m->type`: the type of the first entry with that id,
and the `mir_node_type_unknown` of the closing NULL entry when there is none. -/
def map_type : List (String × mir_node_type) → String → mir_node_type
  | [], _ => mir_node_type_unknown
  | m :: rest, id => if id = m.1 then m.2 else map_type rest id

/-- The function `guess_stream_node_type`. -/
def guess_stream_node_type (pl : List (String × String)) : mir_node_type :=
  let role := pa_proplist_gets pl PA_PROP_MEDIA_ROLE
  let bin := pa_proplist_gets pl PA_PROP_APPLICATION_PROCESS_BINARY
  let rtype :=
    match role with
    | some r => map_type role_map r
    | none => mir_node_type_unknown
  if rtype ≠ mir_node_type_unknown ∧ rtype ≠ mir_player then rtype
  else
    let btype :=
      match bin with
      | some b => map_type bin_map b
      | none => mir_node_type_unknown
    if btype = mir_node_type_unknown then rtype else btype

/-! ## Stream ingestion -/

/-- The property name `PA_PROP_ROUTING_CLASS_NAME` (userdata.h). -/
def PA_PROP_ROUTING_CLASS_NAME : String := "routing.class.name"

/-- The property name `PA_PROP_ROUTING_CLASS_ID` (userdata.h). -/
def PA_PROP_ROUTING_CLASS_ID : String := "routing.class.id"

/-- The property name `PA_PROP_ROUTING_METHOD` (userdata.h). -/
def PA_PROP_ROUTING_METHOD : String := "routing.method"

/-- The value `PA_ROUTING_DEFAULT` (userdata.h). -/
def PA_ROUTING_DEFAULT : String := "default"

/-- The value `PA_ROUTING_EXPLICIT` (userdata.h). -/
def PA_ROUTING_EXPLICIT : String := "explicit"

/-- The property name `PA_PROP_MEDIA_NAME`. -/
def PA_PROP_MEDIA_NAME : String := "media.name"

/-- What discover.c takes from node.h about `enum mir_node_type`: the integer
values of the enumerators, the enumerator an integer converts to, and the two
limits of the application classes. node.h is not among the sources, so these
are a parameter of the functions that use them. -/
structure node_h where
  value : mir_node_type → Nat
  of_value : Nat → mir_node_type
  mir_application_class_begin : Nat
  mir_application_class_end : Nat

/-- The integer value of a node type. The unknown type is 0: discover.c writes
`data->type = 0` in `handle_card_ports` and leaves the type to `memset` in
`handle_bluetooth_card` where the classifier then has to find the type unknown. -/
def node_h.type_id (H : node_h) (t : mir_node_type) : Nat :=
  if t = mir_node_type_unknown then 0 else H.value t

/-- The `int` that `printf("%d")` reads when it is handed a 32-bit unsigned
value. -/
def as_int (n : Nat) : Int :=
  if n % 2 ^ 32 < 2 ^ 31 then ((n % 2 ^ 32 : Nat) : Int)
  else ((n % 2 ^ 32 : Nat) : Int) - 2 ^ 32

/-- The text `printf("%d")` writes for an `int`. -/
def format_d (n : Int) : String :=
  if n < 0 then "-" ++ Nat.repr n.natAbs else Nat.repr n.toNat

/-- The C library predicate `isspace` in the C locale. -/
def isspace (c : Char) : Bool :=
  c = ' ' || c = '\t' || c = '\n' || c = '\x0b' || c = '\x0c' || c = '\r'

/-- The value `LONG_MAX` of a 64-bit `long`. -/
def LONG_MAX : Int := 2 ^ 63 - 1

/-- The value `LONG_MIN` of a 64-bit `long`. -/
def LONG_MIN : Int := -(2 ^ 63)

/-- The C library function `strtol(s, &e, 10)`: white space is skipped, a sign
is read, then decimal digits; the result is the value, clamped to the range of
`long`, and the text `e` points at. Without a digit the value is 0 and `e` is
`s`. -/
def strtol (s : List Char) : Int × List Char :=
  let t := s.dropWhile isspace
  let signed : Bool × List Char :=
    match t with
    | '-' :: r => (true, r)
    | '+' :: r => (false, r)
    | _ => (false, t)
  let digits := signed.2.takeWhile Char.isDigit
  if digits = [] then (0, s)
  else
    let v : Nat := digits.foldl (fun a c => a * 10 + (c.toNat - 48)) 0
    let w : Int := if signed.1 then -(v : Int) else (v : Int)
    (max LONG_MIN (min LONG_MAX w), signed.2.dropWhile Char.isDigit)

/-- The conversion of the `long` that `strtol` returns to `mir_node_type`, an
enumeration kept in 32 bits: the value modulo 2^32. -/
def long_to_enum (v : Int) : Nat :=
  (v % 2 ^ 32).toNat

/-- The PulseAudio function `pa_proplist_sets` for a valid key and value: the
value replaces the one stored under the key, or is added. -/
def pa_proplist_sets (pl : List (String × String)) (key value : String) :
    List (String × String) :=
  match pa_hashmap_get pl key with
  | some _ => pl.map (fun e => (e.1, if e.1 = key then value else e.2))
  | none => pl ++ [(key, value)]

/-- The function `set_stream_routing_properties`; `sink` is the requested sink
or NULL. The result is the property list, `none` when `pa_assert(styp)` fails. -/
def set_stream_routing_properties (H : node_h) (pl : List (String × String))
    (styp : mir_node_type) (sink : Option Nat) : Option (List (String × String)) :=
  if H.type_id styp = 0 then none
  else
    let clid := snprintf 32 (format_d (as_int (H.type_id styp)))
    let clnam := mir_node_type_str styp
    let method := if sink.isSome then PA_ROUTING_EXPLICIT else PA_ROUTING_DEFAULT
    some (pa_proplist_sets
      (pa_proplist_sets (pa_proplist_sets pl PA_PROP_ROUTING_CLASS_NAME clnam)
        PA_PROP_ROUTING_CLASS_ID clid)
      PA_PROP_ROUTING_METHOD method)

/-- The function `get_stream_routing_class`. The result is the integer value
of the type returned; 0 is `mir_node_type_unknown`. -/
def get_stream_routing_class (H : node_h) (pl : List (String × String)) : Nat :=
  match pa_proplist_gets pl PA_PROP_ROUTING_CLASS_ID with
  | some clid =>
    let r := strtol clid.toList
    let type := long_to_enum r.1
    if r.2 = [] then
      if H.mir_application_class_begin ≤ type ∧ type < H.mir_application_class_end then type
      else 0
    else 0
  | none => 0

/-- A stream (`pa_sink_input`), with the fields discover.c reads; `sink` is
the index of the sink the stream plays to. -/
structure pa_sink_input where
  index : Nat
  name : String
  proplist : List (String × String)
  sink : Option Nat
  channels : Nat
  deriving DecidableEq, Repr

/-- Modelled from the spec: `pa_utils_get_sink_input_name` (utils.c) gives the
name of the stream. -/
def pa_utils_get_sink_input_name (sinp : pa_sink_input) : String := sinp.name

/-- The node bound to the sink a stream plays to, as the lookups
`pa_hashmap_get(discover->nodes.byptr, sinp->sink)` give it. -/
def stream_sink_node (u : userdata) (sinp : pa_sink_input) : Option Nat :=
  match sinp.sink with
  | some s => pa_hashmap_get u.discover.byptr (pa_object.sink s)
  | none => none

/-- The key `"stream_input.%d"` that `pa_discover_add_sink_input` writes into
its buffer of 256 bytes. -/
def stream_key (index : Nat) : String :=
  snprintf 256 ("stream_input." ++ format_d (as_int index))

/-- The builder data that `pa_discover_add_sink_input` fills in after
`memset(&data, 0, sizeof(data))`. -/
def stream_node_data (sinp : pa_sink_input) (type : mir_node_type)
    (pl : List (String × String)) : mir_node :=
  { mir_node_zero with
    key := stream_key sinp.index, direction := mir_input, implement := mir_stream,
    channels := sinp.channels, type := type, visible := true, available := true,
    amname := some (pa_utils_get_sink_input_name sinp),
    amdescr := pa_proplist_gets pl PA_PROP_MEDIA_NAME,
    amid := none, paname := pa_utils_get_sink_input_name sinp, paidx := sinp.index }

/-- The part of `pa_discover_add_sink_input` from `create_node` on. The log
calls read `node->amname` and, when the sink of the stream is bound,
`sinknod->amname`. -/
def add_stream_node (u : userdata) (sinp : pa_sink_input) (data : mir_node) :
    Option userdata :=
  let r := create_node u data
  if r.2.2 then
    let u1 := r.1.set_byptr
      (pa_hashmap_put r.1.discover.byptr (pa_object.sink_input sinp.index) r.2.1)
    match stream_sink_node u1 sinp with
    | none => some u1
    | some sinknod =>
      match u1.deref r.2.1, u1.deref sinknod with
      | some _, some _ => some u1
      | _, _ => none
  else
    match r.1.deref r.2.1 with
    | some _ => some r.1
    | none => none

/-- The function `pa_discover_add_sink_input`. The result is the module state
and the property list of the stream, which the function may write to. -/
def pa_discover_add_sink_input (H : node_h) (u : userdata) (sinp : pa_sink_input) :
    Option (userdata × List (String × String)) :=
  let cls := get_stream_routing_class H sinp.proplist
  let classified : Option (Option (mir_node_type × List (String × String))) :=
    if cls = 0 then
      let t := guess_stream_node_type sinp.proplist
      if t = mir_node_type_unknown then some none
      else
        match set_stream_routing_properties H sinp.proplist t none with
        | none => none
        | some pl1 => some (some (t, pl1))
    else some (some (H.of_value cls, sinp.proplist))
  match classified with
  | none => none
  | some none => some (u, sinp.proplist)
  | some (some (type, pl)) =>
    (add_stream_node u sinp (stream_node_data sinp type pl)).map (fun u1 => (u1, pl))

/-- The function `pa_discover_remove_sink_input`. The log call before
`destroy_node` reads `node->amname` and `sinknod->amname`. -/
def pa_discover_remove_sink_input (u : userdata) (sinp : pa_sink_input) : Option userdata :=
  match pa_hashmap_get u.discover.byptr (pa_object.sink_input sinp.index) with
  | none => some u
  | some node =>
    let u1 := u.set_byptr (pa_hashmap_remove u.discover.byptr (pa_object.sink_input sinp.index))
    match stream_sink_node u1 sinp with
    | none => destroy_node u1 (some node)
    | some sinknod =>
      match u1.deref node, u1.deref sinknod with
      | some _, some _ => destroy_node u1 (some node)
      | _, _ => none

/-- The server objects of `pa_core` that discover.c looks up by index. -/
structure pa_core where
  cards : List pa_card
  sinks : List pa_sink
  sources : List pa_source
  deriving DecidableEq, Repr

/-- The PulseAudio function `pa_idxset_get_by_index` on `core->sinks`. -/
def pa_core.sink_by_index (core : pa_core) (index : Nat) : Option pa_sink :=
  core.sinks.find? (fun s => s.index = index)

/-- The data of a stream that is being created (`pa_sink_input_new_data`):
its property list, the sink requested for it (`data->sink`, by index), its
channel count, and the sinks that support none of the formats it asks for. -/
structure pa_sink_input_new_data where
  proplist : List (String × String)
  sink : Option Nat
  channels : Nat
  unsupported : List Nat
  deriving DecidableEq, Repr

/-- The PulseAudio function `pa_sink_input_new_data_set_sink`: the sink becomes
the sink of the stream unless it supports none of the requested formats; the
boolean is the return value. -/
def pa_sink_input_new_data_set_sink (data : pa_sink_input_new_data) (sink : pa_sink) :
    pa_sink_input_new_data × Bool :=
  if sink.index ∈ data.unsupported then (data, false)
  else ({ data with sink := some sink.index }, true)

/-- What `pa_discover_preroute_sink_input` leaves behind: the module state, the
data of the new stream, and the candidates it has handed to the router. -/
structure preroute_outcome where
  u : userdata
  data : pa_sink_input_new_data
  consulted : List mir_node
  deriving DecidableEq, Repr

/-- The candidate node `fake` of `pa_discover_preroute_sink_input`. -/
def preroute_candidate (channels : Nat) (type : mir_node_type) : mir_node :=
  { mir_node_zero with
    direction := mir_input, implement := mir_stream, channels := channels, type := type,
    visible := true, available := true, amname := some "<preroute>" }

/-- The function `pa_discover_preroute_sink_input`. Modelled from the spec:
`mir_router_make_prerouting` (router.c) is the pre-routing decision of the
routing collaborator, a target node or NULL for a candidate; it is the
parameter `router`. -/
def pa_discover_preroute_sink_input (H : node_h) (core : pa_core)
    (router : mir_node → Option Nat) (u : userdata) (data : pa_sink_input_new_data) :
    Option preroute_outcome :=
  let type := guess_stream_node_type data.proplist
  match set_stream_routing_properties H data.proplist type data.sink with
  | none => none
  | some pl =>
    let data1 : pa_sink_input_new_data := { data with proplist := pl }
    match data.sink with
    | some _ => some { u := u, data := data1, consulted := [] }
    | none =>
      let fake := preroute_candidate data.channels type
      match router fake with
      | none => some { u := u, data := data1, consulted := [fake] }
      | some target =>
        match u.deref target with
        | none => none
        | some n =>
          if n.paidx = PA_IDXSET_INVALID then
            some { u := u, data := data1, consulted := [fake] }
          else
            match core.sink_by_index n.paidx with
            | some sink =>
              some { u := u, data := (pa_sink_input_new_data_set_sink data1 sink).1,
                     consulted := [fake] }
            | none => some { u := u, data := data1, consulted := [fake] }

/-! ## Notions used in the statements about card and stream events -/

/-- The nodes of one profile of a bluetooth card with identifier `cid`, as key
and direction: an output node for a profile with sinks, an input node for a
profile with sources. The texts are as `snprintf` leaves them in the buffers
`paname` and `key`. -/
def bluetooth_profile_nodes (cid : String) (p : pa_card_profile) :
    List (String × mir_direction) :=
  (if p.n_sinks > 0 then
    [(snprintf (MAX_NAME_LENGTH + 1)
        (snprintf (MAX_NAME_LENGTH + 1) ("bluez_sink." ++ cid) ++ "@" ++ p.name), mir_output)]
   else []) ++
  (if p.n_sources > 0 then
    [(snprintf (MAX_NAME_LENGTH + 1)
        (snprintf (MAX_NAME_LENGTH + 1) ("bluez_source." ++ cid) ++ "@" ++ p.name), mir_input)]
   else [])

/-- The nodes of a bluetooth card with identifier `cid`, over all its profiles. -/
def bluetooth_nodes (card : pa_card) (cid : String) : List (String × mir_direction) :=
  card.profiles.flatMap (bluetooth_profile_nodes cid)

/-- A sequence of `create_node` calls, one for each builder data in turn. -/
def create_all : List mir_node → userdata → userdata
  | [], u => u
  | d :: ds, u => create_all ds (create_node u d).1

/-- The module state apart from the allocated records. -/
def userdata.frame (u : userdata) : userdata :=
  { u with heap := [] }

/-! ## Deferred callbacks and the events of the module -/

/-- The PulseAudio function `pa_idxset_get_by_index` on `core->cards`. -/
def pa_core.card_by_index (core : pa_core) (index : Nat) : Option pa_card :=
  core.cards.find? (fun c => c.index = index)

/-- The value `INT_MAX` of a 32-bit `int`. -/
def INT_MAX : Nat := 2 ^ 31 - 1

/-- The condition `(x->card) && x->card->index == card->index` of the two loops
of `card_check_cb`. -/
def card_is (card : Option pa_card) (index : Nat) : Bool :=
  match card with
  | some c => c.index = index
  | none => false

/-- The function `card_check_cb`, fired with the card index that
`schedule_card_check` has recorded. Both loops count into `n_sink`, and
`n_source` stays 0. The counters are of type `int`: counting beyond `INT_MAX`
is undefined (`none`). -/
def card_check_cb (core : pa_core) (index : Nat) (u : userdata) : Option userdata :=
  match core.card_by_index index with
  | none => some u
  | some card =>
    let n_sink0 : Nat :=
      core.sinks.foldl (fun n sink => if card_is sink.card card.index then n + 1 else n) 0
    let n_sink : Nat :=
      core.sources.foldl (fun n source => if card_is source.card card.index then n + 1 else n)
        n_sink0
    let n_source : Nat := 0
    if n_sink > INT_MAX then none
    else if n_sink ≠ 0 ∨ n_source ≠ 0 then some u
    else some (mir_router_make_routing u)

/-- The callback `card_check_cb` fired a number of times in a row. -/
def card_check_repeated (core : pa_core) (index : Nat) : Nat → userdata → Option userdata
  | 0, u => some u
  | n + 1, u =>
    match card_check_cb core index u with
    | none => none
    | some u1 => card_check_repeated core index n u1

/-- An event that the module hands to discover.c and that may write to the
registry. -/
inductive discover_event where
  | add_card (card : pa_card)
  | remove_card (card : pa_card)
  | profile_changed (card : pa_card)
  | add_sink (sink : pa_sink) (route : Bool)
  | remove_sink (sink : pa_sink)
  | add_source (source : pa_source)
  | remove_source (source : pa_source)
  | add_sink_input (sinp : pa_sink_input)
  | remove_sink_input (sinp : pa_sink_input)
  deriving DecidableEq, Repr

/-- The state after the handler of an event, `none` if the handler does not
return. -/
def discover_event.handle (H : node_h) (u : userdata) : discover_event → Option userdata
  | discover_event.add_card card => pa_discover_add_card u card
  | discover_event.remove_card card => pa_discover_remove_card u card
  | discover_event.profile_changed card => pa_discover_profile_changed u card
  | discover_event.add_sink sink route => pa_discover_add_sink u sink route
  | discover_event.remove_sink sink => pa_discover_remove_sink u sink
  | discover_event.add_source source => pa_discover_add_source u source
  | discover_event.remove_source source => pa_discover_remove_source u source
  | discover_event.add_sink_input sinp => (pa_discover_add_sink_input H u sinp).map (fun r => r.1)
  | discover_event.remove_sink_input sinp => pa_discover_remove_sink_input u sinp

/-- The state after a sequence of events, `none` if a handler does not return. -/
def handle_discover_events (H : node_h) : userdata → List discover_event → Option userdata
  | u, [] => some u
  | u, ev :: rest =>
    match ev.handle H u with
    | none => none
    | some u1 => handle_discover_events H u1 rest

/-- The number of live sinks and sources of the server that are attached to the
card with an index. -/
def attached_count (core : pa_core) (index : Nat) : Nat :=
  (core.sinks.filter (fun s => card_is s.card index)).length +
  (core.sources.filter (fun s => card_is s.card index)).length

/-- Type and location that `classify_node_by_card` computes from a fresh entity
(type unknown, location unknown, empty display name) of a direction. -/
def fresh_classification (card : pa_card) (direction : mir_direction)
    (prof : Option pa_card_profile) (port : Option pa_device_port) :
    Option (mir_node_type × mir_location) :=
  (classify_node_by_card { mir_node_zero with direction := direction, amname := some "" }
    card prof port).map (fun d => (d.type, d.location))

/-- Type and location of the node registered under a key. -/
def node_classification (u : userdata) (key : String) : Option (mir_node_type × mir_location) :=
  ((pa_discover_find_node u (some key)).bind u.deref).map (fun n => (n.type, n.location))

/-- The availability flag of the node registered under a key. -/
def node_available (u : userdata) (key : String) : Option Bool :=
  ((pa_discover_find_node u (some key)).bind u.deref).map (fun n => n.available)

/-- Every record of `u` is still allocated in `u1`, under its key, and is
unavailable there if it was unavailable in `u`. -/
def node_kept (u u1 : userdata) : Prop :=
  ∀ p n, u.deref p = some n →
    ∃ n1, u1.deref p = some n1 ∧ n1.key = n.key ∧ (n.available = false → n1.available = false)

/-- Every record of `u1` is a record of `u`, unchanged. -/
def heap_shrinks (u u1 : userdata) : Prop :=
  ∀ p, u1.deref p = u.deref p ∨ u1.deref p = none

/-- Every record of `u` is released in `u1`, or is still allocated under its
key and unavailable there if it was unavailable in `u`. -/
def no_revival (u u1 : userdata) : Prop :=
  ∀ p n, u.deref p = some n →
    u1.deref p = none ∨
    ∃ n1, u1.deref p = some n1 ∧ n1.key = n.key ∧ (n.available = false → n1.available = false)

/-- Whether the record at an address is allocated in every state that a
sequence of events runs through, the first and the last included. -/
def allocated_along (H : node_h) (p : Nat) : userdata → List discover_event → Bool
  | u, [] => (u.deref p).isSome
  | u, ev :: rest =>
    (u.deref p).isSome &&
    match ev.handle H u with
    | none => false
    | some u1 => allocated_along H p u1 rest

/-- The body of the profile loop of `handle_udev_loaded_card` from the
statement `data->pacard.profile = prof->name` on, for given sink and source
targets: the two loops that call `handle_card_ports` for each target. -/
def ingest_targets (card : pa_card) (prof : pa_card_profile) (cardid : String)
    (sinks sources : List String) (u : userdata) (data : mir_node) :
    Option (userdata × mir_node) :=
  let d0 : mir_node := { data with pacard := { data.pacard with profile := some prof.name } }
  let d1 : mir_node :=
    { d0 with direction := mir_output, channels := prof.max_sink_channels }
  match handle_card_targets card prof "alsa_output." cardid sinks u d1 with
  | none => none
  | some (u1, d2) =>
    let d3 : mir_node :=
      { d2 with direction := mir_input, channels := prof.max_source_channels }
    handle_card_targets card prof "alsa_input." cardid sources u1 d3

/-! ## Concrete states and inputs used in the examples -/

/-- A node record with key `k`, otherwise zeroed, with an empty display name. -/
def example_node (k : String) : mir_node :=
  { mir_node_zero with key := k, paname := k, amname := some "" }

/-- A registry in which two allocated records carry the key `"k"` and the
by-key index holds the first of them. -/
def drifted_registry : userdata :=
  { pa_discover_init with
    discover := { pa_discover_init.discover with byname := [("k", 1)] },
    heap := [(1, example_node "k"), (2, example_node "k")] }

/-- An output entity as the card scan passes it to the classifier. -/
def example_output : mir_node :=
  { mir_node_zero with key := "k", paname := "k", amname := some "", direction := mir_output }

/-- A bluetooth headset card. -/
def example_bluetooth_headset : pa_card :=
  { index := 3, name := "bluez_card.X",
    proplist := [("device.bus", "bluetooth"), ("device.form_factor", "headset")],
    profiles := [], active_profile := none, ports := none }

/-- The profile `a2dp` with one sink. -/
def example_a2dp : pa_card_profile :=
  { name := "a2dp", n_sinks := 1, n_sources := 0, max_sink_channels := 2,
    max_source_channels := 0 }

/-- The profile `hsp` with one sink and one source. -/
def example_hsp : pa_card_profile :=
  { name := "hsp", n_sinks := 1, n_sources := 1, max_sink_channels := 1,
    max_source_channels := 1 }

/-- An output port named `Headphone Jack`. -/
def example_headphone_port : pa_device_port :=
  { name := "Headphone Jack", description := some "Headphones", profiles := none,
    is_input := false, is_output := true, available := PA_PORT_AVAILABLE_UNKNOWN }

/-- A card on the usb bus without a form factor. -/
def example_usb_card : pa_card :=
  { index := 4, name := "alsa_card.usb", proplist := [("device.bus", "usb")],
    profiles := [], active_profile := none, ports := none }

/-- A card on the pci bus without a form factor. -/
def example_pci_card : pa_card :=
  { index := 5, name := "alsa_card.pci", proplist := [("device.bus", "pci")],
    profiles := [], active_profile := none, ports := none }

/-- An ALSA card found by udev, without ports, with two profiles of which
the first (an analog stereo duplex) is active. -/
def example_alsa_card : pa_card :=
  { index := 7, name := "alsa_card.X",
    proplist := [("device.bus", "pci"), ("module-udev-detect.discovered", "1")],
    profiles :=
      [{ name := "output:analog-stereo+input:analog-stereo", n_sinks := 1, n_sources := 1,
         max_sink_channels := 2, max_source_channels := 2 },
       { name := "output:analog-stereo+input:analog-mono", n_sinks := 1, n_sources := 1,
         max_sink_channels := 2, max_source_channels := 1 }],
    active_profile :=
      some { name := "output:analog-stereo+input:analog-stereo", n_sinks := 1, n_sources := 1,
             max_sink_channels := 2, max_source_channels := 2 },
    ports := none }

/-- The same card after its active profile has become the second profile. -/
def example_alsa_card_switched : pa_card :=
  { example_alsa_card with
    active_profile :=
      some { name := "output:analog-stereo+input:analog-mono", n_sinks := 1, n_sources := 1,
             max_sink_channels := 2, max_source_channels := 1 } }

/-- A bluetooth card with the profiles `a2dp` (active) and `hsp`. -/
def example_bluetooth_card : pa_card :=
  { index := 3, name := "bluez_card.X",
    proplist := [("device.bus", "bluetooth"), ("device.form_factor", "headset")],
    profiles := [example_a2dp, example_hsp], active_profile := some example_a2dp,
    ports := none }

/-- The sink of the bluetooth card under its active profile. -/
def example_bluetooth_sink : pa_sink :=
  { index := 11, name := "bluez_sink.X", card := some example_bluetooth_card,
    active_port := none, channels := 2 }

/-- The registry after the ALSA example card has been added under its first
profile. -/
def example_after_add : userdata :=
  (pa_discover_add_card pa_discover_init example_alsa_card).getD pa_discover_init

/-- The registry after the ALSA example card has been added under its first
profile and has then switched to its second profile. -/
def example_after_switch : userdata :=
  (handle_card_events pa_discover_init
    [card_event.add_card example_alsa_card,
     card_event.profile_changed example_alsa_card_switched]).getD pa_discover_init

/-- The registry after the bluetooth example card has been added and its sink
has appeared. -/
def example_bluetooth_bound : userdata :=
  ((pa_discover_add_card pa_discover_init example_bluetooth_card).bind
    (fun u => pa_discover_add_sink u example_bluetooth_sink true)).getD pa_discover_init

/-- A pci card whose form factor is none of the recognised values. -/
def example_tv_card : pa_card :=
  { index := 6, name := "alsa_card.tv",
    proplist := [("device.bus", "pci"), ("device.form_factor", "tv")],
    profiles := [], active_profile := none, ports := none }

/-- A handset card. -/
def example_handset_card : pa_card :=
  { index := 8, name := "alsa_card.handset",
    proplist := [("device.bus", "usb"), ("device.form_factor", "handset")],
    profiles := [], active_profile := none, ports := none }

/-! ## Concrete cards with ports and with odd profile names -/

/-- An output port that lists no profile (`profiles` is NULL). -/
def example_free_port : pa_device_port :=
  { name := "analog-output", description := some "Analog Output", profiles := none,
    is_input := false, is_output := true, available := PA_PORT_AVAILABLE_UNKNOWN }

/-- The profile `output:analog-stereo` with one stereo sink. -/
def example_stereo : pa_card_profile :=
  { name := "output:analog-stereo", n_sinks := 1, n_sources := 0, max_sink_channels := 2,
    max_source_channels := 0 }

/-- An ALSA card found by udev whose only port lists no profile. -/
def example_free_port_card : pa_card :=
  { index := 9, name := "alsa_card.X",
    proplist := [("device.bus", "pci"), ("module-udev-detect.discovered", "1")],
    profiles := [example_stereo], active_profile := some example_stereo,
    ports := some [example_free_port] }

/-- The same card with the port listing the profile. -/
def example_listed_port_card : pa_card :=
  { example_free_port_card with
    ports := some [{ example_free_port with profiles := some ["output:analog-stereo"] }] }

/-- An ALSA card found by udev whose active profile has a second segment that
is neither an output nor an input segment. -/
def example_bogus_segment_card : pa_card :=
  { index := 10, name := "alsa_card.X",
    proplist := [("device.bus", "pci"), ("module-udev-detect.discovered", "1")],
    profiles :=
      [{ name := "output:analog-stereo+bogus", n_sinks := 1, n_sources := 0,
         max_sink_channels := 2, max_source_channels := 0 }],
    active_profile :=
      some { name := "output:analog-stereo+bogus", n_sinks := 1, n_sources := 0,
             max_sink_channels := 2, max_source_channels := 0 },
    ports := none }

/-- An ALSA card found by udev whose active profile has five output segments. -/
def example_five_outputs_card : pa_card :=
  { index := 10, name := "alsa_card.X",
    proplist := [("device.bus", "pci"), ("module-udev-detect.discovered", "1")],
    profiles :=
      [{ name := "output:a+output:b+output:c+output:d+output:e", n_sinks := 5,
         n_sources := 0, max_sink_channels := 2, max_source_channels := 0 }],
    active_profile :=
      some { name := "output:a+output:b+output:c+output:d+output:e", n_sinks := 5,
             n_sources := 0, max_sink_channels := 2, max_source_channels := 0 },
    ports := none }

/-- A profile whose name starts with neither `output:` nor `input:`. -/
def example_bogus : pa_card_profile :=
  { name := "bogus+output:analog-stereo", n_sinks := 1, n_sources := 0,
    max_sink_channels := 2, max_source_channels := 0 }

/-- The builder data with which `handle_udev_loaded_card` calls
`handle_card_ports` for the sink target of the profile `output:analog-stereo`
of the card `alsa_card.X` under the stamp 1. -/
def example_builder : mir_node :=
  { mir_node_zero with
    visible := true, implement := mir_device, paidx := PA_IDXSET_INVALID, stamp := 1,
    amname := some "", paname := "alsa_output.X.analog-stereo", direction := mir_output,
    channels := 2, pacard := { index := 9, profile := some "output:analog-stereo" } }

/-! ## Concrete cards and streams for the event handlers -/

/-- A card on a bus that is none of pci, usb and bluetooth, found by udev and
named like an ALSA card, with one stereo output profile active. -/
def example_firewire_card : pa_card :=
  { index := 12, name := "alsa_card.X",
    proplist := [("device.bus", "firewire"), ("module-udev-detect.discovered", "1")],
    profiles := [example_stereo], active_profile := some example_stereo, ports := none }

/-- A pci card that was loaded statically (not found by udev). -/
def example_static_card : pa_card :=
  { index := 13, name := "alsa_card.X", proplist := [("device.bus", "pci")],
    profiles := [example_stereo], active_profile := some example_stereo, ports := none }

/-- The profile `off` of a bluetooth card, without sinks and sources. -/
def example_off : pa_card_profile :=
  { name := "off", n_sinks := 0, n_sources := 0, max_sink_channels := 0,
    max_source_channels := 0 }

/-- The bluetooth example card after it has switched to the profile `off`. -/
def example_bluetooth_card_off : pa_card :=
  { example_bluetooth_card with
    profiles := [example_a2dp, example_hsp, example_off], active_profile := some example_off }

/-- The registry after the bluetooth example card has been added. -/
def example_bluetooth_added : userdata :=
  (pa_discover_add_card pa_discover_init example_bluetooth_card).getD pa_discover_init

/-- A numbering of the node types for the examples: the unknown type is 0, the
application classes are 1 to 5, the device types start at 128. -/
def example_node_h : node_h :=
  { value := fun t =>
      match t with
      | mir_node_type_unknown => 0
      | mir_player => 1
      | mir_game => 2
      | mir_browser => 3
      | mir_phone => 4
      | mir_event => 5
      | mir_null => 128
      | mir_speakers => 129
      | mir_front_speakers => 130
      | mir_rear_speakers => 131
      | mir_microphone => 132
      | mir_jack => 133
      | mir_spdif => 134
      | mir_hdmi => 135
      | mir_wired_headset => 136
      | mir_wired_headphone => 137
      | mir_usb_headset => 138
      | mir_usb_headphone => 139
      | mir_bluetooth_sco => 140
      | mir_bluetooth_a2dp => 141,
    of_value := fun n =>
      match n with
      | 1 => mir_player
      | 2 => mir_game
      | 3 => mir_browser
      | 4 => mir_phone
      | 5 => mir_event
      | _ => mir_node_type_unknown,
    mir_application_class_begin := 1,
    mir_application_class_end := 6 }

/-- A stream with the role "music", not yet stamped with a routing class. -/
def example_music_stream : pa_sink_input :=
  { index := 7, name := "song", proplist := [("media.role", "music")], sink := none,
    channels := 2 }

/-- The data of a new stream with the role "game" for which no sink is requested. -/
def example_new_game : pa_sink_input_new_data :=
  { proplist := [("media.role", "game")], sink := none, channels := 2, unsupported := [] }

/-- The data of a new stream without role and binary for which the sink 11 is
requested. -/
def example_new_plain : pa_sink_input_new_data :=
  { proplist := [], sink := some 11, channels := 2, unsupported := [] }

/-- The data of a new stream with an unrecognised role for which no sink is
requested. -/
def example_new_odd_role : pa_sink_input_new_data :=
  { proplist := [("media.role", "podcast")], sink := none, channels := 2, unsupported := [] }

/-- A server with the sink of the bluetooth example card. -/
def example_core : pa_core :=
  { cards := [example_bluetooth_card], sinks := [example_bluetooth_sink], sources := [] }

/-- A router that sends every candidate to the node at address 1. -/
def example_router : mir_node → Option Nat := fun _ => some 1

/-- The registry with the nodes of the bluetooth example card while a switch to
the profile a2dp is in flight (`state.profile` is set). -/
def example_bluetooth_switching : userdata :=
  { example_bluetooth_added with state_profile := some "a2dp" }

/-! ## Concrete states for the null sink, the classifier and the availability flag -/

/-- The null sink of the module, a sink without card. -/
def example_null_sink : pa_sink :=
  { index := 0, name := "null", card := none, active_port := none, channels := 2 }

/-- The registry of a freshly loaded module after its null sink has appeared. -/
def example_with_null_sink : userdata :=
  (pa_discover_add_sink { pa_discover_init with nullsink := some 0 } example_null_sink
    false).getD pa_discover_init

/-- The first card of the server (index 0), an ALSA card found by udev. -/
def example_card_zero : pa_card :=
  { example_alsa_card with index := 0 }

/-- A bluetooth car kit with the profile `hsp` (one sink, one source). -/
def example_car_kit : pa_card :=
  { index := 14, name := "bluez_card.Y",
    proplist := [("device.bus", "bluetooth"), ("device.form_factor", "car")],
    profiles := [example_hsp], active_profile := some example_hsp, ports := none }

/-- An output port for the speakers that lists the duplex profile. -/
def example_speaker_port : pa_device_port :=
  { name := "analog-output-speaker", description := some "Speakers",
    profiles := some ["output:analog-stereo+input:analog-stereo"],
    is_input := false, is_output := true, available := PA_PORT_AVAILABLE_UNKNOWN }

/-- The ALSA example card with the speaker port as its only port, and no
form factor. -/
def example_speaker_port_card : pa_card :=
  { example_alsa_card with index := 15, ports := some [example_speaker_port] }

/-- A usb card with the form factor written `Speaker`. -/
def example_speaker_card : pa_card :=
  { index := 16, name := "alsa_card.speaker",
    proplist := [("device.bus", "usb"), ("device.form_factor", "Speaker")],
    profiles := [], active_profile := none, ports := none }

/-- The sink of the ALSA example card under its first profile. -/
def example_alsa_sink : pa_sink :=
  { index := 21, name := "alsa_output.X.analog-stereo", card := some example_alsa_card,
    active_port := none, channels := 2 }

/-- The events: the ALSA example card is added and its sink appears. -/
def example_sink_up : List discover_event :=
  [discover_event.add_card example_alsa_card, discover_event.add_sink example_alsa_sink true]

/-- The registry after the ALSA example card was added, its sink appeared and
then disappeared. -/
def example_sink_down : userdata :=
  (handle_discover_events example_node_h pa_discover_init
    (example_sink_up ++ [discover_event.remove_sink example_alsa_sink])).getD pa_discover_init

/-- The events: the sink appears again, the card is scanned again, and the
card reports a profile change under the profile it had. -/
def example_rescan : List discover_event :=
  [discover_event.add_sink example_alsa_sink true, discover_event.add_card example_alsa_card,
   discover_event.profile_changed example_alsa_card]

theorem pa_hashmap_get_append {κ ν : Type} [DecidableEq κ] (h : List (κ × ν)) (k key : κ)
    (v : ν) :
    pa_hashmap_get (h ++ [(k, v)]) key =
      match pa_hashmap_get h key with
      | some x => some x
      | none => if k = key then some v else none := by
  induction h with
  | nil => simp [pa_hashmap_get]
  | cons e rest ih =>
    obtain ⟨k0, v0⟩ := e
    by_cases hk : k0 = key
    · simp [pa_hashmap_get, hk]
    · simp [pa_hashmap_get, hk, ih]

theorem pa_hashmap_get_append_some {κ ν : Type} [DecidableEq κ] (h : List (κ × ν)) (k key : κ)
    (v x : ν) (hg : pa_hashmap_get h key = some x) :
    pa_hashmap_get (h ++ [(k, v)]) key = some x := by
  rw [pa_hashmap_get_append, hg]

theorem pa_hashmap_get_append_none {κ ν : Type} [DecidableEq κ] (h : List (κ × ν)) (k key : κ)
    (v : ν) (hg : pa_hashmap_get h key = none) :
    pa_hashmap_get (h ++ [(k, v)]) key = if k = key then some v else none := by
  rw [pa_hashmap_get_append, hg]

theorem pa_hashmap_get_put {κ ν : Type} [DecidableEq κ] (h : List (κ × ν)) (k key : κ)
    (v : ν) :
    pa_hashmap_get (pa_hashmap_put h k v) key =
      match pa_hashmap_get h key with
      | some x => some x
      | none => if k = key then some v else none := by
  unfold pa_hashmap_put
  cases hk : pa_hashmap_get h k with
  | none => simp [pa_hashmap_get_append]
  | some x =>
    by_cases e : k = key
    · subst e; simp [hk]
    · cases pa_hashmap_get h key <;> simp [e]

theorem pa_hashmap_get_remove {κ ν : Type} [DecidableEq κ] (h : List (κ × ν)) (k key : κ) :
    pa_hashmap_get (pa_hashmap_remove h k) key =
      if key = k then none else pa_hashmap_get h key := by
  induction h with
  | nil => simp [pa_hashmap_remove, pa_hashmap_get]
  | cons e rest ih =>
    obtain ⟨k0, v0⟩ := e
    unfold pa_hashmap_remove at ih ⊢
    by_cases h0 : k0 = k
    · subst h0
      by_cases h1 : key = k0
      · subst h1; simpa using ih
      · have h2 : ¬ k0 = key := fun e => h1 e.symm
        simpa [pa_hashmap_get, h1, h2] using ih
    · by_cases h1 : k0 = key
      · subst h1; simp [pa_hashmap_get, h0]
      · simp [pa_hashmap_get, h0, h1, List.filter_cons]
        simpa using ih

theorem pa_hashmap_get_none_iff {κ ν : Type} [DecidableEq κ] (h : List (κ × ν)) (key : κ) :
    pa_hashmap_get h key = none ↔ ∀ e ∈ h, e.1 ≠ key := by
  induction h with
  | nil => simp [pa_hashmap_get]
  | cons e rest ih =>
    obtain ⟨k0, v0⟩ := e
    by_cases h0 : k0 = key
    · simp [pa_hashmap_get, h0]
    · simp [pa_hashmap_get, h0, ih]

theorem pa_hashmap_get_mem {κ ν : Type} [DecidableEq κ] (h : List (κ × ν)) (key : κ) (v : ν)
    (hg : pa_hashmap_get h key = some v) : (key, v) ∈ h := by
  induction h with
  | nil => simp [pa_hashmap_get] at hg
  | cons e rest ih =>
    obtain ⟨k0, v0⟩ := e
    by_cases h0 : k0 = key
    · subst h0
      simp [pa_hashmap_get] at hg
      simp [hg]
    · simp [pa_hashmap_get, h0] at hg
      exact List.mem_cons_of_mem _ (ih hg)

theorem pa_hashmap_mem_get {κ ν : Type} [DecidableEq κ] (h : List (κ × ν)) (key : κ) (v : ν)
    (hn : (h.map (fun e => e.1)).Nodup) (hm : (key, v) ∈ h) :
    pa_hashmap_get h key = some v := by
  induction h with
  | nil => simp at hm
  | cons e rest ih =>
    obtain ⟨k0, v0⟩ := e
    simp only [List.map_cons, List.nodup_cons] at hn
    rcases List.mem_cons.mp hm with heq | hin
    · cases heq
      simp [pa_hashmap_get]
    · have hne : k0 ≠ key := by
        intro e
        apply hn.1
        subst e
        exact List.mem_map.mpr ⟨(k0, v), hin, rfl⟩
      simp [pa_hashmap_get, hne, ih hn.2 hin]

theorem pa_hashmap_remove_absent {κ ν : Type} [DecidableEq κ] (h : List (κ × ν)) (key : κ)
    (hg : pa_hashmap_get h key = none) : pa_hashmap_remove h key = h := by
  unfold pa_hashmap_remove
  rw [List.filter_eq_self]
  intro e he
  simpa using (pa_hashmap_get_none_iff h key).mp hg e he

theorem pa_hashmap_remove_subset {κ ν : Type} [DecidableEq κ] (h : List (κ × ν)) (key : κ)
    (e : κ × ν) (he : e ∈ pa_hashmap_remove h key) : e ∈ h ∧ e.1 ≠ key := by
  unfold pa_hashmap_remove at he
  simpa using List.mem_filter.mp he

theorem pa_hashmap_remove_nodup {κ ν : Type} [DecidableEq κ] (h : List (κ × ν)) (key : κ)
    (hn : (h.map (fun e => e.1)).Nodup) :
    ((pa_hashmap_remove h key).map (fun e => e.1)).Nodup := by
  unfold pa_hashmap_remove
  exact (List.filter_sublist h).map _ |>.nodup hn

theorem pa_hashmap_put_nodup {κ ν : Type} [DecidableEq κ] (h : List (κ × ν)) (key : κ) (v : ν)
    (hn : (h.map (fun e => e.1)).Nodup) :
    ((pa_hashmap_put h key v).map (fun e => e.1)).Nodup := by
  unfold pa_hashmap_put
  cases hg : pa_hashmap_get h key with
  | some x => simpa using hn
  | none =>
    simp only [List.map_append, List.map_cons, List.map_nil]
    rw [List.nodup_append]
    refine ⟨hn, by simp, ?_⟩
    intro a ha hb
    simp only [List.mem_singleton] at hb
    subst hb
    obtain ⟨e, he, rfl⟩ := List.mem_map.mp ha
    exact (pa_hashmap_get_none_iff h e.1).mp hg e he rfl

/-- The entries stored under one key. -/
theorem pa_hashmap_count_key {κ ν : Type} [DecidableEq κ] (h : List (κ × ν)) (key : κ) (v : ν)
    (hn : (h.map (fun e => e.1)).Nodup) (hg : pa_hashmap_get h key = some v) :
    (h.filter (fun e => decide (e.1 = key))).length = 1 := by
  induction h with
  | nil => simp [pa_hashmap_get] at hg
  | cons e rest ih =>
    obtain ⟨k0, v0⟩ := e
    simp only [List.map_cons, List.nodup_cons] at hn
    by_cases h0 : k0 = key
    · subst h0
      have : rest.filter (fun e => decide (e.1 = k0)) = [] := by
        rw [List.filter_eq_nil_iff]
        intro e he
        simp only [decide_eq_true_eq]
        intro e1
        exact hn.1 (List.mem_map.mpr ⟨e, he, e1⟩)
      simp [List.filter_cons, this]
    · simp only [pa_hashmap_get, h0, if_false] at hg
      simp [List.filter_cons, h0, ih hn.2 hg]

/-! ## The heap -/

theorem fresh_address_gt (heap : List (Nat × mir_node)) (e : Nat × mir_node) (he : e ∈ heap) :
    e.1 < fresh_address heap := by
  unfold fresh_address
  induction heap with
  | nil => simp at he
  | cons x rest ih =>
    simp only [List.map_cons, List.foldr_cons]
    rcases List.mem_cons.mp he with h | h
    · subst h; omega
    · have := ih h; omega

theorem fresh_address_unused (heap : List (Nat × mir_node)) :
    pa_hashmap_get heap (fresh_address heap) = none := by
  rw [pa_hashmap_get_none_iff]
  intro e he h
  have := fresh_address_gt heap e he
  omega

theorem fresh_address_pos (heap : List (Nat × mir_node)) : 0 < fresh_address heap := by
  unfold fresh_address; omega

theorem mir_node_new_key (data : mir_node) : (mir_node_new data).key = data.key := by
  unfold mir_node_new; split <;> rfl

theorem deref_store (u : userdata) (p q : Nat) (n : mir_node) :
    (u.store p n).deref q = if q = p then (u.deref p).map (fun _ => n) else u.deref q := by
  unfold userdata.store userdata.deref
  simp only
  induction u.heap with
  | nil => simp [pa_hashmap_get]
  | cons e rest ih =>
    obtain ⟨a, m⟩ := e
    simp only [List.map_cons, pa_hashmap_get]
    by_cases h2 : q = p
    · subst h2
      by_cases h1 : a = q
      · simp [h1]
      · simpa [h1] using ih
    · by_cases h3 : a = q
      · subst h3; simp [h2]
      · simpa [h3, h2] using ih

/-! ## create_node and destroy_node -/

theorem create_node_found (u : userdata) (data : mir_node) (node : Nat)
    (h : pa_hashmap_get u.discover.byname data.key = some node) :
    create_node u data = (u, node, false) := by
  simp [create_node, h]

theorem create_node_fresh (u : userdata) (data : mir_node)
    (h : pa_hashmap_get u.discover.byname data.key = none) :
    create_node u data =
      ({ u with
          discover := { u.discover with
            byname := u.discover.byname ++ [(data.key, fresh_address u.heap)] },
          heap := u.heap ++ [(fresh_address u.heap, mir_node_new data)],
          audiomgr := u.audiomgr ++ [am_call.register (fresh_address u.heap)] },
        fresh_address u.heap, true) := by
  simp [create_node, h, mir_node_create, userdata.set_byname, pa_hashmap_put,
    mir_node_new_key, pa_audiomgr_register_node]

/-! ## Classifier lemmas -/

theorem strcasecmp_eq_of_eq (f x y : String) (h : strcasecmp_eq f x = true) :
    strcasecmp_eq f y = strcasecmp_eq x y := by
  unfold strcasecmp_eq at *
  simp only [beq_iff_eq] at h
  rw [h]

theorem classify_privacy_type (d : mir_node) : (classify_privacy d).type = d.type := by
  unfold classify_privacy
  split
  · rfl
  · split <;> rfl

theorem classify_privacy_location (d : mir_node) :
    (classify_privacy d).location = d.location := by
  unfold classify_privacy
  split
  · rfl
  · split <;> rfl

theorem classify_amname_type (d e : mir_node) (port : Option pa_device_port)
    (h : classify_amname d port = some e) : e.type = d.type ∧ e.location = d.location := by
  unfold classify_amname at h
  split at h
  · cases h
  · split at h
    · split at h
      · cases h; exact ⟨rfl, rfl⟩
      · split at h
        · split at h <;> (cases h; exact ⟨rfl, rfl⟩)
        · cases h; exact ⟨rfl, rfl⟩
    · cases h; exact ⟨rfl, rfl⟩

theorem classify_amname_isSome (d : mir_node) (port : Option pa_device_port) (a : String)
    (h : d.amname = some a) : ∃ e, classify_amname d port = some e := by
  unfold classify_amname
  rw [h]
  simp only
  split
  · split
    · exact ⟨_, rfl⟩
    · split
      · split <;> exact ⟨_, rfl⟩
      · exact ⟨_, rfl⟩
  · exact ⟨_, rfl⟩

theorem guess_type_eq_rules (data : mir_node) (pnam : String) (pdesc : Option String) :
    (guess_device_node_type_and_name data pnam pdesc).type =
      guess_rules_type data.direction pnam := by
  unfold guess_device_node_type_and_name guess_rules_type guess_rules
  simp only [List.find?, guess_rule_matches]
  cases hd : data.direction <;>
  cases h1 : strcasestr pnam "headphone" <;>
  cases h2 : strcasestr pnam "headset" <;>
  cases h3 : strcasestr pnam "line" <;>
  cases h4 : strcasestr pnam "spdif" <;>
  cases h5 : strcasestr pnam "hdmi" <;>
  cases h6 : strcasestr pnam "microphone" <;>
  cases h7 : strcasestr pnam "analog-output" <;>
  cases h8 : strcasestr pnam "analog-input" <;>
  simp

/-! ## Consistency of the by-key index -/

theorem registry_ok_get (u : userdata) (h : registry_ok u) (k : String) (p : Nat)
    (hm : (k, p) ∈ u.discover.byname) : pa_hashmap_get u.discover.byname k = some p :=
  pa_hashmap_mem_get _ k p h.1 hm

theorem registry_ok_deref (u : userdata) (h : registry_ok u) (k : String) (p : Nat)
    (hg : pa_hashmap_get u.discover.byname k = some p) :
    ∃ n, u.deref p = some n ∧ n.key = k := by
  have hm := pa_hashmap_get_mem _ k p hg
  have := h.2 (k, p) hm
  simp only [Option.map_eq_some'] at this
  exact this

theorem registry_ok_inj (u : userdata) (h : registry_ok u) (k1 k2 : String) (p : Nat)
    (h1 : pa_hashmap_get u.discover.byname k1 = some p)
    (h2 : pa_hashmap_get u.discover.byname k2 = some p) : k1 = k2 := by
  obtain ⟨n1, hd1, hk1⟩ := registry_ok_deref u h k1 p h1
  obtain ⟨n2, hd2, hk2⟩ := registry_ok_deref u h k2 p h2
  rw [hd1] at hd2
  cases hd2
  rw [← hk1, ← hk2]

theorem registry_ok_cleared (u : userdata) : registry_ok u.cleared := by
  constructor
  · simp [userdata.cleared]
  · intro e he
    simp [userdata.cleared] at he

theorem registry_ok_init : registry_ok pa_discover_init := by decide

theorem find_store (u : userdata) (p : Nat) (n : mir_node) :
    (u.store p n).discover = u.discover := rfl

theorem registry_ok_store (u : userdata) (h : registry_ok u) (p : Nat) (n m : mir_node)
    (hd : u.deref p = some n) (hk : m.key = n.key) : registry_ok (u.store p m) := by
  refine ⟨h.1, ?_⟩
  intro e he
  rw [find_store] at he
  have := h.2 e he
  rw [deref_store]
  by_cases hp : e.2 = p
  · rw [hp] at this
    rw [hd] at this
    simp only [hp, if_true, hd, Option.map_some', hk]
    exact this
  · simp only [hp, if_false]
    exact this

theorem registry_ok_create (u : userdata) (h : registry_ok u) (d : mir_node) :
    registry_ok (create_node u d).1 := by
  cases hg : pa_hashmap_get u.discover.byname d.key with
  | some p => rw [create_node_found u d p hg]; exact h
  | none =>
    rw [create_node_fresh u d hg]
    constructor
    · have := pa_hashmap_put_nodup u.discover.byname d.key (fresh_address u.heap) h.1
      simpa [pa_hashmap_put, hg] using this
    · intro e he
      simp only [List.mem_append, List.mem_singleton] at he
      simp only [userdata.deref, pa_hashmap_get_append]
      rcases he with he | he
      · have := h.2 e he
        simp only [userdata.deref] at this
        cases hx : pa_hashmap_get u.heap e.2 with
        | none => rw [hx] at this; simp at this
        | some x => rw [hx] at this; simpa using this
      · subst he
        simp [fresh_address_unused, mir_node_new_key]

theorem create_or_refresh_found (u : userdata) (d n : mir_node) (p : Nat)
    (hg : pa_hashmap_get u.discover.byname d.key = some p) (hd : u.deref p = some n) :
    create_or_refresh_node u d = some (u.store p { n with stamp := d.stamp }) := by
  simp [create_or_refresh_node, create_node_found u d p hg, hd]

theorem create_or_refresh_fresh (u : userdata) (d : mir_node)
    (hg : pa_hashmap_get u.discover.byname d.key = none) :
    create_or_refresh_node u d = some (create_node u d).1 := by
  simp [create_or_refresh_node, create_node_fresh u d hg]

theorem registry_ok_create_or_refresh (u u1 : userdata) (h : registry_ok u) (d : mir_node)
    (hc : create_or_refresh_node u d = some u1) : registry_ok u1 := by
  cases hg : pa_hashmap_get u.discover.byname d.key with
  | some p =>
    obtain ⟨n, hd, -⟩ := registry_ok_deref u h d.key p hg
    rw [create_or_refresh_found u d n p hg hd] at hc
    cases hc
    exact registry_ok_store u h p n _ hd rfl
  | none =>
    rw [create_or_refresh_fresh u d hg] at hc
    cases hc
    exact registry_ok_create u h d

theorem create_or_refresh_total (u : userdata) (h : registry_ok u) (d : mir_node) :
    ∃ u1, create_or_refresh_node u d = some u1 := by
  cases hg : pa_hashmap_get u.discover.byname d.key with
  | some p =>
    obtain ⟨n, hd, -⟩ := registry_ok_deref u h d.key p hg
    exact ⟨_, create_or_refresh_found u d n p hg hd⟩
  | none => exact ⟨_, create_or_refresh_fresh u d hg⟩

/-! ## What the classifier leaves alone -/

theorem guess_same_identity (d : mir_node) (pnam : String) (pdesc : Option String) :
    same_identity d (guess_device_node_type_and_name d pnam pdesc) := by
  unfold guess_device_node_type_and_name same_identity
  repeat' split
  all_goals simp

theorem same_identity_refl (d : mir_node) : same_identity d d := by
  simp [same_identity]

theorem same_identity_trans (a b c : mir_node) (h1 : same_identity a b)
    (h2 : same_identity b c) : same_identity a c := by
  unfold same_identity at *
  obtain ⟨a1, a2, a3, a4, a5, a6, a7, a8, a9, a10, a11, a12, a13⟩ := h1
  obtain ⟨b1, b2, b3, b4, b5, b6, b7, b8, b9, b10, b11, b12, b13⟩ := h2
  exact ⟨b1.trans a1, b2.trans a2, b3.trans a3, b4.trans a4, b5.trans a5, b6.trans a6,
    b7.trans a7, b8.trans a8, b9.trans a9, b10.trans a10, b11.trans a11, b12.trans a12,
    b13.trans a13⟩

theorem classify_guess_same_identity (d e : mir_node) (bus : Option String)
    (port : Option pa_device_port) (h : classify_guess d bus port = some e) :
    same_identity d e := by
  unfold classify_guess at h
  split at h
  · cases h; exact same_identity_refl d
  · split at h
    · cases h
    · split at h
      · cases h; exact guess_same_identity d _ _
      · cases h; exact same_identity_refl d

theorem classify_form_same_identity (d e : mir_node) (bus form : Option String)
    (prof : Option pa_card_profile) (port : Option pa_device_port)
    (h : classify_form d bus form prof port = some e) : same_identity d e := by
  unfold classify_form at h
  split at h
  · split at h
    · exact same_identity_trans d _ e (by simp [same_identity])
        (classify_guess_same_identity _ e bus port h)
    · repeat' split at h
      all_goals (cases h; simp [same_identity])
  · exact classify_guess_same_identity d e bus port h

theorem classify_amname_same_identity (d e : mir_node) (port : Option pa_device_port)
    (h : classify_amname d port = some e) : same_identity d e := by
  unfold classify_amname at h
  repeat' split at h
  all_goals (cases h <;> simp [same_identity])

theorem classify_privacy_same_identity (d : mir_node) :
    same_identity d (classify_privacy d) := by
  unfold classify_privacy
  repeat' split
  all_goals simp [same_identity]

theorem classify_same_identity (d e : mir_node) (card : pa_card)
    (prof : Option pa_card_profile) (port : Option pa_device_port)
    (h : classify_node_by_card d card prof port = some e) : same_identity d e := by
  unfold classify_node_by_card at h
  simp only at h
  split at h
  · cases h
  · rename_i d1 h1
    split at h
    · cases h
    · rename_i d2 h2
      cases h
      exact same_identity_trans _ _ _ (classify_form_same_identity _ _ _ _ _ _ h1)
        (same_identity_trans _ _ _ (classify_amname_same_identity _ _ _ h2)
          (classify_privacy_same_identity d2))

/-! ## Two runs of the card scan

The scan functions touch the registry through `create_or_refresh_node` only, and
the data they pass on does not depend on the registry. A relation between two
states that one `create_or_refresh_node` step preserves is therefore preserved by
the whole scan. -/

theorem scan_data_classify (S idx : Nat) (d e : mir_node) (card : pa_card)
    (prof : Option pa_card_profile) (port : Option pa_device_port)
    (hd : scan_data S idx d) (h : classify_node_by_card d card prof port = some e) :
    scan_data S idx e := by
  have hs := classify_same_identity d e card prof port h
  unfold same_identity at hs
  unfold scan_data at *
  obtain ⟨-, -, h3, -, -, -, -, -, -, -, h11, -, h13⟩ := hs
  rw [h13, h3, h11]
  exact hd

theorem handle_card_ports_loop_sim (P : userdata → userdata → Prop) (S idx : Nat)
    (hstep : ∀ u e d e1, P u e → scan_data S idx d → create_or_refresh_node e d = some e1 →
      ∃ u1, create_or_refresh_node u d = some u1 ∧ P u1 e1)
    (card : pa_card) (prof : pa_card_profile) :
    ∀ (ports : List pa_device_port) (u e : userdata) (data : mir_node) (hp : Bool)
      (e1 : userdata) (d1 : mir_node) (hp1 : Bool),
      P u e → scan_data S idx data →
      handle_card_ports_loop card prof ports e data hp = some (e1, d1, hp1) →
      ∃ u1, handle_card_ports_loop card prof ports u data hp = some (u1, d1, hp1) ∧
        P u1 e1 ∧ scan_data S idx d1 := by
  intro ports
  induction ports with
  | nil =>
    intro u e data hp e1 d1 hp1 hP hD h
    simp only [handle_card_ports_loop, Option.some.injEq, Prod.mk.injEq] at h
    obtain ⟨rfl, rfl, rfl⟩ := h
    exact ⟨u, rfl, hP, hD⟩
  | cons port rest ih =>
    intro u e data hp e1 d1 hp1 hP hD h
    unfold handle_card_ports_loop at h ⊢
    by_cases hpart : port_participates port prof data.direction = true
    · simp only [hpart, if_true] at h ⊢
      cases hcl : classify_node_by_card
          { data with
            key := snprintf (MAX_NAME_LENGTH + 1) (data.paname ++ "@" ++ port.name),
            available := decide (port.available ≠ PA_PORT_AVAILABLE_NO),
            type := mir_node_type_unknown,
            amname := some "",
            paport := some port.name } card (some prof) (some port) with
      | none => rw [hcl] at h; cases h
      | some dc =>
        rw [hcl] at h
        simp only at h ⊢
        have hDc : scan_data S idx dc :=
          scan_data_classify S idx _ dc card _ _ (by exact hD) hcl
        cases hcr : create_or_refresh_node e dc with
        | none => rw [hcr] at h; cases h
        | some e2 =>
          rw [hcr] at h
          obtain ⟨u2, hu2, hP2⟩ := hstep u e dc e2 hP hDc hcr
          rw [hu2]
          exact ih u2 e2 dc true e1 d1 hp1 hP2 hDc h
    · simp only [hpart, if_false, Bool.false_eq_true] at h ⊢
      exact ih u e data hp e1 d1 hp1 hP hD h

theorem handle_card_ports_sim (P : userdata → userdata → Prop) (S idx : Nat)
    (hstep : ∀ u e d e1, P u e → scan_data S idx d → create_or_refresh_node e d = some e1 →
      ∃ u1, create_or_refresh_node u d = some u1 ∧ P u1 e1)
    (card : pa_card) (prof : pa_card_profile) (u e : userdata) (data : mir_node)
    (e1 : userdata) (d1 : mir_node) (hP : P u e) (hD : scan_data S idx data)
    (h : handle_card_ports e data card prof = some (e1, d1)) :
    ∃ u1, handle_card_ports u data card prof = some (u1, d1) ∧ P u1 e1 ∧
      scan_data S idx d1 := by
  unfold handle_card_ports at h ⊢
  cases ham : data.amname with
  | none => rw [ham] at h; cases h
  | some a =>
    rw [ham] at h
    simp only at h ⊢
    cases hl : handle_card_ports_loop card prof (card.ports.getD []) e data false with
    | none => rw [hl] at h; cases h
    | some r =>
      obtain ⟨e2, d2, hp2⟩ := r
      rw [hl] at h
      obtain ⟨u2, hu2, hP2, hD2⟩ :=
        handle_card_ports_loop_sim P S idx hstep card prof _ u e data false e2 d2 hp2 hP hD hl
      rw [hu2]
      simp only at h ⊢
      cases hp2 with
      | true =>
        simp only [if_true, Option.some.injEq, Prod.mk.injEq] at h ⊢
        obtain ⟨rfl, rfl⟩ := h
        exact ⟨u2, ⟨rfl, rfl⟩, hP2, hD2⟩
      | false =>
        simp only [Bool.false_eq_true, if_false] at h ⊢
        cases hcl : classify_node_by_card { d2 with key := d2.paname, available := true }
            card (some prof) none with
        | none => rw [hcl] at h; cases h
        | some d3 =>
          rw [hcl] at h
          simp only at h ⊢
          have hD3 : scan_data S idx d3 :=
            scan_data_classify S idx _ d3 card _ _ (by exact hD2) hcl
          cases hcr : create_or_refresh_node e2 d3 with
          | none => rw [hcr] at h; cases h
          | some e3 =>
            rw [hcr] at h
            obtain ⟨u3, hu3, hP3⟩ := hstep u2 e2 d3 e3 hP2 hD3 hcr
            rw [hu3]
            simp only [Option.some.injEq, Prod.mk.injEq] at h ⊢
            obtain ⟨rfl, rfl⟩ := h
            exact ⟨u3, ⟨rfl, rfl⟩, hP3, hD3⟩

theorem handle_card_targets_sim (P : userdata → userdata → Prop) (S idx : Nat)
    (hstep : ∀ u e d e1, P u e → scan_data S idx d → create_or_refresh_node e d = some e1 →
      ∃ u1, create_or_refresh_node u d = some u1 ∧ P u1 e1)
    (card : pa_card) (prof : pa_card_profile) (pfx cardid : String) :
    ∀ (targets : List String) (u e : userdata) (data : mir_node) (e1 : userdata)
      (d1 : mir_node),
      P u e → scan_data S idx data →
      handle_card_targets card prof pfx cardid targets e data = some (e1, d1) →
      ∃ u1, handle_card_targets card prof pfx cardid targets u data = some (u1, d1) ∧
        P u1 e1 ∧ scan_data S idx d1 := by
  intro targets
  induction targets with
  | nil =>
    intro u e data e1 d1 hP hD h
    simp only [handle_card_targets, Option.some.injEq, Prod.mk.injEq] at h
    obtain ⟨rfl, rfl⟩ := h
    exact ⟨u, rfl, hP, hD⟩
  | cons sid rest ih =>
    intro u e data e1 d1 hP hD h
    unfold handle_card_targets at h ⊢
    simp only at h ⊢
    cases hc : handle_card_ports e
        { data with paname := snprintf (MAX_NAME_LENGTH + 1) (pfx ++ cardid ++ "." ++ sid) }
        card prof with
    | none => rw [hc] at h; cases h
    | some r =>
      obtain ⟨e2, d2⟩ := r
      rw [hc] at h
      obtain ⟨u2, hu2, hP2, hD2⟩ :=
        handle_card_ports_sim P S idx hstep card prof u e _ e2 d2 hP (by exact hD) hc
      rw [hu2]
      exact ih u2 e2 d2 e1 d1 hP2 hD2 h

theorem handle_udev_profiles_sim (P : userdata → userdata → Prop) (S idx : Nat)
    (hstep : ∀ u e d e1, P u e → scan_data S idx d → create_or_refresh_node e d = some e1 →
      ∃ u1, create_or_refresh_node u d = some u1 ∧ P u1 e1)
    (hcfg : ∀ u e, P u e → ∀ a p, profile_skipped u.discover a p = profile_skipped e.discover a p)
    (card : pa_card) (cardid : String) :
    ∀ (profiles : List pa_card_profile) (u e : userdata) (data : mir_node) (e1 : userdata)
      (d1 : mir_node),
      P u e → data.stamp = S → data.implement = mir_device →
      handle_udev_profiles card cardid profiles e data = some (e1, d1) →
      data.pacard.index = idx →
      ∃ u1, handle_udev_profiles card cardid profiles u data = some (u1, d1) ∧
        P u1 e1 ∧ scan_data S idx d1 := by
  intro profiles
  induction profiles with
  | nil =>
    intro u e data e1 d1 hP hS hI h hidx
    simp only [handle_udev_profiles, Option.some.injEq, Prod.mk.injEq] at h
    obtain ⟨rfl, rfl⟩ := h
    exact ⟨u, rfl, hP, hS, hI, hidx⟩
  | cons prof rest ih =>
    intro u e data e1 d1 hP hS hI h hidx
    unfold handle_udev_profiles at h ⊢
    rw [hcfg u e hP]
    by_cases hskip : profile_skipped e.discover card.active_profile prof = true
    · simp only [hskip, if_true] at h ⊢
      exact ih u e data e1 d1 hP hS hI h hidx
    · simp only [hskip, if_false, Bool.false_eq_true] at h ⊢
      cases hc1 : handle_card_targets card prof "alsa_output." cardid
          (parse_profile_name prof (MAX_NAME_LENGTH + 1)).1 e
          { data with
            pacard := { data.pacard with profile := some prof.name },
            direction := mir_output, channels := prof.max_sink_channels } with
      | none => rw [hc1] at h; cases h
      | some r =>
        obtain ⟨e2, d2⟩ := r
        rw [hc1] at h
        obtain ⟨u2, hu2, hP2, hD2⟩ :=
          handle_card_targets_sim P S idx hstep card prof _ cardid _ u e _ e2 d2 hP
            (by exact ⟨hS, hI, hidx⟩) hc1
        rw [hu2]
        simp only at h ⊢
        cases hc2 : handle_card_targets card prof "alsa_input." cardid
            (parse_profile_name prof (MAX_NAME_LENGTH + 1)).2 e2
            { d2 with direction := mir_input, channels := prof.max_source_channels } with
        | none => rw [hc2] at h; cases h
        | some r2 =>
          obtain ⟨e3, d3⟩ := r2
          rw [hc2] at h
          obtain ⟨u3, hu3, hP3, hD3⟩ :=
            handle_card_targets_sim P S idx hstep card prof _ cardid _ u2 e2 _ e3 d3 hP2
              (by exact hD2) hc2
          rw [hu3]
          exact ih u3 e3 d3 e1 d1 hP3 hD3.1 hD3.2.1 h hD3.2.2

theorem handle_udev_loaded_card_sim (P : userdata → userdata → Prop)
    (card : pa_card) (cardid : String) (u e : userdata) (data : mir_node) (e1 : userdata)
    (hstep : ∀ u e d e1, P u e → scan_data data.stamp card.index d →
      create_or_refresh_node e d = some e1 →
      ∃ u1, create_or_refresh_node u d = some u1 ∧ P u1 e1)
    (hcfg : ∀ u e, P u e → ∀ a p, profile_skipped u.discover a p = profile_skipped e.discover a p)
    (hP : P u e) (hI : data.implement = mir_device)
    (h : handle_udev_loaded_card e card data cardid = some e1) :
    ∃ u1, handle_udev_loaded_card u card data cardid = some u1 ∧ P u1 e1 := by
  unfold handle_udev_loaded_card at h ⊢
  simp only [Option.map_eq_some'] at h ⊢
  obtain ⟨⟨e2, d2⟩, h2, rfl⟩ := h
  obtain ⟨u2, hu2, hP2, -⟩ :=
    handle_udev_profiles_sim P data.stamp card.index hstep hcfg card
      cardid card.profiles u e
      { data with
        paname := "", amname := some "",
        amdescr := pa_proplist_gets card.proplist "alsa.card_name",
        pacard := { data.pacard with index := card.index } }
      e2 d2 hP rfl hI h2 rfl
  exact ⟨u2, ⟨(u2, d2), hu2, rfl⟩, hP2⟩

/-! ## Loops that destroy the nodes matching a condition -/

theorem retired_deref (u : userdata) (k : String) (p q : Nat) :
    (retired u k p).deref q = if q = p then none else u.deref q := by
  simp [retired, userdata.deref, mir_node_destroy, pa_audiomgr_unregister_node,
    userdata.set_byname, pa_hashmap_get_remove]

theorem retired_get (u : userdata) (k key : String) (p : Nat) :
    pa_hashmap_get (retired u k p).discover.byname key =
      if key = k then none else pa_hashmap_get u.discover.byname key := by
  simp [retired, mir_node_destroy, pa_audiomgr_unregister_node, userdata.set_byname,
    pa_hashmap_get_remove]

theorem destroy_node_retired (u : userdata) (h : registry_ok u) (k : String) (p : Nat)
    (hg : pa_hashmap_get u.discover.byname k = some p) :
    destroy_node u (some p) = some (retired u k p) := by
  obtain ⟨n, hd, hk⟩ := registry_ok_deref u h k p hg
  subst hk
  simp [destroy_node, hd, hg, retired]

theorem registry_ok_retired (u : userdata) (h : registry_ok u) (k : String) (p : Nat)
    (hg : pa_hashmap_get u.discover.byname k = some p) : registry_ok (retired u k p) := by
  constructor
  · exact pa_hashmap_remove_nodup _ _ h.1
  · intro e he
    have he2 : e ∈ pa_hashmap_remove u.discover.byname k := he
    obtain ⟨hin, hne⟩ := pa_hashmap_remove_subset _ _ _ he2
    have hge := registry_ok_get u h e.1 e.2 hin
    have hp : e.2 ≠ p := by
      intro heq
      rw [heq] at hge
      exact hne (registry_ok_inj u h e.1 k p hge hg)
    rw [retired_deref]
    simp only [hp, if_false]
    exact h.2 e hin

theorem sel_at_retired (u : userdata) (sel : mir_node → Bool) (k : String) (p q : Nat)
    (hq : q ≠ p) : sel_at (retired u k p) sel q = sel_at u sel q := by
  simp [sel_at, retired_deref, hq]

theorem foreach_destroy (sel : mir_node → Bool) :
    ∀ (rest : List (String × Nat)) (u : userdata), registry_ok u →
      (∀ e ∈ rest, e ∈ u.discover.byname) → (rest.map (fun e => e.1)).Nodup →
      ∃ u1, hashmap_foreach (destroy_node_if sel) rest u = some u1 ∧ registry_ok u1 ∧
        (∀ k p, pa_hashmap_get u1.discover.byname k = some p ↔
          (pa_hashmap_get u.discover.byname k = some p ∧
            ((k, p) ∈ rest → sel_at u sel p = false))) ∧
        (∀ p, (∀ k, (k, p) ∈ rest → sel_at u sel p = false) → u1.deref p = u.deref p) ∧
        (∀ k p, (k, p) ∈ rest → sel_at u sel p = true →
          u1.deref p = none ∧ am_call.unregister p ∈ u1.audiomgr) ∧
        u1.discover.byptr = u.discover.byptr ∧
        (∀ c, c ∈ u.audiomgr → c ∈ u1.audiomgr) := by
  intro rest
  induction rest with
  | nil =>
    intro u hok _ _
    refine ⟨u, rfl, hok, ?_, ?_, ?_, rfl, fun c hc => hc⟩
    · intro k p; simp
    · intro p _; rfl
    · intro k p hm; simp at hm
  | cons e rest ih =>
    obtain ⟨k, p⟩ := e
    intro u hok hsub hnd
    have hm : (k, p) ∈ u.discover.byname := hsub (k, p) (List.mem_cons_self _ _)
    have hg := registry_ok_get u hok k p hm
    obtain ⟨n, hd, hk⟩ := registry_ok_deref u hok k p hg
    simp only [List.map_cons, List.nodup_cons] at hnd
    have hsub2 : ∀ e ∈ rest, e ∈ u.discover.byname :=
      fun e he => hsub e (List.mem_cons_of_mem _ he)
    have hkey : ∀ e ∈ rest, e.1 ≠ k := by
      intro e he heq
      exact hnd.1 (List.mem_map.mpr ⟨e, he, heq⟩)
    have hadr : ∀ e ∈ rest, e.2 ≠ p := by
      intro e he heq
      have hge := registry_ok_get u hok e.1 e.2 (hsub2 e he)
      rw [heq] at hge
      exact hkey e he (registry_ok_inj u hok e.1 k p hge hg)
    have hselp : sel_at u sel p = sel n := by simp [sel_at, hd]
    cases hs : sel n with
    | false =>
      obtain ⟨u1, hrun, hok1, ha, hb, hc, hptr, ham⟩ := ih u hok hsub2 hnd.2
      have hrun2 : hashmap_foreach (destroy_node_if sel) ((k, p) :: rest) u = some u1 := by
        unfold hashmap_foreach
        simp only [hg, if_true, destroy_node_if, hd, hs, Bool.false_eq_true, if_false]
        cases hf : rest.find?
            (fun e => decide (pa_hashmap_get u.discover.byname e.1 = some e.2)) with
        | none => exact hrun
        | some e =>
          have := List.find?_some hf
          simp only [decide_eq_true_eq] at this
          simp only [this, if_true]
          exact hrun
      refine ⟨u1, hrun2, hok1, ?_, ?_, ?_, hptr, ham⟩
      · intro k1 p1
        rw [ha k1 p1]
        constructor
        · rintro ⟨h1, h2⟩
          refine ⟨h1, ?_⟩
          intro hmem
          rcases List.mem_cons.mp hmem with heq | hin
          · cases heq; rw [hselp, hs]
          · exact h2 hin
        · rintro ⟨h1, h2⟩
          exact ⟨h1, fun hin => h2 (List.mem_cons_of_mem _ hin)⟩
      · intro p1 h1
        exact hb p1 (fun k1 hin => h1 k1 (List.mem_cons_of_mem _ hin))
      · intro k1 p1 hmem hsel
        rcases List.mem_cons.mp hmem with heq | hin
        · cases heq
          rw [hselp, hs] at hsel
          cases hsel
        · exact hc k1 p1 hin hsel
    | true =>
      have hok2 := registry_ok_retired u hok k p hg
      have hsub3 : ∀ e ∈ rest, e ∈ (retired u k p).discover.byname := by
        intro e he
        have h1 := registry_ok_get u hok e.1 e.2 (hsub2 e he)
        have h2 : pa_hashmap_get (retired u k p).discover.byname e.1 = some e.2 := by
          rw [retired_get]
          simp only [hkey e he, if_false]
          exact h1
        exact pa_hashmap_get_mem _ _ _ h2
      obtain ⟨u1, hrun, hok1, ha, hb, hc, hptr, ham⟩ := ih (retired u k p) hok2 hsub3 hnd.2
      have hrun2 : hashmap_foreach (destroy_node_if sel) ((k, p) :: rest) u = some u1 := by
        unfold hashmap_foreach
        simp only [hg, if_true, destroy_node_if, hd, hs, destroy_node_retired u hok k p hg]
        cases hf : rest.find?
            (fun e => decide (pa_hashmap_get u.discover.byname e.1 = some e.2)) with
        | none => exact hrun
        | some e =>
          have hin := List.mem_of_find?_eq_some hf
          have h2 : pa_hashmap_get (retired u k p).discover.byname e.1 = some e.2 :=
            registry_ok_get _ hok2 e.1 e.2 (hsub3 e hin)
          simp only [h2, if_true]
          exact hrun
      have hsame : ∀ k1 p1, (k1, p1) ∈ rest →
          sel_at (retired u k p) sel p1 = sel_at u sel p1 :=
        fun k1 p1 hin => sel_at_retired u sel k p p1 (hadr (k1, p1) hin)
      refine ⟨u1, hrun2, hok1, ?_, ?_, ?_, hptr, ?_⟩
      · intro k1 p1
        rw [ha k1 p1, retired_get]
        constructor
        · rintro ⟨h1, h2⟩
          by_cases hk1 : k1 = k
          · simp [hk1] at h1
          · simp only [hk1, if_false] at h1
            refine ⟨h1, ?_⟩
            intro hmem
            rcases List.mem_cons.mp hmem with heq | hin
            · cases heq; exact absurd rfl hk1
            · rw [← hsame k1 p1 hin]; exact h2 hin
        · rintro ⟨h1, h2⟩
          have hk1 : k1 ≠ k := by
            intro heq
            subst heq
            rw [hg] at h1
            cases h1
            have := h2 (List.mem_cons_self _ _)
            rw [hselp, hs] at this
            cases this
          simp only [hk1, if_false]
          refine ⟨h1, ?_⟩
          intro hin
          rw [hsame k1 p1 hin]
          exact h2 (List.mem_cons_of_mem _ hin)
      · intro p1 h1
        have hp1 : p1 ≠ p := by
          intro heq
          subst heq
          have := h1 k (List.mem_cons_self _ _)
          rw [hselp, hs] at this
          cases this
        rw [hb p1 (fun k1 hin => by
          rw [hsame k1 p1 hin]; exact h1 k1 (List.mem_cons_of_mem _ hin))]
        rw [retired_deref]
        simp [hp1]
      · intro k1 p1 hmem hsel
        rcases List.mem_cons.mp hmem with heq | hin
        · cases heq
          constructor
          · rw [hb p (fun k1 _ => by simp [sel_at, retired_deref])]
            simp [retired_deref]
          · apply ham
            simp [retired, mir_node_destroy, pa_audiomgr_unregister_node]
        · rw [← hsame k1 p1 hin] at hsel
          exact hc k1 p1 hin hsel
      · intro c hc2
        apply ham
        simp [retired, mir_node_destroy, pa_audiomgr_unregister_node, userdata.set_byname, hc2]

/-! ## The by-key index stays consistent under card events -/

theorem registry_ok_congr (u v : userdata) (h : registry_ok u) (hd : v.discover.byname = u.discover.byname)
    (hh : v.heap = u.heap) : registry_ok v := by
  unfold registry_ok userdata.deref at *
  rw [hd, hh]
  exact h

theorem hashmap_foreach_inv (J : userdata → Prop) (body : userdata → Nat → Option userdata)
    (hbody : ∀ u p u1, J u → body u p = some u1 → J u1) :
    ∀ (rest : List (String × Nat)) (u u1 : userdata), J u →
      hashmap_foreach body rest u = some u1 → J u1 := by
  intro rest
  induction rest with
  | nil =>
    intro u u1 hJ h
    simp only [hashmap_foreach, Option.some.injEq] at h
    rw [← h]; exact hJ
  | cons e rest ih =>
    obtain ⟨k, p⟩ := e
    intro u u1 hJ h
    unfold hashmap_foreach at h
    split at h
    · split at h
      · cases h
      · rename_i u2 hb
        have hJ2 := hbody u p u2 hJ hb
        split at h
        · exact ih u2 u1 hJ2 h
        · split at h
          · exact ih u2 u1 hJ2 h
          · cases h
    · exact ih u u1 hJ h

theorem registry_ok_handle_alsa_card (u u1 : userdata) (card : pa_card) (h : registry_ok u)
    (hr : handle_alsa_card u card = some u1) : registry_ok u1 := by
  have h0 : registry_ok (pa_utils_get_stamp u).1 := registry_ok_congr u _ h rfl rfl
  unfold handle_alsa_card at hr
  simp only at hr
  split at hr
  · split at hr
    · split at hr
      · obtain ⟨u2, hu2, hP⟩ := handle_udev_loaded_card_sim
          (fun a b => a = b ∧ registry_ok a)
          card _ (pa_utils_get_stamp u).1 (pa_utils_get_stamp u).1 _ u1
          (by
            intro a b d b1 hab _ hc
            obtain ⟨rfl, hok⟩ := hab
            exact ⟨b1, hc, rfl, registry_ok_create_or_refresh a b1 hok d hc⟩)
          (by intro a b hab x y; rw [hab.1])
          ⟨rfl, h0⟩ rfl hr
        rw [hP.1] at hP
        exact hP.2
      · cases hr; exact h0
    · cases hr; exact h0
  · cases hr; exact h0

theorem registry_ok_handle_bluetooth_profiles (card : pa_card) (cid : String) :
    ∀ (profiles : List pa_card_profile) (u : userdata) (data : mir_node) (u1 : userdata)
      (d1 : mir_node), registry_ok u →
      handle_bluetooth_profiles card cid profiles u data = some (u1, d1) → registry_ok u1 := by
  intro profiles
  induction profiles with
  | nil =>
    intro u data u1 d1 hok h
    simp only [handle_bluetooth_profiles, Option.some.injEq, Prod.mk.injEq] at h
    rw [← h.1]; exact hok
  | cons prof rest ih =>
    intro u data u1 d1 hok h
    unfold handle_bluetooth_profiles at h
    simp only at h
    split at h
    · cases h
    · rename_i ua da hsinks
      have hoka : registry_ok ua := by
        split at hsinks
        · split at hsinks
          · cases hsinks
          · cases hsinks
            exact registry_ok_create u hok _
        · cases hsinks; exact hok
      split at h
      · cases h
      · rename_i ub db hsources
        have hokb : registry_ok ub := by
          split at hsources
          · split at hsources
            · cases hsources
            · cases hsources
              exact registry_ok_create ua hoka _
          · cases hsources; exact hoka
        exact ih ub db u1 d1 hokb h

theorem registry_ok_handle_bluetooth_card (u u1 : userdata) (card : pa_card)
    (h : registry_ok u) (hr : handle_bluetooth_card u card = some u1) : registry_ok u1 := by
  have h0 : registry_ok (pa_utils_get_stamp u).1 := registry_ok_congr u _ h rfl rfl
  unfold handle_bluetooth_card at hr
  simp only at hr
  split at hr
  · split at hr
    · cases hr
    · rename_i u2 d2 hp
      cases hr
      have := registry_ok_handle_bluetooth_profiles card _ card.profiles _ _ u2 d2 h0 hp
      exact registry_ok_congr u2 _ this rfl rfl
  · cases hr; exact h0

theorem registry_ok_add_card (u u1 : userdata) (card : pa_card) (h : registry_ok u)
    (hr : pa_discover_add_card u card = some u1) : registry_ok u1 := by
  unfold pa_discover_add_card at hr
  split at hr
  · cases hr; exact h
  · split at hr
    · exact registry_ok_handle_alsa_card u u1 card h hr
    · split at hr
      · exact registry_ok_handle_bluetooth_card u u1 card h hr
      · cases hr; exact h

theorem registry_ok_destroy_node (u u1 : userdata) (node : Option Nat) (h : registry_ok u)
    (hr : destroy_node u node = some u1) : registry_ok u1 := by
  have hrem : ∀ k, registry_ok (u.set_byname (pa_hashmap_remove u.discover.byname k)) := by
    intro k
    constructor
    · exact pa_hashmap_remove_nodup _ _ h.1
    · intro e he
      exact h.2 e (pa_hashmap_remove_subset _ _ _ he).1
  unfold destroy_node at hr
  split at hr
  · cases hr; exact h
  · rename_i p
    split at hr
    · cases hr
    · rename_i n hd
      simp only at hr
      split at hr
      · rename_i hfound
        cases hr
        exact registry_ok_retired u h n.key p hfound
      · split at hr
        · cases hr; exact hrem n.key
        · simp only [Option.map_eq_some'] at hr
          obtain ⟨_, _, rfl⟩ := hr
          exact hrem n.key

theorem registry_ok_destroy_node_if (sel : mir_node → Bool) (u u1 : userdata) (p : Nat)
    (h : registry_ok u) (hr : destroy_node_if sel u p = some u1) : registry_ok u1 := by
  unfold destroy_node_if at hr
  split at hr
  · cases hr
  · split at hr
    · exact registry_ok_destroy_node u u1 _ h hr
    · cases hr; exact h

theorem registry_ok_profile_changed (u u1 : userdata) (card : pa_card) (h : registry_ok u)
    (hr : pa_discover_profile_changed u card = some u1) : registry_ok u1 := by
  unfold pa_discover_profile_changed at hr
  split at hr
  · cases hr; exact h
  · split at hr
    · split at hr
      · cases hr
      · split at hr
        · refine hashmap_foreach_inv registry_ok _ ?_ _ u u1 h hr
          intro v p v1 hv hb
          simp only at hb
          split at hb
          · cases hb
          · rename_i n hd
            split at hb
            · cases hb
              exact registry_ok_store v hv p n _ hd rfl
            · cases hb; exact hv
        · cases hr; exact h
    · split at hr
      · cases hr
      · simp only at hr
        split at hr
        · cases hr
        · rename_i u2 hs
          have h0 : registry_ok (pa_utils_get_stamp u).1 := registry_ok_congr u _ h rfl rfl
          have h2 := registry_ok_handle_alsa_card _ u2 card h0 hs
          exact hashmap_foreach_inv registry_ok _
            (fun v p v1 hv hb => registry_ok_destroy_node_if _ v v1 p hv hb) _ u2 u1 h2 hr

theorem registry_ok_card_events :
    ∀ (events : List card_event) (u u1 : userdata), registry_ok u →
      handle_card_events u events = some u1 → registry_ok u1 := by
  intro events
  induction events with
  | nil =>
    intro u u1 h hr
    simp only [handle_card_events, Option.some.injEq] at hr
    rw [← hr]; exact h
  | cons ev rest ih =>
    intro u u1 h hr
    unfold handle_card_events at hr
    split at hr
    · cases hr
    · rename_i u2 he
      have h2 : registry_ok u2 := by
        cases ev with
        | add_card card => exact registry_ok_add_card u u2 card h he
        | profile_changed card => exact registry_ok_profile_changed u u2 card h he
      exact ih u2 u1 h2 hr

theorem remove_card_spec (u : userdata) (card : pa_card) (h : registry_ok u) :
    ∃ u1, pa_discover_remove_card u card = some u1 ∧ registry_ok u1 ∧
      (∀ k p, pa_hashmap_get u1.discover.byname k = some p →
        pa_hashmap_get u.discover.byname k = some p ∧ u1.deref p = u.deref p ∧
        is_device_of_card u card.index p = false) ∧
      (∀ k p, pa_hashmap_get u.discover.byname k = some p →
        is_device_of_card u card.index p = false →
        pa_hashmap_get u1.discover.byname k = some p ∧ u1.deref p = u.deref p) ∧
      (∀ k p, pa_hashmap_get u.discover.byname k = some p →
        is_device_of_card u card.index p = true →
        pa_hashmap_get u1.discover.byname k = none ∧ u1.deref p = none ∧
        am_call.unregister p ∈ u1.audiomgr) := by
  obtain ⟨u1, hrun, hok1, ha, hb, hc, -, -⟩ :=
    foreach_destroy (fun n => n.implement = mir_device && n.pacard.index = card.index)
      u.discover.byname u h (fun e he => he) h.1
  have hsel : ∀ p, sel_at u
      (fun n => decide (n.implement = mir_device) && decide (n.pacard.index = card.index)) p =
      is_device_of_card u card.index p := by
    intro p
    simp only [sel_at, is_device_of_card]
  have hkeep : ∀ k p, pa_hashmap_get u.discover.byname k = some p →
      is_device_of_card u card.index p = false → u1.deref p = u.deref p := by
    intro k p _ hdev
    apply hb
    intro k1 _
    rw [hsel]; exact hdev
  refine ⟨u1, hrun, hok1, ?_, ?_, ?_⟩
  · intro k p hg
    obtain ⟨h1, h2⟩ := (ha k p).mp hg
    have h3 := h2 (pa_hashmap_get_mem _ _ _ h1)
    rw [hsel] at h3
    exact ⟨h1, hkeep k p h1 h3, h3⟩
  · intro k p hg hdev
    refine ⟨(ha k p).mpr ⟨hg, fun _ => by rw [hsel]; exact hdev⟩, hkeep k p hg hdev⟩
  · intro k p hg hdev
    have hm := pa_hashmap_get_mem _ _ _ hg
    obtain ⟨h1, h2⟩ := hc k p hm (by rw [hsel]; exact hdev)
    refine ⟨?_, h1, h2⟩
    cases hx : pa_hashmap_get u1.discover.byname k with
    | none => rfl
    | some q =>
      obtain ⟨h3, h4⟩ := (ha k q).mp hx
      rw [hg] at h3
      cases h3
      have := h4 hm
      rw [hsel, hdev] at this
      cases this

/-! ## The scan against an empty registry -/

theorem profile_skipped_congr (a b : pa_discover) (h1 : a.selected = b.selected)
    (h2 : a.chmin = b.chmin) (h3 : a.chmax = b.chmax) (x : Option pa_card_profile)
    (p : pa_card_profile) : profile_skipped a x p = profile_skipped b x p := by
  unfold profile_skipped
  rw [h1, h2, h3]

theorem create_or_refresh_keys (v v1 : userdata) (d : mir_node) (hok : registry_ok v)
    (h : create_or_refresh_node v d = some v1) :
    (∀ k, pa_hashmap_get v1.discover.byname k ≠ none ↔
      (pa_hashmap_get v.discover.byname k ≠ none ∨ k = d.key)) ∧
    (∀ a p, profile_skipped v1.discover a p = profile_skipped v.discover a p) := by
  cases hg : pa_hashmap_get v.discover.byname d.key with
  | some q =>
    obtain ⟨n, hd, -⟩ := registry_ok_deref v hok d.key q hg
    rw [create_or_refresh_found v d n q hg hd] at h
    cases h
    refine ⟨?_, fun a p => rfl⟩
    intro k
    rw [find_store]
    constructor
    · intro hk; exact Or.inl hk
    · rintro (hk | hk)
      · exact hk
      · rw [hk, hg]; simp
  | none =>
    rw [create_or_refresh_fresh v d hg, create_node_fresh v d hg] at h
    cases h
    refine ⟨?_, fun a p => profile_skipped_congr _ _ rfl rfl rfl a p⟩
    intro k
    simp only [pa_hashmap_get_append]
    cases hx : pa_hashmap_get v.discover.byname k with
    | some x => simp
    | none =>
      by_cases hk : d.key = k
      · simp [hk]
      · have hk2 : ¬ k = d.key := fun e => hk e.symm
        simp [hk, hk2]

theorem scan_inv_step (u0 : userdata) (S idx : Nat) (u e : userdata) (d : mir_node)
    (e1 : userdata) (hinv : scan_inv u0 S idx u e) (hD : scan_data S idx d)
    (he : create_or_refresh_node e d = some e1) :
    ∃ u1, create_or_refresh_node u d = some u1 ∧ scan_inv u0 S idx u1 e1 := by
  obtain ⟨hS, hI, hidx⟩ := hD
  obtain ⟨hkeys, hcfg⟩ := create_or_refresh_keys e e1 d hinv.ok_e he
  have hoke1 := registry_ok_create_or_refresh e e1 hinv.ok_e d he
  cases hg : pa_hashmap_get u.discover.byname d.key with
  | some p =>
    obtain ⟨n, hd, hk⟩ := registry_ok_deref u hinv.ok_u d.key p hg
    refine ⟨_, create_or_refresh_found u d n p hg hd, ?_⟩
    rw [hS]
    have hderef : ∀ q, (u.store p { n with stamp := S }).deref q =
        if q = p then some { n with stamp := S } else u.deref q := by
      intro q
      rw [deref_store]
      by_cases hq : q = p
      · simp [hq, hd]
      · simp [hq]
    refine ⟨registry_ok_store u hinv.ok_u p n _ hd rfl, hoke1, ?_, ?_, ?_, ?_, ?_, ?_⟩
    · intro a x
      rw [hcfg a x, find_store]
      exact hinv.cfg a x
    · intro k q h0
      rw [find_store]
      exact hinv.old_entries k q h0
    · intro q n0 h0
      rw [hderef]
      by_cases hq : q = p
      · subst hq
        simp only [if_true]
        right
        rcases hinv.old_records q n0 h0 with h1 | h1
        · rw [hd] at h1; cases h1; rfl
        · rw [hd] at h1; cases h1; rfl
      · simp only [hq, if_false]
        exact hinv.old_records q n0 h0
    · intro k q hq h0
      rw [find_store] at hq
      obtain ⟨m, hm, h1, h2, h3⟩ := hinv.new_entries k q hq h0
      rw [hderef]
      by_cases hqp : q = p
      · subst hqp
        rw [hd] at hm
        cases hm
        exact ⟨{ n with stamp := S }, by simp, h1, h2, rfl⟩
      · exact ⟨m, by simp [hqp, hm], h1, h2, h3⟩
    · intro k
      rw [hkeys k, hinv.visited k, find_store]
      constructor
      · rintro (⟨q, m, h1, h2, h3⟩ | hk2)
        · by_cases hqp : q = p
          · subst hqp
            exact ⟨q, { n with stamp := S }, h1, by rw [hderef]; simp, rfl⟩
          · exact ⟨q, m, h1, by rw [hderef]; simp [hqp, h2], h3⟩
        · subst hk2
          exact ⟨p, { n with stamp := S }, hg, by rw [hderef]; simp, rfl⟩
      · rintro ⟨q, m, h1, h2, h3⟩
        by_cases hk2 : k = d.key
        · exact Or.inr hk2
        · left
          have hqp : q ≠ p := by
            intro heq
            subst heq
            exact hk2 (registry_ok_inj u hinv.ok_u k d.key q h1 hg)
          rw [hderef] at h2
          simp only [hqp, if_false] at h2
          exact ⟨q, m, h1, h2, h3⟩
    · exact hinv.frame
  | none =>
    refine ⟨_, create_or_refresh_fresh u d hg, ?_⟩
    have hok1 : registry_ok (create_node u d).1 := registry_ok_create u hinv.ok_u d
    rw [create_node_fresh u d hg] at hok1 ⊢
    have hnew : mir_node_new d = d := by simp [mir_node_new, hI]
    have hfree : u.deref (fresh_address u.heap) = none := fresh_address_unused u.heap
    have hgs : ∀ k x, pa_hashmap_get u.discover.byname k = some x →
        pa_hashmap_get (u.discover.byname ++ [(d.key, fresh_address u.heap)]) k = some x :=
      fun k x hx => pa_hashmap_get_append_some _ _ _ _ _ hx
    have hgn : ∀ k, pa_hashmap_get u.discover.byname k = none →
        pa_hashmap_get (u.discover.byname ++ [(d.key, fresh_address u.heap)]) k =
          if d.key = k then some (fresh_address u.heap) else none :=
      fun k hx => pa_hashmap_get_append_none _ _ _ _ hx
    have hds : ∀ q x, u.deref q = some x →
        pa_hashmap_get (u.heap ++ [(fresh_address u.heap, mir_node_new d)]) q = some x :=
      fun q x hx => pa_hashmap_get_append_some _ _ _ _ _ hx
    have hdn : ∀ q, u.deref q = none →
        pa_hashmap_get (u.heap ++ [(fresh_address u.heap, mir_node_new d)]) q =
          if fresh_address u.heap = q then some d else none := by
      intro q hx
      rw [pa_hashmap_get_append_none _ _ _ _ hx, hnew]
    refine ⟨hok1, hoke1, ?_, ?_, ?_, ?_, ?_, ?_⟩
    · intro a x
      rw [hcfg a x, ← hinv.cfg a x]
      exact profile_skipped_congr _ _ rfl rfl rfl a x
    · intro k q h0
      exact hgs k q (hinv.old_entries k q h0)
    · intro q n0 h0
      rcases hinv.old_records q n0 h0 with h1 | h1
      · left; exact hds q _ h1
      · right; exact hds q _ h1
    · intro k q hq h0
      have hq2 : pa_hashmap_get (u.discover.byname ++ [(d.key, fresh_address u.heap)]) k =
          some q := hq
      cases hx : pa_hashmap_get u.discover.byname k with
      | some x =>
        rw [hgs k x hx] at hq2
        cases hq2
        obtain ⟨m, hm, h1, h2, h3⟩ := hinv.new_entries k q hx h0
        exact ⟨m, hds q m hm, h1, h2, h3⟩
      | none =>
        rw [hgn k hx] at hq2
        by_cases hk : d.key = k
        · simp only [hk, if_true, Option.some.injEq] at hq2
          subst hq2
          exact ⟨d, by
            show pa_hashmap_get (u.heap ++ [(fresh_address u.heap, mir_node_new d)]) _ = _
            rw [hdn _ hfree]; simp, hI, hidx, hS⟩
        · simp [hk] at hq2
    · intro k
      rw [hkeys k, hinv.visited k]
      constructor
      · rintro (⟨q, m, h1, h2, h3⟩ | hk2)
        · exact ⟨q, m, hgs k q h1, hds q m h2, h3⟩
        · subst hk2
          refine ⟨fresh_address u.heap, d, ?_, ?_, hS⟩
          · show pa_hashmap_get (u.discover.byname ++ [(d.key, fresh_address u.heap)]) d.key = _
            rw [hgn _ hg]; simp
          · show pa_hashmap_get (u.heap ++ [(fresh_address u.heap, mir_node_new d)]) _ = _
            rw [hdn _ hfree]; simp
      · rintro ⟨q, m, h1, h2, h3⟩
        have h1b : pa_hashmap_get (u.discover.byname ++ [(d.key, fresh_address u.heap)]) k =
            some q := h1
        have h2b : pa_hashmap_get (u.heap ++ [(fresh_address u.heap, mir_node_new d)]) q =
            some m := h2
        cases hx : pa_hashmap_get u.discover.byname k with
        | some x =>
          rw [hgs k x hx] at h1b
          cases h1b
          obtain ⟨m2, hm2, -⟩ := registry_ok_deref u hinv.ok_u k q hx
          rw [hds q m2 hm2] at h2b
          have hmm : m2 = m := Option.some.inj h2b
          subst hmm
          exact Or.inl ⟨q, m2, rfl, hm2, h3⟩
        | none =>
          by_cases hk : d.key = k
          · exact Or.inr hk.symm
          · rw [hgn k hx] at h1b
            simp [hk] at h1b
    · exact hinv.frame

/-! ## The ALSA branch of pa_discover_profile_changed -/

theorem pa_hashmap_get_ne_none_iff {κ ν : Type} [DecidableEq κ] (h : List (κ × ν)) (key : κ) :
    pa_hashmap_get h key ≠ none ↔ key ∈ h.map (fun e => e.1) := by
  rw [Ne, pa_hashmap_get_none_iff]
  simp only [List.mem_map, not_forall, ne_eq, Decidable.not_not]
  constructor
  · rintro ⟨e, he, hk⟩; exact ⟨e, he, hk⟩
  · rintro ⟨e, he, hk⟩; exact ⟨e, he, hk⟩

theorem scan_inv_start (v : userdata) (idx : Nat) (hok : registry_ok v) (hst : stamps_ok v) :
    scan_inv (pa_utils_get_stamp v).1 (v.stamp + 1) idx (pa_utils_get_stamp v).1
      (pa_utils_get_stamp v).1.cleared := by
  refine ⟨registry_ok_congr v _ hok rfl rfl, registry_ok_cleared _, ?_, ?_, ?_, ?_, ?_, ⟨rfl, rfl⟩⟩
  · intro a p
    exact profile_skipped_congr _ _ rfl rfl rfl a p
  · intro k p h; exact h
  · intro p n h; exact Or.inl h
  · intro k p h1 h2
    rw [h1] at h2; cases h2
  · intro k
    constructor
    · intro h
      exact absurd rfl h
    · rintro ⟨p, n, -, h2, h3⟩
      have hm : (p, n) ∈ v.heap := pa_hashmap_get_mem _ _ _ h2
      have := hst (p, n) hm
      simp only at this
      omega

theorem handle_alsa_card_scan (v : userdata) (card : pa_card) (e1 : userdata)
    (hok : registry_ok v) (hst : stamps_ok v)
    (he : handle_alsa_card v.cleared card = some e1) :
    ∃ v1, handle_alsa_card v card = some v1 ∧
      scan_inv (pa_utils_get_stamp v).1 (v.stamp + 1) card.index v1 e1 := by
  have hstart := scan_inv_start v card.index hok hst
  have hc : (pa_utils_get_stamp v.cleared).1 = (pa_utils_get_stamp v).1.cleared := rfl
  have hc2 : (pa_utils_get_stamp v.cleared).2 = v.stamp + 1 := rfl
  have hc3 : (pa_utils_get_stamp v).2 = v.stamp + 1 := rfl
  unfold handle_alsa_card at he ⊢
  simp only [hc, hc2, hc3] at he ⊢
  split
  · rename_i udd hudd
    simp only [hudd] at he
    split
    · rename_i h1
      simp only [h1, if_true] at he
      split
      · rename_i hpre
        simp only [hpre, if_true] at he
        exact handle_udev_loaded_card_sim
          (scan_inv (pa_utils_get_stamp v).1 (v.stamp + 1) card.index)
          card _ (pa_utils_get_stamp v).1 (pa_utils_get_stamp v).1.cleared _ e1
          (fun a b d b1 hab hd hcr =>
            scan_inv_step _ _ _ a b d b1 hab hd hcr)
          (fun a b hab => hab.cfg) hstart rfl he
      · rename_i hpre
        simp only [hpre, if_false, Bool.false_eq_true, Option.some.injEq] at he
        rw [← he]
        exact ⟨_, rfl, hstart⟩
    · rename_i h1
      simp only [h1, if_false, Option.some.injEq] at he
      rw [← he]
      exact ⟨_, rfl, hstart⟩
  · rename_i hudd
    simp only [hudd, Option.some.injEq] at he
    rw [← he]
    exact ⟨_, rfl, hstart⟩

/-- C2: for a pci or usb card and a consistent registry, let K be the keys the
card scan of pa_discover_profile_changed produces under the new active profile,
every one of which, where it is registered already, belongs to a device node of
this card. Then pa_discover_profile_changed returns, and afterwards the device
nodes registered for the card are exactly those with a key in K; a node that was
registered under a key of K is the same record as before with its stamp set to
the stamp of the new scan and nothing else changed; and every other device node
of the card has been retired: removed from the by-key index, unregistered and
released. With the first scan giving {A, B} and the second {B, C} this leaves
exactly B and C, retires A and keeps the record of B. -/
theorem profile_changed_retires_stale_nodes (u : userdata) (card : pa_card) (bus : String)
    (prof : pa_card_profile) (K : List String)
    (hok : registry_ok u) (hst : stamps_ok u)
    (hbus : pa_proplist_gets card.proplist PA_PROP_DEVICE_BUS = some bus)
    (hb : bus = "pci" ∨ bus = "usb")
    (hact : card.active_profile = some prof)
    (hK : profile_scan_keys u card = some K)
    (hown : ∀ k ∈ K, ∀ p, pa_discover_find_node u (some k) = some p →
      is_device_of_card u card.index p = true) :
    ∃ u1, pa_discover_profile_changed u card = some u1 ∧ registry_ok u1 ∧
      (∀ k, k ∈ device_keys_of_card u1 card.index ↔ k ∈ K) ∧
      (∀ k p n, k ∈ K → pa_discover_find_node u (some k) = some p → u.deref p = some n →
        pa_discover_find_node u1 (some k) = some p ∧
        u1.deref p = some { n with stamp := u.stamp + 2 }) ∧
      (∀ k p, k ∉ K → pa_discover_find_node u (some k) = some p →
        is_device_of_card u card.index p = true →
        pa_discover_find_node u1 (some k) = none ∧ u1.deref p = none ∧
        am_call.unregister p ∈ u1.audiomgr) := by
  have hokv : registry_ok (pa_utils_get_stamp u).1 := registry_ok_congr u _ hok rfl rfl
  have hstv : stamps_ok (pa_utils_get_stamp u).1 := by
    intro e he
    have := hst e he
    show e.2.stamp ≤ u.stamp + 1
    omega
  unfold profile_scan_keys at hK
  simp only [Option.map_eq_some'] at hK
  obtain ⟨e1, he1, hKe⟩ := hK
  obtain ⟨v1, hv1, hinv⟩ := handle_alsa_card_scan (pa_utils_get_stamp u).1 card e1 hokv hstv he1
  have hS : (pa_utils_get_stamp u).1.stamp + 1 = u.stamp + 2 := rfl
  rw [hS] at hinv
  obtain ⟨u1, hrun, hok1, ha, hb2, hc, -, -⟩ :=
    foreach_destroy
      (fun n => n.implement = mir_device && n.pacard.index = card.index &&
        decide (n.stamp < (pa_utils_get_stamp u).2))
      v1.discover.byname v1 hinv.ok_u (fun e he => he) hinv.ok_u.1
  have hbt : ¬ bus = "bluetooth" := by
    rcases hb with h | h <;> (rw [h]; decide)
  have hmain : pa_discover_profile_changed u card = some u1 := by
    unfold pa_discover_profile_changed
    simp only [hbus, hbt, if_false, hact, hv1]
    exact hrun
  -- the state the scan started from has the indexes and records of `u`
  have F1 : ∀ k p, pa_hashmap_get u.discover.byname k = some p →
      pa_hashmap_get v1.discover.byname k = some p := fun k p h => hinv.old_entries k p h
  have F2 : ∀ p n, u.deref p = some n →
      v1.deref p = some n ∨ v1.deref p = some { n with stamp := u.stamp + 2 } :=
    fun p n h => hinv.old_records p n h
  have F3 : ∀ k, k ∈ K ↔ ∃ p n, pa_hashmap_get v1.discover.byname k = some p ∧
      v1.deref p = some n ∧ n.stamp = u.stamp + 2 := by
    intro k
    rw [← hKe, ← pa_hashmap_get_ne_none_iff]
    exact hinv.visited k
  have Fold : ∀ p n, u.deref p = some n → n.stamp ≤ u.stamp := by
    intro p n h
    exact hst (p, n) (pa_hashmap_get_mem _ _ _ h)
  have hselv : ∀ p n, v1.deref p = some n →
      sel_at v1 (fun n => n.implement = mir_device && n.pacard.index = card.index &&
        decide (n.stamp < (pa_utils_get_stamp u).2)) p =
      (decide (n.implement = mir_device) && decide (n.pacard.index = card.index) &&
        decide (n.stamp < u.stamp + 1)) := by
    intro p n h
    simp only [sel_at, h]
    rfl
  -- an entry of `v1` whose node carries the new stamp survives the loop
  have hkeep : ∀ k p n, pa_hashmap_get v1.discover.byname k = some p → v1.deref p = some n →
      n.stamp = u.stamp + 2 →
      pa_hashmap_get u1.discover.byname k = some p ∧ u1.deref p = some n := by
    intro k p n hg hd hs
    have hsel : sel_at v1 (fun n => n.implement = mir_device && n.pacard.index = card.index &&
        decide (n.stamp < (pa_utils_get_stamp u).2)) p = false := by
      rw [hselv p n hd]
      have : ¬ n.stamp < u.stamp + 1 := by omega
      simp [this]
    refine ⟨(ha k p).mpr ⟨hg, fun _ => hsel⟩, ?_⟩
    rw [hb2 p (fun _ _ => hsel)]
    exact hd
  refine ⟨u1, hmain, hok1, ?_, ?_, ?_⟩
  · intro k
    unfold device_keys_of_card
    simp only [List.mem_map, List.mem_filter]
    constructor
    · rintro ⟨⟨k1, p⟩, ⟨hmem, hdev⟩, hk⟩
      simp only at hk hdev
      subst hk
      have hg1 := registry_ok_get u1 hok1 k1 p hmem
      obtain ⟨hgv, hselp⟩ := (ha k1 p).mp hg1
      have hselp := hselp (pa_hashmap_get_mem _ _ _ hgv)
      obtain ⟨n, hdn, -⟩ := registry_ok_deref v1 hinv.ok_u k1 p hgv
      rw [hselv p n hdn] at hselp
      have hd1 : u1.deref p = some n := by
        rw [hb2 p (fun _ _ => by rw [hselv p n hdn]; exact hselp)]
        exact hdn
      simp only [is_device_of_card, hd1, Bool.and_eq_true, decide_eq_true_eq] at hdev
      have hstamp : ¬ n.stamp < u.stamp + 1 := by
        intro hlt
        simp [hdev.1, hdev.2, hlt] at hselp
      rw [F3]
      refine ⟨p, n, hgv, hdn, ?_⟩
      cases hgu : pa_hashmap_get u.discover.byname k1 with
      | some q =>
        have hq := F1 k1 q hgu
        rw [hgv] at hq
        cases hq
        obtain ⟨n0, hd0, -⟩ := registry_ok_deref u hok k1 p hgu
        have hle := Fold p n0 hd0
        rcases F2 p n0 hd0 with h | h
        · rw [hdn] at h
          cases h
          omega
        · rw [hdn] at h
          cases h
          rfl
      | none =>
        obtain ⟨m, hm, -, -, hms⟩ := hinv.new_entries k1 p hgv hgu
        rw [hdn] at hm
        cases hm
        exact hms
    · intro hk
      obtain ⟨p, n, hgv, hdn, hs⟩ := (F3 k).mp hk
      obtain ⟨hg1, hd1⟩ := hkeep k p n hgv hdn hs
      refine ⟨(k, p), ⟨pa_hashmap_get_mem _ _ _ hg1, ?_⟩, rfl⟩
      simp only [is_device_of_card, hd1, Bool.and_eq_true, decide_eq_true_eq]
      cases hgu : pa_hashmap_get u.discover.byname k with
      | some q =>
        have hq := F1 k q hgu
        rw [hgv] at hq
        cases hq
        have hdev := hown k hk p hgu
        obtain ⟨n0, hd0, -⟩ := registry_ok_deref u hok k p hgu
        simp only [is_device_of_card, hd0, Bool.and_eq_true, decide_eq_true_eq] at hdev
        rcases F2 p n0 hd0 with h | h
        · rw [hdn] at h; cases h; exact hdev
        · rw [hdn] at h; cases h; exact hdev
      | none =>
        obtain ⟨m, hm, h1, h2, -⟩ := hinv.new_entries k p hgv hgu
        rw [hdn] at hm
        cases hm
        exact ⟨h1, h2⟩
  · intro k p n hk hgu hd0
    have hgu2 : pa_hashmap_get u.discover.byname k = some p := hgu
    have hgv := F1 k p hgu2
    obtain ⟨p1, n1, hgv1, hdn1, hs1⟩ := (F3 k).mp hk
    rw [hgv] at hgv1
    cases hgv1
    have hle := Fold p n hd0
    have hn1 : n1 = { n with stamp := u.stamp + 2 } := by
      rcases F2 p n hd0 with h | h
      · rw [hdn1] at h
        cases h
        omega
      · rw [hdn1] at h
        exact Option.some.inj h
    subst hn1
    exact hkeep k p _ hgv hdn1 rfl
  · intro k p hk hgu hdev
    have hgu2 : pa_hashmap_get u.discover.byname k = some p := hgu
    have hgv := F1 k p hgu2
    obtain ⟨n0, hd0, -⟩ := registry_ok_deref u hok k p hgu2
    have hle := Fold p n0 hd0
    simp only [is_device_of_card, hd0, Bool.and_eq_true, decide_eq_true_eq] at hdev
    have hdn : v1.deref p = some n0 := by
      rcases F2 p n0 hd0 with h | h
      · exact h
      · exact absurd ((F3 k).mpr ⟨p, _, hgv, h, rfl⟩) hk
    have hsel : sel_at v1 (fun n => n.implement = mir_device && n.pacard.index = card.index &&
        decide (n.stamp < (pa_utils_get_stamp u).2)) p = true := by
      rw [hselv p n0 hdn]
      have : n0.stamp < u.stamp + 1 := by omega
      simp [hdev.1, hdev.2, this]
    obtain ⟨h1, h2⟩ := hc k p (pa_hashmap_get_mem _ _ _ hgv) hsel
    refine ⟨?_, h1, h2⟩
    show pa_hashmap_get u1.discover.byname k = none
    cases hx : pa_hashmap_get u1.discover.byname k with
    | none => rfl
    | some q =>
      obtain ⟨h3, h4⟩ := (ha k q).mp hx
      rw [hgv] at h3
      cases h3
      have := h4 (pa_hashmap_get_mem _ _ _ hgv)
      rw [hsel] at this
      cases this


/-- C2 at a concrete input: an ALSA card whose first profile gave the nodes
`alsa_output.X.analog-stereo` and `alsa_input.X.analog-stereo` switches to a
profile whose scan gives `alsa_output.X.analog-stereo` and
`alsa_input.X.analog-mono`. -/
theorem profile_changed_retires_stale_nodes_witness :
    device_keys_of_card example_after_add 7 =
      ["alsa_output.X.analog-stereo", "alsa_input.X.analog-stereo"] ∧
    profile_scan_keys example_after_add example_alsa_card_switched =
      some ["alsa_output.X.analog-stereo", "alsa_input.X.analog-mono"] ∧
    ∃ u1, pa_discover_profile_changed example_after_add example_alsa_card_switched = some u1 ∧
      registry_ok u1 ∧
      (∀ k, k ∈ device_keys_of_card u1 example_alsa_card_switched.index ↔
        k ∈ ["alsa_output.X.analog-stereo", "alsa_input.X.analog-mono"]) ∧
      (∀ k p n, k ∈ ["alsa_output.X.analog-stereo", "alsa_input.X.analog-mono"] →
        pa_discover_find_node example_after_add (some k) = some p →
        example_after_add.deref p = some n →
        pa_discover_find_node u1 (some k) = some p ∧
        u1.deref p = some { n with stamp := example_after_add.stamp + 2 }) ∧
      (∀ k p, k ∉ ["alsa_output.X.analog-stereo", "alsa_input.X.analog-mono"] →
        pa_discover_find_node example_after_add (some k) = some p →
        is_device_of_card example_after_add example_alsa_card_switched.index p = true →
        pa_discover_find_node u1 (some k) = none ∧ u1.deref p = none ∧
        am_call.unregister p ∈ u1.audiomgr) :=
  ⟨by decide, by decide,
    profile_changed_retires_stale_nodes example_after_add example_alsa_card_switched "pci"
      { name := "output:analog-stereo+input:analog-mono", n_sinks := 1, n_sources := 1,
        max_sink_channels := 2, max_source_channels := 1 }
      ["alsa_output.X.analog-stereo", "alsa_input.X.analog-mono"]
      (by decide) (by decide) (by decide) (Or.inl rfl) rfl (by decide)
      (by
        intro k hk p hp
        simp only [List.mem_cons, List.mem_singleton, List.not_mem_nil, or_false] at hk
        rcases hk with rfl | rfl
        · have h1 : pa_discover_find_node example_after_add
              (some "alsa_output.X.analog-stereo") = some 1 := by decide
          rw [h1] at hp
          cases hp
          decide
        · have h1 : pa_discover_find_node example_after_add
              (some "alsa_input.X.analog-mono") = none := by decide
          rw [h1] at hp
          cases hp)⟩

/-! ## Stamps never exceed the last stamp handed out -/

theorem stamps_ok_store (u : userdata) (p : Nat) (m : mir_node) (h : stamps_ok u)
    (hm : m.stamp ≤ u.stamp) : stamps_ok (u.store p m) := by
  intro e he
  simp only [userdata.store, List.mem_map] at he
  obtain ⟨e0, he0, rfl⟩ := he
  have := h e0 he0
  show (if e0.1 = p then m else e0.2).stamp ≤ u.stamp
  split
  · exact hm
  · exact this

theorem stamps_ok_create (u : userdata) (d : mir_node) (h : stamps_ok u)
    (hd : d.stamp ≤ u.stamp) :
    stamps_ok (create_node u d).1 ∧ (create_node u d).1.stamp = u.stamp := by
  cases hg : pa_hashmap_get u.discover.byname d.key with
  | some p => rw [create_node_found u d p hg]; exact ⟨h, rfl⟩
  | none =>
    rw [create_node_fresh u d hg]
    refine ⟨?_, rfl⟩
    intro e he
    simp only [List.mem_append, List.mem_singleton] at he
    rcases he with he | he
    · exact h e he
    · subst he
      show (mir_node_new d).stamp ≤ u.stamp
      unfold mir_node_new
      split <;> exact hd

theorem stamps_ok_create_or_refresh (u u1 : userdata) (d : mir_node) (h : stamps_ok u)
    (hd : d.stamp ≤ u.stamp) (hc : create_or_refresh_node u d = some u1) :
    stamps_ok u1 ∧ u1.stamp = u.stamp := by
  obtain ⟨h1, h2⟩ := stamps_ok_create u d h hd
  unfold create_or_refresh_node at hc
  simp only at hc
  split at hc
  · cases hc; exact ⟨h1, h2⟩
  · split at hc
    · cases hc
    · cases hc
      exact ⟨stamps_ok_store _ _ _ h1 (by rw [h2]; exact hd), h2⟩

theorem stamps_ok_handle_alsa_card (u u1 : userdata) (card : pa_card) (h : stamps_ok u)
    (hr : handle_alsa_card u card = some u1) : stamps_ok u1 := by
  have h0 : stamps_ok (pa_utils_get_stamp u).1 := by
    intro e he
    have := h e he
    show e.2.stamp ≤ u.stamp + 1
    omega
  unfold handle_alsa_card at hr
  simp only at hr
  split at hr
  · split at hr
    · split at hr
      · obtain ⟨u2, hu2, hP⟩ := handle_udev_loaded_card_sim
          (fun a b => a = b ∧ stamps_ok a ∧ a.stamp = u.stamp + 1)
          card _ (pa_utils_get_stamp u).1 (pa_utils_get_stamp u).1 _ u1
          (by
            intro a b d b1 hab hd hc
            obtain ⟨rfl, hok, hs⟩ := hab
            have hle : d.stamp ≤ a.stamp := by
              rw [hd.1, hs]
              exact Nat.le_refl _
            obtain ⟨h1, h2⟩ := stamps_ok_create_or_refresh a b1 d hok hle hc
            exact ⟨b1, hc, rfl, h1, by rw [h2, hs]⟩)
          (by intro a b hab x y; rw [hab.1])
          ⟨rfl, h0, rfl⟩ rfl hr
        rw [hP.1] at hP
        exact hP.2.1
      · cases hr; exact h0
    · cases hr; exact h0
  · cases hr; exact h0

theorem stamps_ok_handle_bluetooth_profiles (card : pa_card) (cid : String) :
    ∀ (profiles : List pa_card_profile) (u : userdata) (data : mir_node) (u1 : userdata)
      (d1 : mir_node), stamps_ok u → data.stamp ≤ u.stamp →
      handle_bluetooth_profiles card cid profiles u data = some (u1, d1) → stamps_ok u1 := by
  intro profiles
  induction profiles with
  | nil =>
    intro u data u1 d1 hok _ h
    simp only [handle_bluetooth_profiles, Option.some.injEq, Prod.mk.injEq] at h
    rw [← h.1]; exact hok
  | cons prof rest ih =>
    intro u data u1 d1 hok hle h
    unfold handle_bluetooth_profiles at h
    simp only at h
    split at h
    · cases h
    · rename_i ua da hsinks
      have hoka : stamps_ok ua ∧ da.stamp ≤ ua.stamp := by
        split at hsinks
        · split at hsinks
          · cases hsinks
          · rename_i d2 hcl
            cases hsinks
            have hs := (classify_same_identity _ da card _ _ hcl).2.2.2.2.2.2.2.2.2.2.2.2
            have hle2 : da.stamp ≤ u.stamp := by rw [hs]; exact hle
            obtain ⟨h1, h2⟩ := stamps_ok_create u da hok hle2
            exact ⟨h1, by rw [h2]; exact hle2⟩
        · cases hsinks; exact ⟨hok, hle⟩
      split at h
      · cases h
      · rename_i ub db hsources
        have hokb : stamps_ok ub ∧ db.stamp ≤ ub.stamp := by
          split at hsources
          · split at hsources
            · cases hsources
            · rename_i d5 hcl
              cases hsources
              have hs := (classify_same_identity _ db card _ _ hcl).2.2.2.2.2.2.2.2.2.2.2.2
              have hle2 : db.stamp ≤ ua.stamp := by rw [hs]; exact hoka.2
              obtain ⟨h1, h2⟩ := stamps_ok_create ua db hoka.1 hle2
              exact ⟨h1, by rw [h2]; exact hle2⟩
          · cases hsources; exact hoka
        exact ih ub db u1 d1 hokb.1 hokb.2 h

theorem stamps_ok_add_card (u u1 : userdata) (card : pa_card) (h : stamps_ok u)
    (hr : pa_discover_add_card u card = some u1) : stamps_ok u1 := by
  unfold pa_discover_add_card at hr
  split at hr
  · cases hr; exact h
  · split at hr
    · exact stamps_ok_handle_alsa_card u u1 card h hr
    · split at hr
      · have h0 : stamps_ok (pa_utils_get_stamp u).1 := by
          intro e he
          have := h e he
          show e.2.stamp ≤ u.stamp + 1
          omega
        unfold handle_bluetooth_card at hr
        simp only at hr
        split at hr
        · split at hr
          · cases hr
          · rename_i u2 d2 hp
            cases hr
            exact stamps_ok_handle_bluetooth_profiles card _ card.profiles _ _ u2 d2 h0
              (Nat.le_refl _) hp
        · cases hr; exact h0
      · cases hr; exact h

theorem stamps_ok_destroy_node_if (sel : mir_node → Bool) (u u1 : userdata) (p : Nat)
    (h : stamps_ok u) (hr : destroy_node_if sel u p = some u1) : stamps_ok u1 := by
  unfold destroy_node_if at hr
  split at hr
  · cases hr
  · split at hr
    · unfold destroy_node at hr
      simp only at hr
      split at hr
      · cases hr
      · split at hr
        · cases hr
          intro e he
          exact h e (pa_hashmap_remove_subset _ _ _ he).1
        · split at hr
          · cases hr; exact h
          · simp only [Option.map_eq_some'] at hr
            obtain ⟨_, _, rfl⟩ := hr
            exact h
    · cases hr; exact h

theorem stamps_ok_profile_changed (u u1 : userdata) (card : pa_card) (h : stamps_ok u)
    (hr : pa_discover_profile_changed u card = some u1) : stamps_ok u1 := by
  unfold pa_discover_profile_changed at hr
  split at hr
  · cases hr; exact h
  · split at hr
    · split at hr
      · cases hr
      · split at hr
        · refine hashmap_foreach_inv stamps_ok _ ?_ _ u u1 h hr
          intro v p v1 hv hb
          simp only at hb
          split at hb
          · cases hb
          · rename_i n hd
            split at hb
            · cases hb
              exact stamps_ok_store v p _ hv (hv (p, n) (pa_hashmap_get_mem _ _ _ hd))
            · cases hb; exact hv
        · cases hr; exact h
    · split at hr
      · cases hr
      · simp only at hr
        split at hr
        · cases hr
        · rename_i u2 hs
          have h0 : stamps_ok (pa_utils_get_stamp u).1 := by
            intro e he
            have := h e he
            show e.2.stamp ≤ u.stamp + 1
            omega
          have h2 := stamps_ok_handle_alsa_card _ u2 card h0 hs
          exact hashmap_foreach_inv stamps_ok _
            (fun v p v1 hv hb => stamps_ok_destroy_node_if _ v v1 p hv hb) _ u2 u1 h2 hr

/-- Every state that card events lead to from the freshly initialised module
has a consistent by-key index and no stamp beyond the last one handed out. -/
theorem card_events_invariants (events : List card_event) :
    ∀ (u u1 : userdata), registry_ok u → stamps_ok u →
      handle_card_events u events = some u1 → registry_ok u1 ∧ stamps_ok u1 := by
  induction events with
  | nil =>
    intro u u1 h1 h2 hr
    simp only [handle_card_events, Option.some.injEq] at hr
    rw [← hr]; exact ⟨h1, h2⟩
  | cons ev rest ih =>
    intro u u1 h1 h2 hr
    unfold handle_card_events at hr
    split at hr
    · cases hr
    · rename_i u2 he
      have h3 : registry_ok u2 ∧ stamps_ok u2 := by
        cases ev with
        | add_card card =>
          exact ⟨registry_ok_add_card u u2 card h1 he, stamps_ok_add_card u u2 card h2 he⟩
        | profile_changed card =>
          exact ⟨registry_ok_profile_changed u u2 card h1 he,
            stamps_ok_profile_changed u u2 card h2 he⟩
      exact ih u2 u1 h3.1 h3.2 hr

/-! ## Claims about the registry -/

/-- C1: when the key of the data is already in the by-key index, create_node
returns the node stored under it with created = false and leaves the whole state
unchanged (both indexes and every node record); hence a second create_node with
the same key returns the node the first call returned and changes nothing, and
the by-key index then holds exactly one entry for that key. -/
theorem create_node_existing_key (u : userdata) (data data2 : mir_node)
    (hn : (u.discover.byname.map (fun e => e.1)).Nodup) (hk : data2.key = data.key) :
    (∀ node, pa_discover_find_node u (some data.key) = some node →
        create_node u data = (u, node, false)) ∧
    create_node (create_node u data).1 data2 =
        ((create_node u data).1, (create_node u data).2.1, false) ∧
    ((create_node (create_node u data).1 data2).1.discover.byname.filter
        (fun e => decide (e.1 = data.key))).length = 1 := by
  have hsecond : pa_hashmap_get (create_node u data).1.discover.byname data.key =
      some (create_node u data).2.1 := by
    cases h : pa_hashmap_get u.discover.byname data.key with
    | some node => rw [create_node_found u data node h]; exact h
    | none =>
      rw [create_node_fresh u data h]
      simp [pa_hashmap_get_append, h]
  have hnodup : ((create_node u data).1.discover.byname.map (fun e => e.1)).Nodup := by
    cases h : pa_hashmap_get u.discover.byname data.key with
    | some node => rw [create_node_found u data node h]; exact hn
    | none =>
      rw [create_node_fresh u data h]
      have := pa_hashmap_put_nodup u.discover.byname data.key (fresh_address u.heap) hn
      simpa [pa_hashmap_put, h] using this
  have htwice := create_node_found (create_node u data).1 data2 (create_node u data).2.1
    (by rw [hk]; exact hsecond)
  refine ⟨fun node h => create_node_found u data node h, htwice, ?_⟩
  rw [htwice]
  exact pa_hashmap_count_key _ data.key _ hnodup hsecond

/-- C1 at a concrete input: a registry holding one node under `"k"`. -/
theorem create_node_existing_key_witness :
    create_node (create_node pa_discover_init (example_node "k")).1 (example_node "k") =
      ((create_node pa_discover_init (example_node "k")).1, 1, false) :=
  (create_node_existing_key (create_node pa_discover_init (example_node "k")).1
    (example_node "k") (example_node "k") (by decide) rfl).1 1 (by decide)

/-- C6: when the key of the data is not in the by-key index, create_node
returns created = true and a node at a previously unused address holding the
record built from the data; find_node of that key then returns this node,
lookups of every other key, every other record and the by-handle index are
unchanged, and the audio manager receives exactly one register call, for the
new node. When the key is present no call is made. -/
theorem create_node_absent_key (u : userdata) (data : mir_node) :
    (pa_discover_find_node u (some data.key) = none →
      ∃ u1 node, create_node u data = (u1, node, true) ∧
        u.deref node = none ∧ u1.deref node = some (mir_node_new data) ∧
        pa_discover_find_node u1 (some data.key) = some node ∧
        (∀ k, k ≠ data.key →
          pa_discover_find_node u1 (some k) = pa_discover_find_node u (some k)) ∧
        (∀ q, q ≠ node → u1.deref q = u.deref q) ∧
        u1.discover.byptr = u.discover.byptr ∧
        u1.audiomgr = u.audiomgr ++ [am_call.register node]) ∧
    (∀ node, pa_discover_find_node u (some data.key) = some node →
      (create_node u data).2.2 = false ∧ (create_node u data).1.audiomgr = u.audiomgr) := by
  constructor
  · intro h
    have h0 : pa_hashmap_get u.discover.byname data.key = none := h
    refine ⟨_, _, create_node_fresh u data h0, fresh_address_unused u.heap, ?_, ?_, ?_, ?_,
      rfl, rfl⟩
    · simp [userdata.deref, pa_hashmap_get_append, fresh_address_unused]
    · simp [pa_discover_find_node, pa_hashmap_get_append, h0]
    · intro k hk
      have hk2 : ¬ data.key = k := fun e => hk e.symm
      simp only [pa_discover_find_node, pa_hashmap_get_append]
      cases pa_hashmap_get u.discover.byname k <;> simp [hk2]
    · intro q hq
      have hq2 : ¬ fresh_address u.heap = q := fun e => hq e.symm
      simp only [userdata.deref, pa_hashmap_get_append]
      cases pa_hashmap_get u.heap q <;> simp [hq2]
  · intro node h
    rw [create_node_found u data node h]
    exact ⟨rfl, rfl⟩

/-- C6 at a concrete input: the first node of an empty registry. -/
theorem create_node_absent_key_witness :
    ∃ u1 node, create_node pa_discover_init (example_node "k") = (u1, node, true) ∧
        pa_discover_init.deref node = none ∧
        u1.deref node = some (mir_node_new (example_node "k")) ∧
        pa_discover_find_node u1 (some (example_node "k").key) = some node ∧
        (∀ k, k ≠ (example_node "k").key →
          pa_discover_find_node u1 (some k) = pa_discover_find_node pa_discover_init (some k)) ∧
        (∀ q, q ≠ node → u1.deref q = pa_discover_init.deref q) ∧
        u1.discover.byptr = pa_discover_init.discover.byptr ∧
        u1.audiomgr = pa_discover_init.audiomgr ++ [am_call.register node] :=
  (create_node_absent_key pa_discover_init (example_node "k")).1 (by decide)

/-- C7: for a node that is stored in the by-key index under its own key,
destroy_node removes the entry of that key and no other (lookups of every other
key are unchanged), makes exactly one unregister call to the audio manager, for
this node, and releases the record, leaving every other record and the
by-handle index as they were; destroy_node of a NULL node changes nothing. -/
theorem destroy_node_registered (u : userdata) (p : Nat) (n : mir_node)
    (h1 : u.deref p = some n) (h2 : pa_discover_find_node u (some n.key) = some p) :
    (∃ u1, destroy_node u (some p) = some u1 ∧
      pa_discover_find_node u1 (some n.key) = none ∧
      (∀ k, k ≠ n.key → pa_discover_find_node u1 (some k) = pa_discover_find_node u (some k)) ∧
      u1.discover.byname = u.discover.byname.filter (fun e => decide (e.1 ≠ n.key)) ∧
      u1.audiomgr = u.audiomgr ++ [am_call.unregister p] ∧
      u1.deref p = none ∧ (∀ q, q ≠ p → u1.deref q = u.deref q) ∧
      u1.discover.byptr = u.discover.byptr) ∧
    destroy_node u none = some u := by
  have h3 : pa_hashmap_get u.discover.byname n.key = some p := h2
  refine ⟨⟨mir_node_destroy (pa_audiomgr_unregister_node
      (u.set_byname (pa_hashmap_remove u.discover.byname n.key)) p) p,
    by simp [destroy_node, h1, h3], ?_, ?_, rfl, rfl, ?_, ?_, rfl⟩, rfl⟩
  · simp [pa_discover_find_node, mir_node_destroy, pa_audiomgr_unregister_node,
      userdata.set_byname, pa_hashmap_get_remove]
  · intro k hk
    simp [pa_discover_find_node, mir_node_destroy, pa_audiomgr_unregister_node,
      userdata.set_byname, pa_hashmap_get_remove, hk]
  · simp [userdata.deref, mir_node_destroy, pa_audiomgr_unregister_node,
      userdata.set_byname, pa_hashmap_get_remove]
  · intro q hq
    simp [userdata.deref, mir_node_destroy, pa_audiomgr_unregister_node,
      userdata.set_byname, pa_hashmap_get_remove, hq]

/-- C7 at a concrete input: the node the drifted registry holds under `"k"`. -/
theorem destroy_node_registered_witness :
    drifted_registry.deref 1 = some (example_node "k") ∧
    pa_discover_find_node drifted_registry (some (example_node "k").key) = some 1 ∧
    (∃ u1, destroy_node drifted_registry (some 1) = some u1 ∧
      pa_discover_find_node u1 (some (example_node "k").key) = none ∧
      (∀ k, k ≠ (example_node "k").key →
        pa_discover_find_node u1 (some k) = pa_discover_find_node drifted_registry (some k)) ∧
      u1.discover.byname =
        drifted_registry.discover.byname.filter
          (fun e => decide (e.1 ≠ (example_node "k").key)) ∧
      u1.audiomgr = drifted_registry.audiomgr ++ [am_call.unregister 1] ∧
      u1.deref 1 = none ∧ (∀ q, q ≠ 1 → u1.deref q = drifted_registry.deref q) ∧
      u1.discover.byptr = drifted_registry.discover.byptr) :=
  ⟨by decide, by decide,
    (destroy_node_registered drifted_registry 1 (example_node "k") (by decide) (by decide)).1⟩

/-- C5 refuted at a concrete input: destroying a node whose key is held in the
by-key index by a different node removes that other node from the index. -/
theorem destroy_node_mismatch_unregisters_other :
    pa_discover_find_node drifted_registry (some "k") = some 1 ∧
    drifted_registry.deref 2 = some (example_node "k") ∧
    ∃ u1, destroy_node drifted_registry (some 2) = some u1 ∧
      pa_discover_find_node u1 (some "k") = none := by
  refine ⟨by decide, by decide, drifted_registry.set_byname [], ?_, ?_⟩
  · decide
  · decide

/-- C5 as amended: when the by-key index holds no entry, or a different
allocated node, under the key of the node, destroy_node returns without an
unregister call and without releasing any record, and leaves the by-handle
index and the entries of every other key as they were. Nothing at all changes
when there was no entry; an entry held by a different node is removed from the
by-key index. -/
theorem destroy_node_mismatch (u : userdata) (p : Nat) (n : mir_node)
    (h1 : u.deref p = some n) (h2 : pa_discover_find_node u (some n.key) ≠ some p)
    (h3 : ∀ q, pa_discover_find_node u (some n.key) = some q → (u.deref q).isSome) :
    ∃ u1, destroy_node u (some p) = some u1 ∧
      u1.audiomgr = u.audiomgr ∧ u1.heap = u.heap ∧
      u1.discover.byptr = u.discover.byptr ∧
      (∀ k, k ≠ n.key → pa_discover_find_node u1 (some k) = pa_discover_find_node u (some k)) ∧
      pa_discover_find_node u1 (some n.key) = none ∧
      (pa_discover_find_node u (some n.key) = none → u1 = u) := by
  have h4 : ¬ pa_hashmap_get u.discover.byname n.key = some p := h2
  refine ⟨u.set_byname (pa_hashmap_remove u.discover.byname n.key), ?_, rfl, rfl, rfl, ?_, ?_, ?_⟩
  · cases hr : pa_hashmap_get u.discover.byname n.key with
    | none => simp [destroy_node, h1, hr]
    | some q =>
      have hq := h3 q hr
      have hne : ¬ q = p := fun e => h4 (by rw [hr, e])
      obtain ⟨m, hm⟩ := Option.isSome_iff_exists.mp hq
      have hm2 : (u.set_byname (pa_hashmap_remove u.discover.byname n.key)).deref q = some m := hm
      simp [destroy_node, h1, hr, hne, hm2]
  · intro k hk
    simp [pa_discover_find_node, userdata.set_byname, pa_hashmap_get_remove, hk]
  · simp [pa_discover_find_node, userdata.set_byname, pa_hashmap_get_remove]
  · intro hnone
    have hnone2 : pa_hashmap_get u.discover.byname n.key = none := hnone
    simp [userdata.set_byname, pa_hashmap_remove_absent _ _ hnone2]

/-- C5 as amended, at a concrete input: the second record of the drifted registry. -/
theorem destroy_node_mismatch_witness :
    ∃ u1, destroy_node drifted_registry (some 2) = some u1 ∧
      u1.audiomgr = drifted_registry.audiomgr ∧ u1.heap = drifted_registry.heap ∧
      u1.discover.byptr = drifted_registry.discover.byptr ∧
      (∀ k, k ≠ (example_node "k").key →
        pa_discover_find_node u1 (some k) = pa_discover_find_node drifted_registry (some k)) ∧
      pa_discover_find_node u1 (some (example_node "k").key) = none ∧
      (pa_discover_find_node drifted_registry (some (example_node "k").key) = none →
        u1 = drifted_registry) :=
  destroy_node_mismatch drifted_registry 2 (example_node "k") (by decide) (by decide)
    (by intro q hq
        have : q = 1 := by
          have h : pa_discover_find_node drifted_registry (some (example_node "k").key) =
            some 1 := by decide
          rw [h] at hq; exact (Option.some.inj hq).symm
        subst this; decide)

/-! ## Claims about the classifier -/

/-- C8: on a card whose form factor is "headset" and whose bus is "bluetooth"
(both compared without regard to case, as the code does), classify_node_by_card
sets the type to bluetooth-a2dp when the profile name is exactly "a2dp" and to
bluetooth-sco for every other profile, and the location to external, for every
entity with a display-name buffer, every direction and every port. -/
theorem classify_headset_bluetooth (data : mir_node) (card : pa_card)
    (prof : pa_card_profile) (port : Option pa_device_port) (form bus a : String)
    (hform : pa_proplist_gets card.proplist PA_PROP_DEVICE_FORM_FACTOR = some form)
    (hf : strcasecmp_eq form "headset" = true)
    (hbus : pa_proplist_gets card.proplist PA_PROP_DEVICE_BUS = some bus)
    (hb : strcasecmp_eq bus "bluetooth" = true)
    (ham : data.amname = some a) :
    ∃ d, classify_node_by_card data card (some prof) port = some d ∧
      d.location = mir_external ∧
      d.type = if prof.name = "a2dp" then mir_bluetooth_a2dp else mir_bluetooth_sco := by
  have f1 := strcasecmp_eq_of_eq form "headset" "internal" hf
  have f2 := strcasecmp_eq_of_eq form "headset" "speaker" hf
  have f3 := strcasecmp_eq_of_eq form "headset" "car" hf
  have f4 := strcasecmp_eq_of_eq form "headset" "handset" hf
  have b1 := strcasecmp_eq_of_eq bus "bluetooth" "usb" hb
  have e1 : strcasecmp_eq "headset" "internal" = false := by decide
  have e2 : strcasecmp_eq "headset" "speaker" = false := by decide
  have e3 : strcasecmp_eq "headset" "car" = false := by decide
  have e4 : strcasecmp_eq "headset" "handset" = false := by decide
  have e5 : strcasecmp_eq "bluetooth" "usb" = false := by decide
  rw [e1] at f1; rw [e2] at f2; rw [e3] at f3; rw [e4] at f4; rw [e5] at b1
  have h1 : classify_form data (some bus) (some form) (some prof) port =
      some { data with location := mir_external,
                       type := if prof.name = "a2dp" then mir_bluetooth_a2dp
                               else mir_bluetooth_sco } := by
    unfold classify_form
    simp only [f1, f2, f3, f4, hf, b1, hb, Bool.or_self, if_true, if_false, Bool.false_eq_true]
    by_cases hp : prof.name = "a2dp" <;> simp [hp]
  obtain ⟨d2, h2⟩ := classify_amname_isSome _ port a
    (show ({ data with location := mir_external,
                       type := if prof.name = "a2dp" then mir_bluetooth_a2dp
                               else mir_bluetooth_sco } : mir_node).amname = some a from ham)
  obtain ⟨ht2, hl2⟩ := classify_amname_type _ d2 port h2
  refine ⟨classify_privacy d2, ?_, ?_, ?_⟩
  · unfold classify_node_by_card
    simp only [hform, hbus, h1, h2]
  · rw [classify_privacy_location, hl2]
  · rw [classify_privacy_type, ht2]

/-- C8 at concrete inputs: the profiles "a2dp" and "hsp" of a bluetooth headset. -/
theorem classify_headset_bluetooth_witness :
    (∃ d, classify_node_by_card example_output example_bluetooth_headset (some example_a2dp)
        none = some d ∧ d.location = mir_external ∧ d.type = mir_bluetooth_a2dp) ∧
    (∃ d, classify_node_by_card example_output example_bluetooth_headset (some example_hsp)
        none = some d ∧ d.location = mir_external ∧ d.type = mir_bluetooth_sco) :=
  ⟨classify_headset_bluetooth example_output example_bluetooth_headset example_a2dp none
      "headset" "bluetooth" "" (by decide) (by decide) (by decide) (by decide) (by decide),
   classify_headset_bluetooth example_output example_bluetooth_headset example_hsp none
      "headset" "bluetooth" "" (by decide) (by decide) (by decide) (by decide) (by decide)⟩

/-- C9 refuted at concrete inputs: on a usb card without a form factor an output
entity with a port named "Headphone Jack" keeps the type unknown; and on a pci
card a port of that name without a description leaves the display name NULL, which
the function then reads. -/
theorem classify_headphone_jack_usb :
    pa_proplist_gets example_usb_card.proplist PA_PROP_DEVICE_FORM_FACTOR = none ∧
    example_output.direction = mir_output ∧
    example_headphone_port.name = "Headphone Jack" ∧
    (∃ d, classify_node_by_card example_output example_usb_card none
        (some example_headphone_port) = some d ∧ d.type = mir_node_type_unknown) ∧
    classify_node_by_card example_output example_pci_card none
        (some { example_headphone_port with description := none }) = none := by
  refine ⟨by decide, by decide, by decide, ?_, by decide⟩
  exact ⟨{ example_output with amname := some "Headphones", privacy := mir_public },
    by decide, by decide⟩

/-- C9 as amended: for every card with no form-factor attribute whose bus is
"pci" (compared without regard to case), every output-direction entity and
every port named "Headphone Jack" that carries a description,
classify_node_by_card yields the type wired headphone. -/
theorem classify_headphone_jack_pci (data : mir_node) (card : pa_card)
    (prof : Option pa_card_profile) (port : pa_device_port) (bus descr : String)
    (hform : pa_proplist_gets card.proplist PA_PROP_DEVICE_FORM_FACTOR = none)
    (hbus : pa_proplist_gets card.proplist PA_PROP_DEVICE_BUS = some bus)
    (hb : strcasecmp_eq bus "pci" = true)
    (hdir : data.direction = mir_output)
    (hname : port.name = "Headphone Jack")
    (hdescr : port.description = some descr) :
    ∃ d, classify_node_by_card data card prof (some port) = some d ∧
      d.type = mir_wired_headphone := by
  have hs : strcasestr "Headphone Jack" "headphone" = true := by decide
  have h1 : classify_form data (some bus) none prof (some port) =
      some { data with type := mir_wired_headphone, amname := some descr } := by
    simp [classify_form, classify_guess, hb, guess_device_node_type_and_name, hdir, hname, hs,
      hdescr]
  obtain ⟨d2, h2⟩ := classify_amname_isSome
    { data with type := mir_wired_headphone, amname := some descr } (some port) descr rfl
  obtain ⟨ht2, -⟩ := classify_amname_type _ d2 (some port) h2
  refine ⟨classify_privacy d2, ?_, ?_⟩
  · unfold classify_node_by_card
    simp only [hform, hbus, h1, h2]
  · rw [classify_privacy_type, ht2]

/-- C9 as amended, at a concrete input: the same port on a pci card. -/
theorem classify_headphone_jack_pci_witness :
    ∃ d, classify_node_by_card example_output example_pci_card none
      (some example_headphone_port) = some d ∧ d.type = mir_wired_headphone :=
  classify_headphone_jack_pci example_output example_pci_card none example_headphone_port
    "pci" "Headphones" (by decide) (by decide) (by decide) (by decide) (by decide) (by decide)

/-- C10: for every port name and direction, guess_device_node_type_and_name
assigns the type of the first matching rule of the ordered table "headphone"
(output only), "headset", "line", "spdif", "hdmi", "microphone" (input only),
"analog-output" (output), "analog-input" (input), matched by case-insensitive
substring search, and unknown when none matches. So a name containing both
"headset" and "hdmi" gets wired headset (the first rule, which precedes both,
not applying), and on an entity that is not an output the first rule never
applies: "headphone" in the name does not give wired headphone. -/
theorem guess_first_match (data : mir_node) (pnam : String) (pdesc : Option String) :
    (guess_device_node_type_and_name data pnam pdesc).type =
      guess_rules_type data.direction pnam ∧
    (strcasestr pnam "headset" = true → strcasestr pnam "hdmi" = true →
      ¬ (data.direction = mir_output ∧ strcasestr pnam "headphone" = true) →
      (guess_device_node_type_and_name data pnam pdesc).type = mir_wired_headset) ∧
    (data.direction ≠ mir_output →
      (guess_device_node_type_and_name data pnam pdesc).type ≠ mir_wired_headphone) := by
  refine ⟨guess_type_eq_rules data pnam pdesc, ?_, ?_⟩
  · intro h2 _ h1
    unfold guess_device_node_type_and_name
    have : (decide (data.direction = mir_output) && strcasestr pnam "headphone") = false := by
      cases hd : decide (data.direction = mir_output) <;>
        cases hs : strcasestr pnam "headphone" <;> simp_all
    simp [this, h2]
  · intro hd
    unfold guess_device_node_type_and_name
    simp only [hd, decide_False, Bool.false_and, Bool.false_eq_true, if_false]
    repeat' split
    all_goals simp

/-- C10 at concrete inputs: "hdmi-headset" on an output, "headphone" on an input. -/
theorem guess_first_match_witness :
    (guess_device_node_type_and_name example_output "hdmi-headset" none).type =
      mir_wired_headset ∧
    (guess_device_node_type_and_name { example_output with direction := mir_input }
      "analog-input-headphone" none).type ≠ mir_wired_headphone :=
  ⟨(guess_first_match example_output "hdmi-headset" none).2.1 (by decide) (by decide)
      (by decide),
   (guess_first_match { example_output with direction := mir_input }
      "analog-input-headphone" none).2.2 (by decide)⟩

/-! ## Claims about card events -/

/-- C3: after any sequence of pa_discover_add_card and pa_discover_profile_changed
events (on any cards, from any consistent registry), pa_discover_remove_card of
a card returns, and when it has returned the by-key index contains no node with
implement = device whose card index is the index of the removed card; every
such node that was registered has been unregistered from the audio manager and
released. -/
theorem remove_card_retires_device_nodes (u0 : userdata) (events : List card_event)
    (u : userdata) (card : pa_card) (h0 : registry_ok u0)
    (hrun : handle_card_events u0 events = some u) :
    ∃ u1, pa_discover_remove_card u card = some u1 ∧
      (∀ k p, pa_discover_find_node u1 (some k) = some p →
        ∃ n, u1.deref p = some n ∧
          ¬ (n.implement = mir_device ∧ n.pacard.index = card.index)) ∧
      (∀ k p, pa_discover_find_node u (some k) = some p →
        is_device_of_card u card.index p = true →
        pa_discover_find_node u1 (some k) = none ∧ u1.deref p = none ∧
        am_call.unregister p ∈ u1.audiomgr) := by
  have hok := registry_ok_card_events events u0 u h0 hrun
  obtain ⟨u1, hrun1, hok1, ha, -, hc⟩ := remove_card_spec u card hok
  refine ⟨u1, hrun1, ?_, hc⟩
  intro k p hg
  obtain ⟨n, hd, -⟩ := registry_ok_deref u1 hok1 k p hg
  obtain ⟨-, hsame, hdev⟩ := ha k p hg
  refine ⟨n, hd, ?_⟩
  rw [hd] at hsame
  simp only [is_device_of_card, ← hsame, Bool.and_eq_false_imp, decide_eq_true_eq,
    decide_eq_false_iff_not] at hdev
  intro hcontra
  exact hdev hcontra.1 hcontra.2

/-- C3 at a concrete input: the ALSA example card is added, switches its
profile and is removed. -/
theorem remove_card_retires_device_nodes_witness :
    registry_ok pa_discover_init ∧
    handle_card_events pa_discover_init
      [card_event.add_card example_alsa_card,
       card_event.profile_changed example_alsa_card_switched] = some example_after_switch ∧
    device_keys_of_card example_after_switch 7 =
      ["alsa_output.X.analog-stereo", "alsa_input.X.analog-mono"] ∧
    ∃ u1, pa_discover_remove_card example_after_switch example_alsa_card_switched = some u1 ∧
      (∀ k p, pa_discover_find_node u1 (some k) = some p →
        ∃ n, u1.deref p = some n ∧
          ¬ (n.implement = mir_device ∧ n.pacard.index = example_alsa_card_switched.index)) ∧
      (∀ k p, pa_discover_find_node example_after_switch (some k) = some p →
        is_device_of_card example_after_switch example_alsa_card_switched.index p = true →
        pa_discover_find_node u1 (some k) = none ∧ u1.deref p = none ∧
        am_call.unregister p ∈ u1.audiomgr) :=
  ⟨by decide, by decide, by decide,
    remove_card_retires_device_nodes pa_discover_init
      [card_event.add_card example_alsa_card,
       card_event.profile_changed example_alsa_card_switched]
      example_after_switch example_alsa_card_switched (by decide) (by decide)⟩

/-- C4 fails on this sequence: a bluetooth card is added, its sink appears and
is bound in the by-handle index, and the card is removed while the sink is still
bound. Afterwards the by-handle index still maps the sink to the node, whose
record has been released and which the by-key index no longer holds; the
removal of the sink then writes through the released address. -/
theorem byptr_entry_outlives_node :
    pa_discover_add_sink
      ((pa_discover_add_card pa_discover_init example_bluetooth_card).getD pa_discover_init)
      example_bluetooth_sink true = some example_bluetooth_bound ∧
    pa_hashmap_get example_bluetooth_bound.discover.byptr (pa_object.sink 11) = some 1 ∧
    pa_discover_find_node example_bluetooth_bound (some "bluez_sink.X@a2dp") = some 1 ∧
    ∃ u1, pa_discover_remove_card example_bluetooth_bound example_bluetooth_card = some u1 ∧
      pa_hashmap_get u1.discover.byptr (pa_object.sink 11) = some 1 ∧
      u1.deref 1 = none ∧ u1.discover.byname = [] ∧
      pa_discover_remove_sink u1 example_bluetooth_sink = none := by
  refine ⟨by decide, by decide, by decide, ?_⟩
  refine ⟨(pa_discover_remove_card example_bluetooth_bound example_bluetooth_card).getD
    pa_discover_init, by decide, by decide, by decide, by decide, by decide⟩

/-! ## Further claims about the classifier -/

theorem guess_amname (x : mir_node) (pnam : String) (pdesc : Option String) :
    (guess_device_node_type_and_name x pnam pdesc).amname =
      if guess_sets_name x.direction pnam = true then pdesc else x.amname := by
  unfold guess_device_node_type_and_name guess_sets_name guess_rules
  simp only [List.take, List.any, guess_rule_matches]
  cases hd : x.direction <;>
  cases h1 : strcasestr pnam "headphone" <;>
  cases h2 : strcasestr pnam "headset" <;>
  cases h3 : strcasestr pnam "line" <;>
  cases h4 : strcasestr pnam "spdif" <;>
  cases h5 : strcasestr pnam "hdmi" <;>
  cases h6 : strcasestr pnam "microphone" <;>
  simp <;>
  (repeat' split) <;> rfl

theorem classify_guess_amname (x d1 : mir_node) (bus : Option String)
    (port : Option pa_device_port) (h : classify_guess x bus port = some d1) :
    d1.amname =
      match port with
      | some p =>
        if guess_consulted bus none port = true ∧ guess_sets_name x.direction p.name = true
        then p.description else x.amname
      | none => x.amname := by
  unfold classify_guess at h
  cases port with
  | none => cases h; rfl
  | some p =>
    simp only at h ⊢
    cases bus with
    | none => cases h
    | some b =>
      simp only at h
      by_cases hb : strcasecmp_eq b "pci" = true
      · simp only [hb, if_true, Option.some.injEq] at h
        rw [← h, guess_amname]
        simp [guess_consulted, hb]
      · simp only [hb, if_false, Option.some.injEq, Bool.false_eq_true] at h
        rw [← h]
        simp [guess_consulted, hb]

theorem classify_total (data : mir_node) (card : pa_card) (prof : Option pa_card_profile)
    (port : Option pa_device_port) (a b : String)
    (ham : data.amname = some a)
    (hbus : pa_proplist_gets card.proplist PA_PROP_DEVICE_BUS = some b)
    (hdesc : ∀ p, port = some p → p.description ≠ none) :
    ∃ d, classify_node_by_card data card prof port = some d := by
  have hguess : ∀ x : mir_node, x.amname = some a →
      ∃ d1, classify_guess x (some b) port = some d1 ∧ d1.amname ≠ none := by
    intro x hx
    have hex : ∃ d1, classify_guess x (some b) port = some d1 := by
      unfold classify_guess
      cases port with
      | none => exact ⟨x, rfl⟩
      | some p =>
        simp only
        split
        · exact ⟨_, rfl⟩
        · exact ⟨x, rfl⟩
    obtain ⟨d1, h1⟩ := hex
    refine ⟨d1, h1, ?_⟩
    rw [classify_guess_amname x d1 (some b) port h1]
    cases port with
    | none => simp [hx]
    | some p =>
      simp only
      split
      · exact hdesc p rfl
      · simp [hx]
  have hform : ∃ d1, classify_form data (some b)
      (pa_proplist_gets card.proplist PA_PROP_DEVICE_FORM_FACTOR) prof port = some d1 ∧
      d1.amname ≠ none := by
    unfold classify_form
    split
    · split
      · exact hguess _ ham
      · repeat' split
        all_goals exact ⟨_, rfl, by simp [ham]⟩
    · exact hguess _ ham
  obtain ⟨d1, h1, hne⟩ := hform
  obtain ⟨a1, ha1⟩ := Option.ne_none_iff_exists'.mp hne
  obtain ⟨d2, h2⟩ := classify_amname_isSome d1 port a1 ha1
  exact ⟨classify_privacy d2, by unfold classify_node_by_card; simp only [hbus, h1, h2]⟩

theorem form_unrecognised_classify_form (data : mir_node) (bus : Option String) (f : String)
    (prof : Option pa_card_profile) (port : Option pa_device_port)
    (hf : form_recognised f = false) :
    classify_form data bus (some f) prof port = some data := by
  unfold form_recognised at hf
  simp only [Bool.or_eq_false_iff] at hf
  obtain ⟨⟨⟨⟨⟨⟨h1, h2⟩, h3⟩, h4⟩, h5⟩, h6⟩, h7⟩ := hf
  simp [classify_form, h1, h2, h3, h4, h5, h6, h7]

/-- C11 refuted at a concrete input: on a pci card whose form factor is "tv",
an output entity with a port named "Headphone Jack" keeps the type unknown,
while the same card without the form-factor attribute gives wired headphone. -/
theorem classify_unrecognised_form_no_guess :
    form_recognised "tv" = false ∧
    (∃ d, classify_node_by_card example_output example_tv_card none
        (some example_headphone_port) = some d ∧ d.type = mir_node_type_unknown) ∧
    (∃ d, classify_node_by_card example_output example_pci_card none
        (some example_headphone_port) = some d ∧ d.type = mir_wired_headphone) := by
  refine ⟨by decide, ?_, ?_⟩
  · exact ⟨{ example_output with amname := some "Headphones", privacy := mir_public },
      by decide, by decide⟩
  · exact ⟨{ example_output with
             amname := some "Headphones", privacy := mir_private,
             type := mir_wired_headphone }, by decide, by decide⟩

/-- C11 as amended: for every card whose form-factor attribute is present but
is none of the recognised values (compared without regard to case),
classify_node_by_card does not consult the port name: it returns with the type
and the location of the entity as they were on entry, for every port. -/
theorem classify_unrecognised_form (data : mir_node) (card : pa_card)
    (prof : Option pa_card_profile) (port : Option pa_device_port) (f a : String)
    (hform : pa_proplist_gets card.proplist PA_PROP_DEVICE_FORM_FACTOR = some f)
    (hf : form_recognised f = false) (ham : data.amname = some a) :
    ∃ d, classify_node_by_card data card prof port = some d ∧
      d.type = data.type ∧ d.location = data.location := by
  obtain ⟨d2, h2⟩ := classify_amname_isSome data port a ham
  obtain ⟨ht, hl⟩ := classify_amname_type data d2 port h2
  refine ⟨classify_privacy d2, ?_, ?_, ?_⟩
  · unfold classify_node_by_card
    simp only [hform, form_unrecognised_classify_form data _ f prof port hf, h2]
  · rw [classify_privacy_type, ht]
  · rw [classify_privacy_location, hl]

/-- C11 as amended, at a concrete input: the card with form factor "tv". -/
theorem classify_unrecognised_form_witness :
    ∃ d, classify_node_by_card example_output example_tv_card none
      (some example_headphone_port) = some d ∧
      d.type = example_output.type ∧ d.location = example_output.location :=
  classify_unrecognised_form example_output example_tv_card none (some example_headphone_port)
    "tv" "" (by decide) (by decide) (by decide)

theorem classify_privacy_table (d : mir_node) :
    (classify_privacy d).privacy =
      derive_privacy (classify_privacy d).type (classify_privacy d).direction := by
  unfold classify_privacy derive_privacy
  by_cases h : d.direction = mir_input
  · simp [h]
  · cases ht : d.type <;> simp [h, ht, output_privacy]

/-- C12: the privacy classify_node_by_card leaves on the entity is the value of
the specification's table at the final type and direction: unknown for every
input, and for an output public for speakers, front and rear speakers, private
for phone, wired and usb headset, wired and usb headphone, bluetooth-sco and
bluetooth-a2dp, unknown for null, jack, spdif and hdmi, public for every other
type. The function returns whenever the entity has a display-name buffer, the
card has a bus attribute and the port, if any, has a description. -/
theorem classify_privacy_by_table (data : mir_node) (card : pa_card)
    (prof : Option pa_card_profile) (port : Option pa_device_port) :
    (∀ d, classify_node_by_card data card prof port = some d →
      d.privacy = derive_privacy d.type d.direction ∧
      (d.direction = mir_input → d.privacy = mir_privacy_unknown) ∧
      (d.direction = mir_output → d.privacy = output_privacy d.type)) ∧
    (∀ a b, data.amname = some a →
      pa_proplist_gets card.proplist PA_PROP_DEVICE_BUS = some b →
      (∀ p, port = some p → p.description ≠ none) →
      ∃ d, classify_node_by_card data card prof port = some d) := by
  constructor
  · intro d h
    unfold classify_node_by_card at h
    simp only at h
    split at h
    · cases h
    · split at h
      · cases h
      · rename_i d2 _
        cases h
        have ht := classify_privacy_table d2
        refine ⟨ht, ?_, ?_⟩
        · intro hd; rw [ht]; simp [derive_privacy, hd]
        · intro hd; rw [ht]; simp [derive_privacy, hd]
  · intro a b ham hbus hdesc
    exact classify_total data card prof port a b ham hbus hdesc

/-- C12 at concrete inputs: a handset as input is privacy-unknown, as output
private. -/
theorem classify_privacy_by_table_witness :
    (∃ d, classify_node_by_card { example_output with direction := mir_input }
        example_handset_card none none = some d ∧
      d.type = mir_phone ∧ d.privacy = mir_privacy_unknown) ∧
    (∃ d, classify_node_by_card example_output example_handset_card none none = some d ∧
      d.type = mir_phone ∧ d.privacy = mir_private) := by
  obtain ⟨d, hd⟩ := (classify_privacy_by_table { example_output with direction := mir_input }
    example_handset_card none none).2 "" "usb" (by decide) (by decide) (by simp)
  obtain ⟨e, he⟩ := (classify_privacy_by_table example_output example_handset_card none
    none).2 "" "usb" (by decide) (by decide) (by simp)
  have h1 := (classify_privacy_by_table { example_output with direction := mir_input }
    example_handset_card none none).1 d hd
  have h2 := (classify_privacy_by_table example_output example_handset_card none none).1 e he
  have hdt : d.type = mir_phone ∧ d.direction = mir_input := by
    have : classify_node_by_card { example_output with direction := mir_input }
        example_handset_card none none =
      some { example_output with
             direction := mir_input, type := mir_phone,
             location := mir_external, amname := some "Phone",
             privacy := mir_privacy_unknown } := by decide
    rw [this] at hd; cases hd; exact ⟨rfl, rfl⟩
  have het : e.type = mir_phone ∧ e.direction = mir_output := by
    have : classify_node_by_card example_output example_handset_card none none =
      some { example_output with
             type := mir_phone,
             location := mir_external, amname := some "Phone",
             privacy := mir_private } := by decide
    rw [this] at he; cases he; exact ⟨rfl, rfl⟩
  refine ⟨⟨d, hd, hdt.1, h1.2.1 hdt.2⟩, ⟨e, he, het.1, ?_⟩⟩
  rw [h2.2.2 het.2, het.1]
  rfl

theorem guess_consulted_internal (bus : Option String) (f : String)
    (port : Option pa_device_port) (hf : strcasecmp_eq f "internal" = true) :
    guess_consulted bus (some f) port = guess_consulted bus none port := by
  simp [guess_consulted, hf]

theorem guess_consulted_other (bus : Option String) (f : String)
    (port : Option pa_device_port) (hf : strcasecmp_eq f "internal" = false) :
    guess_consulted bus (some f) port = false := by
  simp [guess_consulted, hf]

theorem classify_guess_display (x d1 : mir_node) (bus : Option String)
    (port : Option pa_device_port) (h : classify_guess x bus port = some d1) :
    (∀ desc, guessed_description bus none port x.direction = some desc →
      d1.amname = some desc) ∧
    (guessed_description bus none port x.direction = none →
      d1.amname = x.amname ∨ d1.amname = none) := by
  have h1 := classify_guess_amname x d1 bus port h
  cases port with
  | none =>
    simp only at h1
    simp [guessed_description, h1]
  | some p =>
    simp only at h1
    unfold guessed_description
    simp only
    by_cases hc : guess_consulted bus none (some p) = true ∧
        guess_sets_name x.direction p.name = true
    · simp only [hc, and_self, if_true] at h1 ⊢
      rw [h1]
      exact ⟨fun desc hd => hd, fun hd => Or.inr hd⟩
    · simp only [hc, if_false] at h1 ⊢
      rw [h1]
      exact ⟨fun desc hd => (by cases hd), fun _ => Or.inl rfl⟩

theorem classify_form_display (data d1 : mir_node) (bus form : Option String)
    (prof : Option pa_card_profile) (port : Option pa_device_port)
    (h : classify_form data bus form prof port = some d1) :
    (∀ desc, guessed_description bus form port data.direction = some desc →
      d1.amname = some desc) ∧
    (guessed_description bus form port data.direction = none →
      d1.amname = data.amname ∨ d1.amname = none) := by
  have hsame : ∀ f, strcasecmp_eq f "internal" = false →
      guessed_description bus (some f) port data.direction = none := by
    intro f hf
    unfold guessed_description
    cases port with
    | none => rfl
    | some p => simp [guess_consulted_other bus f (some p) hf]
  unfold classify_form at h
  split at h
  · rename_i f
    split at h
    · rename_i hf
      have hg : guessed_description bus (some f) port data.direction =
          guessed_description bus none port data.direction := by
        unfold guessed_description
        cases port with
        | none => rfl
        | some p => simp only [guess_consulted_internal bus f (some p) hf]
      rw [hg]
      exact classify_guess_display { data with location := mir_external } d1 bus port h
    · rename_i hf
      have hf2 : strcasecmp_eq f "internal" = false := by simpa using hf
      rw [hsame f hf2]
      refine ⟨fun desc hd => (by cases hd), fun _ => Or.inl ?_⟩
      repeat' split at h
      all_goals (cases h; rfl)
  · exact classify_guess_display data d1 bus port h

theorem classify_amname_display (d1 d2 : mir_node) (port : Option pa_device_port) (a : String)
    (ha : d1.amname = some a) (h : classify_amname d1 port = some d2) :
    d2.amname = if a = "" then some (default_display_name d1.type port d1.paname)
                else some a := by
  unfold classify_amname at h
  rw [ha] at h
  simp only at h
  have hiff : a.toList = [] ↔ a = "" := by
    constructor
    · intro hl
      have : a = String.mk a.toList := rfl
      rw [this, hl]
    · intro he; rw [he]; rfl
  by_cases he : a = ""
  · simp only [hiff.mpr he, if_true] at h
    simp only [he, if_true]
    unfold default_display_name
    split at h
    · rename_i ht
      cases h
      simp [ht]
    · rename_i ht
      simp only [ht, if_false]
      split at h
      · split at h <;> (cases h; simp_all)
      · cases h; rfl
  · have hl : ¬ a.toList = [] := fun hl => he (hiff.mp hl)
    simp only [hl, if_false, Option.some.injEq] at h
    rw [← h]
    simp [he, ha]

/-- C13 refuted at concrete inputs: on a pci card without a form factor, two
output ports named "Headphone Jack" with different descriptions both classify to
wired headphone, a known type, and each leaves its own description as display
name; the name is not the canonical label of the type. -/
theorem classify_display_name_not_label :
    example_output.amname = some "" ∧
    ∃ d e,
      classify_node_by_card example_output example_pci_card none
        (some example_headphone_port) = some d ∧
      classify_node_by_card example_output example_pci_card none
        (some { example_headphone_port with description := some "Front Jack" }) = some e ∧
      d.type = mir_wired_headphone ∧ e.type = mir_wired_headphone ∧
      d.amname = some "Headphones" ∧ e.amname = some "Front Jack" := by
  refine ⟨by decide, ?_⟩
  exact ⟨{ example_output with
           amname := some "Headphones", privacy := mir_private,
           type := mir_wired_headphone },
         { example_output with
           amname := some "Front Jack", privacy := mir_private,
           type := mir_wired_headphone },
         by decide, by decide, by decide, by decide, by decide, by decide⟩

theorem display_name_of_result (data : mir_node) (card : pa_card)
    (prof : Option pa_card_profile) (port : Option pa_device_port) (d : mir_node)
    (hempty : data.amname = some "")
    (h : classify_node_by_card data card prof port = some d) :
    (∀ desc, guessed_description (pa_proplist_gets card.proplist PA_PROP_DEVICE_BUS)
        (pa_proplist_gets card.proplist PA_PROP_DEVICE_FORM_FACTOR) port data.direction =
          some desc → desc ≠ "" → d.amname = some desc) ∧
    ((guessed_description (pa_proplist_gets card.proplist PA_PROP_DEVICE_BUS)
        (pa_proplist_gets card.proplist PA_PROP_DEVICE_FORM_FACTOR) port data.direction = none ∨
      guessed_description (pa_proplist_gets card.proplist PA_PROP_DEVICE_BUS)
        (pa_proplist_gets card.proplist PA_PROP_DEVICE_FORM_FACTOR) port data.direction =
          some "") →
      d.amname = some (default_display_name d.type port data.paname)) := by
  unfold classify_node_by_card at h
  simp only at h
  split at h
  · cases h
  · rename_i d1 h1
    split at h
    · cases h
    · rename_i d2 h2
      cases h
      obtain ⟨hA, hB⟩ := classify_form_display data d1 _ _ prof port h1
      have hid := classify_form_same_identity data d1 _ _ prof port h1
      have hpan : d1.paname = data.paname := hid.2.2.2.2.2.2.2.2.1
      obtain ⟨ht2, -⟩ := classify_amname_type d1 d2 port h2
      have hfin : ∀ a, d1.amname = some a →
          (classify_privacy d2).amname =
            if a = "" then some (default_display_name (classify_privacy d2).type port
              data.paname) else some a := by
        intro a ha
        have := classify_amname_display d1 d2 port a ha h2
        rw [classify_privacy_type, ht2, ← hpan, ← this]
        unfold classify_privacy
        repeat' split
        all_goals rfl
      constructor
      · intro desc hg hne
        rw [hfin desc (hA desc hg)]
        simp [hne]
      · rintro (hg | hg)
        · rcases hB hg with hx | hx
          · rw [hfin "" (by rw [hx, hempty])]
            simp
          · have : classify_amname d1 port = none := by
              unfold classify_amname; rw [hx]
            rw [this] at h2
            cases h2
        · rw [hfin "" (hA "" hg)]
          simp

/-- C13 as amended: for an entity that enters classify_node_by_card with an
empty display name, the function returns whenever the card has a bus attribute
and the port, if any, has a description, and the display name it leaves is:
when the type is guessed from the port name by one of the rules headphone,
headset, line, spdif, hdmi, microphone and the port has a non-empty
description, that description, although the type is known; in every other case
the name chosen in the order: the canonical label of the type when the type is
known, otherwise the port description when present, otherwise the port name,
otherwise paname. -/
theorem classify_display_name (data : mir_node) (card : pa_card)
    (prof : Option pa_card_profile) (port : Option pa_device_port)
    (hempty : data.amname = some "") :
    (∀ b, pa_proplist_gets card.proplist PA_PROP_DEVICE_BUS = some b →
      (∀ p, port = some p → p.description ≠ none) →
      ∃ d, classify_node_by_card data card prof port = some d) ∧
    ∀ d, classify_node_by_card data card prof port = some d →
      (∀ desc, guessed_description (pa_proplist_gets card.proplist PA_PROP_DEVICE_BUS)
          (pa_proplist_gets card.proplist PA_PROP_DEVICE_FORM_FACTOR) port data.direction =
            some desc → desc ≠ "" → d.amname = some desc) ∧
      ((guessed_description (pa_proplist_gets card.proplist PA_PROP_DEVICE_BUS)
          (pa_proplist_gets card.proplist PA_PROP_DEVICE_FORM_FACTOR) port data.direction =
            none ∨
        guessed_description (pa_proplist_gets card.proplist PA_PROP_DEVICE_BUS)
          (pa_proplist_gets card.proplist PA_PROP_DEVICE_FORM_FACTOR) port data.direction =
            some "") →
        d.amname = some (default_display_name d.type port data.paname)) :=
  ⟨fun b hbus hdesc => classify_total data card prof port "" b hempty hbus hdesc,
   fun d h => display_name_of_result data card prof port d hempty h⟩

/-- C13 as amended, at concrete inputs: the port description wins on a pci card,
the order of preference applies on a bluetooth card. -/
theorem classify_display_name_witness :
    (∃ d, classify_node_by_card example_output example_pci_card none
        (some example_headphone_port) = some d ∧ d.amname = some "Headphones") ∧
    (∃ d, classify_node_by_card example_output example_bluetooth_headset (some example_a2dp)
        none = some d ∧
      d.amname = some (default_display_name d.type none example_output.paname)) := by
  have h1 : classify_node_by_card example_output example_pci_card none
      (some example_headphone_port) =
      some { example_output with
             amname := some "Headphones", privacy := mir_private,
             type := mir_wired_headphone } := by decide
  have h2 : classify_node_by_card example_output example_bluetooth_headset
      (some example_a2dp) none =
      some { example_output with
             amname := some "Bluetooth Stereo", privacy := mir_private,
             location := mir_external, type := mir_bluetooth_a2dp } := by decide
  exact ⟨⟨_, h1, ((classify_display_name example_output example_pci_card none
      (some example_headphone_port) (by decide)).2 _ h1).1 "Headphones" (by decide)
      (by decide)⟩,
    ⟨_, h2, ((classify_display_name example_output example_bluetooth_headset
      (some example_a2dp) none (by decide)).2 _ h2).2 (Or.inl (by decide))⟩⟩

/-! ## Claims about the scan of an ALSA card -/

/-- C17, the divergence: a port takes part in the node set of
`handle_card_ports` exactly when its profile map is not NULL and holds the
profile and its input/output flag matches the direction, so a port that lists no
profile takes part in no profile, against the comment above the condition. On
the example card whose only port lists no profile the scan registers the
whole-profile node and no node of the port; when the port lists the profile it
registers the node of the port. -/
theorem port_without_profiles_left_out :
    (∀ (port : pa_device_port) (prof : pa_card_profile) (direction : mir_direction),
      port_participates port prof direction = true ↔
        (∃ names, port.profiles = some names ∧ prof.name ∈ names) ∧
        ((port.is_input = true ∧ direction = mir_input) ∨
         (port.is_output = true ∧ direction = mir_output))) ∧
    (∀ (port : pa_device_port) (prof : pa_card_profile) (direction : mir_direction),
      port.profiles = none → port_participates port prof direction = false) ∧
    example_free_port.profiles = none ∧ example_free_port.is_output = true ∧
    participating_ports example_free_port_card example_stereo mir_output = [] ∧
    (pa_discover_add_card pa_discover_init example_free_port_card).map registered_keys =
      some ["alsa_output.X.analog-stereo"] ∧
    (pa_discover_add_card pa_discover_init example_listed_port_card).map registered_keys =
      some ["alsa_output.X.analog-stereo@analog-output"] := by
  refine ⟨?_, ?_, by decide, by decide, by decide, by decide, by decide⟩
  · intro port prof direction
    unfold port_participates
    cases hp : port.profiles with
    | none => simp
    | some names => simp
  · intro port prof direction hp
    unfold port_participates
    simp [hp]

/-- C18: in `handle_udev_loaded_card` a profile passes the filters exactly when
selected-profile-only mode is off or the profile is the active profile of the
card, it has a sink or a source, and in each direction in which it has
endpoints its maximum channel count lies within chmin and chmax; a profile that
does not pass adds nothing, the loop goes on with the registry and the builder
data as they were. With the defaults of `pa_discover_init` (chmin 1, chmax 2,
selected on) only the active profile passes, and none when the card has no
active profile. -/
theorem profile_filters (prof : pa_card_profile) :
    (∀ (discover : pa_discover) (active : Option pa_card_profile),
      profile_skipped discover active prof = false ↔
        (discover.selected = false ∨ ∃ a, active = some a ∧ prof.name = a.name) ∧
        (prof.n_sinks ≠ 0 ∨ prof.n_sources ≠ 0) ∧
        (prof.n_sinks ≠ 0 →
          discover.chmin ≤ prof.max_sink_channels ∧
          prof.max_sink_channels ≤ discover.chmax) ∧
        (prof.n_sources ≠ 0 →
          discover.chmin ≤ prof.max_source_channels ∧
          prof.max_source_channels ≤ discover.chmax)) ∧
    (∀ (card : pa_card) (cardid : String) (rest : List pa_card_profile) (u : userdata)
        (data : mir_node),
      profile_skipped u.discover card.active_profile prof = true →
      handle_udev_profiles card cardid (prof :: rest) u data =
        handle_udev_profiles card cardid rest u data) ∧
    (pa_discover_init.discover.chmin = 1 ∧ pa_discover_init.discover.chmax = 2 ∧
      pa_discover_init.discover.selected = true) ∧
    (∀ active : Option pa_card_profile,
      profile_skipped pa_discover_init.discover active prof = false →
      ∃ a, active = some a ∧ prof.name = a.name) ∧
    profile_skipped pa_discover_init.discover none prof = true := by
  have main : ∀ (discover : pa_discover) (active : Option pa_card_profile),
      profile_skipped discover active prof = false ↔
        (discover.selected = false ∨ ∃ a, active = some a ∧ prof.name = a.name) ∧
        (prof.n_sinks ≠ 0 ∨ prof.n_sources ≠ 0) ∧
        (prof.n_sinks ≠ 0 →
          discover.chmin ≤ prof.max_sink_channels ∧
          prof.max_sink_channels ≤ discover.chmax) ∧
        (prof.n_sources ≠ 0 →
          discover.chmin ≤ prof.max_source_channels ∧
          prof.max_source_channels ≤ discover.chmax) := by
    intro discover active
    unfold profile_skipped
    cases hs : discover.selected <;> cases active <;>
      simp only [Bool.or_eq_false_iff, Bool.and_eq_false_iff, Bool.false_and, Bool.true_and,
        decide_eq_false_iff_not, decide_eq_true_eq, Bool.or_eq_true, Bool.and_eq_true,
        Bool.not_eq_true, not_lt, not_or, not_and, ne_eq, Decidable.not_not,
        Option.some.injEq, exists_eq_left', false_and, exists_false, or_false, or_true,
        true_and, true_or, false_or, Bool.false_eq_true, not_false_eq_true, not_true_eq_false,
        reduceCtorEq, and_true, and_false, false_iff, true_iff] <;>
      tauto
  refine ⟨main, ?_, by decide, ?_, ?_⟩
  · intro card cardid rest u data hs
    simp [handle_udev_profiles, hs]
  · intro active h
    have := (main pa_discover_init.discover active).mp h
    rcases this.1 with h1 | h1
    · exact absurd h1 (by decide)
    · exact h1
  · simp [profile_skipped, pa_discover_init]

/-! ## Profile names -/

theorem get_name_target (pre t y : List Char) (offs : Nat) (hoffs : pre.length = offs)
    (ht : ∀ c ∈ t, c ≠ '+') (hy : y = [] ∨ ∃ q, y = '+' :: q) :
    get_name (pre ++ t ++ y) offs = (t, y.drop 1) := by
  have hp : ∀ a ∈ t, (a != '+') = true := by
    intro a ha
    simpa using ht a ha
  unfold get_name
  subst hoffs
  simp only [List.append_assoc, List.drop_left]
  rw [List.takeWhile_append_of_pos hp, List.dropWhile_append_of_pos hp]
  rcases hy with hy | ⟨q, hy⟩
  · subst hy; simp
  · subst hy; simp [List.takeWhile, List.dropWhile]

theorem parse_stop (fuel : Nat) (p : List Char) (sinks sources : List String)
    (h1 : "output:".toList.isPrefixOf p = false) (h2 : "input:".toList.isPrefixOf p = false) :
    parse_profile_loop fuel p sinks sources = (sinks, sources) := by
  cases fuel with
  | zero => rfl
  | succ n =>
    rw [parse_profile_loop]
    simp only [h1, h2]
    simp

theorem parse_step_output (fuel : Nat) (t y : List Char) (sinks sources : List String)
    (ht : ∀ c ∈ t, c ≠ '+') (hy : y = [] ∨ ∃ q, y = '+' :: q)
    (hs : sinks.length < MAX_CARD_TARGET) :
    parse_profile_loop (fuel + 1) ("output:".toList ++ t ++ y) sinks sources =
      if y.drop 1 = [] then (sinks ++ [String.mk t], sources)
      else parse_profile_loop fuel (y.drop 1) (sinks ++ [String.mk t]) sources := by
  have hpre : "output:".toList.isPrefixOf ("output:".toList ++ t ++ y) = true := by
    rw [List.append_assoc]; simp
  have hg := get_name_target "output:".toList t y 7 rfl ht hy
  have hs2 : ¬ sinks.length ≥ MAX_CARD_TARGET := by omega
  rw [parse_profile_loop]
  simp only [hpre, if_true, hs2, if_false, hg]

theorem parse_step_input (fuel : Nat) (t y : List Char) (sinks sources : List String)
    (ht : ∀ c ∈ t, c ≠ '+') (hy : y = [] ∨ ∃ q, y = '+' :: q)
    (hs : sources.length < MAX_CARD_TARGET) :
    parse_profile_loop (fuel + 1) ("input:".toList ++ t ++ y) sinks sources =
      if y.drop 1 = [] then (sinks, sources ++ [String.mk t])
      else parse_profile_loop fuel (y.drop 1) sinks (sources ++ [String.mk t]) := by
  have hpre1 : "output:".toList.isPrefixOf ("input:".toList ++ t ++ y) = false := by
    rw [List.append_assoc]; simp [List.isPrefixOf]
  have hpre : "input:".toList.isPrefixOf ("input:".toList ++ t ++ y) = true := by
    rw [List.append_assoc]; simp
  have hg := get_name_target "input:".toList t y 6 rfl ht hy
  have hs2 : ¬ sources.length ≥ MAX_CARD_TARGET := by omega
  rw [parse_profile_loop]
  simp only [hpre1, hpre, if_true, hs2, if_false, hg]
  simp

theorem join_segments_ne_nil (s : Bool × String) (rest : List (Bool × String)) :
    join_segments ((s :: rest).map segment_text) ≠ [] := by
  obtain ⟨b, t⟩ := s
  cases rest with
  | nil => cases b <;> simp [join_segments, segment_text]
  | cons r rs => cases b <;> simp [join_segments, segment_text]

theorem join_segments_length (segs : List (Bool × String)) :
    segs.length ≤ (join_segments (segs.map segment_text)).length := by
  induction segs with
  | nil => simp
  | cons s rest ih =>
    obtain ⟨b, t⟩ := s
    cases rest with
    | nil => cases b <;> simp [join_segments, segment_text]
    | cons r rs =>
      simp only [List.map_cons, join_segments, List.length_append, List.length_cons] at ih ⊢
      omega

theorem parse_profile_loop_segments (segs : List (Bool × String)) :
    ∀ (fuel : Nat) (suffix : List Char) (sinks sources : List String),
      segs ≠ [] → segs.length ≤ fuel →
      (∀ s ∈ segs, ∀ c ∈ s.2.toList, c ≠ '+') →
      (suffix = [] ∨ ∃ tail, suffix = '+' :: tail ∧
        "output:".toList.isPrefixOf tail = false ∧ "input:".toList.isPrefixOf tail = false) →
      sinks.length + (output_targets segs).length ≤ MAX_CARD_TARGET →
      sources.length + (input_targets segs).length ≤ MAX_CARD_TARGET →
      parse_profile_loop fuel (join_segments (segs.map segment_text) ++ suffix) sinks sources =
        (sinks ++ output_targets segs, sources ++ input_targets segs) := by
  induction segs with
  | nil => intro fuel suffix sinks sources h; exact absurd rfl h
  | cons s rest ih =>
    intro fuel suffix sinks sources _ hfuel hplus hsuf hout hin
    obtain ⟨b, t⟩ := s
    have ht : ∀ c ∈ t.toList, c ≠ '+' := hplus (b, t) (List.mem_cons_self _ _)
    cases fuel with
    | zero => simp at hfuel
    | succ f =>
      cases rest with
      | nil =>
        have hy : suffix = [] ∨ ∃ q, suffix = '+' :: q := by
          rcases hsuf with h | ⟨tail, h, -, -⟩
          · exact Or.inl h
          · exact Or.inr ⟨tail, h⟩
        have hrest : ∀ (a b : List String),
            (if suffix.drop 1 = [] then (a, b)
             else parse_profile_loop f (suffix.drop 1) a b) = (a, b) := by
          intro a b
          rcases hsuf with h | ⟨tail, h, h1, h2⟩
          · subst h; simp
          · subst h
            simp only [List.drop_succ_cons, List.drop_zero]
            split
            · rfl
            · exact parse_stop f tail a b h1 h2
        cases b with
        | true =>
          simp only [output_targets, input_targets, List.filter, List.map, List.length_cons,
            List.length_nil, Bool.not_true] at hout hin ⊢
          simp only [List.map, join_segments, segment_text, if_true]
          rw [parse_step_output f t.toList suffix sinks sources ht hy (by omega), hrest]
          simp
        | false =>
          simp only [output_targets, input_targets, List.filter, List.map, List.length_cons,
            List.length_nil, Bool.not_false] at hout hin ⊢
          simp only [List.map, join_segments, segment_text, Bool.false_eq_true, if_false]
          rw [parse_step_input f t.toList suffix sinks sources ht hy (by omega), hrest]
          simp
      | cons r rs =>
        have hne := join_segments_ne_nil r rs
        have hplus2 : ∀ s ∈ r :: rs, ∀ c ∈ s.2.toList, c ≠ '+' :=
          fun s hs => hplus s (List.mem_cons_of_mem _ hs)
        have hf : (r :: rs).length ≤ f := by simpa using hfuel
        have hshape : join_segments (((b, t) :: r :: rs).map segment_text) ++ suffix =
            (if b = true then "output:".toList else "input:".toList) ++ t.toList ++
              ('+' :: (join_segments ((r :: rs).map segment_text) ++ suffix)) := by
          simp [join_segments, segment_text]
        have hy : ∃ q, '+' :: (join_segments ((r :: rs).map segment_text) ++ suffix) = '+' :: q :=
          ⟨_, rfl⟩
        have hnn : ¬ (join_segments ((r :: rs).map segment_text) ++ suffix = []) := by
          intro h
          exact hne (List.append_eq_nil.mp h).1
        rw [hshape]
        cases b with
        | true =>
          have ho : output_targets ((true, t) :: r :: rs) = t :: output_targets (r :: rs) := by
            simp [output_targets]
          have hi : input_targets ((true, t) :: r :: rs) = input_targets (r :: rs) := by
            simp [input_targets]
          rw [ho] at hout ⊢
          rw [hi] at hin ⊢
          simp only [List.length_cons] at hout
          simp only [if_true]
          rw [parse_step_output f t.toList _ sinks sources ht (Or.inr hy) (by omega)]
          simp only [List.drop_succ_cons, List.drop_zero, hnn, if_false]
          rw [ih f suffix (sinks ++ [String.mk t.toList]) sources (by simp) hf hplus2 hsuf
            (by simp only [List.length_append, List.length_cons, List.length_nil]; omega) hin]
          simp
        | false =>
          have ho : output_targets ((false, t) :: r :: rs) = output_targets (r :: rs) := by
            simp [output_targets]
          have hi : input_targets ((false, t) :: r :: rs) = t :: input_targets (r :: rs) := by
            simp [input_targets]
          rw [ho] at hout ⊢
          rw [hi] at hin ⊢
          simp only [List.length_cons] at hin
          simp only [Bool.false_eq_true, if_false]
          rw [parse_step_input f t.toList _ sinks sources ht (Or.inr hy) (by omega)]
          simp only [List.drop_succ_cons, List.drop_zero, hnn, if_false]
          rw [ih f suffix sinks (sources ++ [String.mk t.toList]) (by simp) hf hplus2 hsuf hout
            (by simp only [List.length_append, List.length_cons, List.length_nil]; omega)]
          simp

theorem target_array_read (l : List String) (h : l.length ≤ MAX_CARD_TARGET) :
    (target_array l).length = MAX_CARD_TARGET + 1 ∧
    (target_array l).takeWhile Option.isSome = l.map some ∧
    (target_array l)[l.length]? = some none := by
  unfold target_array
  obtain ⟨k, hk⟩ : ∃ k, MAX_CARD_TARGET + 1 - l.length = k + 1 := ⟨MAX_CARD_TARGET - l.length, by omega⟩
  rw [hk]
  refine ⟨?_, ?_, ?_⟩
  · simp only [List.length_append, List.length_map, List.length_replicate]
    omega
  · have hp : ∀ a ∈ l.map some, Option.isSome a = true := by
      intro a ha
      obtain ⟨x, -, rfl⟩ := List.mem_map.mp ha
      rfl
    rw [List.takeWhile_append_of_pos hp]
    simp [List.replicate_succ, List.takeWhile]
  · rw [List.getElem?_append_right (by simp)]
    simp [List.replicate_succ]

theorem isPrefixOf_take (l : List Char) :
    ∀ (xs : List Char) (n : Nat), l.length ≤ n → l.isPrefixOf (xs.take n) = l.isPrefixOf xs := by
  induction l with
  | nil => intro xs n _; simp [List.isPrefixOf]
  | cons a as ih =>
    intro xs n h
    cases n with
    | zero => simp at h
    | succ m =>
      cases xs with
      | nil => simp
      | cons x rest =>
        simp only [List.take_succ_cons, List.isPrefixOf]
        rw [ih rest m (by simpa using h)]

/-- C19: for a profile name that is made of segments `output:<t>` or
`input:<t>` joined by `+`, each target free of `+`, with at most four output and
at most four input segments and at most 256 characters in all,
`parse_profile_name` returns as sink targets exactly the targets of the output
segments in their order of appearance and as source targets exactly those of
the input segments in their order of appearance; in each array of five pointers
the targets are followed by a NULL entry, so that reading an array up to its
first NULL entry gives the targets. -/
theorem parse_profile_name_targets (prof : pa_card_profile) (segs : List (Bool × String))
    (hname : prof.name = profile_name_of segs)
    (hplus : ∀ s ∈ segs, ∀ c ∈ s.2.toList, c ≠ '+')
    (hout : (output_targets segs).length ≤ MAX_CARD_TARGET)
    (hin : (input_targets segs).length ≤ MAX_CARD_TARGET)
    (hlen : prof.name.length ≤ MAX_NAME_LENGTH) :
    parse_profile_name prof (MAX_NAME_LENGTH + 1) = (output_targets segs, input_targets segs) ∧
    (target_array (parse_profile_name prof (MAX_NAME_LENGTH + 1)).1).length =
      MAX_CARD_TARGET + 1 ∧
    (target_array (parse_profile_name prof (MAX_NAME_LENGTH + 1)).1).takeWhile Option.isSome =
      (output_targets segs).map some ∧
    (target_array (parse_profile_name prof (MAX_NAME_LENGTH + 1)).1)[
      (output_targets segs).length]? = some none ∧
    (target_array (parse_profile_name prof (MAX_NAME_LENGTH + 1)).2).length =
      MAX_CARD_TARGET + 1 ∧
    (target_array (parse_profile_name prof (MAX_NAME_LENGTH + 1)).2).takeWhile Option.isSome =
      (input_targets segs).map some ∧
    (target_array (parse_profile_name prof (MAX_NAME_LENGTH + 1)).2)[
      (input_targets segs).length]? = some none := by
  have hmain : parse_profile_name prof (MAX_NAME_LENGTH + 1) =
      (output_targets segs, input_targets segs) := by
    unfold parse_profile_name
    have hl : prof.name.toList.length ≤ MAX_NAME_LENGTH + 1 - 1 := by
      rw [Nat.add_sub_cancel]
      exact hlen
    simp only [List.take_of_length_le hl]
    have hjoin : prof.name.toList = join_segments (segs.map segment_text) := by
      rw [hname]; rfl
    rw [hjoin]
    cases segs with
    | nil => rfl
    | cons s rest =>
      have := parse_profile_loop_segments (s :: rest)
        ((join_segments ((s :: rest).map segment_text)).length + 1) [] [] []
        (by simp) (by have := join_segments_length (s :: rest); omega) hplus (Or.inl rfl)
        (by simpa using hout) (by simpa using hin)
      simpa using this
  rw [hmain]
  obtain ⟨a1, a2, a3⟩ := target_array_read (output_targets segs) hout
  obtain ⟨b1, b2, b3⟩ := target_array_read (input_targets segs) hin
  exact ⟨rfl, a1, a2, a3, b1, b2, b3⟩

/-- C19 at a concrete name: one output segment and two input segments. -/
theorem parse_profile_name_targets_witness :
    parse_profile_name
      { name := "input:mic+output:analog-stereo+input:line", n_sinks := 1, n_sources := 2,
        max_sink_channels := 2, max_source_channels := 2 } (MAX_NAME_LENGTH + 1) =
      (["analog-stereo"], ["mic", "line"]) :=
  (parse_profile_name_targets
    { name := "input:mic+output:analog-stereo+input:line", n_sinks := 1, n_sources := 2,
      max_sink_channels := 2, max_source_channels := 2 }
    [(false, "mic"), (true, "analog-stereo"), (false, "line")]
    (by decide) (by decide) (by decide) (by decide) (by decide)).1

theorem parse_stop_full (fuel : Nat) (p : List Char) (sinks sources : List String)
    (h : ("output:".toList.isPrefixOf p = false ∧ "input:".toList.isPrefixOf p = false) ∨
      ("output:".toList.isPrefixOf p = true ∧ sinks.length = MAX_CARD_TARGET) ∨
      ("input:".toList.isPrefixOf p = true ∧ sources.length = MAX_CARD_TARGET)) :
    parse_profile_loop fuel p sinks sources = (sinks, sources) := by
  cases fuel with
  | zero => rfl
  | succ n =>
    rcases h with ⟨h1, h2⟩ | ⟨h1, h2⟩ | ⟨h1, h2⟩
    · exact parse_stop (n + 1) p sinks sources h1 h2
    · rw [parse_profile_loop]
      simp only [h1, if_true]
      rw [if_pos (by omega)]
    · have ho : "output:".toList.isPrefixOf p = false := by
        cases p with
        | nil => rfl
        | cons c rest =>
          cases hc : "output:".toList.isPrefixOf (c :: rest)
          · rfl
          · exfalso
            have e1 : c = 'o' := by
              have := List.isPrefixOf_iff_prefix.mp hc
              obtain ⟨t, ht⟩ := this
              have := congrArg List.head? ht
              simpa using this.symm
            have e2 : c = 'i' := by
              have := List.isPrefixOf_iff_prefix.mp h1
              obtain ⟨t, ht⟩ := this
              have := congrArg List.head? ht
              simpa using this.symm
            rw [e1] at e2
            revert e2
            decide
      rw [parse_profile_loop]
      simp only [ho, h1, if_true, Bool.false_eq_true, if_false]
      rw [if_pos (by omega)]

theorem parse_profile_loop_run (segs : List (Bool × String)) :
    ∀ (f : Nat) (tail : List Char) (sinks sources : List String),
      segs ≠ [] →
      (∀ s ∈ segs, ∀ c ∈ s.2.toList, c ≠ '+') →
      sinks.length + (output_targets segs).length ≤ MAX_CARD_TARGET →
      sources.length + (input_targets segs).length ≤ MAX_CARD_TARGET →
      parse_profile_loop (segs.length + f)
          (join_segments (segs.map segment_text) ++ '+' :: tail) sinks sources =
        if tail = [] then (sinks ++ output_targets segs, sources ++ input_targets segs)
        else parse_profile_loop f tail (sinks ++ output_targets segs)
          (sources ++ input_targets segs) := by
  induction segs with
  | nil => intro f tail sinks sources h; exact absurd rfl h
  | cons s rest ih =>
    intro f tail sinks sources _ hplus hout hin
    obtain ⟨b, t⟩ := s
    have ht : ∀ c ∈ t.toList, c ≠ '+' := hplus (b, t) (List.mem_cons_self _ _)
    have ef : ((b, t) :: rest).length + f = (rest.length + f) + 1 := by
      simp only [List.length_cons]; omega
    rw [ef]
    cases rest with
    | nil =>
      have hy : ('+' :: tail = []) ∨ ∃ q, '+' :: tail = '+' :: q := Or.inr ⟨tail, rfl⟩
      cases b with
      | true =>
        simp only [output_targets, input_targets, List.filter, List.map, List.length_cons,
          List.length_nil, Bool.not_true] at hout hin ⊢
        simp only [List.map, join_segments, segment_text, if_true]
        rw [parse_step_output _ t.toList ('+' :: tail) sinks sources ht hy (by omega)]
        simp
      | false =>
        simp only [output_targets, input_targets, List.filter, List.map, List.length_cons,
          List.length_nil, Bool.not_false] at hout hin ⊢
        simp only [List.map, join_segments, segment_text, Bool.false_eq_true, if_false]
        rw [parse_step_input _ t.toList ('+' :: tail) sinks sources ht hy (by omega)]
        simp
    | cons r rs =>
      have hne := join_segments_ne_nil r rs
      have hplus2 : ∀ s ∈ r :: rs, ∀ c ∈ s.2.toList, c ≠ '+' :=
        fun s hs => hplus s (List.mem_cons_of_mem _ hs)
      have hshape : join_segments (((b, t) :: r :: rs).map segment_text) ++ '+' :: tail =
          (if b = true then "output:".toList else "input:".toList) ++ t.toList ++
            ('+' :: (join_segments ((r :: rs).map segment_text) ++ '+' :: tail)) := by
        simp [join_segments, segment_text]
      have hy : ∃ q, '+' :: (join_segments ((r :: rs).map segment_text) ++ '+' :: tail) =
          '+' :: q := ⟨_, rfl⟩
      have hnn : ¬ (join_segments ((r :: rs).map segment_text) ++ '+' :: tail = []) := by
        intro h
        exact hne (List.append_eq_nil.mp h).1
      rw [hshape]
      cases b with
      | true =>
        have ho : output_targets ((true, t) :: r :: rs) = t :: output_targets (r :: rs) := by
          simp [output_targets]
        have hi : input_targets ((true, t) :: r :: rs) = input_targets (r :: rs) := by
          simp [input_targets]
        rw [ho] at hout ⊢
        rw [hi] at hin ⊢
        simp only [List.length_cons] at hout
        simp only [if_true]
        rw [parse_step_output _ t.toList _ sinks sources ht (Or.inr hy) (by omega)]
        simp only [List.drop_succ_cons, List.drop_zero, hnn, if_false]
        rw [ih f tail (sinks ++ [String.mk t.toList]) sources (by simp) hplus2
          (by simp only [List.length_append, List.length_cons, List.length_nil]; omega) hin]
        simp
      | false =>
        have ho : output_targets ((false, t) :: r :: rs) = output_targets (r :: rs) := by
          simp [output_targets]
        have hi : input_targets ((false, t) :: r :: rs) = t :: input_targets (r :: rs) := by
          simp [input_targets]
        rw [ho] at hout ⊢
        rw [hi] at hin ⊢
        simp only [List.length_cons] at hin
        simp only [Bool.false_eq_true, if_false]
        rw [parse_step_input _ t.toList _ sinks sources ht (Or.inr hy) (by omega)]
        simp only [List.drop_succ_cons, List.drop_zero, hnn, if_false]
        rw [ih f tail sinks (sources ++ [String.mk t.toList]) (by simp) hplus2 hout
          (by simp only [List.length_append, List.length_cons, List.length_nil]; omega)]
        simp

theorem handle_udev_profiles_ingest (card : pa_card) (cardid : String) (prof : pa_card_profile)
    (rest : List pa_card_profile) (u : userdata) (data : mir_node)
    (hs : profile_skipped u.discover card.active_profile prof = false) :
    handle_udev_profiles card cardid (prof :: rest) u data =
      (ingest_targets card prof cardid (parse_profile_name prof (MAX_NAME_LENGTH + 1)).1
        (parse_profile_name prof (MAX_NAME_LENGTH + 1)).2 u data).bind
        (fun r => handle_udev_profiles card cardid rest r.1 r.2) := by
  rw [handle_udev_profiles]
  simp only [hs, Bool.false_eq_true, if_false]
  unfold ingest_targets
  simp only
  split
  · rename_i h1
    simp only [h1, Option.bind]
  · rename_i u1 d2 h1
    split
    · rename_i h2
      simp only [h2, Option.bind]
    · rename_i u2 d4 h2
      simp only [h2, Option.bind]

/-- C20 refuted at concrete inputs: on an empty registry, a card whose active
profile is named "output:analog-stereo+bogus" gets the node of the target
parsed before the segment that is no segment, and a card whose active profile
has five output segments gets the nodes of the first four. -/
theorem malformed_profile_still_ingested :
    (pa_discover_add_card pa_discover_init example_bogus_segment_card).map registered_keys =
      some ["alsa_output.X.analog-stereo"] ∧
    (pa_discover_add_card pa_discover_init example_five_outputs_card).map registered_keys =
      some ["alsa_output.X.a", "alsa_output.X.b", "alsa_output.X.c", "alsa_output.X.d"] := by
  constructor <;> decide

/-- C20 as amended. For a profile whose name starts with neither `output:` nor
`input:`, `parse_profile_name` gives no target, and the profile loop of
`handle_udev_loaded_card` creates or revisits no node for the profile: it goes
on to the remaining profiles with the registry as it was. For a profile whose
name fits the buffer and consists of well-formed segments (at most four per
direction, targets free of `+`), a `+`, and then an offending rest (a rest
that starts with neither `output:` nor `input:`, or an output segment after
four output segments, or an input segment after four input segments),
`parse_profile_name` gives the targets of the segments before the offending
rest, and when the profile passes the filters the profile loop runs
`handle_card_ports` for each of these targets, sink targets first, before it
goes on to the remaining profiles. -/
theorem parse_error_ingestion (prof : pa_card_profile) :
    (("output:".toList.isPrefixOf prof.name.toList = false ∧
        "input:".toList.isPrefixOf prof.name.toList = false) →
      parse_profile_name prof (MAX_NAME_LENGTH + 1) = ([], []) ∧
      (∀ (card : pa_card) (cardid : String) (rest : List pa_card_profile) (u : userdata)
          (data : mir_node),
        ∃ d, handle_udev_profiles card cardid (prof :: rest) u data =
          handle_udev_profiles card cardid rest u d) ∧
      (∀ (card : pa_card) (cardid : String) (u : userdata) (data : mir_node),
        ∃ d, handle_udev_profiles card cardid [prof] u data = some (u, d))) ∧
    (∀ (segs : List (Bool × String)) (tail : List Char),
      segs ≠ [] →
      (∀ s ∈ segs, ∀ c ∈ s.2.toList, c ≠ '+') →
      (output_targets segs).length ≤ MAX_CARD_TARGET →
      (input_targets segs).length ≤ MAX_CARD_TARGET →
      prof.name.toList = join_segments (segs.map segment_text) ++ '+' :: tail →
      prof.name.length ≤ MAX_NAME_LENGTH →
      (("output:".toList.isPrefixOf tail = false ∧ "input:".toList.isPrefixOf tail = false) ∨
        ("output:".toList.isPrefixOf tail = true ∧
          (output_targets segs).length = MAX_CARD_TARGET) ∨
        ("input:".toList.isPrefixOf tail = true ∧
          (input_targets segs).length = MAX_CARD_TARGET)) →
      parse_profile_name prof (MAX_NAME_LENGTH + 1) =
        (output_targets segs, input_targets segs) ∧
      ∀ (card : pa_card) (cardid : String) (rest : List pa_card_profile) (u : userdata)
          (data : mir_node),
        profile_skipped u.discover card.active_profile prof = false →
        handle_udev_profiles card cardid (prof :: rest) u data =
          (ingest_targets card prof cardid (output_targets segs) (input_targets segs)
            u data).bind (fun r => handle_udev_profiles card cardid rest r.1 r.2)) := by
  constructor
  · rintro ⟨h1, h2⟩
    have hparse : parse_profile_name prof (MAX_NAME_LENGTH + 1) = ([], []) := by
      unfold parse_profile_name
      simp only
      apply parse_stop
      · rw [isPrefixOf_take _ _ _ (by decide)]; exact h1
      · rw [isPrefixOf_take _ _ _ (by decide)]; exact h2
    have hstep : ∀ (card : pa_card) (cardid : String) (rest : List pa_card_profile)
        (u : userdata) (data : mir_node),
        ∃ d, handle_udev_profiles card cardid (prof :: rest) u data =
          handle_udev_profiles card cardid rest u d := by
      intro card cardid rest u data
      by_cases hs : profile_skipped u.discover card.active_profile prof = true
      · exact ⟨data, by simp [handle_udev_profiles, hs]⟩
      · refine ⟨{ data with
                  pacard := { data.pacard with profile := some prof.name },
                  direction := mir_input, channels := prof.max_source_channels }, ?_⟩
        rw [handle_udev_profiles]
        simp only [hs, hparse, handle_card_targets]
        rfl
    refine ⟨hparse, hstep, ?_⟩
    intro card cardid u data
    obtain ⟨d, hd⟩ := hstep card cardid [] u data
    exact ⟨d, by rw [hd]; rfl⟩
  · intro segs tail hne hplus hout hin hname hlen hstop
    have hparse : parse_profile_name prof (MAX_NAME_LENGTH + 1) =
        (output_targets segs, input_targets segs) := by
      unfold parse_profile_name
      have hl : prof.name.toList.length ≤ MAX_NAME_LENGTH + 1 - 1 := by
        rw [Nat.add_sub_cancel]; exact hlen
      simp only [List.take_of_length_le hl]
      rw [hname]
      have hj := join_segments_length segs
      obtain ⟨f, hf⟩ : ∃ f, (join_segments (segs.map segment_text) ++ '+' :: tail).length + 1 =
          segs.length + f := by
        refine ⟨(join_segments (segs.map segment_text) ++ '+' :: tail).length + 1 - segs.length,
          ?_⟩
        simp only [List.length_append, List.length_cons]
        omega
      rw [hf, parse_profile_loop_run segs f tail [] [] hne hplus (by simpa using hout)
        (by simpa using hin)]
      simp only [List.nil_append]
      split
      · rfl
      · exact parse_stop_full f tail _ _ hstop
    refine ⟨hparse, ?_⟩
    intro card cardid rest u data hs
    rw [handle_udev_profiles_ingest card cardid prof rest u data hs, hparse]

/-- C20 as amended, at concrete profiles: the names "bogus+output:analog-stereo",
"output:analog-stereo+bogus" and a name with five output segments. -/
theorem parse_error_ingestion_witness :
    parse_profile_name example_bogus (MAX_NAME_LENGTH + 1) = ([], []) ∧
    (∃ d, handle_udev_profiles example_alsa_card "X" [example_bogus] pa_discover_init
      mir_node_zero = some (pa_discover_init, d)) ∧
    parse_profile_name { example_stereo with name := "output:analog-stereo+bogus" }
      (MAX_NAME_LENGTH + 1) = (["analog-stereo"], []) ∧
    parse_profile_name
      { example_stereo with name := "output:a+output:b+output:c+output:d+output:e" }
      (MAX_NAME_LENGTH + 1) = (["a", "b", "c", "d"], []) :=
  ⟨((parse_error_ingestion example_bogus).1 ⟨by decide, by decide⟩).1,
   ((parse_error_ingestion example_bogus).1 ⟨by decide, by decide⟩).2.2
     example_alsa_card "X" pa_discover_init mir_node_zero,
   ((parse_error_ingestion { example_stereo with name := "output:analog-stereo+bogus" }).2
     [(true, "analog-stereo")] "bogus".toList (by decide) (by decide) (by decide) (by decide)
     (by decide) (by decide) (Or.inl ⟨by decide, by decide⟩)).1,
   ((parse_error_ingestion
      { example_stereo with name := "output:a+output:b+output:c+output:d+output:e" }).2
     [(true, "a"), (true, "b"), (true, "c"), (true, "d")] "output:e".toList (by decide)
     (by decide) (by decide) (by decide) (by decide) (by decide)
     (Or.inr (Or.inl ⟨by decide, by decide⟩))).1⟩

/-! ## The upserts of handle_card_ports -/

theorem mir_node_new_stamp (data : mir_node) : (mir_node_new data).stamp = data.stamp := by
  unfold mir_node_new; split <;> rfl

theorem mir_node_new_available (data : mir_node) :
    (mir_node_new data).available = data.available := by
  unfold mir_node_new; split <;> rfl

theorem create_or_refresh_step (u u1 : userdata) (d : mir_node) (hok : registry_ok u)
    (h : create_or_refresh_node u d = some u1) :
    (∃ node n, pa_hashmap_get u1.discover.byname d.key = some node ∧
      u1.deref node = some n ∧ n.key = d.key ∧ n.stamp = d.stamp ∧
      (pa_hashmap_get u.discover.byname d.key = none → n.available = d.available)) ∧
    (∀ k node n, pa_hashmap_get u.discover.byname k = some node → u.deref node = some n →
      pa_hashmap_get u1.discover.byname k = some node ∧
      (u1.deref node = some n ∨ u1.deref node = some { n with stamp := d.stamp })) := by
  cases hg : pa_hashmap_get u.discover.byname d.key with
  | some p =>
    obtain ⟨n, hd, hk⟩ := registry_ok_deref u hok d.key p hg
    rw [create_or_refresh_found u d n p hg hd] at h
    cases h
    constructor
    · refine ⟨p, { n with stamp := d.stamp }, ?_, ?_, hk, rfl, ?_⟩
      · rw [find_store]; exact hg
      · rw [deref_store]; simp [hd]
      · intro hnone; cases hnone
    · intro k node n2 hk2 hd2
      rw [find_store, deref_store]
      refine ⟨hk2, ?_⟩
      by_cases hp : node = p
      · subst hp
        rw [hd] at hd2
        cases hd2
        right
        simp [hd]
      · left
        simp [hp, hd2]
  | none =>
    rw [create_or_refresh_fresh u d hg, create_node_fresh u d hg] at h
    cases h
    constructor
    · refine ⟨fresh_address u.heap, mir_node_new d, ?_, ?_, mir_node_new_key d,
        mir_node_new_stamp d, fun _ => mir_node_new_available d⟩
      · simp only
        rw [pa_hashmap_get_append_none _ _ _ _ hg]
        simp
      · simp only [userdata.deref]
        rw [pa_hashmap_get_append_none _ _ _ _ (fresh_address_unused u.heap)]
        simp
    · intro k node n2 hk2 hd2
      constructor
      · simp only
        exact pa_hashmap_get_append_some _ _ _ _ _ hk2
      · left
        simp only [userdata.deref] at hd2 ⊢
        exact pa_hashmap_get_append_some _ _ _ _ _ hd2

theorem upsert_all_preserves (S : Nat) (ds : List mir_node) :
    ∀ (u u1 : userdata), registry_ok u → (∀ d ∈ ds, d.stamp = S) →
      upsert_all ds u = some u1 →
      registry_ok u1 ∧
      ∀ k node n, pa_hashmap_get u.discover.byname k = some node → u.deref node = some n →
        pa_hashmap_get u1.discover.byname k = some node ∧
        ∃ n1, u1.deref node = some n1 ∧ n1.key = n.key ∧ n1.available = n.available ∧
          (n1.stamp = n.stamp ∨ n1.stamp = S) := by
  induction ds with
  | nil =>
    intro u u1 hok _ h
    simp only [upsert_all, Option.some.injEq] at h
    subst h
    exact ⟨hok, fun k node n hk hd => ⟨hk, n, hd, rfl, rfl, Or.inl rfl⟩⟩
  | cons d rest ih =>
    intro u u1 hok hS h
    cases hc : create_or_refresh_node u d with
    | none => simp [upsert_all, hc] at h
    | some v =>
      simp only [upsert_all, hc] at h
      have hokv := registry_ok_create_or_refresh u v hok d hc
      obtain ⟨hok1, hpres⟩ := ih v u1 hokv (fun x hx => hS x (List.mem_cons_of_mem _ hx)) h
      refine ⟨hok1, ?_⟩
      intro k node n hk hd
      obtain ⟨hk1, hd1⟩ := (create_or_refresh_step u v d hok hc).2 k node n hk hd
      have hdS : d.stamp = S := hS d (List.mem_cons_self _ _)
      rcases hd1 with hd1 | hd1
      · exact hpres k node n hk1 hd1
      · obtain ⟨hk2, n1, hn1, e1, e2, e3⟩ := hpres k node _ hk1 hd1
        refine ⟨hk2, n1, hn1, e1, e2, ?_⟩
        rcases e3 with e3 | e3
        · right; rw [e3]; exact hdS
        · right; exact e3

theorem upsert_all_spec (S : Nat) (ds : List mir_node) :
    ∀ (u u1 : userdata), registry_ok u → (∀ d ∈ ds, d.stamp = S) →
      upsert_all ds u = some u1 →
      (∀ k, pa_hashmap_get u1.discover.byname k ≠ none ↔
        (pa_hashmap_get u.discover.byname k ≠ none ∨ k ∈ ds.map (fun d => d.key))) ∧
      (∀ d ∈ ds, ∃ node n, pa_hashmap_get u1.discover.byname d.key = some node ∧
        u1.deref node = some n ∧ n.key = d.key ∧ n.stamp = S) ∧
      ((ds.map (fun d => d.key)).Nodup → ∀ d ∈ ds,
        pa_hashmap_get u.discover.byname d.key = none →
        ∃ node n, pa_hashmap_get u1.discover.byname d.key = some node ∧
          u1.deref node = some n ∧ n.available = d.available) := by
  induction ds with
  | nil =>
    intro u u1 hok _ h
    simp only [upsert_all, Option.some.injEq] at h
    subst h
    exact ⟨fun k => by simp, fun d hd => (by cases hd), fun _ d hd => (by cases hd)⟩
  | cons d rest ih =>
    intro u u1 hok hS h
    cases hc : create_or_refresh_node u d with
    | none => simp [upsert_all, hc] at h
    | some v =>
      simp only [upsert_all, hc] at h
      have hokv := registry_ok_create_or_refresh u v hok d hc
      have hSr : ∀ x ∈ rest, x.stamp = S := fun x hx => hS x (List.mem_cons_of_mem _ hx)
      have hdS : d.stamp = S := hS d (List.mem_cons_self _ _)
      obtain ⟨ih1, ih2, ih3⟩ := ih v u1 hokv hSr h
      obtain ⟨-, hpres⟩ := upsert_all_preserves S rest v u1 hokv hSr h
      obtain ⟨⟨node, n, hn1, hn2, hn3, hn4, hn5⟩, -⟩ := create_or_refresh_step u v d hok hc
      have hkeys := (create_or_refresh_keys u v d hok hc).1
      refine ⟨?_, ?_, ?_⟩
      · intro k
        rw [ih1 k, hkeys k]
        simp only [List.map_cons, List.mem_cons]
        tauto
      · intro x hx
        rcases List.mem_cons.mp hx with hx | hx
        · subst hx
          obtain ⟨hk2, n1, hd1, e1, -, e3⟩ := hpres x.key node n hn1 hn2
          refine ⟨node, n1, hk2, hd1, by rw [e1, hn3], ?_⟩
          rcases e3 with e3 | e3
          · rw [e3, hn4, hdS]
          · exact e3
        · exact ih2 x hx
      · intro hnd x hx hnone
        simp only [List.map_cons, List.nodup_cons] at hnd
        rcases List.mem_cons.mp hx with hx | hx
        · subst hx
          obtain ⟨hk2, n1, hd1, -, e2, -⟩ := hpres x.key node n hn1 hn2
          exact ⟨node, n1, hk2, hd1, by rw [e2, hn5 hnone]⟩
        · have hne : x.key ≠ d.key := by
            intro e
            apply hnd.1
            rw [← e]
            exact List.mem_map.mpr ⟨x, hx, rfl⟩
          have hv : pa_hashmap_get v.discover.byname x.key = none := by
            by_contra hcon
            rcases (hkeys x.key).mp hcon with h1 | h1
            · exact h1 hnone
            · exact hne h1
          exact ih3 hnd.2 x hx hv

theorem handle_card_ports_loop_upserts (card : pa_card) (prof : pa_card_profile) (b : String)
    (hbus : pa_proplist_gets card.proplist PA_PROP_DEVICE_BUS = some b)
    (pn : String) (S : Nat) (dir : mir_direction) :
    ∀ (ports : List pa_device_port) (u : userdata) (data : mir_node) (hp : Bool),
      registry_ok u → data.paname = pn → data.stamp = S → data.direction = dir →
      (∀ p ∈ ports, port_participates p prof dir = true → p.description ≠ none) →
      ∃ ds u1 d1 hp1,
        handle_card_ports_loop card prof ports u data hp = some (u1, d1, hp1) ∧
        upsert_all ds u = some u1 ∧
        List.Forall₂
          (fun port d =>
            d.key = snprintf (MAX_NAME_LENGTH + 1) (pn ++ "@" ++ port.name) ∧
            d.available = decide (port.available ≠ PA_PORT_AVAILABLE_NO) ∧ d.stamp = S)
          (ports.filter (fun p => port_participates p prof dir)) ds ∧
        d1.paname = pn ∧ d1.stamp = S ∧ d1.direction = dir ∧
        (ports.filter (fun p => port_participates p prof dir) = [] → d1 = data ∧ hp1 = hp) ∧
        (ports.filter (fun p => port_participates p prof dir) ≠ [] → hp1 = true) := by
  intro ports
  induction ports with
  | nil =>
    intro u data hp hok h1 h2 h3 _
    exact ⟨[], u, data, hp, rfl, rfl, List.Forall₂.nil, h1, h2, h3,
      fun _ => ⟨rfl, rfl⟩, fun h => absurd rfl h⟩
  | cons port rest ih =>
    intro u data hp hok h1 h2 h3 hdesc
    subst h1 h2 h3
    have hdr : ∀ p ∈ rest, port_participates p prof data.direction = true → p.description ≠ none :=
      fun p hp => hdesc p (List.mem_cons_of_mem _ hp)
    by_cases hpp : port_participates port prof data.direction = true
    · obtain ⟨dc, hdc⟩ := classify_total
        { data with
          key := snprintf (MAX_NAME_LENGTH + 1) (data.paname ++ "@" ++ port.name),
          available := decide (port.available ≠ PA_PORT_AVAILABLE_NO),
          type := mir_node_type_unknown,
          amname := some "",
          paport := some port.name }
        card (some prof) (some port) "" b rfl hbus
        (fun p hp => by
          cases hp
          exact hdesc port (List.mem_cons_self _ _) hpp)
      have hid := classify_same_identity _ dc card (some prof) (some port) hdc
      obtain ⟨i1, i2, -, -, -, i6, -, -, i9, -, -, -, i13⟩ := hid
      simp only at i1 i2 i6 i9 i13
      obtain ⟨v, hv⟩ := create_or_refresh_total u hok dc
      have hokv := registry_ok_create_or_refresh u v hok dc hv
      obtain ⟨ds, u1, d1, hp1, e1, e2, e3, e4, e5, e6, -, -⟩ :=
        ih v dc true hokv i9 i13 i2 hdr
      have hp1t : hp1 = true := by
        by_cases hf : rest.filter (fun p => port_participates p prof data.direction) = []
        · obtain ⟨ds2, u2, d2, hp2, f1, -, -, -, -, -, f7, -⟩ :=
            ih v dc true hokv i9 i13 i2 hdr
          rw [e1] at f1
          cases f1
          exact (f7 hf).2
        · obtain ⟨ds2, u2, d2, hp2, f1, -, -, -, -, -, -, f8⟩ :=
            ih v dc true hokv i9 i13 i2 hdr
          rw [e1] at f1
          cases f1
          exact f8 hf
      refine ⟨dc :: ds, u1, d1, hp1, ?_, ?_, ?_, e4, e5, e6, ?_, fun _ => hp1t⟩
      · rw [handle_card_ports_loop, if_pos hpp]
        simp only [hdc, hv]
        exact e1
      · simp only [upsert_all, hv]
        exact e2
      · rw [List.filter_cons_of_pos (by simpa using hpp)]
        refine List.Forall₂.cons ⟨?_, ?_, ?_⟩ e3
        · rw [i1]
        · rw [i6]
        · rw [i13]
      · intro hnil
        rw [List.filter_cons_of_pos (by simpa using hpp)] at hnil
        cases hnil
    · obtain ⟨ds, u1, d1, hp1, e1, e2, e3, e4, e5, e6, e7, e8⟩ :=
        ih u data hp hok rfl rfl rfl hdr
      have hfil : (port :: rest).filter (fun p => port_participates p prof data.direction) =
          rest.filter (fun p => port_participates p prof data.direction) :=
        List.filter_cons_of_neg (by simpa using hpp)
      refine ⟨ds, u1, d1, hp1, ?_, e2, ?_, e4, e5, e6, ?_, ?_⟩
      · rw [handle_card_ports_loop, if_neg hpp]
        exact e1
      · rw [hfil]; exact e3
      · rw [hfil]; exact e7
      · rw [hfil]; exact e8

theorem snprintf_fits (s : String) (n : Nat) (h : s.length ≤ n) : snprintf (n + 1) s = s := by
  unfold snprintf
  have ht : List.take n s.toList = s.toList := List.take_of_length_le h
  rw [Nat.add_sub_cancel, ht]
  rfl

theorem forall₂_right {α β : Type} (R : α → β → Prop) (P : β → Prop)
    (hRP : ∀ x y, R x y → P y) :
    ∀ (l1 : List α) (l2 : List β), List.Forall₂ R l1 l2 → ∀ y ∈ l2, P y := by
  intro l1 l2 h
  induction h with
  | nil => intro y hy; cases hy
  | cons hxy _ ih =>
    intro y hy
    rcases List.mem_cons.mp hy with e | e
    · subst e; exact hRP _ _ hxy
    · exact ih y e

theorem port_key_ne_paname (pn name : String) : pn ++ "@" ++ name ≠ pn := by
  intro h
  have := congrArg String.length h
  simp only [String.length_append] at this
  have h1 : "@".length = 1 := rfl
  omega

/-- C16: `handle_card_ports` returns, and what it does to the registry is a
sequence of upserts (`create_node`, with the stamp refreshed on a node that was
there already). When at least one port takes part there is exactly one upsert
per participating port, in order, and none for the whole profile: its key is
the text `<paname>@<port-name>` as `snprintf` leaves it in the key buffer (the
text itself when it has at most 256 characters, and then different from
`<paname>`) and its `available` is set iff the availability of the port is not
"no". When no port takes part there is exactly one upsert, with key `<paname>`
and `available` set. The keys registered afterwards are those registered before
and those upserted; every node upserted is registered under its key afterwards
and carries the stamp of the scan; and when the upserted keys are distinct, a
node that was not registered before carries the `available` of its upsert. -/
theorem handle_card_ports_upserts (u : userdata) (data : mir_node) (card : pa_card)
    (prof : pa_card_profile) (a b : String)
    (hok : registry_ok u) (ham : data.amname = some a)
    (hbus : pa_proplist_gets card.proplist PA_PROP_DEVICE_BUS = some b)
    (hdesc : ∀ p ∈ participating_ports card prof data.direction, p.description ≠ none) :
    ∃ ds u1 d1,
      handle_card_ports u data card prof = some (u1, d1) ∧
      upsert_all ds u = some u1 ∧
      (participating_ports card prof data.direction ≠ [] →
        List.Forall₂
          (fun port d =>
            d.key = snprintf (MAX_NAME_LENGTH + 1) (data.paname ++ "@" ++ port.name) ∧
            (d.available = true ↔ port.available ≠ PA_PORT_AVAILABLE_NO))
          (participating_ports card prof data.direction) ds) ∧
      (participating_ports card prof data.direction = [] →
        ∃ d, ds = [d] ∧ d.key = data.paname ∧ d.available = true) ∧
      (∀ port : pa_device_port,
        (data.paname ++ "@" ++ port.name).length ≤ MAX_NAME_LENGTH →
        snprintf (MAX_NAME_LENGTH + 1) (data.paname ++ "@" ++ port.name) =
          data.paname ++ "@" ++ port.name ∧
        data.paname ++ "@" ++ port.name ≠ data.paname) ∧
      (∀ k, pa_hashmap_get u1.discover.byname k ≠ none ↔
        (pa_hashmap_get u.discover.byname k ≠ none ∨ k ∈ ds.map (fun d => d.key))) ∧
      (∀ d ∈ ds, d.stamp = data.stamp ∧
        ∃ node n, pa_hashmap_get u1.discover.byname d.key = some node ∧
          u1.deref node = some n ∧ n.key = d.key ∧ n.stamp = data.stamp) ∧
      ((ds.map (fun d => d.key)).Nodup → ∀ d ∈ ds,
        pa_hashmap_get u.discover.byname d.key = none →
        ∃ node n, pa_hashmap_get u1.discover.byname d.key = some node ∧
          u1.deref node = some n ∧ n.available = d.available) := by
  have hfits : ∀ port : pa_device_port,
      (data.paname ++ "@" ++ port.name).length ≤ MAX_NAME_LENGTH →
      snprintf (MAX_NAME_LENGTH + 1) (data.paname ++ "@" ++ port.name) =
        data.paname ++ "@" ++ port.name ∧
      data.paname ++ "@" ++ port.name ≠ data.paname :=
    fun port h => ⟨snprintf_fits _ _ h, port_key_ne_paname _ _⟩
  have hdesc2 : ∀ p ∈ card.ports.getD [],
      port_participates p prof data.direction = true → p.description ≠ none := by
    intro p hp hpp
    apply hdesc
    unfold participating_ports
    exact List.mem_filter.mpr ⟨hp, hpp⟩
  obtain ⟨ds, u1, d1, hp1, e1, e2, e3, e4, e5, e6, e7, e8⟩ :=
    handle_card_ports_loop_upserts card prof b hbus data.paname data.stamp data.direction
      (card.ports.getD []) u data false hok rfl rfl rfl hdesc2
  have hloopS : ∀ d ∈ ds, d.stamp = data.stamp :=
    forall₂_right _ (fun d => d.stamp = data.stamp) (fun _ _ hr => hr.2.2) _ _ e3
  by_cases hnil : participating_ports card prof data.direction = []
  · obtain ⟨hd1, hhp⟩ := e7 hnil
    subst hd1 hhp
    have hds : ds = [] := by
      unfold participating_ports at hnil
      rw [hnil] at e3
      cases e3
      rfl
    subst hds
    simp only [upsert_all, Option.some.injEq] at e2
    subst e2
    obtain ⟨d3, hd3⟩ := classify_total
      { d1 with key := d1.paname, available := true } card (some prof) none a b ham hbus
      (fun p hp => by cases hp)
    obtain ⟨i1, -, -, -, -, i6, -, -, -, -, -, -, i13⟩ :=
      classify_same_identity _ d3 card (some prof) none hd3
    simp only at i1 i6 i13
    obtain ⟨u2, hu2⟩ := create_or_refresh_total u hok d3
    have hup : upsert_all [d3] u = some u2 := by simp [upsert_all, hu2]
    obtain ⟨s1, s2, s3⟩ := upsert_all_spec d1.stamp [d3] u u2 hok
      (fun d hd => by
        simp only [List.mem_singleton] at hd
        rw [hd, i13]) hup
    refine ⟨[d3], u2, { d3 with amname := some "" }, ?_, hup, fun h => absurd hnil h,
      fun _ => ⟨d3, rfl, i1, i6⟩, hfits, s1, ?_, s3⟩
    · have hd3b := hd3
      simp only [ham] at hd3b
      simp [handle_card_ports, ham, e1, hd3b, hu2]
    · intro d hd
      refine ⟨?_, s2 d hd⟩
      simp only [List.mem_singleton] at hd
      rw [hd, i13]
  · have hp1t : hp1 = true := e8 hnil
    subst hp1t
    obtain ⟨s1, s2, s3⟩ := upsert_all_spec data.stamp ds u u1 hok hloopS e2
    refine ⟨ds, u1, { d1 with amname := some "" }, ?_, e2, ?_, fun h => absurd h hnil,
      hfits, s1, fun d hd => ⟨hloopS d hd, s2 d hd⟩, s3⟩
    · simp [handle_card_ports, ham, e1]
    · intro _
      unfold participating_ports
      refine List.Forall₂.imp ?_ e3
      intro port d hr
      refine ⟨hr.1, ?_⟩
      rw [hr.2.1]
      simp

/-- C16 at concrete inputs: the sink target `analog-stereo` of the example
card whose port lists the profile, on the registry of a freshly loaded
module. -/
theorem handle_card_ports_upserts_witness :
    registry_ok pa_discover_init ∧
    ∃ ds u1 d1,
      handle_card_ports pa_discover_init example_builder example_listed_port_card
        example_stereo = some (u1, d1) ∧
      upsert_all ds pa_discover_init = some u1 ∧
      ds.map (fun d => d.key) = ["alsa_output.X.analog-stereo@analog-output"] := by
  refine ⟨by decide, ?_⟩
  obtain ⟨ds, u1, d1, h1, h2, h3, -, h5, -, -, -⟩ :=
    handle_card_ports_upserts pa_discover_init example_builder example_listed_port_card
      example_stereo "" "pci" (by decide) (by decide) (by decide) (by decide)
  refine ⟨ds, u1, d1, h1, h2, ?_⟩
  have hport : participating_ports example_listed_port_card example_stereo
      example_builder.direction =
      [{ example_free_port with profiles := some ["output:analog-stereo"] }] := by decide
  rw [hport] at h3
  have h3 := h3 (by simp)
  cases h3 with
  | cons hhead htail =>
    cases htail
    simp only [List.map_cons, List.map_nil]
    rw [hhead.1]
    decide

/-! ## Bluetooth cards -/

theorem classify_ne_none (data : mir_node) (card : pa_card) (prof : Option pa_card_profile)
    (a b : String) (ham : data.amname = some a)
    (hbus : pa_proplist_gets card.proplist PA_PROP_DEVICE_BUS = some b) :
    classify_node_by_card data card prof none ≠ none := by
  obtain ⟨d, hd⟩ := classify_total data card prof none a b ham hbus (fun p hp => (by cases hp))
  rw [hd]
  exact fun h => (by cases h)

theorem create_all_append (l1 l2 : List mir_node) (v : userdata) :
    create_all (l1 ++ l2) v = create_all l2 (create_all l1 v) := by
  induction l1 generalizing v with
  | nil => rfl
  | cons x xs ih =>
    simp only [List.cons_append, create_all]
    exact ih _

theorem handle_bluetooth_profiles_total (card : pa_card) (cid b : String)
    (hbus : pa_proplist_gets card.proplist PA_PROP_DEVICE_BUS = some b) :
    ∀ (profiles : List pa_card_profile) (u : userdata) (data : mir_node),
      handle_bluetooth_profiles card cid profiles u data ≠ none := by
  intro profiles
  induction profiles with
  | nil => intro u data h; simp [handle_bluetooth_profiles] at h
  | cons prof rest ih =>
    intro u data h
    unfold handle_bluetooth_profiles at h
    simp only at h
    split at h
    · rename_i hsinks
      split at hsinks
      · split at hsinks
        · rename_i hcl
          exact classify_ne_none _ _ _ "" b rfl hbus hcl
        · cases hsinks
      · cases hsinks
    · split at h
      · rename_i hsources
        split at hsources
        · split at hsources
          · rename_i hcl
            exact classify_ne_none _ _ _ "" b rfl hbus hcl
          · cases hsources
        · cases hsources
      · exact ih _ _ h

theorem handle_bluetooth_profiles_creates (card : pa_card) (cid : String) (idx : Nat) :
    ∀ (profiles : List pa_card_profile) (u : userdata) (data : mir_node) (u1 : userdata)
      (d1 : mir_node),
      data.implement = mir_device → data.pacard.index = idx →
      handle_bluetooth_profiles card cid profiles u data = some (u1, d1) →
      ∃ ds, u1 = create_all ds u ∧
        ds.map (fun d => (d.key, d.direction)) = profiles.flatMap (bluetooth_profile_nodes cid) ∧
        ∀ d ∈ ds, d.implement = mir_device ∧ d.pacard.index = idx := by
  intro profiles
  induction profiles with
  | nil =>
    intro u data u1 d1 _ _ h
    simp only [handle_bluetooth_profiles, Option.some.injEq, Prod.mk.injEq] at h
    exact ⟨[], h.1.symm, rfl, fun d hd => (by cases hd)⟩
  | cons prof rest ih =>
    intro u data u1 d1 himp hidx h
    unfold handle_bluetooth_profiles at h
    simp only at h
    split at h
    · cases h
    · rename_i ua da hsinks
      have hA : ∃ dsa, ua = create_all dsa u ∧
          dsa.map (fun d => (d.key, d.direction)) =
            (if prof.n_sinks > 0 then
              [(snprintf (MAX_NAME_LENGTH + 1)
                (snprintf (MAX_NAME_LENGTH + 1) ("bluez_sink." ++ cid) ++ "@" ++ prof.name),
                mir_output)]
             else []) ∧
          (∀ d ∈ dsa, d.implement = mir_device ∧ d.pacard.index = idx) ∧
          da.implement = mir_device ∧ da.pacard.index = idx := by
        split at hsinks
        · rename_i hs
          split at hsinks
          · cases hsinks
          · rename_i d2 hcl
            cases hsinks
            obtain ⟨i1, i2, i3, -, -, -, -, -, -, -, i11, -, -⟩ :=
              classify_same_identity _ _ card (some prof) none hcl
            simp only at i1 i2 i3 i11
            refine ⟨[da], rfl, ?_, ?_, ?_, ?_⟩
            · simp [hs, i1, i2]
            · intro d hd
              simp only [List.mem_singleton] at hd
              subst hd
              exact ⟨by rw [i3, himp], by rw [i11]; exact hidx⟩
            · rw [i3, himp]
            · rw [i11]; exact hidx
        · rename_i hs
          cases hsinks
          exact ⟨[], rfl, by simp [hs], fun d hd => (by cases hd), himp, hidx⟩
      obtain ⟨dsa, ea, ka, fa, ia, xa⟩ := hA
      split at h
      · cases h
      · rename_i ub db hsources
        have hB : ∃ dsb, ub = create_all dsb ua ∧
            dsb.map (fun d => (d.key, d.direction)) =
              (if prof.n_sources > 0 then
                [(snprintf (MAX_NAME_LENGTH + 1)
                  (snprintf (MAX_NAME_LENGTH + 1) ("bluez_source." ++ cid) ++ "@" ++ prof.name),
                  mir_input)]
               else []) ∧
            (∀ d ∈ dsb, d.implement = mir_device ∧ d.pacard.index = idx) ∧
            db.implement = mir_device ∧ db.pacard.index = idx := by
          split at hsources
          · rename_i hs
            split at hsources
            · cases hsources
            · rename_i d5 hcl
              cases hsources
              obtain ⟨i1, i2, i3, -, -, -, -, -, -, -, i11, -, -⟩ :=
                classify_same_identity _ _ card (some prof) none hcl
              simp only at i1 i2 i3 i11
              refine ⟨[db], rfl, ?_, ?_, ?_, ?_⟩
              · simp [hs, i1, i2]
              · intro d hd
                simp only [List.mem_singleton] at hd
                subst hd
                exact ⟨by rw [i3, ia], by rw [i11]; exact xa⟩
              · rw [i3, ia]
              · rw [i11]; exact xa
          · rename_i hs
            cases hsources
            exact ⟨[], rfl, by simp [hs], fun d hd => (by cases hd), ia, xa⟩
        obtain ⟨dsb, eb, kb, fb, ib, xb⟩ := hB
        obtain ⟨dsr, er, kr, fr⟩ := ih ub db u1 d1 ib xb h
        refine ⟨dsa ++ dsb ++ dsr, ?_, ?_, ?_⟩
        · rw [create_all_append, create_all_append, ← ea, ← eb, er]
        · simp only [List.map_append, ka, kb, kr, List.flatMap_cons, bluetooth_profile_nodes]
        · intro d hd
          simp only [List.mem_append] at hd
          rcases hd with (hd | hd) | hd
          · exact fa d hd
          · exact fb d hd
          · exact fr d hd

theorem create_all_spec (idx : Nat) (ds : List mir_node) :
    ∀ (u : userdata), registry_ok u →
      (∀ d ∈ ds, d.implement = mir_device ∧ d.pacard.index = idx) →
      registry_ok (create_all ds u) ∧
      (∀ k p, pa_hashmap_get u.discover.byname k = some p →
        pa_hashmap_get (create_all ds u).discover.byname k = some p) ∧
      (∀ p n, u.deref p = some n → (create_all ds u).deref p = some n) ∧
      (∀ k p, pa_hashmap_get (create_all ds u).discover.byname k = some p →
        pa_hashmap_get u.discover.byname k = none →
        ∃ d ∈ ds, d.key = k ∧ (create_all ds u).deref p = some d) ∧
      (∀ d ∈ ds, pa_hashmap_get (create_all ds u).discover.byname d.key ≠ none) ∧
      (create_all ds u).discover.byptr = u.discover.byptr ∧
      (create_all ds u).mainloop = u.mainloop ∧ (create_all ds u).routing = u.routing ∧
      (create_all ds u).stamp = u.stamp := by
  induction ds with
  | nil =>
    intro u hok _
    refine ⟨hok, fun k p h => h, fun p n h => h, ?_, fun d hd => (by cases hd),
      rfl, rfl, rfl, rfl⟩
    intro k p h1 h2
    change pa_hashmap_get u.discover.byname k = some p at h1
    rw [h1] at h2
    cases h2
  | cons d rest ih =>
    intro u hok hdev
    have hdevr : ∀ x ∈ rest, x.implement = mir_device ∧ x.pacard.index = idx :=
      fun x hx => hdev x (List.mem_cons_of_mem _ hx)
    have hd := hdev d (List.mem_cons_self _ _)
    have hnew : mir_node_new d = d := by
      unfold mir_node_new
      simp [hd.1]
    have hokv := registry_ok_create u hok d
    obtain ⟨j1, j2, j3, j4, j5, j6, j7, j8, j9⟩ := ih (create_node u d).1 hokv hdevr
    simp only [create_all]
    cases hg : pa_hashmap_get u.discover.byname d.key with
    | some q =>
      have hv : (create_node u d).1 = u := by rw [create_node_found u d q hg]
      rw [hv] at j1 j2 j3 j4 j5 j6 j7 j8 j9 ⊢
      refine ⟨j1, j2, j3, ?_, ?_, j6, j7, j8, j9⟩
      · intro k p h1 h2
        obtain ⟨x, hx, e1, e2⟩ := j4 k p h1 h2
        exact ⟨x, List.mem_cons_of_mem _ hx, e1, e2⟩
      · intro x hx
        rcases List.mem_cons.mp hx with e | e
        · subst e
          rw [j2 _ _ hg]
          exact fun h => (by cases h)
        · exact j5 x e
    | none =>
      have hv := create_node_fresh u d hg
      have hkey : pa_hashmap_get (create_node u d).1.discover.byname d.key =
          some (fresh_address u.heap) := by
        rw [hv]
        simp only
        rw [pa_hashmap_get_append_none _ _ _ _ hg]
        simp
      have hrec : (create_node u d).1.deref (fresh_address u.heap) = some d := by
        rw [hv]
        simp only [userdata.deref]
        rw [pa_hashmap_get_append_none _ _ _ _ (fresh_address_unused u.heap)]
        simp [hnew]
      have hold : ∀ k p, pa_hashmap_get u.discover.byname k = some p →
          pa_hashmap_get (create_node u d).1.discover.byname k = some p := by
        intro k p h
        rw [hv]
        exact pa_hashmap_get_append_some _ _ _ _ _ h
      have holdr : ∀ p n, u.deref p = some n → (create_node u d).1.deref p = some n := by
        intro p n h
        rw [hv]
        simp only [userdata.deref] at h ⊢
        exact pa_hashmap_get_append_some _ _ _ _ _ h
      refine ⟨j1, fun k p h => j2 k p (hold k p h), fun p n h => j3 p n (holdr p n h),
        ?_, ?_, ?_, ?_, ?_, ?_⟩
      · intro k p h1 h2
        cases hx : pa_hashmap_get (create_node u d).1.discover.byname k with
        | none =>
          obtain ⟨x, hx1, e1, e2⟩ := j4 k p h1 hx
          exact ⟨x, List.mem_cons_of_mem _ hx1, e1, e2⟩
        | some q =>
          have hq := j2 k q hx
          rw [h1] at hq
          cases hq
          have hkd : k = d.key := by
            rw [hv] at hx
            simp only at hx
            rw [pa_hashmap_get_append_none _ _ _ _ h2] at hx
            by_cases e : d.key = k
            · exact e.symm
            · simp [e] at hx
          subst hkd
          rw [hkey] at hx
          cases hx
          exact ⟨d, List.mem_cons_self _ _, rfl, j3 _ _ hrec⟩
      · intro x hx
        rcases List.mem_cons.mp hx with e | e
        · subst e
          rw [j2 _ _ hkey]
          exact fun h => (by cases h)
        · exact j5 x e
      · rw [j6, hv]
      · rw [j7, hv]
      · rw [j8, hv]
      · rw [j9, hv]

theorem snprintf_toList (n : Nat) (s : String) :
    (snprintf n s).toList = s.toList.take (n - 1) := rfl

theorem toList_append (s t : String) : (s ++ t).toList = s.toList ++ t.toList := by
  cases s; cases t; rfl

theorem bluetooth_keys_differ (cid p q : String) :
    snprintf (MAX_NAME_LENGTH + 1)
        (snprintf (MAX_NAME_LENGTH + 1) ("bluez_sink." ++ cid) ++ "@" ++ p) ≠
      snprintf (MAX_NAME_LENGTH + 1)
        (snprintf (MAX_NAME_LENGTH + 1) ("bluez_source." ++ cid) ++ "@" ++ q) := by
  intro h
  have h8 := congrArg (fun s => s.toList.take 8) h
  simp only [snprintf_toList, toList_append, List.take_take] at h8
  have hmin : min 8 (MAX_NAME_LENGTH + 1 - 1) = 8 := by decide
  rw [hmin] at h8
  have e1 : "bluez_sink.".toList = 'b' :: 'l' :: 'u' :: 'e' :: 'z' :: '_' :: 's' :: 'i' ::
      ['n', 'k', '.'] := rfl
  have e2 : "bluez_source.".toList = 'b' :: 'l' :: 'u' :: 'e' :: 'z' :: '_' :: 's' :: 'o' ::
      ['u', 'r', 'c', 'e', '.'] := rfl
  have hm : MAX_NAME_LENGTH + 1 - 1 = 8 + 248 := by decide
  rw [e1, e2, hm] at h8
  simp [List.take] at h8

theorem bluetooth_node_direction (card : pa_card) (cid : String)
    (s t : String × mir_direction) (hs : s ∈ bluetooth_nodes card cid)
    (ht : t ∈ bluetooth_nodes card cid) (hk : s.1 = t.1) : s.2 = t.2 := by
  unfold bluetooth_nodes at hs ht
  simp only [List.mem_flatMap, bluetooth_profile_nodes, List.mem_append] at hs ht
  obtain ⟨p, -, hp⟩ := hs
  obtain ⟨q, -, hq⟩ := ht
  rcases hp with hp | hp <;> rcases hq with hq | hq <;>
    split at hp <;> split at hq <;>
    simp only [List.mem_singleton, List.not_mem_nil] at hp hq
  · rw [hp, hq]
  · rw [hp, hq] at hk
    exact absurd hk (bluetooth_keys_differ cid p.name q.name)
  · rw [hp, hq] at hk
    exact absurd hk.symm (bluetooth_keys_differ cid q.name p.name)
  · rw [hp, hq]

theorem is_device_of_card_congr (u v : userdata) (idx p : Nat) (h : v.deref p = u.deref p) :
    is_device_of_card v idx p = is_device_of_card u idx p := by
  unfold is_device_of_card
  rw [h]

theorem mem_device_keys (u : userdata) (hok : registry_ok u) (idx : Nat) (k : String) :
    k ∈ device_keys_of_card u idx ↔
      ∃ p, pa_hashmap_get u.discover.byname k = some p ∧ is_device_of_card u idx p = true := by
  unfold device_keys_of_card
  simp only [List.mem_map, List.mem_filter]
  constructor
  · rintro ⟨e, ⟨he, hdev⟩, rfl⟩
    exact ⟨e.2, registry_ok_get u hok e.1 e.2 he, hdev⟩
  · rintro ⟨p, hg, hdev⟩
    exact ⟨(k, p), ⟨pa_hashmap_get_mem _ _ _ hg, hdev⟩, rfl⟩

theorem device_keys_nodup (u : userdata) (hok : registry_ok u) (idx : Nat) :
    (device_keys_of_card u idx).Nodup := by
  unfold device_keys_of_card
  exact ((List.filter_sublist u.discover.byname).map _).nodup hok.1

/-- C21: a bluetooth card named `bluez_card.X` is added to a consistent registry
that holds no device node with the index of the card and no node under a key of
the card. Then `pa_discover_add_card` returns, whichever profile is active, and
the keys of the device nodes with the index of the card are exactly the key of
an output node `bluez_sink.X@<p>` for each profile p with a sink and the key of
an input node `bluez_source.X@<p>` for each profile p with a source (as
`snprintf` leaves them in the buffers, the plain texts when they fit), each
once; the nodes that were registered before are kept as they were; and
`pa_discover_remove_card` then returns and retires every node of the card. -/
theorem bluetooth_card_nodes (u : userdata) (card : pa_card) (X : String)
    (hok : registry_ok u) (hname : card.name = "bluez_card." ++ X)
    (hbus : pa_proplist_gets card.proplist PA_PROP_DEVICE_BUS = some "bluetooth")
    (hnone : ∀ k p, pa_hashmap_get u.discover.byname k = some p →
      is_device_of_card u card.index p = false)
    (hkeys : ∀ t ∈ bluetooth_nodes card X, pa_hashmap_get u.discover.byname t.1 = none) :
    ∃ u1, pa_discover_add_card u card = some u1 ∧
      (∀ k, k ∈ device_keys_of_card u1 card.index ↔
        k ∈ (bluetooth_nodes card X).map (fun t => t.1)) ∧
      (device_keys_of_card u1 card.index).Nodup ∧
      (∀ t ∈ bluetooth_nodes card X, ∃ p n,
        pa_hashmap_get u1.discover.byname t.1 = some p ∧ u1.deref p = some n ∧
        n.implement = mir_device ∧ n.pacard.index = card.index ∧ n.direction = t.2) ∧
      (∀ k p, pa_hashmap_get u.discover.byname k = some p →
        pa_hashmap_get u1.discover.byname k = some p ∧ u1.deref p = u.deref p) ∧
      (∀ pfx p : String, (pfx ++ X ++ "@" ++ p).length ≤ MAX_NAME_LENGTH →
        snprintf (MAX_NAME_LENGTH + 1) (snprintf (MAX_NAME_LENGTH + 1) (pfx ++ X) ++ "@" ++ p) =
          pfx ++ X ++ "@" ++ p) ∧
      ∃ u2, pa_discover_remove_card u1 card = some u2 ∧
        device_keys_of_card u2 card.index = [] ∧
        (∀ t ∈ bluetooth_nodes card X, pa_hashmap_get u2.discover.byname t.1 = none) ∧
        (∀ k p, pa_hashmap_get u.discover.byname k = some p →
          pa_hashmap_get u2.discover.byname k = some p ∧ u2.deref p = u.deref p) := by
  have hcid : String.mk (card.name.toList.drop 11) = X := by
    rw [hname, toList_append]
    have : "bluez_card.".toList.length = 11 := rfl
    rw [← this, List.drop_left]
    rfl
  have hpre : "bluez_card.".toList.isPrefixOf card.name.toList = true := by
    rw [hname, toList_append]
    simp
  have hokv : registry_ok (pa_utils_get_stamp u).1 := registry_ok_congr u _ hok rfl rfl
  cases hrun : handle_bluetooth_profiles card X card.profiles (pa_utils_get_stamp u).1
      { mir_node_zero with
        key := "", visible := true, amid := none, implement := mir_device,
        paidx := PA_IDXSET_INVALID, paname := "", amname := some "",
        amdescr := pa_proplist_gets card.proplist PA_PROP_DEVICE_DESCRIPTION,
        pacard := { index := card.index, profile := none },
        stamp := (pa_utils_get_stamp u).2 } with
  | none => exact absurd hrun (handle_bluetooth_profiles_total card X "bluetooth" hbus _ _ _)
  | some r =>
    obtain ⟨w, dl⟩ := r
    obtain ⟨ds, hw, hmap, hdev⟩ :=
      handle_bluetooth_profiles_creates card X card.index card.profiles _ _ w dl rfl rfl hrun
    obtain ⟨s1, s2, s3, s4, s5, -, -, -, -⟩ :=
      create_all_spec card.index ds (pa_utils_get_stamp u).1 hokv hdev
    rw [← hw] at s1 s2 s3 s4 s5
    have hadd : pa_discover_add_card u card = some (schedule_card_check w card) := by
      unfold pa_discover_add_card
      simp only [hbus]
      have h1 : ("bluetooth" = "pci" || "bluetooth" = "usb") = false := by decide
      simp only [h1, Bool.false_eq_true, if_false, if_true]
      unfold handle_bluetooth_card
      simp only [pa_utils_get_card_name, hpre, if_true, hcid, hrun]
    have hok1 : registry_ok (schedule_card_check w card) := registry_ok_congr w _ s1 rfl rfl
    have hmapk : ds.map (fun d => d.key) = (bluetooth_nodes card X).map (fun t => t.1) := by
      have := congrArg (List.map (fun t : String × mir_direction => t.1)) hmap
      simpa [bluetooth_nodes, List.map_map, Function.comp] using this
    -- the node under a key of the card
    have hnode : ∀ t ∈ bluetooth_nodes card X, ∃ p d,
        pa_hashmap_get w.discover.byname t.1 = some p ∧ w.deref p = some d ∧
        d.implement = mir_device ∧ d.pacard.index = card.index ∧ d.direction = t.2 := by
      intro t ht
      have hk : t.1 ∈ ds.map (fun d => d.key) := by
        rw [hmapk]; exact List.mem_map.mpr ⟨t, ht, rfl⟩
      obtain ⟨d0, hd0, hk0⟩ := List.mem_map.mp hk
      cases hg : pa_hashmap_get w.discover.byname t.1 with
      | none => exact absurd (hk0 ▸ hg) (s5 d0 hd0)
      | some p =>
        obtain ⟨d, hd, hdk, hrec⟩ := s4 t.1 p hg (hkeys t ht)
        have hdm : (d.key, d.direction) ∈ bluetooth_nodes card X := by
          have : (d.key, d.direction) ∈ ds.map (fun d => (d.key, d.direction)) :=
            List.mem_map.mpr ⟨d, hd, rfl⟩
          rw [hmap] at this
          exact this
        have hdir := bluetooth_node_direction card X (d.key, d.direction) t hdm ht hdk
        exact ⟨p, d, rfl, hrec, (hdev d hd).1, (hdev d hd).2, hdir⟩
    have hold : ∀ k p, pa_hashmap_get u.discover.byname k = some p →
        pa_hashmap_get w.discover.byname k = some p ∧ w.deref p = u.deref p := by
      intro k p hg
      obtain ⟨n, hd, -⟩ := registry_ok_deref u hok k p hg
      exact ⟨s2 k p hg, by rw [hd]; exact s3 p n hd⟩
    have hkeyset : ∀ k, k ∈ device_keys_of_card (schedule_card_check w card) card.index ↔
        k ∈ (bluetooth_nodes card X).map (fun t => t.1) := by
      intro k
      rw [mem_device_keys _ hok1]
      constructor
      · rintro ⟨p, hg, hdv⟩
        change pa_hashmap_get w.discover.byname k = some p at hg
        cases hu : pa_hashmap_get u.discover.byname k with
        | some q =>
          obtain ⟨h1, h2⟩ := hold k q hu
          rw [hg] at h1
          cases h1
          have e := is_device_of_card_congr u (schedule_card_check w card) card.index p h2
          rw [e, hnone k p hu] at hdv
          cases hdv
        | none =>
          obtain ⟨d, hd, hdk, -⟩ := s4 k p hg hu
          rw [← hmapk]
          exact List.mem_map.mpr ⟨d, hd, hdk⟩
      · intro hk
        obtain ⟨t, ht, rfl⟩ := List.mem_map.mp hk
        obtain ⟨p, d, h1, h2, h3, h4, -⟩ := hnode t ht
        refine ⟨p, h1, ?_⟩
        have hd2 : (schedule_card_check w card).deref p = some d := h2
        simp [is_device_of_card, hd2, h3, h4]
    obtain ⟨u2, r1, rok, ra, rb, rc⟩ := remove_card_spec (schedule_card_check w card) card hok1
    refine ⟨schedule_card_check w card, hadd, hkeyset, device_keys_nodup _ hok1 _, ?_, hold, ?_,
      u2, r1, ?_, ?_, ?_⟩
    · intro t ht
      obtain ⟨p, d, h1, h2, h3, h4, h5⟩ := hnode t ht
      exact ⟨p, d, h1, h2, h3, h4, h5⟩
    · intro pfx p hlen
      have h1 : (pfx ++ X).length ≤ MAX_NAME_LENGTH := by
        simp only [String.length_append] at hlen ⊢
        omega
      rw [snprintf_fits _ _ h1, snprintf_fits _ _ hlen]
    · unfold device_keys_of_card
      rw [List.map_eq_nil_iff, List.filter_eq_nil_iff]
      intro e he
      have hg := registry_ok_get u2 rok e.1 e.2 he
      obtain ⟨-, h2, h3⟩ := ra e.1 e.2 hg
      have e2 := is_device_of_card_congr (schedule_card_check w card) u2 card.index e.2 h2
      rw [e2, h3]
      simp
    · intro t ht
      obtain ⟨p, d, h1, h2, h3, h4, -⟩ := hnode t ht
      have hd2 : (schedule_card_check w card).deref p = some d := h2
      exact (rc t.1 p h1 (by simp [is_device_of_card, hd2, h3, h4])).1
    · intro k p hg
      obtain ⟨h1, h2⟩ := hold k p hg
      have hdv : is_device_of_card (schedule_card_check w card) card.index p = false := by
        rw [is_device_of_card_congr u (schedule_card_check w card) card.index p h2]
        exact hnone k p hg
      obtain ⟨h3, h4⟩ := rb k p h1 hdv
      exact ⟨h3, by rw [h4]; exact h2⟩

/-- C21 at the concrete card of the specification: the profiles a2dp (one sink)
and hsp (one sink, one source) on an empty registry give the three nodes, and
removing the card retires them. -/
theorem bluetooth_card_nodes_witness :
    bluetooth_nodes example_bluetooth_card "X" =
      [("bluez_sink.X@a2dp", mir_output), ("bluez_sink.X@hsp", mir_output),
       ("bluez_source.X@hsp", mir_input)] ∧
    ∃ u1, pa_discover_add_card pa_discover_init example_bluetooth_card = some u1 ∧
      device_keys_of_card u1 3 =
        ["bluez_sink.X@a2dp", "bluez_sink.X@hsp", "bluez_source.X@hsp"] ∧
      ∃ u2, pa_discover_remove_card u1 example_bluetooth_card = some u2 ∧
        device_keys_of_card u2 3 = [] := by
  refine ⟨by decide, ?_⟩
  obtain ⟨u1, h1, -, -, -, -, -, u2, h2, h3, -, -⟩ :=
    bluetooth_card_nodes pa_discover_init example_bluetooth_card "X" (by decide) (by decide)
      (by decide) (fun k p h => (by cases h)) (fun t ht => rfl)
  have e1 : pa_discover_add_card pa_discover_init example_bluetooth_card =
      some ((pa_discover_add_card pa_discover_init example_bluetooth_card).getD
        pa_discover_init) := by decide
  rw [e1] at h1
  cases h1
  exact ⟨_, e1, by decide, u2, h2, h3⟩

/-! ## Card events that are ignored or switch a card off -/

/-- C22: `pa_discover_add_card` returns and leaves the by-key index, the
by-handle index, the node records, the calls to the audio manager, the routing
and the posted callbacks as they were when the card has no bus attribute, when
its bus is none of "pci", "usb", "bluetooth", and when it is a pci or usb card
whose `module-udev-detect.discovered` property is absent or not "1". -/
theorem add_card_ignored (u : userdata) (card : pa_card)
    (h : pa_proplist_gets card.proplist PA_PROP_DEVICE_BUS = none ∨
      (∃ bus, pa_proplist_gets card.proplist PA_PROP_DEVICE_BUS = some bus ∧
        bus ≠ "pci" ∧ bus ≠ "usb" ∧ bus ≠ "bluetooth") ∨
      (∃ bus, pa_proplist_gets card.proplist PA_PROP_DEVICE_BUS = some bus ∧
        (bus = "pci" ∨ bus = "usb") ∧
        pa_proplist_gets card.proplist "module-udev-detect.discovered" ≠ some "1")) :
    ∃ u1, pa_discover_add_card u card = some u1 ∧
      u1.discover = u.discover ∧ u1.heap = u.heap ∧ u1.mainloop = u.mainloop ∧
      u1.audiomgr = u.audiomgr ∧ u1.routing = u.routing := by
  rcases h with h | ⟨bus, hb, h1, h2, h3⟩ | ⟨bus, hb, hpu, hudd⟩
  · exact ⟨u, by simp [pa_discover_add_card, h], rfl, rfl, rfl, rfl, rfl⟩
  · exact ⟨u, by simp [pa_discover_add_card, hb, h1, h2, h3], rfl, rfl, rfl, rfl, rfl⟩
  · refine ⟨(pa_utils_get_stamp u).1, ?_, rfl, rfl, rfl, rfl, rfl⟩
    have hc : (bus = "pci" || bus = "usb") = true := by
      rcases hpu with e | e <;> simp [e]
    unfold pa_discover_add_card
    simp only [hb, hc, if_true]
    unfold handle_alsa_card
    simp only
    cases hx : pa_proplist_gets card.proplist "module-udev-detect.discovered" with
    | none => rfl
    | some udd =>
      have hne : udd ≠ "1" := by
        intro e
        apply hudd
        rw [hx, e]
      simp [hne]

/-- C22 at concrete cards: a pci card that was not found by udev, on the
registry that holds the nodes of the bluetooth example card. -/
theorem add_card_ignored_witness :
    ∃ u1, pa_discover_add_card example_bluetooth_added example_static_card = some u1 ∧
      u1.discover = example_bluetooth_added.discover ∧
      u1.heap = example_bluetooth_added.heap ∧
      u1.mainloop = example_bluetooth_added.mainloop ∧
      u1.audiomgr = example_bluetooth_added.audiomgr ∧
      u1.routing = example_bluetooth_added.routing :=
  add_card_ignored example_bluetooth_added example_static_card
    (Or.inr (Or.inr ⟨"pci", by decide, Or.inl rfl, by decide⟩))

theorem foreach_mark (idx : Nat) :
    ∀ (rest : List (String × Nat)) (u : userdata), registry_ok u →
      (∀ e ∈ rest, e ∈ u.discover.byname) → (rest.map (fun e => e.1)).Nodup →
      ∃ u1, hashmap_foreach
          (fun v node =>
            match v.deref node with
            | none => none
            | some n =>
              if (n.implement = mir_device && n.pacard.index = idx) = true then
                some (v.store node { n with available := false })
              else some v)
          rest u = some u1 ∧ registry_ok u1 ∧
        u1.frame = u.frame ∧
        (∀ p n, u.deref p = some n →
          u1.deref p = some n ∨ u1.deref p = some { n with available := false }) ∧
        (∀ p, u.deref p = none → u1.deref p = none) ∧
        (∀ k p n, (k, p) ∈ rest → u.deref p = some n →
          n.implement = mir_device → n.pacard.index = idx →
          u1.deref p = some { n with available := false }) ∧
        (∀ p n, u.deref p = some n →
          ((∀ k, (k, p) ∉ rest) ∨ ¬ (n.implement = mir_device ∧ n.pacard.index = idx)) →
          u1.deref p = some n) := by
  intro rest
  induction rest with
  | nil =>
    intro u hok _ _
    exact ⟨u, rfl, hok, rfl, fun p n h => Or.inl h, fun p h => h,
      fun k p n hm => (by cases hm), fun p n h _ => h⟩
  | cons e rest ih =>
    obtain ⟨k, p⟩ := e
    intro u hok hsub hnd
    simp only [List.map_cons, List.nodup_cons] at hnd
    have hm : (k, p) ∈ u.discover.byname := hsub (k, p) (List.mem_cons_self _ _)
    have hg := registry_ok_get u hok k p hm
    obtain ⟨n, hd, hk⟩ := registry_ok_deref u hok k p hg
    have hsub2 : ∀ e ∈ rest, e ∈ u.discover.byname :=
      fun e he => hsub e (List.mem_cons_of_mem _ he)
    -- the state after the body has run on the head
    obtain ⟨v, hv, hokv, hfr, hbn, hvp, hvq⟩ : ∃ v,
        (match u.deref p with
          | none => none
          | some n =>
            if (n.implement = mir_device && n.pacard.index = idx) = true then
              some (u.store p { n with available := false })
            else some u) = some v ∧ registry_ok v ∧ v.frame = u.frame ∧
        v.discover.byname = u.discover.byname ∧
        v.deref p = some (if n.implement = mir_device ∧ n.pacard.index = idx then
          { n with available := false } else n) ∧
        (∀ q, q ≠ p → v.deref q = u.deref q) := by
      by_cases hc : n.implement = mir_device ∧ n.pacard.index = idx
      · refine ⟨u.store p { n with available := false }, ?_,
          registry_ok_store u hok p n _ hd rfl, rfl, rfl, ?_, ?_⟩
        · simp [hd, hc.1, hc.2]
        · rw [deref_store]; simp [hd, hc]
        · intro q hq; rw [deref_store]; simp [hq]
      · refine ⟨u, ?_, hok, rfl, rfl, ?_, fun q _ => rfl⟩
        · rw [hd]
          simp only
          have : ¬ ((decide (n.implement = mir_device) && decide (n.pacard.index = idx)) = true) := by
            simpa using hc
          rw [if_neg this]
        · simp [hd, hc]
    have hsub3 : ∀ e ∈ rest, e ∈ v.discover.byname := by
      rw [hbn]; exact hsub2
    obtain ⟨u1, hrun, hok1, f1, f2, f3, f4, f5⟩ := ih v hokv hsub3 hnd.2
    have hstep : hashmap_foreach
        (fun v node =>
          match v.deref node with
          | none => none
          | some n =>
            if (n.implement = mir_device && n.pacard.index = idx) = true then
              some (v.store node { n with available := false })
            else some v)
        ((k, p) :: rest) u = some u1 := by
      rw [hashmap_foreach]
      simp only [hg, if_true, hv]
      split
      · exact hrun
      · rename_i e hfind
        have he := List.find?_some hfind
        simp only [decide_eq_true_eq] at he
        rw [hbn, he]
        simp only [if_true]
        exact hrun
    have hpr : ∀ k2, (k2, p) ∉ rest := by
      intro k2 hin
      have hg2 := registry_ok_get u hok k2 p (hsub2 _ hin)
      have hkk := registry_ok_inj u hok k k2 p hg hg2
      subst hkk
      exact hnd.1 (List.mem_map.mpr ⟨(k, p), hin, rfl⟩)
    refine ⟨u1, hstep, hok1, f1.trans hfr, ?_, ?_, ?_, ?_⟩
    · intro q m hq
      by_cases e : q = p
      · subst e
        rw [hd] at hq
        cases hq
        by_cases hc : n.implement = mir_device ∧ n.pacard.index = idx
        · rw [if_pos hc] at hvp
          rcases f2 q _ hvp with h | h
          · exact Or.inr h
          · exact Or.inr h
        · rw [if_neg hc] at hvp
          exact f2 q _ hvp
      · exact f2 q m (by rw [hvq q e]; exact hq)
    · intro q hq
      have e : q ≠ p := by
        intro e
        subst e
        rw [hd] at hq
        cases hq
      exact f3 q (by rw [hvq q e]; exact hq)
    · intro k2 q m hin hq h1 h2
      rcases List.mem_cons.mp hin with e | e
      · cases e
        rw [hd] at hq
        cases hq
        rw [if_pos ⟨h1, h2⟩] at hvp
        exact f5 p _ hvp (Or.inl hpr)
      · have hqp : q ≠ p := by
          intro e2
          subst e2
          exact hpr k2 e
        exact f4 k2 q m e (by rw [hvq q hqp]; exact hq) h1 h2
    · intro q m hq hor
      by_cases e : q = p
      · subst e
        rw [hd] at hq
        cases hq
        rcases hor with h | h
        · exact absurd (List.mem_cons_self _ _) (h k)
        · rw [if_neg h] at hvp
          exact f5 q n hvp (Or.inl hpr)
      · refine f5 q m (by rw [hvq q e]; exact hq) ?_
        rcases hor with h | h
        · exact Or.inl (fun k2 hin => h k2 (List.mem_cons_of_mem _ hin))
        · exact Or.inr h

theorem frame_fields (u v : userdata) (h : v.frame = u.frame) :
    v.discover = u.discover ∧ v.audiomgr = u.audiomgr ∧ v.routing = u.routing ∧
    v.mainloop = u.mainloop := by
  have h1 : v.frame.discover = u.frame.discover := by rw [h]
  have h2 : v.frame.audiomgr = u.frame.audiomgr := by rw [h]
  have h3 : v.frame.routing = u.frame.routing := by rw [h]
  have h4 : v.frame.mainloop = u.frame.mainloop := by rw [h]
  exact ⟨h1, h2, h3, h4⟩

/-- C23: on a consistent registry, for a bluetooth card whose active profile has
no sink and no source, `pa_discover_profile_changed` returns; it has set
`available` to false on every registered device node whose card index is the
index of the card and has changed no other field of these nodes; the by-key
index, the by-handle index, every other record, the calls to the audio manager
(none is retired), the routing and the posted callbacks are as they were. -/
theorem bluetooth_profile_off (u : userdata) (card : pa_card) (prof : pa_card_profile)
    (hok : registry_ok u)
    (hbus : pa_proplist_gets card.proplist PA_PROP_DEVICE_BUS = some "bluetooth")
    (hact : card.active_profile = some prof)
    (hs : prof.n_sinks = 0) (hso : prof.n_sources = 0) :
    ∃ u1, pa_discover_profile_changed u card = some u1 ∧
      u1.discover = u.discover ∧ u1.audiomgr = u.audiomgr ∧ u1.routing = u.routing ∧
      u1.mainloop = u.mainloop ∧
      (∀ k p n, pa_hashmap_get u.discover.byname k = some p → u.deref p = some n →
        n.implement = mir_device → n.pacard.index = card.index →
        u1.deref p = some { n with available := false }) ∧
      (∀ k p n, pa_hashmap_get u.discover.byname k = some p → u.deref p = some n →
        ¬ (n.implement = mir_device ∧ n.pacard.index = card.index) →
        u1.deref p = some n) ∧
      (∀ p, (∀ k, pa_hashmap_get u.discover.byname k ≠ some p) → u1.deref p = u.deref p) := by
  obtain ⟨u1, hrun, -, hfr, f2, f3, f4, f5⟩ :=
    foreach_mark card.index u.discover.byname u hok (fun e he => he) hok.1
  obtain ⟨hd, ha, hr, hm⟩ := frame_fields u u1 hfr
  refine ⟨u1, ?_, hd, ha, hr, hm, ?_, ?_, ?_⟩
  · unfold pa_discover_profile_changed
    simp only [hbus, hact, hs, hso, if_true, decide_True, Bool.and_self]
    exact hrun
  · intro k p n hg hdr h1 h2
    exact f4 k p n (pa_hashmap_get_mem _ _ _ hg) hdr h1 h2
  · intro k p n hg hdr hnot
    exact f5 p n hdr (Or.inr hnot)
  · intro p hp
    cases hx : u.deref p with
    | none => exact f3 p hx
    | some n =>
      refine f5 p n hx (Or.inl ?_)
      intro k hin
      exact hp k (registry_ok_get u hok k p hin)

/-- C23 at a concrete input: the bluetooth example card, added with the
profiles a2dp and hsp, switches to the profile off. -/
theorem bluetooth_profile_off_witness :
    ∃ u1, pa_discover_profile_changed example_bluetooth_added example_bluetooth_card_off =
        some u1 ∧
      u1.discover = example_bluetooth_added.discover ∧
      device_keys_of_card u1 3 =
        ["bluez_sink.X@a2dp", "bluez_sink.X@hsp", "bluez_source.X@hsp"] ∧
      u1.heap.map (fun e => e.2.available) = [false, false, false] ∧
      example_bluetooth_added.heap.map (fun e => e.2.available) = [true, true, true] := by
  obtain ⟨u1, h1, h2, -, -, -, -, -, -⟩ :=
    bluetooth_profile_off example_bluetooth_added example_bluetooth_card_off example_off
      (by decide) (by decide) (by decide) (by decide) (by decide)
  have e1 : pa_discover_profile_changed example_bluetooth_added example_bluetooth_card_off =
      some ((pa_discover_profile_changed example_bluetooth_added
        example_bluetooth_card_off).getD pa_discover_init) := by decide
  rw [e1] at h1
  cases h1
  exact ⟨_, e1, h2, by decide, by decide, by decide⟩

/-- C24, the divergence: a card whose bus is "firewire", found by udev and named
`alsa_card.X`, reports a profile change. `pa_discover_profile_changed` logs
that it ignores the event and then runs the ALSA branch: on an empty registry a
node is created for the active profile, and on a registry that holds a device
node with the index of the card from an earlier scan, that node is retired. -/
theorem unsupported_bus_not_ignored :
    pa_proplist_gets example_firewire_card.proplist PA_PROP_DEVICE_BUS = some "firewire" ∧
    registered_keys pa_discover_init = [] ∧
    (pa_discover_profile_changed pa_discover_init example_firewire_card).map registered_keys =
      some ["alsa_output.X.analog-stereo"] ∧
    (pa_discover_add_card pa_discover_init example_firewire_card).map registered_keys =
      some [] ∧
    registered_keys example_bluetooth_added =
      ["bluez_sink.X@a2dp", "bluez_sink.X@hsp", "bluez_source.X@hsp"] ∧
    (pa_discover_profile_changed example_bluetooth_added
      { example_firewire_card with index := 3 }).map registered_keys =
      some ["alsa_output.X.analog-stereo"] := by
  refine ⟨by decide, by decide, by decide, by decide, by decide, by decide⟩

/-! ## Stream events -/

theorem pa_hashmap_get_replace (pl : List (String × String)) (k v k2 : String) :
    pa_hashmap_get (pl.map (fun e => (e.1, if e.1 = k then v else e.2))) k2 =
      if k2 = k then (pa_hashmap_get pl k).map (fun _ => v) else pa_hashmap_get pl k2 := by
  induction pl with
  | nil => simp [pa_hashmap_get]
  | cons e rest ih =>
    obtain ⟨a, b⟩ := e
    simp only [List.map_cons, pa_hashmap_get]
    by_cases h1 : a = k
    · subst h1
      by_cases h2 : k2 = a
      · subst h2; simp
      · have h3 : ¬ a = k2 := fun e => h2 e.symm
        simp [h2, h3, ih]
    · by_cases h2 : k2 = k
      · subst h2
        have h3 : ¬ a = k2 := h1
        simp [h1, h3, ih]
      · by_cases h3 : a = k2
        · subst h3; simp [h1, h2]
        · simp [h1, h2, h3, ih]

theorem pa_proplist_gets_sets (pl : List (String × String)) (k v k2 : String) :
    pa_proplist_gets (pa_proplist_sets pl k v) k2 =
      if k2 = k then some v else pa_proplist_gets pl k2 := by
  unfold pa_proplist_gets pa_proplist_sets
  cases hg : pa_hashmap_get pl k with
  | some x =>
    simp only
    rw [pa_hashmap_get_replace, hg]
    rfl
  | none =>
    simp only
    by_cases h : k2 = k
    · subst h
      rw [pa_hashmap_get_append_none _ _ _ _ hg]
      simp
    · have h2 : ¬ k = k2 := fun e => h e.symm
      cases hx : pa_hashmap_get pl k2 with
      | some y => rw [pa_hashmap_get_append_some _ _ _ _ _ hx]; simp [h]
      | none => rw [pa_hashmap_get_append_none _ _ _ _ hx]; simp [h, h2]

theorem format_d_small (n : Nat) (h : n < 2 ^ 31) : format_d (as_int n) = Nat.repr n := by
  have h1 : n % 2 ^ 32 = n := Nat.mod_eq_of_lt (by omega)
  unfold as_int format_d
  rw [h1, if_pos h]
  have h2 : ¬ ((n : Int) < 0) := by omega
  rw [if_neg h2]
  simp

theorem repr_short (n : Nat) (h : n < 2 ^ 31) : (Nat.repr n).length ≤ 10 :=
  Nat.repr_length n 10 (by decide) (by omega)

theorem class_id_plain (n : Nat) (h : n < 2 ^ 31) :
    snprintf 32 (format_d (as_int n)) = Nat.repr n := by
  rw [format_d_small n h]
  apply snprintf_fits _ 31
  have := repr_short n h
  omega

theorem set_stream_routing_properties_spec (H : node_h) (pl : List (String × String))
    (t : mir_node_type) (sink : Option Nat) (hne : H.type_id t ≠ 0) :
    ∃ pl1, set_stream_routing_properties H pl t sink = some pl1 ∧
      pa_proplist_gets pl1 PA_PROP_ROUTING_CLASS_NAME = some (mir_node_type_str t) ∧
      pa_proplist_gets pl1 PA_PROP_ROUTING_CLASS_ID =
        some (snprintf 32 (format_d (as_int (H.type_id t)))) ∧
      pa_proplist_gets pl1 PA_PROP_ROUTING_METHOD =
        some (if sink.isSome then PA_ROUTING_EXPLICIT else PA_ROUTING_DEFAULT) ∧
      (∀ k, k ≠ PA_PROP_ROUTING_CLASS_NAME → k ≠ PA_PROP_ROUTING_CLASS_ID →
        k ≠ PA_PROP_ROUTING_METHOD → pa_proplist_gets pl1 k = pa_proplist_gets pl k) := by
  unfold set_stream_routing_properties
  rw [if_neg hne]
  refine ⟨_, rfl, ?_, ?_, ?_, ?_⟩
  · simp only [pa_proplist_gets_sets]
    have h1 : ¬ PA_PROP_ROUTING_CLASS_NAME = PA_PROP_ROUTING_METHOD := by decide
    have h2 : ¬ PA_PROP_ROUTING_CLASS_NAME = PA_PROP_ROUTING_CLASS_ID := by decide
    simp [h1, h2]
  · simp only [pa_proplist_gets_sets]
    have h1 : ¬ PA_PROP_ROUTING_CLASS_ID = PA_PROP_ROUTING_METHOD := by decide
    simp [h1]
  · simp only [pa_proplist_gets_sets]
    simp
  · intro k h1 h2 h3
    simp only [pa_proplist_gets_sets]
    simp [h1, h2, h3]

theorem stream_sink_node_put (u : userdata) (sinp : pa_sink_input) (i p : Nat) :
    stream_sink_node (u.set_byptr (pa_hashmap_put u.discover.byptr (pa_object.sink_input i) p))
      sinp = stream_sink_node u sinp := by
  unfold stream_sink_node
  cases sinp.sink with
  | none => rfl
  | some s =>
    simp only [userdata.set_byptr]
    rw [pa_hashmap_get_put]
    cases pa_hashmap_get u.discover.byptr (pa_object.sink s) <;> simp

theorem stream_sink_node_remove (u : userdata) (sinp : pa_sink_input) (i : Nat) :
    stream_sink_node (u.set_byptr (pa_hashmap_remove u.discover.byptr (pa_object.sink_input i)))
      sinp = stream_sink_node u sinp := by
  unfold stream_sink_node
  cases sinp.sink with
  | none => rfl
  | some s =>
    simp only [userdata.set_byptr]
    rw [pa_hashmap_get_remove]
    simp

theorem add_stream_node_fresh (u : userdata) (sinp : pa_sink_input) (data : mir_node)
    (hg : pa_hashmap_get u.discover.byname data.key = none)
    (hsink : ∀ q, stream_sink_node u sinp = some q → u.deref q ≠ none) :
    add_stream_node u sinp data =
      some ((create_node u data).1.set_byptr
        (pa_hashmap_put u.discover.byptr (pa_object.sink_input sinp.index)
          (fresh_address u.heap))) ∧
    (create_node u data).1.deref (fresh_address u.heap) = some (mir_node_new data) := by
  have hv := create_node_fresh u data hg
  have hrec : (create_node u data).1.deref (fresh_address u.heap) = some (mir_node_new data) := by
    rw [hv]
    simp only [userdata.deref]
    rw [pa_hashmap_get_append_none _ _ _ _ (fresh_address_unused u.heap)]
    simp
  refine ⟨?_, hrec⟩
  have hbp : (create_node u data).1.discover.byptr = u.discover.byptr := by rw [hv]
  have hfst : (create_node u data).2 = (fresh_address u.heap, true) := by rw [hv]
  unfold add_stream_node
  simp only [hfst, if_true, hbp]
  have hss := stream_sink_node_put (create_node u data).1 sinp sinp.index (fresh_address u.heap)
  rw [hbp] at hss
  have hss2 : stream_sink_node (create_node u data).1 sinp = stream_sink_node u sinp := by
    unfold stream_sink_node
    rw [hbp]
  rw [hss, hss2]
  cases hq : stream_sink_node u sinp with
  | none => rfl
  | some q =>
    simp only
    have hrec2 : ((create_node u data).1.set_byptr
        (pa_hashmap_put u.discover.byptr (pa_object.sink_input sinp.index)
          (fresh_address u.heap))).deref (fresh_address u.heap) = some (mir_node_new data) := hrec
    cases hx : u.deref q with
    | none => exact absurd hx (hsink q hq)
    | some m =>
      have hq2 : ((create_node u data).1.set_byptr
          (pa_hashmap_put u.discover.byptr (pa_object.sink_input sinp.index)
            (fresh_address u.heap))).deref q = some m := by
        show (create_node u data).1.deref q = some m
        rw [hv]
        simp only [userdata.deref] at hx ⊢
        exact pa_hashmap_get_append_some _ _ _ _ _ hx
      rw [hrec2, hq2]

theorem add_sink_input_classified (H : node_h) (u : userdata) (sinp : pa_sink_input)
    (hvals : ∀ t, t ≠ mir_node_type_unknown → H.type_id t ≠ 0)
    (hc : get_stream_routing_class H sinp.proplist ≠ 0 ∨
      guess_stream_node_type sinp.proplist ≠ mir_node_type_unknown) :
    ∃ type pl, pa_discover_add_sink_input H u sinp =
      (add_stream_node u sinp (stream_node_data sinp type pl)).map (fun u1 => (u1, pl)) := by
  by_cases hcls : get_stream_routing_class H sinp.proplist = 0
  · have ht : guess_stream_node_type sinp.proplist ≠ mir_node_type_unknown := by
      rcases hc with h | h
      · exact absurd hcls h
      · exact h
    obtain ⟨pl1, hset, -⟩ := set_stream_routing_properties_spec H sinp.proplist
      (guess_stream_node_type sinp.proplist) none (hvals _ ht)
    refine ⟨guess_stream_node_type sinp.proplist, pl1, ?_⟩
    unfold pa_discover_add_sink_input
    simp only [hcls, if_true, ht, if_false, hset]
  · refine ⟨H.of_value (get_stream_routing_class H sinp.proplist), sinp.proplist, ?_⟩
    unfold pa_discover_add_sink_input
    simp only [hcls, if_false]

theorem remove_sink_input_run (u : userdata) (sinp : pa_sink_input) (p : Nat) (k : String)
    (hok : registry_ok u)
    (hsink : ∀ q, stream_sink_node u sinp = some q → u.deref q ≠ none)
    (hb : pa_hashmap_get u.discover.byptr (pa_object.sink_input sinp.index) = some p)
    (hg : pa_hashmap_get u.discover.byname k = some p) :
    pa_discover_remove_sink_input u sinp =
      some (retired (u.set_byptr
        (pa_hashmap_remove u.discover.byptr (pa_object.sink_input sinp.index))) k p) := by
  have hok1 : registry_ok (u.set_byptr
      (pa_hashmap_remove u.discover.byptr (pa_object.sink_input sinp.index))) :=
    registry_ok_congr u _ hok rfl rfl
  have hdes := destroy_node_retired _ hok1 k p hg
  obtain ⟨n, hd, -⟩ := registry_ok_deref u hok k p hg
  unfold pa_discover_remove_sink_input
  simp only [hb]
  rw [stream_sink_node_remove]
  cases hq : stream_sink_node u sinp with
  | none => exact hdes
  | some q =>
    simp only
    cases hx : u.deref q with
    | none => exact absurd hx (hsink q hq)
    | some m =>
      have h1 : (u.set_byptr (pa_hashmap_remove u.discover.byptr
          (pa_object.sink_input sinp.index))).deref p = some n := hd
      have h2 : (u.set_byptr (pa_hashmap_remove u.discover.byptr
          (pa_object.sink_input sinp.index))).deref q = some m := hx
      rw [h1, h2]
      exact hdes

theorem pa_hashmap_remove_append_new {κ ν : Type} [DecidableEq κ] (h : List (κ × ν)) (key : κ)
    (v : ν) (hg : pa_hashmap_get h key = none) :
    pa_hashmap_remove (h ++ [(key, v)]) key = h := by
  have := pa_hashmap_remove_absent h key hg
  unfold pa_hashmap_remove at this ⊢
  rw [List.filter_append, this]
  simp

/-- C26: on a consistent registry, for a stream that is bound in the by-handle
index to a registered node, `pa_discover_remove_sink_input` returns, has removed
the entry of the stream from the by-handle index and the node from the by-key
index, has unregistered and released the node, whatever the record of the node
holds, and has left the other entries of both indexes alone. And when the
registry holds neither the key `stream_input.<i>` nor a by-handle entry of the
stream, `pa_discover_add_sink_input` of a classifiable stream followed by
`pa_discover_remove_sink_input` of the same stream leaves both indexes as they
were before. -/
theorem remove_sink_input_retires (u : userdata) (sinp : pa_sink_input)
    (hok : registry_ok u)
    (hsink : ∀ q, stream_sink_node u sinp = some q → u.deref q ≠ none) :
    (∀ p k, pa_hashmap_get u.discover.byptr (pa_object.sink_input sinp.index) = some p →
      pa_hashmap_get u.discover.byname k = some p →
      ∃ u1, pa_discover_remove_sink_input u sinp = some u1 ∧
        pa_hashmap_get u1.discover.byptr (pa_object.sink_input sinp.index) = none ∧
        pa_hashmap_get u1.discover.byname k = none ∧ u1.deref p = none ∧
        am_call.unregister p ∈ u1.audiomgr ∧
        (∀ o, o ≠ pa_object.sink_input sinp.index →
          pa_hashmap_get u1.discover.byptr o = pa_hashmap_get u.discover.byptr o) ∧
        (∀ k2, k2 ≠ k →
          pa_hashmap_get u1.discover.byname k2 = pa_hashmap_get u.discover.byname k2)) ∧
    (∀ H : node_h, (∀ t, t ≠ mir_node_type_unknown → H.type_id t ≠ 0) →
      (get_stream_routing_class H sinp.proplist ≠ 0 ∨
        guess_stream_node_type sinp.proplist ≠ mir_node_type_unknown) →
      pa_hashmap_get u.discover.byname (stream_key sinp.index) = none →
      pa_hashmap_get u.discover.byptr (pa_object.sink_input sinp.index) = none →
      ∃ u1 pl u2, pa_discover_add_sink_input H u sinp = some (u1, pl) ∧
        pa_hashmap_get u1.discover.byname (stream_key sinp.index) ≠ none ∧
        pa_discover_remove_sink_input u1 { sinp with proplist := pl } = some u2 ∧
        u2.discover = u.discover) := by
  constructor
  · intro p k hb hg
    refine ⟨_, remove_sink_input_run u sinp p k hok hsink hb hg, ?_, ?_, ?_, ?_, ?_, ?_⟩
    · simp [retired, mir_node_destroy, pa_audiomgr_unregister_node, userdata.set_byname,
        userdata.set_byptr, pa_hashmap_get_remove]
    · rw [retired_get]; simp
    · rw [retired_deref]; simp
    · simp [retired, mir_node_destroy, pa_audiomgr_unregister_node, userdata.set_byname,
        userdata.set_byptr]
    · intro o ho
      simp [retired, mir_node_destroy, pa_audiomgr_unregister_node, userdata.set_byname,
        userdata.set_byptr, pa_hashmap_get_remove, ho]
    · intro k2 hk2
      rw [retired_get]
      simp [hk2, userdata.set_byptr]
  · intro H hvals hc hg hb
    obtain ⟨type, pl, hadd⟩ := add_sink_input_classified H u sinp hvals hc
    have hk : (stream_node_data sinp type pl).key = stream_key sinp.index := rfl
    have hgk : pa_hashmap_get u.discover.byname (stream_node_data sinp type pl).key = none := by
      rw [hk]; exact hg
    obtain ⟨hrun, hrec⟩ := add_stream_node_fresh u sinp (stream_node_data sinp type pl) hgk hsink
    have hv := create_node_fresh u (stream_node_data sinp type pl) hgk
    have hokc := registry_ok_create u hok (stream_node_data sinp type pl)
    have hok1 : registry_ok ((create_node u (stream_node_data sinp type pl)).1.set_byptr
        (pa_hashmap_put u.discover.byptr (pa_object.sink_input sinp.index)
          (fresh_address u.heap))) := registry_ok_congr _ _ hokc rfl rfl
    have hbn : ((create_node u (stream_node_data sinp type pl)).1.set_byptr
        (pa_hashmap_put u.discover.byptr (pa_object.sink_input sinp.index)
          (fresh_address u.heap))).discover.byname =
        u.discover.byname ++ [(stream_key sinp.index, fresh_address u.heap)] := by
      rw [hv]
      rfl
    have hbp : ((create_node u (stream_node_data sinp type pl)).1.set_byptr
        (pa_hashmap_put u.discover.byptr (pa_object.sink_input sinp.index)
          (fresh_address u.heap))).discover.byptr =
        u.discover.byptr ++ [(pa_object.sink_input sinp.index, fresh_address u.heap)] := by
      simp [userdata.set_byptr, pa_hashmap_put, hb]
    have hg1 : pa_hashmap_get ((create_node u (stream_node_data sinp type pl)).1.set_byptr
        (pa_hashmap_put u.discover.byptr (pa_object.sink_input sinp.index)
          (fresh_address u.heap))).discover.byname (stream_key sinp.index) =
        some (fresh_address u.heap) := by
      rw [hbn, pa_hashmap_get_append_none _ _ _ _ hg]
      simp
    have hb1 : pa_hashmap_get ((create_node u (stream_node_data sinp type pl)).1.set_byptr
        (pa_hashmap_put u.discover.byptr (pa_object.sink_input sinp.index)
          (fresh_address u.heap))).discover.byptr (pa_object.sink_input sinp.index) =
        some (fresh_address u.heap) := by
      rw [hbp, pa_hashmap_get_append_none _ _ _ _ hb]
      simp
    have hsink1 : ∀ q, stream_sink_node ((create_node u (stream_node_data sinp type pl)).1.set_byptr
        (pa_hashmap_put u.discover.byptr (pa_object.sink_input sinp.index)
          (fresh_address u.heap))) { sinp with proplist := pl } = some q →
        ((create_node u (stream_node_data sinp type pl)).1.set_byptr
          (pa_hashmap_put u.discover.byptr (pa_object.sink_input sinp.index)
            (fresh_address u.heap))).deref q ≠ none := by
      intro q hq
      have hq2 : stream_sink_node u sinp = some q := by
        unfold stream_sink_node at hq ⊢
        simp only at hq
        cases hs : sinp.sink with
        | none => rw [hs] at hq; cases hq
        | some s =>
          rw [hs] at hq
          simp only at hq ⊢
          rw [hbp] at hq
          cases hx : pa_hashmap_get u.discover.byptr (pa_object.sink s) with
          | some y => rw [pa_hashmap_get_append_some _ _ _ _ _ hx] at hq; exact hq
          | none => rw [pa_hashmap_get_append_none _ _ _ _ hx] at hq; simp at hq
      cases hx : u.deref q with
      | none => exact absurd hx (hsink q hq2)
      | some m =>
        have : ((create_node u (stream_node_data sinp type pl)).1.set_byptr
            (pa_hashmap_put u.discover.byptr (pa_object.sink_input sinp.index)
              (fresh_address u.heap))).deref q = some m := by
          show (create_node u (stream_node_data sinp type pl)).1.deref q = some m
          rw [hv]
          simp only [userdata.deref] at hx ⊢
          exact pa_hashmap_get_append_some _ _ _ _ _ hx
        rw [this]
        exact fun h => (by cases h)
    have hrem := remove_sink_input_run _ { sinp with proplist := pl } (fresh_address u.heap)
      (stream_key sinp.index) hok1 hsink1 hb1 hg1
    refine ⟨_, pl, _, by rw [hadd, hrun]; rfl, by rw [hg1]; exact fun h => (by cases h),
      hrem, ?_⟩
    have e1 : (retired (((create_node u (stream_node_data sinp type pl)).1.set_byptr
        (pa_hashmap_put u.discover.byptr (pa_object.sink_input sinp.index)
          (fresh_address u.heap))).set_byptr
        (pa_hashmap_remove ((create_node u (stream_node_data sinp type pl)).1.set_byptr
          (pa_hashmap_put u.discover.byptr (pa_object.sink_input sinp.index)
            (fresh_address u.heap))).discover.byptr
          (pa_object.sink_input sinp.index))) (stream_key sinp.index)
        (fresh_address u.heap)).discover =
        { u.discover with
          byname := pa_hashmap_remove
            (u.discover.byname ++ [(stream_key sinp.index, fresh_address u.heap)])
            (stream_key sinp.index),
          byptr := pa_hashmap_remove
            (u.discover.byptr ++ [(pa_object.sink_input sinp.index, fresh_address u.heap)])
            (pa_object.sink_input sinp.index) } := by
      rw [hbp]
      simp only [retired, mir_node_destroy, pa_audiomgr_unregister_node, userdata.set_byname,
        userdata.set_byptr]
      rw [hv]
      rfl
    rw [e1, pa_hashmap_remove_append_new _ _ _ hg, pa_hashmap_remove_append_new _ _ _ hb]

/-- C26 at a concrete stream: the stream with the role "music" is added to the
registry that holds the nodes of the bluetooth example card, and removed. -/
theorem remove_sink_input_retires_witness :
    ∃ u1 pl u2,
      pa_discover_add_sink_input example_node_h example_bluetooth_added example_music_stream =
        some (u1, pl) ∧
      pa_hashmap_get u1.discover.byname (stream_key example_music_stream.index) ≠ none ∧
      pa_discover_remove_sink_input u1 { example_music_stream with proplist := pl } = some u2 ∧
      u2.discover = example_bluetooth_added.discover := by
  have hv : ∀ t, t ≠ mir_node_type_unknown → example_node_h.type_id t ≠ 0 := by
    intro t ht
    cases t <;> first | exact absurd rfl ht | decide
  exact (remove_sink_input_retires example_bluetooth_added example_music_stream (by decide)
    (fun q hq => (by cases hq))).2 example_node_h hv (Or.inr (by decide)) (by decide) (by decide)

/-! ## Pre-routing of new streams -/

theorem sink_by_index_index (core : pa_core) (i : Nat) (sink : pa_sink)
    (h : core.sink_by_index i = some sink) : sink.index = i := by
  unfold pa_core.sink_by_index at h
  have := List.find?_some h
  simpa using this

theorem preroute_run (H : node_h) (core : pa_core) (router : mir_node → Option Nat)
    (u : userdata) (data : pa_sink_input_new_data) (pl1 : List (String × String))
    (hset : set_stream_routing_properties H data.proplist
      (guess_stream_node_type data.proplist) data.sink = some pl1)
    (hrt : ∀ tgt, data.sink = none →
      router (preroute_candidate data.channels (guess_stream_node_type data.proplist)) =
        some tgt → u.deref tgt ≠ none) :
    ∃ out, pa_discover_preroute_sink_input H core router u data = some out ∧
      out.u = u ∧ out.data.proplist = pl1 ∧
      (∀ s, data.sink = some s → out.consulted = [] ∧ out.data.sink = some s) ∧
      (data.sink = none →
        out.consulted =
          [preroute_candidate data.channels (guess_stream_node_type data.proplist)] ∧
        (∀ i, out.data.sink = some i →
          ∃ tgt n sink,
            router (preroute_candidate data.channels
              (guess_stream_node_type data.proplist)) = some tgt ∧
            u.deref tgt = some n ∧ n.paidx ≠ PA_IDXSET_INVALID ∧ n.paidx = i ∧
            core.sink_by_index i = some sink ∧ i ∉ data.unsupported) ∧
        (∀ tgt n sink,
          router (preroute_candidate data.channels
            (guess_stream_node_type data.proplist)) = some tgt →
          u.deref tgt = some n → n.paidx ≠ PA_IDXSET_INVALID →
          core.sink_by_index n.paidx = some sink → n.paidx ∉ data.unsupported →
          out.data.sink = some n.paidx)) := by
  unfold pa_discover_preroute_sink_input
  simp only [hset]
  cases hs : data.sink with
  | some s =>
    exact ⟨_, rfl, rfl, rfl, fun s2 h2 => ⟨rfl, by rw [← h2]⟩, fun h => (by cases h)⟩
  | none =>
    simp only
    cases hr : router (preroute_candidate data.channels
        (guess_stream_node_type data.proplist)) with
    | none =>
      refine ⟨_, rfl, rfl, rfl, fun s2 h2 => (by cases h2), fun _ => ⟨rfl, ?_, ?_⟩⟩
      · intro i hi
        simp only [hs] at hi
        cases hi
      · intro tgt n sink h1
        cases h1
    | some tgt =>
      simp only
      cases hd : u.deref tgt with
      | none => exact absurd hd (hrt tgt hs hr)
      | some n =>
        simp only
        by_cases hinv : n.paidx = PA_IDXSET_INVALID
        · rw [if_pos hinv]
          refine ⟨_, rfl, rfl, rfl, fun s2 h2 => (by cases h2), fun _ => ⟨rfl, ?_, ?_⟩⟩
          · intro i hi
            simp only [hs] at hi
            cases hi
          · intro tgt2 n2 sink h1 h2 h3
            cases h1
            rw [hd] at h2
            cases h2
            exact absurd hinv h3
        · rw [if_neg hinv]
          cases hf : core.sink_by_index n.paidx with
          | none =>
            refine ⟨_, rfl, rfl, rfl, fun s2 h2 => (by cases h2), fun _ => ⟨rfl, ?_, ?_⟩⟩
            · intro i hi
              simp only [hs] at hi
              cases hi
            · intro tgt2 n2 sink h1 h2 h3 h4
              cases h1
              rw [hd] at h2
              cases h2
              rw [hf] at h4
              cases h4
          | some sink =>
            have hidx := sink_by_index_index core n.paidx sink hf
            simp only
            by_cases hun : sink.index ∈ data.unsupported
            · refine ⟨_, rfl, rfl, ?_, fun s2 h2 => (by cases h2), fun _ => ⟨rfl, ?_, ?_⟩⟩
              · simp [pa_sink_input_new_data_set_sink, hun]
              · intro i hi
                simp [pa_sink_input_new_data_set_sink, hun, hs] at hi
              · intro tgt2 n2 sink2 h1 h2 h3 h4 h5
                cases h1
                rw [hd] at h2
                cases h2
                rw [hidx] at hun
                exact absurd hun h5
            · refine ⟨_, rfl, rfl, ?_, fun s2 h2 => (by cases h2), fun _ => ⟨rfl, ?_, ?_⟩⟩
              · simp [pa_sink_input_new_data_set_sink, hun]
              · intro i hi
                simp only [pa_sink_input_new_data_set_sink, hun, if_false,
                  Option.some.injEq] at hi
                rw [hidx] at hi hun
                subst hi
                exact ⟨tgt, n, sink, rfl, hd, hinv, rfl, hf, hun⟩
              · intro tgt2 n2 sink2 h1 h2 h3 h4 h5
                cases h1
                rw [hd] at h2
                cases h2
                simp [pa_sink_input_new_data_set_sink, hidx, h5]

/-- C27: for a new stream that `guess_stream_node_type` classifies to a type t
that is not the unknown type, `pa_discover_preroute_sink_input` returns (the
router handing back allocated nodes only) and the property list of the stream
then holds `routing.class.name` = the name of t, `routing.class.id` = the value
of t printed with `%d` (its decimal text for a value below 2^31), and
`routing.method` = "explicit" if a sink was requested and "default" otherwise. -/
theorem preroute_stamps_class (H : node_h) (core : pa_core) (router : mir_node → Option Nat)
    (u : userdata) (data : pa_sink_input_new_data) (t : mir_node_type)
    (ht : guess_stream_node_type data.proplist = t) (hne : t ≠ mir_node_type_unknown)
    (hvals : ∀ t, t ≠ mir_node_type_unknown → H.type_id t ≠ 0)
    (hrt : ∀ tgt, data.sink = none →
      router (preroute_candidate data.channels t) = some tgt → u.deref tgt ≠ none) :
    ∃ out, pa_discover_preroute_sink_input H core router u data = some out ∧
      pa_proplist_gets out.data.proplist PA_PROP_ROUTING_CLASS_NAME =
        some (mir_node_type_str t) ∧
      pa_proplist_gets out.data.proplist PA_PROP_ROUTING_CLASS_ID =
        some (snprintf 32 (format_d (as_int (H.type_id t)))) ∧
      (H.type_id t < 2 ^ 31 →
        pa_proplist_gets out.data.proplist PA_PROP_ROUTING_CLASS_ID =
          some (Nat.repr (H.type_id t))) ∧
      pa_proplist_gets out.data.proplist PA_PROP_ROUTING_METHOD =
        some (if data.sink.isSome then PA_ROUTING_EXPLICIT else PA_ROUTING_DEFAULT) := by
  subst ht
  obtain ⟨pl1, hset, p1, p2, p3, -⟩ := set_stream_routing_properties_spec H data.proplist
    (guess_stream_node_type data.proplist) data.sink (hvals _ hne)
  obtain ⟨out, hrun, -, hpl, -, -⟩ := preroute_run H core router u data pl1 hset hrt
  refine ⟨out, hrun, by rw [hpl]; exact p1, by rw [hpl]; exact p2, ?_, by rw [hpl]; exact p3⟩
  intro hlt
  rw [hpl, p2, class_id_plain _ hlt]

/-- C27 at a concrete stream: the role "game", no sink requested. -/
theorem preroute_stamps_class_witness :
    ∃ out, pa_discover_preroute_sink_input example_node_h example_core example_router
        example_bluetooth_added example_new_game = some out ∧
      out.data.proplist =
        [("media.role", "game"), ("routing.class.name", "Game"), ("routing.class.id", "2"),
         ("routing.method", "default")] := by
  have hv : ∀ t, t ≠ mir_node_type_unknown → example_node_h.type_id t ≠ 0 := by
    intro t ht
    cases t <;> first | exact absurd rfl ht | decide
  obtain ⟨out, h1, -⟩ := preroute_stamps_class example_node_h example_core example_router
    example_bluetooth_added example_new_game mir_game (by decide) (by decide) hv
    (fun tgt _ h => by
      have e : tgt = 1 := by
        have : example_router (preroute_candidate example_new_game.channels mir_game) =
          some 1 := rfl
        rw [this] at h
        exact (Option.some.inj h).symm
      subst e
      decide)
  have e1 : pa_discover_preroute_sink_input example_node_h example_core example_router
      example_bluetooth_added example_new_game =
      some ((pa_discover_preroute_sink_input example_node_h example_core example_router
        example_bluetooth_added example_new_game).getD
          { u := pa_discover_init, data := example_new_game, consulted := [] }) := by decide
  rw [e1] at h1
  cases h1
  exact ⟨_, e1, by decide⟩

/-- C28, the divergence, and the part that holds. For a new stream with the
role "podcast", which classifies to no type, and no requested sink,
`pa_discover_preroute_sink_input` does not return and the router is not
consulted: `pa_assert(styp)` of `set_stream_routing_properties` fails first.
For every new stream that classifies to a type the function returns (the
router handing back allocated nodes only) and leaves the module state, with
both registry indexes, as it was. When a sink was requested the router is not
consulted and the requested sink is kept. When none was requested the router
is consulted exactly once, with the transient candidate; a sink is proposed
only if the router returned a target whose handle is set and is the index of a
live sink (which then is the sink proposed), and it is proposed whenever that
sink supports the stream; otherwise the stream stays without sink. -/
theorem preroute_router_decision :
    (guess_stream_node_type example_new_odd_role.proplist = mir_node_type_unknown ∧
      example_new_odd_role.sink = none ∧
      pa_discover_preroute_sink_input example_node_h example_core example_router
        example_bluetooth_added example_new_odd_role = none) ∧
    (∃ out, pa_discover_preroute_sink_input example_node_h example_core example_router
        example_bluetooth_bound example_new_game = some out ∧
      out.u = example_bluetooth_bound ∧ out.data.sink = some 11 ∧
      out.consulted = [preroute_candidate 2 mir_game]) ∧
    (∀ (H : node_h) (core : pa_core) (router : mir_node → Option Nat) (u : userdata)
        (data : pa_sink_input_new_data),
      guess_stream_node_type data.proplist ≠ mir_node_type_unknown →
      (∀ t, t ≠ mir_node_type_unknown → H.type_id t ≠ 0) →
      (∀ tgt, data.sink = none →
        router (preroute_candidate data.channels (guess_stream_node_type data.proplist)) =
          some tgt → u.deref tgt ≠ none) →
      ∃ out, pa_discover_preroute_sink_input H core router u data = some out ∧
        out.u = u ∧
        (∀ s, data.sink = some s → out.consulted = [] ∧ out.data.sink = some s) ∧
        (data.sink = none →
          out.consulted =
            [preroute_candidate data.channels (guess_stream_node_type data.proplist)] ∧
          (∀ i, out.data.sink = some i →
            ∃ tgt n sink,
              router (preroute_candidate data.channels
                (guess_stream_node_type data.proplist)) = some tgt ∧
              u.deref tgt = some n ∧ n.paidx ≠ PA_IDXSET_INVALID ∧ n.paidx = i ∧
              core.sink_by_index i = some sink ∧ i ∉ data.unsupported) ∧
          (∀ tgt n sink,
            router (preroute_candidate data.channels
              (guess_stream_node_type data.proplist)) = some tgt →
            u.deref tgt = some n → n.paidx ≠ PA_IDXSET_INVALID →
            core.sink_by_index n.paidx = some sink → n.paidx ∉ data.unsupported →
            out.data.sink = some n.paidx))) := by
  refine ⟨⟨by decide, by decide, by decide⟩, ?_, ?_⟩
  · have e1 : pa_discover_preroute_sink_input example_node_h example_core example_router
        example_bluetooth_bound example_new_game =
        some ((pa_discover_preroute_sink_input example_node_h example_core example_router
          example_bluetooth_bound example_new_game).getD
            { u := pa_discover_init, data := example_new_game, consulted := [] }) := by decide
    exact ⟨_, e1, by decide, by decide, by decide⟩
  · intro H core router u data hne hvals hrt
    obtain ⟨pl1, hset, -⟩ := set_stream_routing_properties_spec H data.proplist
      (guess_stream_node_type data.proplist) data.sink (hvals _ hne)
    obtain ⟨out, hrun, h1, -, h3, h4⟩ := preroute_run H core router u data pl1 hset hrt
    exact ⟨out, hrun, h1, h3, h4⟩

/-- C29, the divergence: for a new stream that classifies to no type,
`pa_discover_preroute_sink_input` hands the unknown type, whose value is 0, to
`set_stream_routing_properties`, where `pa_assert(styp)` fails: the function
does not return, whether a sink was requested or not. -/
theorem preroute_unclassified_asserts :
    guess_stream_node_type example_new_plain.proplist = mir_node_type_unknown ∧
    pa_discover_preroute_sink_input example_node_h example_core example_router
      example_bluetooth_added example_new_plain = none ∧
    pa_discover_preroute_sink_input example_node_h example_core example_router
      example_bluetooth_added { example_new_plain with sink := none } = none ∧
    (∀ (H : node_h) (core : pa_core) (router : mir_node → Option Nat) (u : userdata)
        (data : pa_sink_input_new_data),
      guess_stream_node_type data.proplist = mir_node_type_unknown →
      pa_discover_preroute_sink_input H core router u data = none) := by
  refine ⟨by decide, by decide, by decide, ?_⟩
  intro H core router u data h
  unfold pa_discover_preroute_sink_input
  simp [h, set_stream_routing_properties, node_h.type_id]

/-! ## Deferred routing on bluetooth sinks -/

/-- C30 refuted at concrete inputs: the sink of the bluetooth example card
appears with routing requested. With no profile switch in flight
(`state.profile` is NULL) the deferred routing recompute is posted; with a
switch to a2dp in flight it is not. The same holds when the sink disappears. -/
theorem deferred_routing_without_switch :
    example_bluetooth_added.state_profile = none ∧
    (pa_discover_add_sink example_bluetooth_added example_bluetooth_sink true).map
        (fun u1 => u1.mainloop) =
      some (example_bluetooth_added.mainloop ++ [deferred_call.deferred_routing_cb]) ∧
    example_bluetooth_switching.state_profile = some "a2dp" ∧
    (pa_discover_add_sink example_bluetooth_switching example_bluetooth_sink true).map
        (fun u1 => u1.mainloop) =
      some example_bluetooth_switching.mainloop ∧
    (pa_discover_remove_sink example_bluetooth_bound example_bluetooth_sink).map
        (fun u1 => u1.mainloop) =
      some (example_bluetooth_bound.mainloop ++ [deferred_call.deferred_routing_cb]) ∧
    (pa_discover_remove_sink { example_bluetooth_bound with state_profile := some "a2dp" }
        example_bluetooth_sink).map (fun u1 => u1.mainloop) =
      some example_bluetooth_bound.mainloop := by
  refine ⟨by decide, by decide, by decide, by decide, by decide, by decide⟩

/-- C30 as amended: when a sink of a card backing a node of type bluetooth-a2dp
or bluetooth-sco appears (`pa_discover_add_sink` with routing requested, the
node found under the key of the sink) or disappears (`pa_discover_remove_sink`,
the node bound to the sink), the deferred routing recompute is posted to the
event loop exactly when no profile switch is in flight (`state.profile` is
NULL): one `deferred_routing_cb` is appended then, and nothing is posted while a
switch is in flight. In neither case is the routing recompute called
synchronously. -/
theorem bluetooth_sink_deferred_routing (u : userdata) (sink : pa_sink) (node : Nat)
    (n : mir_node) (hd : u.deref node = some n)
    (hbt : n.type = mir_bluetooth_a2dp ∨ n.type = mir_bluetooth_sco)
    (hcard : sink.card ≠ none) :
    (∀ key, node_key_from_card u mir_output (pa_sink_or_source.sink sink) = some (some key) →
      pa_discover_find_node u (some key) = some node →
      ∃ u1, pa_discover_add_sink u sink true = some u1 ∧ u1.routing = u.routing ∧
        (u.state_profile = none →
          u1.mainloop = u.mainloop ++ [deferred_call.deferred_routing_cb]) ∧
        (u.state_profile ≠ none → u1.mainloop = u.mainloop)) ∧
    (pa_hashmap_get u.discover.byptr (pa_object.sink sink.index) = some node →
      ∃ u1, pa_discover_remove_sink u sink = some u1 ∧ u1.routing = u.routing ∧
        (u.state_profile = none →
          u1.mainloop = u.mainloop ++ [deferred_call.deferred_routing_cb]) ∧
        (u.state_profile ≠ none → u1.mainloop = u.mainloop)) := by
  have hnb : ¬ (n.type ≠ mir_bluetooth_a2dp ∧ n.type ≠ mir_bluetooth_sco) := by
    rintro ⟨h1, h2⟩
    cases hbt with
    | inl h => exact h1 h
    | inr h => exact h2 h
  obtain ⟨card, hc⟩ := Option.ne_none_iff_exists'.mp hcard
  constructor
  · intro key hk hf
    unfold pa_discover_add_sink
    simp only [hc, hk, hf, hd, if_true, if_neg hnb]
    by_cases hp : u.state_profile = none
    · rw [if_pos hp]
      exact ⟨_, rfl, rfl, fun _ => rfl, fun h => absurd hp h⟩
    · rw [if_neg hp]
      exact ⟨_, rfl, rfl, fun h => absurd h hp, fun _ => rfl⟩
  · intro hg
    unfold pa_discover_remove_sink
    simp only [hg, hd, hc, if_neg hnb]
    by_cases hp : u.state_profile = none
    · rw [if_pos hp]
      exact ⟨_, rfl, rfl, fun _ => rfl, fun h => absurd hp h⟩
    · rw [if_neg hp]
      exact ⟨_, rfl, rfl, fun h => absurd h hp, fun _ => rfl⟩

/-- C30 as amended, at concrete inputs: the sink of the bluetooth example card
while a switch to a2dp is in flight. -/
theorem bluetooth_sink_deferred_routing_witness :
    (∃ u1, pa_discover_add_sink example_bluetooth_switching example_bluetooth_sink true =
        some u1 ∧ u1.routing = example_bluetooth_switching.routing ∧
      u1.mainloop = example_bluetooth_switching.mainloop) ∧
    (∃ u1, pa_discover_remove_sink example_bluetooth_bound example_bluetooth_sink = some u1 ∧
      u1.routing = example_bluetooth_bound.routing ∧
      u1.mainloop =
        example_bluetooth_bound.mainloop ++ [deferred_call.deferred_routing_cb]) := by
  constructor
  · obtain ⟨u1, h1, h2, -, h4⟩ :=
      (bluetooth_sink_deferred_routing example_bluetooth_switching example_bluetooth_sink 1
        ((example_bluetooth_switching.deref 1).getD mir_node_zero) (by decide) (by decide)
        (by decide)).1 "bluez_sink.X@a2dp" (by decide) (by decide)
    exact ⟨u1, h1, h2, h4 (by decide)⟩
  · obtain ⟨u1, h1, h2, h3, -⟩ :=
      (bluetooth_sink_deferred_routing example_bluetooth_bound example_bluetooth_sink 1
        ((example_bluetooth_bound.deref 1).getD mir_node_zero) (by decide) (by decide)
        (by decide)).2 (by decide)
    exact ⟨u1, h1, h2, h3 (by decide)⟩

/-! ## The card check -/

theorem card_by_index_index (core : pa_core) (i : Nat) (card : pa_card)
    (h : core.card_by_index i = some card) : card.index = i := by
  unfold pa_core.card_by_index at h
  have := List.find?_some h
  simpa using this

theorem foldl_count {α : Type} (p : α → Bool) :
    ∀ (l : List α) (n : Nat),
      l.foldl (fun n x => if p x then n + 1 else n) n = n + (l.filter p).length := by
  intro l
  induction l with
  | nil => intro n; rfl
  | cons x rest ih =>
    intro n
    simp only [List.foldl_cons, List.filter_cons]
    rw [ih]
    cases hp : p x
    · simp
    · simp only [if_true, List.length_cons]
      omega

theorem card_check_count (core : pa_core) (index : Nat) :
    core.sources.foldl (fun n source => if card_is source.card index then n + 1 else n)
      (core.sinks.foldl (fun n sink => if card_is sink.card index then n + 1 else n) 0) =
      attached_count core index := by
  rw [foldl_count (fun s : pa_source => card_is s.card index),
    foldl_count (fun s : pa_sink => card_is s.card index)]
  unfold attached_count
  omega

/-- C31: in a server state with at most `INT_MAX` sinks and sources attached to
the recorded card index, `card_check_cb` returns and calls the routing
recompute exactly once if the card with that index exists and no sink and no
source of the server is attached to it, and not at all otherwise; the registry
(both indexes and all node records), the calls to the audio manager and the
posted callbacks are as they were. When the card is gone, firing the callback
any number of times returns the state unchanged. -/
theorem card_check_routing (core : pa_core) (index : Nat) (u : userdata)
    (hcount : attached_count core index ≤ INT_MAX) :
    (∃ u1, card_check_cb core index u = some u1 ∧
      u1.discover = u.discover ∧ u1.heap = u.heap ∧ u1.audiomgr = u.audiomgr ∧
      u1.mainloop = u.mainloop ∧ u1.stamp = u.stamp ∧
      u1.routing = u.routing +
        (if core.card_by_index index ≠ none ∧
            (∀ s ∈ core.sinks, card_is s.card index = false) ∧
            (∀ s ∈ core.sources, card_is s.card index = false) then 1 else 0)) ∧
    (core.card_by_index index = none →
      ∀ n, card_check_repeated core index n u = some u) := by
  constructor
  · unfold card_check_cb
    cases hc : core.card_by_index index with
    | none => exact ⟨u, rfl, rfl, rfl, rfl, rfl, rfl, by simp⟩
    | some card =>
      have hi := card_by_index_index core index card hc
      simp only [hi, card_check_count]
      rw [if_neg (by omega)]
      by_cases h0 : attached_count core index = 0
      · have hz : ¬ (attached_count core index ≠ 0 ∨ (0 : Nat) ≠ 0) := by
          rintro (h | h)
          · exact h h0
          · exact h rfl
        rw [if_neg hz]
        refine ⟨_, rfl, rfl, rfl, rfl, rfl, rfl, ?_⟩
        have h1 : (∀ s ∈ core.sinks, card_is s.card index = false) ∧
            (∀ s ∈ core.sources, card_is s.card index = false) := by
          unfold attached_count at h0
          have ha : (core.sinks.filter (fun s => card_is s.card index)).length = 0 := by omega
          have hb : (core.sources.filter (fun s => card_is s.card index)).length = 0 := by omega
          rw [List.length_eq_zero, List.filter_eq_nil_iff] at ha hb
          exact ⟨fun s hs => by simpa using ha s hs, fun s hs => by simpa using hb s hs⟩
        rw [if_pos ⟨by simp, h1.1, h1.2⟩]
        rfl
      · rw [if_pos (Or.inl h0)]
        refine ⟨_, rfl, rfl, rfl, rfl, rfl, rfl, ?_⟩
        have h1 : ¬ ((∀ s ∈ core.sinks, card_is s.card index = false) ∧
            (∀ s ∈ core.sources, card_is s.card index = false)) := by
          rintro ⟨ha, hb⟩
          apply h0
          unfold attached_count
          have ha2 : core.sinks.filter (fun s => card_is s.card index) = [] := by
            rw [List.filter_eq_nil_iff]
            intro s hs
            simp [ha s hs]
          have hb2 : core.sources.filter (fun s => card_is s.card index) = [] := by
            rw [List.filter_eq_nil_iff]
            intro s hs
            simp [hb s hs]
          rw [ha2, hb2]
          rfl
        rw [if_neg (fun h => h1 h.2)]
        rfl
  · intro hc n
    induction n with
    | zero => rfl
    | succ k ih =>
      have e : card_check_cb core index u = some u := by
        unfold card_check_cb
        rw [hc]
      simp only [card_check_repeated, e]
      exact ih

/-- C31 at concrete servers: the bluetooth example card without sinks and
sources (one recompute), with its sink (none), and gone (none, however often
the callback fires). -/
theorem card_check_routing_witness :
    (card_check_cb { example_core with sinks := [] } 3 example_bluetooth_added).map
        (fun u1 => (u1.routing, u1.discover)) =
      some (example_bluetooth_added.routing + 1, example_bluetooth_added.discover) ∧
    card_check_cb example_core 3 example_bluetooth_added = some example_bluetooth_added ∧
    card_check_repeated { example_core with cards := [] } 3 2 example_bluetooth_added =
      some example_bluetooth_added := by
  refine ⟨by decide, by decide, ?_⟩
  exact (card_check_routing { example_core with cards := [] } 3 example_bluetooth_added
    (by decide)).2 (by decide) 2

/-! ## Sinks: unbinding and binding -/

/-- C32: when the sink is bound in the by-handle index (to an allocated
record), `pa_discover_remove_sink` returns; the handle of the bound node is
then `PA_IDXSET_INVALID` and the by-handle entry of the sink is gone; the by-key
index is as it was, the node keeps its key and every field other than its
handle and its availability, every other record is unchanged and so is every
other by-handle entry. When the sink is not bound the state is returned as it
was. -/
theorem remove_sink_unbinds (u : userdata) (sink : pa_sink) :
    (∀ node n, pa_hashmap_get u.discover.byptr (pa_object.sink sink.index) = some node →
      u.deref node = some n →
      ∃ u1 n1, pa_discover_remove_sink u sink = some u1 ∧
        pa_hashmap_get u1.discover.byptr (pa_object.sink sink.index) = none ∧
        u1.discover.byname = u.discover.byname ∧
        u1.deref node = some n1 ∧ n1.paidx = PA_IDXSET_INVALID ∧
        n1 = { n with paidx := PA_IDXSET_INVALID, available := n1.available } ∧
        (∀ p, p ≠ node → u1.deref p = u.deref p) ∧
        (∀ o, o ≠ pa_object.sink sink.index →
          pa_hashmap_get u1.discover.byptr o = pa_hashmap_get u.discover.byptr o)) ∧
    (pa_hashmap_get u.discover.byptr (pa_object.sink sink.index) = none →
      pa_discover_remove_sink u sink = some u) := by
  constructor
  · intro node n hg hd
    have hget : ∀ (v : userdata), v.discover = u.discover →
        pa_hashmap_get (v.set_byptr (pa_hashmap_remove v.discover.byptr
          (pa_object.sink sink.index))).discover.byptr (pa_object.sink sink.index) = none := by
      intro v _
      show pa_hashmap_get (pa_hashmap_remove v.discover.byptr _) _ = none
      rw [pa_hashmap_get_remove, if_pos rfl]
    have hoth : ∀ (v : userdata), v.discover = u.discover → ∀ o, o ≠ pa_object.sink sink.index →
        pa_hashmap_get (v.set_byptr (pa_hashmap_remove v.discover.byptr
          (pa_object.sink sink.index))).discover.byptr o = pa_hashmap_get u.discover.byptr o := by
      intro v hv o ho
      show pa_hashmap_get (pa_hashmap_remove v.discover.byptr _) _ = _
      rw [pa_hashmap_get_remove, if_neg ho, hv]
    have hs1 : (u.store node { n with paidx := PA_IDXSET_INVALID }).deref node =
        some { n with paidx := PA_IDXSET_INVALID } := by
      rw [deref_store, if_pos rfl, hd]; rfl
    unfold pa_discover_remove_sink
    simp only [hg, hd]
    cases hc : sink.card with
    | none =>
      simp only
      refine ⟨_, { n with paidx := PA_IDXSET_INVALID }, rfl, hget _ rfl, rfl, hs1, rfl, rfl, ?_,
        hoth _ rfl⟩
      intro p hp
      show (u.store node _).deref p = _
      rw [deref_store, if_neg hp]
    | some card =>
      simp only
      by_cases hbt : n.type ≠ mir_bluetooth_a2dp ∧ n.type ≠ mir_bluetooth_sco
      · rw [if_pos hbt]
        refine ⟨_, { n with paidx := PA_IDXSET_INVALID, available := false }, rfl, hget _ rfl,
          rfl, ?_, rfl, rfl, ?_, hoth _ rfl⟩
        · show ((u.store node _).store node _).deref node = _
          rw [deref_store, if_pos rfl, hs1]; rfl
        · intro p hp
          show ((u.store node _).store node _).deref p = _
          rw [deref_store, if_neg hp, deref_store, if_neg hp]
      · rw [if_neg hbt]
        by_cases hp : u.state_profile = none
        · rw [if_pos hp]
          refine ⟨_, { n with paidx := PA_IDXSET_INVALID }, rfl, hget _ rfl, rfl, hs1, rfl, rfl,
            ?_, hoth _ rfl⟩
          intro p hp
          show (u.store node _).deref p = _
          rw [deref_store, if_neg hp]
        · rw [if_neg hp]
          refine ⟨_, { n with paidx := PA_IDXSET_INVALID }, rfl, hget _ rfl, rfl, hs1, rfl, rfl,
            ?_, hoth _ rfl⟩
          intro p hp
          show (u.store node _).deref p = _
          rw [deref_store, if_neg hp]
  · intro hg
    unfold pa_discover_remove_sink
    rw [hg]

/-- C32 at a concrete state: the sink of the bluetooth example card, bound to
the node at address 1, disappears. -/
theorem remove_sink_unbinds_witness :
    pa_hashmap_get example_bluetooth_bound.discover.byptr (pa_object.sink 11) = some 1 ∧
    ∃ u1 n1, pa_discover_remove_sink example_bluetooth_bound example_bluetooth_sink = some u1 ∧
      pa_hashmap_get u1.discover.byptr (pa_object.sink 11) = none ∧
      u1.discover.byname = example_bluetooth_bound.discover.byname ∧
      u1.deref 1 = some n1 ∧ n1.paidx = PA_IDXSET_INVALID := by
  refine ⟨by decide, ?_⟩
  obtain ⟨u1, n1, h1, h2, h3, h4, h5, -⟩ :=
    (remove_sink_unbinds example_bluetooth_bound example_bluetooth_sink).1 1
      ((example_bluetooth_bound.deref 1).getD mir_node_zero) (by decide) (by decide)
  exact ⟨u1, n1, h1, h2, h3, h4, h5⟩

theorem node_key_from_sink (u : userdata) (sink : pa_sink) (card : pa_card)
    (prof : pa_card_profile) (hc : sink.card = some card)
    (hp : card.active_profile = some prof) :
    node_key_from_card u mir_output (pa_sink_or_source.sink sink) =
      match pa_proplist_gets card.proplist PA_PROP_DEVICE_BUS with
      | none => some none
      | some bus =>
        if bus ≠ "pci" ∧ bus ≠ "usb" ∧ bus ≠ "bluetooth" then some none
        else if bus = "bluetooth" then
          some (some (snprintf 256 (sink.name ++ "@" ++ u.state_profile.getD prof.name)))
        else
          match sink.active_port with
          | none => some (some sink.name)
          | some port => some (some (snprintf 256 (sink.name ++ "@" ++ port.name))) := by
  unfold node_key_from_card
  simp only [pa_sink_or_source.as_source, pa_utils_get_source_name, hc, hp]
  rw [if_neg (by decide), if_neg (by decide), if_neg (by decide), if_neg (by decide)]
  simp only [hp]
  cases hb : pa_proplist_gets card.proplist PA_PROP_DEVICE_BUS with
  | none => rfl
  | some bus =>
    simp only
    cases hs : u.state_profile <;> rfl

/-- C33: for a sink of a card with an active profile, on a consistent registry.
The key under which `pa_discover_add_sink` looks the node up is made of the name
of the sink: on the bus bluetooth `<name>@<profile>`, the profile being
`state.profile` when that is set and the name of the active profile of the card
otherwise; on the bus pci or usb `<name>@<port>` for a sink with an active port
and `<name>` without one; the texts are cut to the 255 characters of the buffer
and are as written when they fit. When a node is stored under the key the
function returns, the handle of the node is the index of the sink, the sink has
been put into the by-handle index under that node (which binds it to the node
unless the index held a binding of the sink already), and the by-key index is
as it was. When no node is stored under the key, or the bus is absent or
none of the three, the function returns the state as it was. -/
theorem add_sink_key (u : userdata) (sink : pa_sink) (card : pa_card) (prof : pa_card_profile)
    (route : Bool) (hok : registry_ok u) (hc : sink.card = some card)
    (hp : card.active_profile = some prof) :
    (pa_proplist_gets card.proplist PA_PROP_DEVICE_BUS = some "bluetooth" →
      node_key_from_card u mir_output (pa_sink_or_source.sink sink) =
        some (some (snprintf 256 (sink.name ++ "@" ++ u.state_profile.getD prof.name))) ∧
      (u.state_profile = none → u.state_profile.getD prof.name = prof.name) ∧
      (∀ p, u.state_profile = some p → u.state_profile.getD prof.name = p)) ∧
    ((pa_proplist_gets card.proplist PA_PROP_DEVICE_BUS = some "pci" ∨
        pa_proplist_gets card.proplist PA_PROP_DEVICE_BUS = some "usb") →
      (∀ port, sink.active_port = some port →
        node_key_from_card u mir_output (pa_sink_or_source.sink sink) =
          some (some (snprintf 256 (sink.name ++ "@" ++ port.name)))) ∧
      (sink.active_port = none →
        node_key_from_card u mir_output (pa_sink_or_source.sink sink) =
          some (some sink.name))) ∧
    (∀ s : String, s.length ≤ 255 → snprintf 256 s = s) ∧
    (∀ key node, node_key_from_card u mir_output (pa_sink_or_source.sink sink) =
        some (some key) →
      pa_hashmap_get u.discover.byname key = some node →
      ∃ u1 n, pa_discover_add_sink u sink route = some u1 ∧ u.deref node = some n ∧
        u1.deref node = some { n with paidx := sink.index } ∧
        (∀ p, p ≠ node → u1.deref p = u.deref p) ∧
        u1.discover.byname = u.discover.byname ∧
        u1.discover.byptr =
          pa_hashmap_put u.discover.byptr (pa_object.sink sink.index) node ∧
        (pa_hashmap_get u.discover.byptr (pa_object.sink sink.index) = none →
          pa_hashmap_get u1.discover.byptr (pa_object.sink sink.index) = some node)) ∧
    ((∀ key, node_key_from_card u mir_output (pa_sink_or_source.sink sink) =
        some (some key) → pa_hashmap_get u.discover.byname key = none) →
      pa_discover_add_sink u sink route = some u) ∧
    ((pa_proplist_gets card.proplist PA_PROP_DEVICE_BUS = none ∨
        ∃ bus, pa_proplist_gets card.proplist PA_PROP_DEVICE_BUS = some bus ∧
          bus ≠ "pci" ∧ bus ≠ "usb" ∧ bus ≠ "bluetooth") →
      pa_discover_add_sink u sink route = some u) := by
  have hkey := node_key_from_sink u sink card prof hc hp
  refine ⟨?_, ?_, fun s hs => snprintf_fits s 255 hs, ?_, ?_, ?_⟩
  · intro hb
    rw [hb] at hkey
    refine ⟨?_, fun h => by rw [h]; rfl, fun p h => by rw [h]; rfl⟩
    rw [hkey]
    simp
  · intro hb
    have hk2 : node_key_from_card u mir_output (pa_sink_or_source.sink sink) =
        match sink.active_port with
        | none => some (some sink.name)
        | some port => some (some (snprintf 256 (sink.name ++ "@" ++ port.name))) := by
      rcases hb with hb | hb <;> (rw [hb] at hkey; rw [hkey]; simp)
    constructor
    · intro port hport
      rw [hk2, hport]
    · intro hport
      rw [hk2, hport]
  · intro key node hk hg
    obtain ⟨n, hd, -⟩ := registry_ok_deref u hok key node hg
    have hs1 : (u.store node { n with paidx := sink.index }).deref node =
        some { n with paidx := sink.index } := by
      rw [deref_store, if_pos rfl, hd]; rfl
    have hoth : ∀ p, p ≠ node →
        (u.store node { n with paidx := sink.index }).deref p = u.deref p := by
      intro p hp
      rw [deref_store, if_neg hp]
    have hget : pa_hashmap_get u.discover.byptr (pa_object.sink sink.index) = none →
        pa_hashmap_get (pa_hashmap_put u.discover.byptr (pa_object.sink sink.index) node)
          (pa_object.sink sink.index) = some node := by
      intro h
      rw [pa_hashmap_get_put, h]
      simp
    unfold pa_discover_add_sink
    simp only [hc, hk, pa_discover_find_node, hg, hd]
    cases route with
    | false => exact ⟨_, n, rfl, rfl, hs1, hoth, rfl, rfl, hget⟩
    | true =>
      simp only [if_true]
      by_cases hbt : n.type ≠ mir_bluetooth_a2dp ∧ n.type ≠ mir_bluetooth_sco
      · rw [if_pos hbt]
        exact ⟨_, n, rfl, rfl, hs1, hoth, rfl, rfl, hget⟩
      · rw [if_neg hbt]
        by_cases hsp : u.state_profile = none
        · rw [if_pos hsp]
          exact ⟨_, n, rfl, rfl, hs1, hoth, rfl, rfl, hget⟩
        · rw [if_neg hsp]
          exact ⟨_, n, rfl, rfl, hs1, hoth, rfl, rfl, hget⟩
  · intro hnone
    unfold pa_discover_add_sink
    simp only [hc]
    cases hk : node_key_from_card u mir_output (pa_sink_or_source.sink sink) with
    | none =>
      rw [hkey] at hk
      split at hk
      · cases hk
      · split at hk
        · cases hk
        · split at hk
          · cases hk
          · split at hk <;> cases hk
    | some ok =>
      cases ok with
      | none => rfl
      | some key =>
        simp only [pa_discover_find_node, hnone key hk]
  · intro hb
    have hk : node_key_from_card u mir_output (pa_sink_or_source.sink sink) = some none := by
      rw [hkey]
      rcases hb with hb | ⟨bus, hb, h1, h2, h3⟩
      · rw [hb]
      · rw [hb]
        simp only
        rw [if_pos ⟨h1, h2, h3⟩]
    unfold pa_discover_add_sink
    simp only [hc, hk]

/-- C33 at concrete sinks: the sink of the bluetooth example card, without and
with a profile switch in flight. -/
theorem add_sink_key_witness :
    node_key_from_card example_bluetooth_added mir_output
        (pa_sink_or_source.sink example_bluetooth_sink) = some (some "bluez_sink.X@a2dp") ∧
    node_key_from_card { example_bluetooth_added with state_profile := some "hsp" } mir_output
        (pa_sink_or_source.sink example_bluetooth_sink) = some (some "bluez_sink.X@hsp") ∧
    ∃ u1 n, pa_discover_add_sink example_bluetooth_added example_bluetooth_sink false =
        some u1 ∧
      example_bluetooth_added.deref 1 = some n ∧ u1.deref 1 = some { n with paidx := 11 } ∧
      u1.discover.byptr = [(pa_object.sink 11, 1)] := by
  refine ⟨by decide, by decide, ?_⟩
  obtain ⟨u1, n, h1, h2, h3, -, -, h6, -⟩ :=
    (add_sink_key example_bluetooth_added example_bluetooth_sink example_bluetooth_card
      example_a2dp false (by decide) rfl rfl).2.2.2.1 "bluez_sink.X@a2dp" 1 (by decide)
      (by decide)
  refine ⟨u1, n, h1, h2, h3, ?_⟩
  rw [h6]
  decide

/-! ## The routing class id read back -/

/-- C35, the divergence: the silent node that `pa_discover_add_sink` creates
for the null sink is a device node whose card index is the 0 that `memset`
left, so `pa_discover_remove_card` for the card with index 0 retires it, also
right after that card was added; for a card with another index it stays.
On a consistent registry `pa_discover_remove_card` returns and keeps, with their
records, all nodes that are not device nodes carrying the index of the card. -/
theorem remove_card_zero_retires_silent_node :
    registered_keys example_with_null_sink = ["null"] ∧
    ((pa_discover_find_node example_with_null_sink (some "null")).bind
        example_with_null_sink.deref).map (fun n => (n.implement, n.pacard.index, n.type)) =
      some (mir_device, 0, mir_null) ∧
    example_card_zero.index = 0 ∧
    (pa_discover_remove_card example_with_null_sink example_card_zero).map registered_keys =
      some [] ∧
    ((pa_discover_add_card example_with_null_sink example_card_zero).bind
        (fun u => pa_discover_remove_card u example_card_zero)).map registered_keys =
      some [] ∧
    (pa_discover_remove_card example_with_null_sink example_alsa_card).map registered_keys =
      some ["null"] ∧
    (∀ (u : userdata) (card : pa_card), registry_ok u →
      ∃ u1, pa_discover_remove_card u card = some u1 ∧
        ∀ k p n, pa_hashmap_get u.discover.byname k = some p → u.deref p = some n →
          (n.implement ≠ mir_device ∨ n.pacard.index ≠ card.index) →
          pa_hashmap_get u1.discover.byname k = some p ∧ u1.deref p = some n) := by
  refine ⟨by decide, by decide, by decide, by decide, by decide, by decide, ?_⟩
  intro u card hok
  obtain ⟨u1, hrun, -, -, hkeep, -⟩ := remove_card_spec u card hok
  refine ⟨u1, hrun, ?_⟩
  intro k p n hg hd hsel
  have hdev : is_device_of_card u card.index p = false := by
    unfold is_device_of_card
    rw [hd]
    rcases hsel with h | h <;> simp [h]
  obtain ⟨h1, h2⟩ := hkeep k p hg hdev
  exact ⟨h1, by rw [h2, hd]⟩

/-! ## Classification within one card scan -/

/-- C36, the divergence: the builder record of a card scan keeps the type and
location of the node classified before. For a bluetooth car kit with the
profile hsp the source node gets the type speakers and the location internal of
the sink node, where the classifier gives unknown and unknown on a fresh input
entity. For an ALSA card whose only port is an output port for the speakers,
the whole-profile node of the source gets the type speakers of that port's
node, where the classifier gives unknown on a fresh input entity. -/
theorem scan_classification_carries_over :
    (pa_discover_add_card pa_discover_init example_car_kit).map registered_keys =
      some ["bluez_sink.Y@hsp", "bluez_source.Y@hsp"] ∧
    (pa_discover_add_card pa_discover_init example_car_kit).bind
        (fun u => node_classification u "bluez_source.Y@hsp") =
      some (mir_speakers, mir_internal) ∧
    fresh_classification example_car_kit mir_input (some example_hsp) none =
      some (mir_node_type_unknown, mir_location_unknown) ∧
    (pa_discover_add_card pa_discover_init example_speaker_port_card).map registered_keys =
      some ["alsa_output.X.analog-stereo@analog-output-speaker",
            "alsa_input.X.analog-stereo"] ∧
    (pa_discover_add_card pa_discover_init example_speaker_port_card).bind
        (fun u => node_classification u "alsa_input.X.analog-stereo") =
      some (mir_speakers, mir_location_unknown) ∧
    fresh_classification example_speaker_port_card mir_input
        example_speaker_port_card.active_profile none =
      some (mir_node_type_unknown, mir_location_unknown) := by
  refine ⟨by decide, by decide, by decide, by decide, by decide, by decide⟩

/-! ## The form factor table of the classifier -/

theorem classify_of_form (data : mir_node) (card : pa_card) (prof : Option pa_card_profile)
    (port : Option pa_device_port) (d1 : mir_node) (a : String)
    (h1 : classify_form data (pa_proplist_gets card.proplist PA_PROP_DEVICE_BUS)
      (pa_proplist_gets card.proplist PA_PROP_DEVICE_FORM_FACTOR) prof port = some d1)
    (ha : d1.amname = some a) :
    ∃ d, classify_node_by_card data card prof port = some d ∧ d.type = d1.type ∧
      d.location = d1.location := by
  obtain ⟨d2, h2⟩ := classify_amname_isSome d1 port a ha
  obtain ⟨ht2, hl2⟩ := classify_amname_type d1 d2 port h2
  refine ⟨classify_privacy d2, ?_, ?_, ?_⟩
  · unfold classify_node_by_card
    simp only [h1, h2]
  · rw [classify_privacy_type, ht2]
  · rw [classify_privacy_location, hl2]

theorem guess_location (x : mir_node) (pnam : String) (pdesc : Option String) :
    (guess_device_node_type_and_name x pnam pdesc).location = x.location := by
  unfold guess_device_node_type_and_name
  cases hd : x.direction <;>
  cases h1 : strcasestr pnam "headphone" <;>
  cases h2 : strcasestr pnam "headset" <;>
  cases h3 : strcasestr pnam "line" <;>
  cases h4 : strcasestr pnam "spdif" <;>
  cases h5 : strcasestr pnam "hdmi" <;>
  cases h6 : strcasestr pnam "microphone" <;>
  simp <;>
  (repeat' split) <;> rfl

theorem classify_form_internal (data : mir_node) (bus : Option String) (form : String)
    (prof : Option pa_card_profile) (port : Option pa_device_port)
    (hf : strcasecmp_eq form "internal" = true) :
    classify_form data bus (some form) prof port =
      classify_guess { data with location := mir_external } bus port := by
  unfold classify_form
  simp only [hf, if_true]

theorem classify_form_speaker (data : mir_node) (bus : Option String) (form : String)
    (prof : Option pa_card_profile) (port : Option pa_device_port)
    (hf : strcasecmp_eq form "speaker" = true ∨ strcasecmp_eq form "car" = true) :
    classify_form data bus (some form) prof port =
      if data.direction = mir_output then
        some { data with location := mir_internal, type := mir_speakers }
      else some data := by
  have f1 : strcasecmp_eq form "internal" = false := by
    rcases hf with hf | hf
    · rw [strcasecmp_eq_of_eq form "speaker" "internal" hf]; decide
    · rw [strcasecmp_eq_of_eq form "car" "internal" hf]; decide
  have f2 : (strcasecmp_eq form "speaker" || strcasecmp_eq form "car") = true := by
    rcases hf with hf | hf <;> simp [hf]
  unfold classify_form
  simp only [f1, f2, if_true, if_false, Bool.false_eq_true]

theorem classify_form_handset (data : mir_node) (bus : Option String) (form : String)
    (prof : Option pa_card_profile) (port : Option pa_device_port)
    (hf : strcasecmp_eq form "handset" = true) :
    classify_form data bus (some form) prof port =
      some { data with location := mir_external, type := mir_phone, privacy := mir_private } := by
  have f1 : strcasecmp_eq form "internal" = false := by
    rw [strcasecmp_eq_of_eq form "handset" "internal" hf]; decide
  have f2 : strcasecmp_eq form "speaker" = false := by
    rw [strcasecmp_eq_of_eq form "handset" "speaker" hf]; decide
  have f3 : strcasecmp_eq form "car" = false := by
    rw [strcasecmp_eq_of_eq form "handset" "car" hf]; decide
  unfold classify_form
  simp only [f1, f2, f3, hf, Bool.or_self, if_true, if_false, Bool.false_eq_true]

theorem classify_form_headphone (data : mir_node) (bus : Option String) (form : String)
    (prof : Option pa_card_profile) (port : Option pa_device_port)
    (hf : strcasecmp_eq form "headphone" = true) :
    classify_form data bus (some form) prof port =
      if data.direction = mir_output then
        match bus with
        | none => some { data with location := mir_external }
        | some b =>
          if strcasecmp_eq b "usb" then
            some { data with location := mir_external, type := mir_usb_headphone }
          else if !strcasecmp_eq b "bluetooth" then
            some { data with location := mir_external, type := mir_wired_headphone }
          else some { data with location := mir_external }
      else some data := by
  have f1 : strcasecmp_eq form "internal" = false := by
    rw [strcasecmp_eq_of_eq form "headphone" "internal" hf]; decide
  have f2 : strcasecmp_eq form "speaker" = false := by
    rw [strcasecmp_eq_of_eq form "headphone" "speaker" hf]; decide
  have f3 : strcasecmp_eq form "car" = false := by
    rw [strcasecmp_eq_of_eq form "headphone" "car" hf]; decide
  have f4 : strcasecmp_eq form "handset" = false := by
    rw [strcasecmp_eq_of_eq form "headphone" "handset" hf]; decide
  have f5 : strcasecmp_eq form "headset" = false := by
    rw [strcasecmp_eq_of_eq form "headphone" "headset" hf]; decide
  unfold classify_form
  simp only [f1, f2, f3, f4, f5, hf, Bool.or_self, if_true, if_false, Bool.false_eq_true]

theorem classify_form_microphone (data : mir_node) (bus : Option String) (form : String)
    (prof : Option pa_card_profile) (port : Option pa_device_port)
    (hf : strcasecmp_eq form "microphone" = true) :
    classify_form data bus (some form) prof port =
      if data.direction = mir_input then
        some { data with location := mir_external, type := mir_microphone }
      else some data := by
  have f1 : strcasecmp_eq form "internal" = false := by
    rw [strcasecmp_eq_of_eq form "microphone" "internal" hf]; decide
  have f2 : strcasecmp_eq form "speaker" = false := by
    rw [strcasecmp_eq_of_eq form "microphone" "speaker" hf]; decide
  have f3 : strcasecmp_eq form "car" = false := by
    rw [strcasecmp_eq_of_eq form "microphone" "car" hf]; decide
  have f4 : strcasecmp_eq form "handset" = false := by
    rw [strcasecmp_eq_of_eq form "microphone" "handset" hf]; decide
  have f5 : strcasecmp_eq form "headset" = false := by
    rw [strcasecmp_eq_of_eq form "microphone" "headset" hf]; decide
  have f6 : strcasecmp_eq form "headphone" = false := by
    rw [strcasecmp_eq_of_eq form "microphone" "headphone" hf]; decide
  unfold classify_form
  simp only [f1, f2, f3, f4, f5, f6, hf, Bool.or_self, if_true, if_false, Bool.false_eq_true]

/-- C37: the rows of `classify_node_by_card` for the form factors other than
headset, the form factor compared without regard to case, for an entity with a
display-name buffer. "internal": the location becomes external; the type is
guessed from the port name when a port is given and the bus is pci (the port
carrying a description), and is left as it was without a port or on another
bus. "speaker" and "car": type speakers and location internal for an output
entity, both left alone otherwise. "handset": type phone and location external.
"headphone": on an output entity the location becomes external and the type usb
headphone on the bus usb, wired headphone on a bus that is neither usb nor
bluetooth, and is left alone on the bus bluetooth or without a bus; on an
entity that is not an output both are left alone. "microphone": type microphone
and location external on an input entity, both left alone otherwise. -/
theorem classify_form_table (data : mir_node) (card : pa_card)
    (prof : Option pa_card_profile) (port : Option pa_device_port) (form a : String)
    (hform : pa_proplist_gets card.proplist PA_PROP_DEVICE_FORM_FACTOR = some form)
    (ham : data.amname = some a) :
    (strcasecmp_eq form "internal" = true →
      (port = none →
        ∃ d, classify_node_by_card data card prof port = some d ∧
          d.location = mir_external ∧ d.type = data.type) ∧
      (∀ p bus, port = some p →
        pa_proplist_gets card.proplist PA_PROP_DEVICE_BUS = some bus →
        strcasecmp_eq bus "pci" = false →
        ∃ d, classify_node_by_card data card prof port = some d ∧
          d.location = mir_external ∧ d.type = data.type) ∧
      (∀ p bus descr, port = some p →
        pa_proplist_gets card.proplist PA_PROP_DEVICE_BUS = some bus →
        strcasecmp_eq bus "pci" = true → p.description = some descr →
        ∃ d, classify_node_by_card data card prof port = some d ∧
          d.location = mir_external ∧ d.type = guess_rules_type data.direction p.name)) ∧
    ((strcasecmp_eq form "speaker" = true ∨ strcasecmp_eq form "car" = true) →
      ∃ d, classify_node_by_card data card prof port = some d ∧
        (data.direction = mir_output → d.type = mir_speakers ∧ d.location = mir_internal) ∧
        (data.direction ≠ mir_output → d.type = data.type ∧ d.location = data.location)) ∧
    (strcasecmp_eq form "handset" = true →
      ∃ d, classify_node_by_card data card prof port = some d ∧
        d.type = mir_phone ∧ d.location = mir_external) ∧
    (strcasecmp_eq form "headphone" = true →
      ∃ d, classify_node_by_card data card prof port = some d ∧
        (data.direction = mir_output →
          d.location = mir_external ∧
          (∀ bus, pa_proplist_gets card.proplist PA_PROP_DEVICE_BUS = some bus →
            d.type =
              if strcasecmp_eq bus "usb" then mir_usb_headphone
              else if strcasecmp_eq bus "bluetooth" then data.type
              else mir_wired_headphone) ∧
          (pa_proplist_gets card.proplist PA_PROP_DEVICE_BUS = none → d.type = data.type)) ∧
        (data.direction ≠ mir_output → d.type = data.type ∧ d.location = data.location)) ∧
    (strcasecmp_eq form "microphone" = true →
      ∃ d, classify_node_by_card data card prof port = some d ∧
        (data.direction = mir_input → d.type = mir_microphone ∧ d.location = mir_external) ∧
        (data.direction ≠ mir_input → d.type = data.type ∧ d.location = data.location)) := by
  refine ⟨?_, ?_, ?_, ?_, ?_⟩
  · intro hf
    have hcf := classify_form_internal data
      (pa_proplist_gets card.proplist PA_PROP_DEVICE_BUS) form prof port hf
    refine ⟨?_, ?_, ?_⟩
    · intro hp
      subst hp
      obtain ⟨d, h1, h2, h3⟩ := classify_of_form data card prof none
        { data with location := mir_external } a (by rw [hform, hcf]; rfl) ham
      exact ⟨d, h1, h3, h2⟩
    · intro p bus hp hb hpci
      subst hp
      obtain ⟨d, h1, h2, h3⟩ := classify_of_form data card prof (some p)
        { data with location := mir_external } a
        (by rw [hform, hcf, hb]; simp [classify_guess, hpci]) ham
      exact ⟨d, h1, h3, h2⟩
    · intro p bus descr hp hb hpci hdescr
      subst hp
      have hg : classify_guess { data with location := mir_external } (some bus) (some p) =
          some (guess_device_node_type_and_name { data with location := mir_external }
            p.name p.description) := by
        simp [classify_guess, hpci]
      have hga : ∃ a2, (guess_device_node_type_and_name { data with location := mir_external }
          p.name p.description).amname = some a2 := by
        rw [guess_amname, hdescr]
        split
        · exact ⟨descr, rfl⟩
        · exact ⟨a, ham⟩
      obtain ⟨a2, ha2⟩ := hga
      obtain ⟨d, h1, h2, h3⟩ := classify_of_form data card prof (some p) _ a2
        (by rw [hform, hcf, hb]; exact hg) ha2
      refine ⟨d, h1, ?_, ?_⟩
      · rw [h3, guess_location]
      · rw [h2, guess_type_eq_rules]
  · intro hf
    have hcf := classify_form_speaker data
      (pa_proplist_gets card.proplist PA_PROP_DEVICE_BUS) form prof port hf
    by_cases hd : data.direction = mir_output
    · rw [if_pos hd] at hcf
      obtain ⟨d, h1, h2, h3⟩ := classify_of_form data card prof port _ a
        (by rw [hform]; exact hcf) (by exact ham)
      exact ⟨d, h1, fun _ => ⟨h2, h3⟩, fun h => absurd hd h⟩
    · rw [if_neg hd] at hcf
      obtain ⟨d, h1, h2, h3⟩ := classify_of_form data card prof port _ a
        (by rw [hform]; exact hcf) (by exact ham)
      exact ⟨d, h1, fun h => absurd h hd, fun _ => ⟨h2, h3⟩⟩
  · intro hf
    have hcf := classify_form_handset data
      (pa_proplist_gets card.proplist PA_PROP_DEVICE_BUS) form prof port hf
    obtain ⟨d, h1, h2, h3⟩ := classify_of_form data card prof port _ a
      (by rw [hform]; exact hcf) (by exact ham)
    exact ⟨d, h1, h2, h3⟩
  · intro hf
    have hcf := classify_form_headphone data
      (pa_proplist_gets card.proplist PA_PROP_DEVICE_BUS) form prof port hf
    by_cases hd : data.direction = mir_output
    · rw [if_pos hd] at hcf
      cases hb : pa_proplist_gets card.proplist PA_PROP_DEVICE_BUS with
      | none =>
        rw [hb] at hcf
        obtain ⟨d, h1, h2, h3⟩ := classify_of_form data card prof port _ a
          (by rw [hform, hb]; exact hcf) (by exact ham)
        exact ⟨d, h1, fun _ => ⟨h3, fun bus h => (by cases h), fun _ => h2⟩, fun h => absurd hd h⟩
      | some bus =>
        rw [hb] at hcf
        simp only at hcf
        by_cases hu : strcasecmp_eq bus "usb" = true
        · rw [if_pos hu] at hcf
          obtain ⟨d, h1, h2, h3⟩ := classify_of_form data card prof port _ a
            (by rw [hform, hb]; exact hcf) (by exact ham)
          refine ⟨d, h1, fun _ => ⟨h3, ?_, fun h => (by cases h)⟩, fun h => absurd hd h⟩
          intro b2 hb2
          cases hb2
          rw [if_pos hu]; exact h2
        · rw [if_neg hu] at hcf
          by_cases hbt : strcasecmp_eq bus "bluetooth" = true
          · simp only [hbt, Bool.not_true, Bool.false_eq_true, if_false] at hcf
            obtain ⟨d, h1, h2, h3⟩ := classify_of_form data card prof port _ a
              (by rw [hform, hb]; exact hcf) (by exact ham)
            refine ⟨d, h1, fun _ => ⟨h3, ?_, fun h => (by cases h)⟩, fun h => absurd hd h⟩
            intro b2 hb2
            cases hb2
            rw [if_neg hu, if_pos hbt]; exact h2
          · have hbf : strcasecmp_eq bus "bluetooth" = false := by
              cases h : strcasecmp_eq bus "bluetooth"
              · rfl
              · exact absurd h hbt
            simp only [hbf, Bool.not_false, if_true] at hcf
            obtain ⟨d, h1, h2, h3⟩ := classify_of_form data card prof port _ a
              (by rw [hform, hb]; exact hcf) (by exact ham)
            refine ⟨d, h1, fun _ => ⟨h3, ?_, fun h => (by cases h)⟩, fun h => absurd hd h⟩
            intro b2 hb2
            cases hb2
            rw [if_neg hu, if_neg hbt]; exact h2
    · rw [if_neg hd] at hcf
      obtain ⟨d, h1, h2, h3⟩ := classify_of_form data card prof port _ a
        (by rw [hform]; exact hcf) (by exact ham)
      exact ⟨d, h1, fun h => absurd h hd, fun _ => ⟨h2, h3⟩⟩
  · intro hf
    have hcf := classify_form_microphone data
      (pa_proplist_gets card.proplist PA_PROP_DEVICE_BUS) form prof port hf
    by_cases hd : data.direction = mir_input
    · rw [if_pos hd] at hcf
      obtain ⟨d, h1, h2, h3⟩ := classify_of_form data card prof port _ a
        (by rw [hform]; exact hcf) (by exact ham)
      exact ⟨d, h1, fun _ => ⟨h2, h3⟩, fun h => absurd hd h⟩
    · rw [if_neg hd] at hcf
      obtain ⟨d, h1, h2, h3⟩ := classify_of_form data card prof port _ a
        (by rw [hform]; exact hcf) (by exact ham)
      exact ⟨d, h1, fun h => absurd h hd, fun _ => ⟨h2, h3⟩⟩

/-- C37 at concrete cards: a handset card, and a card whose form factor is
written `Speaker`. -/
theorem classify_form_table_witness :
    (∃ d, classify_node_by_card example_output example_handset_card none none = some d ∧
      d.type = mir_phone ∧ d.location = mir_external) ∧
    (∃ d, classify_node_by_card example_output example_speaker_card none none = some d ∧
      d.type = mir_speakers ∧ d.location = mir_internal) := by
  constructor
  · exact (classify_form_table example_output example_handset_card none none "handset" ""
      (by decide) (by decide)).2.2.1 (by decide)
  · obtain ⟨d, h1, h2, -⟩ :=
      (classify_form_table example_output example_speaker_card none none "Speaker" ""
        (by decide) (by decide)).2.1 (Or.inl (by decide))
    exact ⟨d, h1, h2 (by decide)⟩

/-! ## The availability flag is never set again -/

theorem node_kept_refl (u : userdata) : node_kept u u :=
  fun _ n h => ⟨n, h, rfl, fun h => h⟩

theorem node_kept_trans (u v w : userdata) (h1 : node_kept u v) (h2 : node_kept v w) :
    node_kept u w := by
  intro p n hd
  obtain ⟨n1, a1, a2, a3⟩ := h1 p n hd
  obtain ⟨n2, b1, b2, b3⟩ := h2 p n1 a1
  exact ⟨n2, b1, b2.trans a2, fun h => b3 (a3 h)⟩

theorem node_kept_of_heap (u v : userdata) (h : v.heap = u.heap) : node_kept u v := by
  intro p n hd
  refine ⟨n, ?_, rfl, fun h => h⟩
  unfold userdata.deref at hd ⊢
  rw [h]; exact hd

theorem heap_shrinks_refl (u : userdata) : heap_shrinks u u := fun _ => Or.inl rfl

theorem heap_shrinks_trans (u v w : userdata) (h1 : heap_shrinks u v) (h2 : heap_shrinks v w) :
    heap_shrinks u w := by
  intro p
  rcases h2 p with h | h
  · rcases h1 p with g | g
    · exact Or.inl (h.trans g)
    · exact Or.inr (h.trans g)
  · exact Or.inr h

theorem heap_shrinks_of_heap (u v : userdata) (h : v.heap = u.heap) : heap_shrinks u v := by
  intro p
  left
  unfold userdata.deref
  rw [h]

theorem no_revival_of_kept (u v : userdata) (h : node_kept u v) : no_revival u v :=
  fun p n hd => Or.inr (h p n hd)

theorem no_revival_of_shrinks (u v : userdata) (h : heap_shrinks u v) : no_revival u v := by
  intro p n hd
  rcases h p with g | g
  · exact Or.inr ⟨n, g.trans hd, rfl, fun h => h⟩
  · exact Or.inl g

theorem no_revival_kept_shrinks (u v w : userdata) (h1 : node_kept u v)
    (h2 : heap_shrinks v w) : no_revival u w := by
  intro p n hd
  obtain ⟨n1, a1, a2, a3⟩ := h1 p n hd
  rcases h2 p with g | g
  · exact Or.inr ⟨n1, g.trans a1, a2, a3⟩
  · exact Or.inl g

theorem node_kept_store (u : userdata) (p : Nat) (m : mir_node)
    (h : ∀ n, u.deref p = some n → m.key = n.key ∧ (n.available = false → m.available = false)) :
    node_kept u (u.store p m) := by
  intro q n hd
  rw [deref_store]
  by_cases hq : q = p
  · subst hq
    rw [if_pos rfl, hd]
    obtain ⟨h1, h2⟩ := h n hd
    exact ⟨m, rfl, h1, h2⟩
  · rw [if_neg hq]
    exact ⟨n, hd, rfl, fun h => h⟩

theorem node_kept_create (u : userdata) (d : mir_node) : node_kept u (create_node u d).1 := by
  cases hg : pa_hashmap_get u.discover.byname d.key with
  | some p => rw [create_node_found u d p hg]; exact node_kept_refl u
  | none =>
    rw [create_node_fresh u d hg]
    intro p n hd
    refine ⟨n, ?_, rfl, fun h => h⟩
    exact pa_hashmap_get_append_some _ _ _ _ _ hd

theorem node_kept_create_or_refresh (u u1 : userdata) (d : mir_node)
    (hc : create_or_refresh_node u d = some u1) : node_kept u u1 := by
  have h1 := node_kept_create u d
  unfold create_or_refresh_node at hc
  simp only at hc
  split at hc
  · cases hc; exact h1
  · split at hc
    · cases hc
    · rename_i n hd
      cases hc
      refine node_kept_trans _ _ _ h1 (node_kept_store _ _ _ ?_)
      intro n2 hd2
      rw [hd] at hd2
      cases hd2
      exact ⟨rfl, fun h => h⟩

theorem node_kept_handle_alsa_card (u u1 : userdata) (card : pa_card)
    (hr : handle_alsa_card u card = some u1) : node_kept u u1 := by
  have h0 : node_kept u (pa_utils_get_stamp u).1 := node_kept_of_heap _ _ rfl
  unfold handle_alsa_card at hr
  simp only at hr
  split at hr
  · split at hr
    · split at hr
      · obtain ⟨u2, hu2, hP⟩ := handle_udev_loaded_card_sim
          (fun a b => a = b ∧ node_kept u a)
          card _ (pa_utils_get_stamp u).1 (pa_utils_get_stamp u).1 _ u1
          (by
            intro a b d b1 hab hd hc
            obtain ⟨rfl, hk⟩ := hab
            exact ⟨b1, hc, rfl, node_kept_trans _ _ _ hk (node_kept_create_or_refresh a b1 d hc)⟩)
          (by intro a b hab x y; rw [hab.1])
          ⟨rfl, h0⟩ rfl hr
        rw [hP.1] at hP
        exact hP.2
      · cases hr; exact h0
    · cases hr; exact h0
  · cases hr; exact h0

theorem node_kept_handle_bluetooth_profiles (card : pa_card) (cid : String) :
    ∀ (profiles : List pa_card_profile) (u : userdata) (data : mir_node) (u1 : userdata)
      (d1 : mir_node),
      handle_bluetooth_profiles card cid profiles u data = some (u1, d1) → node_kept u u1 := by
  intro profiles
  induction profiles with
  | nil =>
    intro u data u1 d1 h
    simp only [handle_bluetooth_profiles, Option.some.injEq, Prod.mk.injEq] at h
    rw [← h.1]; exact node_kept_refl u
  | cons prof rest ih =>
    intro u data u1 d1 h
    unfold handle_bluetooth_profiles at h
    simp only at h
    split at h
    · cases h
    · rename_i ua da hsinks
      have hka : node_kept u ua := by
        split at hsinks
        · split at hsinks
          · cases hsinks
          · cases hsinks
            exact node_kept_create u _
        · cases hsinks; exact node_kept_refl u
      split at h
      · cases h
      · rename_i ub db hsources
        have hkb : node_kept ua ub := by
          split at hsources
          · split at hsources
            · cases hsources
            · cases hsources
              exact node_kept_create ua _
          · cases hsources; exact node_kept_refl ua
        exact node_kept_trans _ _ _ (node_kept_trans _ _ _ hka hkb) (ih ub db u1 d1 h)

theorem node_kept_add_card (u u1 : userdata) (card : pa_card)
    (hr : pa_discover_add_card u card = some u1) : node_kept u u1 := by
  unfold pa_discover_add_card at hr
  split at hr
  · cases hr; exact node_kept_refl u
  · split at hr
    · exact node_kept_handle_alsa_card u u1 card hr
    · split at hr
      · unfold handle_bluetooth_card at hr
        simp only at hr
        split at hr
        · split at hr
          · cases hr
          · rename_i u2 d2 hp
            cases hr
            have h2 := node_kept_handle_bluetooth_profiles card _ card.profiles _ _ u2 d2 hp
            exact node_kept_trans _ _ _ (node_kept_of_heap u (pa_utils_get_stamp u).1 rfl)
              (node_kept_trans _ _ _ h2 (node_kept_of_heap _ _ rfl))
        · cases hr; exact node_kept_of_heap _ _ rfl
      · cases hr; exact node_kept_refl u

theorem heap_shrinks_destroy_node (u u1 : userdata) (p : Nat)
    (hr : destroy_node u (some p) = some u1) : heap_shrinks u u1 := by
  unfold destroy_node at hr
  simp only at hr
  split at hr
  · cases hr
  · split at hr
    · cases hr
      intro q
      by_cases hq : q = p
      · right
        show pa_hashmap_get (pa_hashmap_remove u.heap p) q = none
        rw [pa_hashmap_get_remove, if_pos hq]
      · left
        show pa_hashmap_get (pa_hashmap_remove u.heap p) q = pa_hashmap_get u.heap q
        rw [pa_hashmap_get_remove, if_neg hq]
    · split at hr
      · cases hr; exact heap_shrinks_of_heap _ _ rfl
      · simp only [Option.map_eq_some'] at hr
        obtain ⟨_, _, rfl⟩ := hr
        exact heap_shrinks_of_heap _ _ rfl

theorem heap_shrinks_destroy_node_if (sel : mir_node → Bool) (u u1 : userdata) (p : Nat)
    (hr : destroy_node_if sel u p = some u1) : heap_shrinks u u1 := by
  unfold destroy_node_if at hr
  split at hr
  · cases hr
  · split at hr
    · exact heap_shrinks_destroy_node u u1 p hr
    · cases hr; exact heap_shrinks_refl u

theorem heap_shrinks_foreach (sel : mir_node → Bool) (rest : List (String × Nat))
    (u u1 : userdata) (hr : hashmap_foreach (destroy_node_if sel) rest u = some u1) :
    heap_shrinks u u1 :=
  hashmap_foreach_inv (fun v => heap_shrinks u v) _
    (fun v p v1 hv hb => heap_shrinks_trans _ _ _ hv (heap_shrinks_destroy_node_if sel v v1 p hb))
    rest u u1 (heap_shrinks_refl u) hr

theorem no_revival_profile_changed (u u1 : userdata) (card : pa_card)
    (hr : pa_discover_profile_changed u card = some u1) : no_revival u u1 := by
  unfold pa_discover_profile_changed at hr
  split at hr
  · cases hr; exact no_revival_of_kept _ _ (node_kept_refl u)
  · split at hr
    · split at hr
      · cases hr
      · split at hr
        · refine no_revival_of_kept _ _
            (hashmap_foreach_inv (fun v => node_kept u v) _ ?_ _ u u1 (node_kept_refl u) hr)
          intro v p v1 hv hb
          simp only at hb
          split at hb
          · cases hb
          · rename_i n hd
            split at hb
            · cases hb
              refine node_kept_trans _ _ _ hv (node_kept_store _ _ _ ?_)
              intro n2 hd2
              rw [hd] at hd2
              cases hd2
              exact ⟨rfl, fun _ => rfl⟩
            · cases hb; exact hv
        · cases hr; exact no_revival_of_kept _ _ (node_kept_refl u)
    · split at hr
      · cases hr
      · simp only at hr
        split at hr
        · cases hr
        · rename_i u2 hs
          have h2 := node_kept_handle_alsa_card _ u2 card hs
          have h3 := heap_shrinks_foreach _ _ u2 u1 hr
          exact no_revival_kept_shrinks u u2 u1
            (node_kept_trans _ _ _ (node_kept_of_heap u (pa_utils_get_stamp u).1 rfl) h2) h3

theorem node_kept_add_sink (u u1 : userdata) (sink : pa_sink) (route : Bool)
    (hr : pa_discover_add_sink u sink route = some u1) : node_kept u u1 := by
  unfold pa_discover_add_sink at hr
  split at hr
  · split at hr
    · cases hr
    · cases hr; exact node_kept_refl u
    · split at hr
      · cases hr; exact node_kept_refl u
      · split at hr
        · cases hr
        · rename_i node _ _ n hd
          have hs : node_kept u (u.store node { n with paidx := sink.index }) := by
            refine node_kept_store _ _ _ ?_
            intro n2 hd2
            rw [hd] at hd2
            cases hd2
            exact ⟨rfl, fun h => h⟩
          simp only at hr
          split at hr
          · split at hr
            · cases hr
              exact node_kept_trans _ _ _ hs (node_kept_of_heap _ _ rfl)
            · split at hr
              · cases hr
                exact node_kept_trans _ _ _ hs (node_kept_of_heap _ _ rfl)
              · cases hr
                exact node_kept_trans _ _ _ hs (node_kept_of_heap _ _ rfl)
          · cases hr
            exact node_kept_trans _ _ _ hs (node_kept_of_heap _ _ rfl)
  · split at hr
    · cases hr; exact node_kept_create u _
    · cases hr; exact node_kept_refl u

theorem node_kept_remove_sink (u u1 : userdata) (sink : pa_sink)
    (hr : pa_discover_remove_sink u sink = some u1) : node_kept u u1 := by
  unfold pa_discover_remove_sink at hr
  split at hr
  · cases hr; exact node_kept_refl u
  · split at hr
    · cases hr
    · rename_i node _ _ n hd
      have hs : node_kept u (u.store node { n with paidx := PA_IDXSET_INVALID }) := by
        refine node_kept_store _ _ _ ?_
        intro n2 hd2
        rw [hd] at hd2
        cases hd2
        exact ⟨rfl, fun h => h⟩
      simp only at hr
      split at hr
      · split at hr
        · cases hr
          refine node_kept_trans _ _ _ hs (node_kept_trans _ _ _ (node_kept_of_heap _ _ rfl)
            (node_kept_store _ _ _ ?_))
          intro n2 hd2
          change (u.store node _).deref node = some n2 at hd2
          rw [deref_store, if_pos rfl, hd] at hd2
          cases hd2
          exact ⟨rfl, fun _ => rfl⟩
        · split at hr
          · cases hr
            exact node_kept_trans _ _ _ hs (node_kept_of_heap _ _ rfl)
          · cases hr
            exact node_kept_trans _ _ _ hs (node_kept_of_heap _ _ rfl)
      · cases hr
        exact node_kept_trans _ _ _ hs (node_kept_of_heap _ _ rfl)

theorem node_kept_add_source (u u1 : userdata) (source : pa_source)
    (hr : pa_discover_add_source u source = some u1) : node_kept u u1 := by
  unfold pa_discover_add_source at hr
  split at hr
  · split at hr
    · cases hr
    · cases hr; exact node_kept_refl u
    · split at hr
      · cases hr; exact node_kept_refl u
      · split at hr
        · cases hr
        · rename_i node n hd
          simp only [Option.some.injEq] at hr
          rw [← hr]
          refine node_kept_trans _ _ _ (node_kept_store _ _ _ ?_) (node_kept_of_heap _ _ rfl)
          intro n2 hd2
          rw [hd] at hd2
          cases hd2
          exact ⟨rfl, fun h => h⟩
  · cases hr; exact node_kept_refl u

theorem node_kept_remove_source (u u1 : userdata) (source : pa_source)
    (hr : pa_discover_remove_source u source = some u1) : node_kept u u1 := by
  unfold pa_discover_remove_source at hr
  split at hr
  · cases hr; exact node_kept_refl u
  · split at hr
    · cases hr
    · rename_i node n hd
      simp only [Option.some.injEq] at hr
      rw [← hr]
      refine node_kept_trans _ _ _ (node_kept_store _ _ _ ?_) (node_kept_of_heap _ _ rfl)
      intro n2 hd2
      rw [hd] at hd2
      cases hd2
      exact ⟨rfl, fun h => h⟩

theorem node_kept_add_stream_node (u u1 : userdata) (sinp : pa_sink_input) (data : mir_node)
    (hr : add_stream_node u sinp data = some u1) : node_kept u u1 := by
  have hc := node_kept_create u data
  unfold add_stream_node at hr
  simp only at hr
  split at hr
  · split at hr
    · cases hr
      exact node_kept_trans _ _ _ hc (node_kept_of_heap _ _ rfl)
    · split at hr
      · cases hr
        exact node_kept_trans _ _ _ hc (node_kept_of_heap _ _ rfl)
      · cases hr
  · split at hr
    · cases hr; exact hc
    · cases hr

theorem node_kept_add_sink_input (H : node_h) (u u1 : userdata) (sinp : pa_sink_input)
    (pl : List (String × String))
    (hr : pa_discover_add_sink_input H u sinp = some (u1, pl)) : node_kept u u1 := by
  unfold pa_discover_add_sink_input at hr
  simp only at hr
  split at hr
  · cases hr
  · simp only [Option.some.injEq, Prod.mk.injEq] at hr
    rw [← hr.1]; exact node_kept_refl u
  · simp only [Option.map_eq_some', Prod.mk.injEq] at hr
    obtain ⟨v, hv, rfl, -⟩ := hr
    exact node_kept_add_stream_node u v sinp _ hv

theorem heap_shrinks_remove_sink_input (u u1 : userdata) (sinp : pa_sink_input)
    (hr : pa_discover_remove_sink_input u sinp = some u1) : heap_shrinks u u1 := by
  unfold pa_discover_remove_sink_input at hr
  split at hr
  · cases hr; exact heap_shrinks_refl u
  · simp only at hr
    split at hr
    · have h2 := heap_shrinks_destroy_node _ u1 _ hr
      exact heap_shrinks_trans _ _ _ (heap_shrinks_of_heap _ _ rfl) h2
    · split at hr
      · have h2 := heap_shrinks_destroy_node _ u1 _ hr
        exact heap_shrinks_trans _ _ _ (heap_shrinks_of_heap _ _ rfl) h2
      · cases hr

theorem no_revival_handle (H : node_h) (ev : discover_event) (u u1 : userdata)
    (hr : ev.handle H u = some u1) : no_revival u u1 := by
  cases ev with
  | add_card card => exact no_revival_of_kept _ _ (node_kept_add_card u u1 card hr)
  | remove_card card =>
    exact no_revival_of_shrinks _ _ (heap_shrinks_foreach _ _ u u1 hr)
  | profile_changed card => exact no_revival_profile_changed u u1 card hr
  | add_sink sink route => exact no_revival_of_kept _ _ (node_kept_add_sink u u1 sink route hr)
  | remove_sink sink => exact no_revival_of_kept _ _ (node_kept_remove_sink u u1 sink hr)
  | add_source source => exact no_revival_of_kept _ _ (node_kept_add_source u u1 source hr)
  | remove_source source =>
    exact no_revival_of_kept _ _ (node_kept_remove_source u u1 source hr)
  | add_sink_input sinp =>
    simp only [discover_event.handle, Option.map_eq_some'] at hr
    obtain ⟨r, hr1, rfl⟩ := hr
    exact no_revival_of_kept _ _ (node_kept_add_sink_input H u r.1 sinp r.2 hr1)
  | remove_sink_input sinp =>
    exact no_revival_of_shrinks _ _ (heap_shrinks_remove_sink_input u u1 sinp hr)

/-- C38: no event handler of discover.c sets the availability flag of an
allocated node again. For every event and every record that is unavailable
before the handler runs, the record is afterwards either released or still
allocated under its key and unavailable. Hence along every sequence of events
in which the record stays allocated, it is unavailable at the end. -/
theorem unavailable_stays (H : node_h) :
    (∀ (ev : discover_event) (u u1 : userdata) (p : Nat) (n : mir_node),
      ev.handle H u = some u1 → u.deref p = some n → n.available = false →
      u1.deref p = none ∨
      ∃ n1, u1.deref p = some n1 ∧ n1.key = n.key ∧ n1.available = false) ∧
    (∀ (events : List discover_event) (u u1 : userdata) (p : Nat) (n : mir_node),
      handle_discover_events H u events = some u1 → allocated_along H p u events = true →
      u.deref p = some n → n.available = false →
      ∃ n1, u1.deref p = some n1 ∧ n1.key = n.key ∧ n1.available = false) := by
  have step : ∀ (ev : discover_event) (u u1 : userdata) (p : Nat) (n : mir_node),
      ev.handle H u = some u1 → u.deref p = some n → n.available = false →
      u1.deref p = none ∨
      ∃ n1, u1.deref p = some n1 ∧ n1.key = n.key ∧ n1.available = false := by
    intro ev u u1 p n hr hd hav
    rcases no_revival_handle H ev u u1 hr p n hd with h | ⟨n1, h1, h2, h3⟩
    · exact Or.inl h
    · exact Or.inr ⟨n1, h1, h2, h3 hav⟩
  refine ⟨step, ?_⟩
  intro events
  induction events with
  | nil =>
    intro u u1 p n hr _ hd hav
    simp only [handle_discover_events, Option.some.injEq] at hr
    subst hr
    exact ⟨n, hd, rfl, hav⟩
  | cons ev rest ih =>
    intro u u1 p n hr hal hd hav
    unfold handle_discover_events at hr
    unfold allocated_along at hal
    cases he : ev.handle H u with
    | none => rw [he] at hr; cases hr
    | some u2 =>
      rw [he] at hr hal
      simp only [Bool.and_eq_true] at hal
      have hal2 := hal.2
      have h2 : (u2.deref p).isSome = true := by
        cases rest with
        | nil => simpa [allocated_along] using hal2
        | cons e2 r2 =>
          unfold allocated_along at hal2
          simp only [Bool.and_eq_true] at hal2
          exact hal2.1
      rcases step ev u u2 p n he hd hav with h | ⟨n1, h1, h3, h4⟩
      · rw [h] at h2; cases h2
      · obtain ⟨n2, a1, a2, a3⟩ := ih u2 u1 p n1 hr hal2 h1 h4
        exact ⟨n2, a1, a2.trans h3, a3⟩

/-- C38 at a concrete run: the sink of the ALSA example card disappears, which
marks its node unavailable; the sink appearing again, the card being scanned
again and a profile change under the same profile leave the node unavailable. -/
theorem unavailable_stays_witness :
    (handle_discover_events example_node_h pa_discover_init example_sink_up).bind
        (fun u => node_available u "alsa_output.X.analog-stereo") = some true ∧
    node_available example_sink_down "alsa_output.X.analog-stereo" = some false ∧
    (handle_discover_events example_node_h example_sink_down example_rescan).bind
        (fun u => node_available u "alsa_output.X.analog-stereo") = some false ∧
    ∃ u1 n1, handle_discover_events example_node_h example_sink_down example_rescan = some u1 ∧
      u1.deref 1 = some n1 ∧ n1.key = "alsa_output.X.analog-stereo" ∧
      n1.available = false := by
  refine ⟨by decide, by decide, by decide, ?_⟩
  have e1 : handle_discover_events example_node_h example_sink_down example_rescan =
      some ((handle_discover_events example_node_h example_sink_down example_rescan).getD
        pa_discover_init) := by decide
  obtain ⟨n1, h1, h2, h3⟩ := (unavailable_stays example_node_h).2 example_rescan
    example_sink_down _ 1 ((example_sink_down.deref 1).getD mir_node_zero) e1 (by decide)
    (by decide) (by decide)
  exact ⟨_, n1, e1, h1, by rw [h2]; decide, h3⟩

/-! ## The profile name parser on arbitrary names -/

theorem get_name_rest_length (p : List Char) (offs : Nat) :
    (get_name p offs).2.length ≤ p.length - offs := by
  unfold get_name
  simp only [List.length_drop]
  have h := (List.dropWhile_suffix (fun c => c != '+') : _ <:+ p.drop offs).length_le
  rw [List.length_drop] at h
  omega

theorem get_name_infix (p : List Char) (offs : Nat) :
    (get_name p offs).1 <:+: p ∧ (get_name p offs).2 <:+ p ∧
    ∀ c ∈ (get_name p offs).1, c ≠ '+' := by
  unfold get_name
  refine ⟨?_, ?_, ?_⟩
  · exact (List.takeWhile_prefix _).isInfix.trans (List.drop_suffix offs p).isInfix
  · exact ((List.drop_suffix 1 _).trans (List.dropWhile_suffix _)).trans
      (List.drop_suffix offs p)
  · intro c hc
    have := List.mem_takeWhile_imp hc
    simpa using this

theorem isPrefixOf_length (l p : List Char) (h : l.isPrefixOf p = true) :
    l.length ≤ p.length :=
  (List.isPrefixOf_iff_prefix.mp h).length_le

theorem parse_profile_loop_fuel :
    ∀ (fuel fuel2 : Nat) (p : List Char) (sinks sources : List String),
      p.length < fuel → p.length < fuel2 →
      parse_profile_loop fuel p sinks sources = parse_profile_loop fuel2 p sinks sources := by
  intro fuel
  induction fuel with
  | zero => intro fuel2 p sinks sources h; omega
  | succ f ih =>
    intro fuel2 p sinks sources h1 h2
    cases fuel2 with
    | zero => omega
    | succ g =>
      unfold parse_profile_loop
      split
      · rename_i hpre
        have hl := isPrefixOf_length _ _ hpre
        have hlen : "output:".toList.length = 7 := rfl
        rw [hlen] at hl
        split
        · rfl
        · dsimp only
          split
          · rfl
          · have := get_name_rest_length p 7
            exact ih g _ _ _ (by omega) (by omega)
      · split
        · rename_i hpre
          have hl := isPrefixOf_length _ _ hpre
          have hlen : "input:".toList.length = 6 := rfl
          rw [hlen] at hl
          split
          · rfl
          · dsimp only
            split
            · rfl
            · have := get_name_rest_length p 6
              exact ih g _ _ _ (by omega) (by omega)
        · rfl

theorem parse_profile_loop_targets (buf : List Char) :
    ∀ (fuel : Nat) (p : List Char) (sinks sources : List String),
      p <:+ buf → sinks.length ≤ MAX_CARD_TARGET → sources.length ≤ MAX_CARD_TARGET →
      (∀ t ∈ sinks ++ sources, t.toList <:+: buf ∧ ∀ c ∈ t.toList, c ≠ '+') →
      (parse_profile_loop fuel p sinks sources).1.length ≤ MAX_CARD_TARGET ∧
      (parse_profile_loop fuel p sinks sources).2.length ≤ MAX_CARD_TARGET ∧
      ∀ t ∈ (parse_profile_loop fuel p sinks sources).1 ++
          (parse_profile_loop fuel p sinks sources).2,
        t.toList <:+: buf ∧ ∀ c ∈ t.toList, c ≠ '+' := by
  intro fuel
  induction fuel with
  | zero =>
    intro p sinks sources _ h1 h2 h3
    exact ⟨h1, h2, h3⟩
  | succ f ih =>
    intro p sinks sources hp h1 h2 h3
    obtain ⟨g1, g2, g3⟩ := get_name_infix p 7
    obtain ⟨k1, k2, k3⟩ := get_name_infix p 6
    unfold parse_profile_loop
    split
    · split
      · exact ⟨h1, h2, h3⟩
      · rename_i hfull
        have hlen : (sinks ++ [String.mk (get_name p 7).1]).length ≤ MAX_CARD_TARGET := by
          simp only [List.length_append, List.length_singleton]
          omega
        have hall : ∀ t ∈ (sinks ++ [String.mk (get_name p 7).1]) ++ sources,
            t.toList <:+: buf ∧ ∀ c ∈ t.toList, c ≠ '+' := by
          intro t ht
          simp only [List.mem_append, List.mem_singleton] at ht
          rcases ht with (ht | ht) | ht
          · exact h3 t (List.mem_append_left _ ht)
          · subst ht
            exact ⟨g1.trans hp.isInfix, g3⟩
          · exact h3 t (List.mem_append_right _ ht)
        dsimp only
        split
        · exact ⟨hlen, h2, hall⟩
        · exact ih _ _ _ (g2.trans hp) hlen h2 hall
    · split
      · split
        · exact ⟨h1, h2, h3⟩
        · rename_i hfull
          have hlen : (sources ++ [String.mk (get_name p 6).1]).length ≤ MAX_CARD_TARGET := by
            simp only [List.length_append, List.length_singleton]
            omega
          have hall : ∀ t ∈ sinks ++ (sources ++ [String.mk (get_name p 6).1]),
              t.toList <:+: buf ∧ ∀ c ∈ t.toList, c ≠ '+' := by
            intro t ht
            simp only [List.mem_append, List.mem_singleton] at ht
            rcases ht with ht | ht | ht
            · exact h3 t (List.mem_append_left _ ht)
            · exact h3 t (List.mem_append_right _ ht)
            · subst ht
              exact ⟨k1.trans hp.isInfix, k3⟩
          dsimp only
          split
          · exact ⟨h1, hlen, hall⟩
          · exact ih _ _ _ (k2.trans hp) h1 hlen hall
      · exact ⟨h1, h2, h3⟩

theorem target_array_last (l : List String) (h : l.length ≤ MAX_CARD_TARGET) :
    (target_array l).length = MAX_CARD_TARGET + 1 ∧
    (target_array l)[MAX_CARD_TARGET]? = some none ∧
    (target_array l).takeWhile Option.isSome = l.map some := by
  obtain ⟨a, b, -⟩ := target_array_read l h
  refine ⟨a, ?_, b⟩
  unfold target_array
  rw [List.getElem?_append_right (by simpa using h)]
  simp only [List.length_map]
  rw [List.getElem?_replicate]
  rw [if_pos (by omega)]

/-- C39: for every profile name and every buffer length above 0,
`parse_profile_name` ends after at most as many rounds of its loop as the
buffer holds characters, plus one (more rounds allowed give the same result);
it stores at most 4 sink targets and at most 4 source targets, so that in each
array of 5 pointers the slot 4 is still NULL and the targets are read back up
to the first NULL; and every target is a piece of consecutive characters of the
name cut to the buffer and holds no `+`. -/
theorem parse_profile_name_bounds (prof : pa_card_profile) (buflen : Nat) (hbuf : 0 < buflen) :
    (∀ fuel, (prof.name.toList.take (buflen - 1)).length < fuel →
      parse_profile_loop fuel (prof.name.toList.take (buflen - 1)) [] [] =
        parse_profile_name prof buflen) ∧
    (parse_profile_name prof buflen).1.length ≤ MAX_CARD_TARGET ∧
    (parse_profile_name prof buflen).2.length ≤ MAX_CARD_TARGET ∧
    (target_array (parse_profile_name prof buflen).1).length = MAX_CARD_TARGET + 1 ∧
    (target_array (parse_profile_name prof buflen).1)[MAX_CARD_TARGET]? = some none ∧
    (target_array (parse_profile_name prof buflen).1).takeWhile Option.isSome =
      (parse_profile_name prof buflen).1.map some ∧
    (target_array (parse_profile_name prof buflen).2).length = MAX_CARD_TARGET + 1 ∧
    (target_array (parse_profile_name prof buflen).2)[MAX_CARD_TARGET]? = some none ∧
    (target_array (parse_profile_name prof buflen).2).takeWhile Option.isSome =
      (parse_profile_name prof buflen).2.map some ∧
    (∀ t ∈ (parse_profile_name prof buflen).1 ++ (parse_profile_name prof buflen).2,
      t.toList <:+: prof.name.toList.take (buflen - 1) ∧ ∀ c ∈ t.toList, c ≠ '+') := by
  have _ := hbuf
  obtain ⟨h1, h2, h3⟩ := parse_profile_loop_targets (prof.name.toList.take (buflen - 1))
    ((prof.name.toList.take (buflen - 1)).length + 1) (prof.name.toList.take (buflen - 1))
    [] [] (List.suffix_refl _) (by simp) (by simp) (by simp)
  have e : parse_profile_name prof buflen =
      parse_profile_loop ((prof.name.toList.take (buflen - 1)).length + 1)
        (prof.name.toList.take (buflen - 1)) [] [] := rfl
  rw [e]
  obtain ⟨a1, a2, a3⟩ := target_array_last _ h1
  obtain ⟨b1, b2, b3⟩ := target_array_last _ h2
  refine ⟨?_, h1, h2, a1, a2, a3, b1, b2, b3, h3⟩
  intro fuel hf
  exact parse_profile_loop_fuel fuel _ _ [] [] hf (Nat.lt_succ_self _)

/-- C39 at concrete names: five output segments and three input segments, a
name without any segment, and a name cut by a buffer of 12 bytes. -/
theorem parse_profile_name_bounds_witness :
    parse_profile_name
        { example_stereo with
          name := "output:a+output:b+output:c+output:d+output:e+input:x+input:y+input:z" }
        (MAX_NAME_LENGTH + 1) = (["a", "b", "c", "d"], []) ∧
    parse_profile_name { example_stereo with name := "" } (MAX_NAME_LENGTH + 1) = ([], []) ∧
    parse_profile_name { example_stereo with name := "output:analog-stereo" } 12 =
      (["anal"], []) ∧
    (parse_profile_name { example_stereo with name := "output:analog-stereo" } 12).1.length ≤
      MAX_CARD_TARGET := by
  refine ⟨by decide, by decide, by decide, ?_⟩
  exact (parse_profile_name_bounds { example_stereo with name := "output:analog-stereo" } 12
    (by decide)).2.1

/-! ## Claims about the classification of streams -/

theorem map_type_lookup (map : List (String × mir_node_type)) (id : String) :
    map_type map id = (map.lookup id).getD mir_node_type_unknown := by
  induction map with
  | nil => rfl
  | cons m rest ih =>
    obtain ⟨k, t⟩ := m
    by_cases h : id = k
    · simp [map_type, List.lookup, h]
    · have hb : (id == k) = false := by simpa using h
      simp [map_type, List.lookup, h, hb, ih]

theorem role_map_known (r : String) (t : mir_node_type)
    (h : role_map.lookup r = some t) : t ≠ mir_node_type_unknown := by
  intro ht
  subst ht
  simp only [role_map, List.lookup] at h
  repeat' split at h
  all_goals simp at h

theorem bin_map_known (b : String) (t : mir_node_type)
    (h : bin_map.lookup b = some t) : t ≠ mir_node_type_unknown := by
  intro ht
  subst ht
  simp only [bin_map, List.lookup] at h
  repeat' split at h
  all_goals simp at h

/-- C14: `guess_stream_node_type` returns the type of the role when the role
resolves to a type other than player, whatever the binary; otherwise the type
of the binary when the binary is in the binary table; otherwise the type of the
role, that is player, or unknown when the role is absent or not recognised.
Role "music" without a recognised binary gives player, no role with binary
"firefox" gives browser, no role and no binary gives unknown. -/
theorem guess_stream_by_tables :
    (∀ pl : List (String × String),
      guess_stream_node_type pl =
        stream_type_by_tables
          (resolves role_map (pa_proplist_gets pl PA_PROP_MEDIA_ROLE))
          (resolves bin_map (pa_proplist_gets pl PA_PROP_APPLICATION_PROCESS_BINARY))) ∧
    (∀ pl : List (String × String),
      pa_proplist_gets pl PA_PROP_MEDIA_ROLE = some "music" →
      resolves bin_map (pa_proplist_gets pl PA_PROP_APPLICATION_PROCESS_BINARY) = none →
      guess_stream_node_type pl = mir_player) ∧
    (∀ pl : List (String × String),
      pa_proplist_gets pl PA_PROP_MEDIA_ROLE = none →
      pa_proplist_gets pl PA_PROP_APPLICATION_PROCESS_BINARY = some "firefox" →
      guess_stream_node_type pl = mir_browser) ∧
    (∀ pl : List (String × String),
      pa_proplist_gets pl PA_PROP_MEDIA_ROLE = none →
      pa_proplist_gets pl PA_PROP_APPLICATION_PROCESS_BINARY = none →
      guess_stream_node_type pl = mir_node_type_unknown) ∧
    guess_stream_node_type [("media.role", "music")] = mir_player ∧
    guess_stream_node_type [("media.role", "music"),
      ("application.process.binary", "vlc")] = mir_player ∧
    guess_stream_node_type [("application.process.binary", "firefox")] = mir_browser ∧
    guess_stream_node_type [("media.role", "game"),
      ("application.process.binary", "firefox")] = mir_game ∧
    guess_stream_node_type [] = mir_node_type_unknown := by
  have main : ∀ pl : List (String × String),
      guess_stream_node_type pl =
        stream_type_by_tables
          (resolves role_map (pa_proplist_gets pl PA_PROP_MEDIA_ROLE))
          (resolves bin_map (pa_proplist_gets pl PA_PROP_APPLICATION_PROCESS_BINARY)) := by
    intro pl
    unfold guess_stream_node_type stream_type_by_tables resolves
    simp only [map_type_lookup]
    cases hr : pa_proplist_gets pl PA_PROP_MEDIA_ROLE with
    | none =>
      cases hb : pa_proplist_gets pl PA_PROP_APPLICATION_PROCESS_BINARY with
      | none => simp
      | some b =>
        cases hl : bin_map.lookup b with
        | none => simp [hl]
        | some t => simp [hl, bin_map_known b t hl]
    | some r =>
      cases hrl : role_map.lookup r with
      | none =>
        cases hb : pa_proplist_gets pl PA_PROP_APPLICATION_PROCESS_BINARY with
        | none => simp [hrl]
        | some b =>
          cases hl : bin_map.lookup b with
          | none => simp [hrl, hl]
          | some t => simp [hrl, hl, bin_map_known b t hl]
      | some rt =>
        have hk := role_map_known r rt hrl
        by_cases hp : rt = mir_player
        · subst hp
          cases hb : pa_proplist_gets pl PA_PROP_APPLICATION_PROCESS_BINARY with
          | none => simp [hrl]
          | some b =>
            cases hl : bin_map.lookup b with
            | none => simp [hrl, hl]
            | some t => simp [hrl, hl, bin_map_known b t hl]
        · simp [hrl, hk, hp]
  refine ⟨main, ?_, ?_, ?_, by decide, by decide, by decide, by decide, by decide⟩
  · intro pl hr hb
    rw [main, hr, hb]
    decide
  · intro pl hr hb
    rw [main, hr, hb]
    decide
  · intro pl hr hb
    rw [main, hr, hb]
    decide

/-- C15 refuted at a concrete input: the role "animation", with no binary,
gives the browser type, not the player type. -/
theorem guess_stream_animation_browser :
    guess_stream_node_type [("media.role", "animation")] = mir_browser ∧
    guess_stream_node_type [("media.role", "animation")] ≠ mir_player := by
  decide

/-- C15 as amended: for each media role among video, music, phone and test and
every absent or unrecognised process binary, `guess_stream_node_type` returns
the player type, which differs from the types returned for the roles "game"
(game) and "event" (event) and from the browser type; the role "animation"
gives the browser type, whatever the binary. -/
theorem guess_stream_player_roles (pl : List (String × String)) (r : String)
    (hr : pa_proplist_gets pl PA_PROP_MEDIA_ROLE = some r)
    (hmem : r ∈ ["video", "music", "phone", "test"])
    (hb : resolves bin_map (pa_proplist_gets pl PA_PROP_APPLICATION_PROCESS_BINARY) = none) :
    guess_stream_node_type pl = mir_player ∧
    (∀ pl2 : List (String × String),
      pa_proplist_gets pl2 PA_PROP_MEDIA_ROLE = some "game" →
      guess_stream_node_type pl2 = mir_game) ∧
    (∀ pl2 : List (String × String),
      pa_proplist_gets pl2 PA_PROP_MEDIA_ROLE = some "event" →
      guess_stream_node_type pl2 = mir_event) ∧
    (∀ pl2 : List (String × String),
      pa_proplist_gets pl2 PA_PROP_MEDIA_ROLE = some "animation" →
      guess_stream_node_type pl2 = mir_browser) ∧
    mir_player ≠ mir_game ∧ mir_player ≠ mir_event ∧ mir_player ≠ mir_browser := by
  have hrole : ∀ (pl2 : List (String × String)) (s : String) (t : mir_node_type),
      pa_proplist_gets pl2 PA_PROP_MEDIA_ROLE = some s → map_type role_map s = t →
      t ≠ mir_node_type_unknown → t ≠ mir_player → guess_stream_node_type pl2 = t := by
    intro pl2 s t hs ht h1 h2
    unfold guess_stream_node_type
    simp [hs, ht, h1, h2]
  refine ⟨?_, fun pl2 h => hrole pl2 "game" mir_game h (by decide) (by decide) (by decide),
    fun pl2 h => hrole pl2 "event" mir_event h (by decide) (by decide) (by decide),
    fun pl2 h => hrole pl2 "animation" mir_browser h (by decide) (by decide) (by decide),
    by decide, by decide, by decide⟩
  have hrt : map_type role_map r = mir_player := by
    simp only [List.mem_cons, List.mem_singleton, List.mem_nil_iff, or_false] at hmem
    rcases hmem with h | h | h | h <;> (subst h; decide)
  unfold guess_stream_node_type
  unfold resolves at hb
  cases hx : pa_proplist_gets pl PA_PROP_APPLICATION_PROCESS_BINARY with
  | none => simp [hr, hrt]
  | some b =>
    rw [hx] at hb
    change bin_map.lookup b = none at hb
    simp [hr, hrt, map_type_lookup, hb]

/-- C15 as amended, at concrete inputs: role "phone" with the unrecognised
binary "vlc". -/
theorem guess_stream_player_roles_witness :
    guess_stream_node_type [("media.role", "phone"),
      ("application.process.binary", "vlc")] = mir_player :=
  (guess_stream_player_roles
    [("media.role", "phone"), ("application.process.binary", "vlc")] "phone"
    (by decide) (by decide) (by decide)).1

end Murphy
